import Mathlib

/-!
# Volume geometry of `volume_io/Volumes/volumes.c`

A shallow embedding of `volumes.c`: the synthesis of the voxel-to-world
transform from separations, starts and direction cosines
(`compute_world_transform`), its decomposition
(`convert_transform_to_starts_and_steps`), the lazily recomputed transform
cache of a volume and the voxel/world conversions; the creation of a volume,
its storage type and its voxel and real value ranges; the translation setter;
the tables of irregularly sampled dimensions and the conversions between an
index and a world position along one dimension; the copies of a volume and
the assignment of a voxel-to-world transform; the conversions of vectors and
of normal vectors; the accesses to the tables of an irregular dimension;
and the arithmetic of the type `double`, in which the program computes.

Conventions of the embedding.

* A C array is a total function on `Int`; `a[i] = v` is `store a i v`.
  A two-dimensional array `a[i][j]` is `Int → Int → K`.
* `Real` is an arbitrary type `K` with the operations of C on it: the four
  operations, the comparisons and the conversions from integers; the C
  library's `sqrt` is an explicit parameter `sqrt : K → K`.  The program
  computes in `K := Double`, the IEEE 754 binary64 format, with
  `sqrt := Double.sqrt`.  The properties of exact arithmetic are proved
  for `K := ℝ` and `sqrt := Real.sqrt`; where a property fails in the
  program's arithmetic, a counterexample evaluates the same definitions
  in `Double`.
* `for_less( i, lo, hi )` is the macro `for( i = lo; i < hi; ++i )`.
* A function that writes through output pointers returns the new contents.
* An `int` argument is an integer; a result that is computed into an `int`
  is reduced to 32 bits (`to_int`).
-/

namespace Volumes

/-! ## The arithmetic of `Real` -/

/-- The C library's `floor` followed by the conversion to an integer. -/
class Has_floor (K : Type) where
  /-- The largest integer that is not above the argument. -/
  floor : K → Int

instance {K : Type} [LinearOrderedRing K] [FloorRing K] : Has_floor K := ⟨Int.floor⟩

/-! ## The type `double` -/

/-- Modelled from the spec: the library type `Real`, which a header of the
library declares as the C type `double`; its values are those of the IEEE 754
binary64 format, and the operations below round to the nearest value, ties
going to the even mantissa, as the arithmetic of C does.  A finite
value is `mantissa * 2 ^ exponent`, negated when `negative` is set; the
operations below return it in canonical form: zero is `finite false 0 0`, a
normal value has `2^52 <= mantissa < 2^53` and `-1074 <= exponent <= 971`, a
subnormal value has `mantissa < 2^52` and `exponent = -1074`.  The two zeros
of the format are identified and there is one NaN. -/
inductive Double where
  | NaN : Double
  | infinity (negative : Bool) : Double
  | finite (negative : Bool) (mantissa : Nat) (exponent : Int) : Double
  deriving DecidableEq

namespace Double

/-- The number of binary digits of `m`, provided `m < 2 ^ 2 ^ k`. -/
def bits_below : Nat → Nat → Nat
  | 0, m => if m = 0 then 0 else 1
  | k + 1, m =>
    if m < 1 <<< (1 <<< k) then bits_below k m else 1 <<< k + bits_below k (m >>> (1 <<< k))

/-- The least `j >= k` with `m < 2 ^ 2 ^ j`, searched upwards from `k`. -/
def levels : Nat → Nat → Nat → Nat
  | 0, k, _ => k
  | fuel + 1, k, m => if m < 1 <<< (1 <<< k) then k else levels fuel (k + 1) m

/-- The number of binary digits of `m`. -/
def bit_length (m : Nat) : Nat := bits_below (levels m 0 m) m

/-- The `double` nearest to the exact value `m * 2 ^ e` (negated when
`negative` is set), ties going to the even mantissa; `sticky` says that the
exact value is slightly larger in magnitude than `m * 2 ^ e` (the remainder of
a division or of a square root).  A value of magnitude `2 ^ 1024` or more
after rounding is an infinity. -/
def round (negative : Bool) (m : Nat) (e : Int) (sticky : Bool) : Double :=
  if m = 0 then finite false 0 0
  else
    let target : Int := max (e + (bit_length m : Int) - 53) (-1074)
    if target ≤ e then
      if 971 < target then infinity negative
      else finite negative (m <<< (e - target).toNat) target
    else
      let shift : Nat := (target - e).toNat
      let q := m >>> shift
      let r := m % 1 <<< shift
      let half := 1 <<< (shift - 1)
      let q := if half < r ∨ (r = half ∧ (sticky = true ∨ q % 2 = 1)) then q + 1 else q
      if q = 0 then finite false 0 0
      else if q = 1 <<< 53 then
        (if 971 < target + 1 then infinity negative else finite negative (1 <<< 52) (target + 1))
      else if 971 < target then infinity negative
      else finite negative q target

/-- The integer `m`, negated when `negative` is set. -/
def signed (negative : Bool) (m : Nat) : Int :=
  if negative then -(m : Int) else (m : Int)

/-- The sum `a + b` of C. -/
def add : Double → Double → Double
  | NaN, _ => NaN
  | _, NaN => NaN
  | infinity s, infinity t => if s = t then infinity s else NaN
  | infinity s, finite _ _ _ => infinity s
  | finite _ _ _, infinity t => infinity t
  | finite s m e, finite t n f =>
    let g := min e f
    let c := signed s (m <<< (e - g).toNat) + signed t (n <<< (f - g).toNat)
    round (decide (c < 0)) c.natAbs g false

/-- The negation `-a` of C. -/
def neg : Double → Double
  | NaN => NaN
  | infinity s => infinity (!s)
  | finite s m e => if m = 0 then finite false 0 0 else finite (!s) m e

/-- The product `a * b` of C. -/
def mul : Double → Double → Double
  | NaN, _ => NaN
  | _, NaN => NaN
  | infinity s, infinity t => infinity (xor s t)
  | infinity s, finite t n _ => if n = 0 then NaN else infinity (xor s t)
  | finite s m _, infinity t => if m = 0 then NaN else infinity (xor s t)
  | finite s m e, finite t n f => round (xor s t) (m * n) (e + f) false

/-- The quotient `a / b` of C; a finite value other than zero divided by
zero is the infinity of its sign (the zero of the model is the positive
one). -/
def div : Double → Double → Double
  | NaN, _ => NaN
  | _, NaN => NaN
  | infinity _, infinity _ => NaN
  | infinity s, finite t _ _ => infinity (xor s t)
  | finite _ _ _, infinity _ => finite false 0 0
  | finite s m e, finite t n f =>
    if n = 0 then (if m = 0 then NaN else infinity s)
    else
      let k := bit_length n + 64
      round (xor s t) (m <<< k / n) (e - f - (k : Int)) (decide (m <<< k % n ≠ 0))

/-- The comparison `a < b` of C: false when an operand is NaN. -/
def less : Double → Double → Bool
  | NaN, _ => false
  | _, NaN => false
  | infinity s, infinity t => s && !t
  | infinity s, finite _ _ _ => s
  | finite _ _ _, infinity t => !t
  | finite s m e, finite t n f =>
    let g := min e f
    decide (signed s (m <<< (e - g).toNat) < signed t (n <<< (f - g).toNat))

/-- The comparison `a <= b` of C: false when an operand is NaN. -/
def less_equal : Double → Double → Bool
  | NaN, _ => false
  | _, NaN => false
  | a, b => !(less b a)

/-- The largest `r` below `2 ^ i` more than the given `r` whose square is at
most `n`, found digit by digit from digit `i - 1` downwards. -/
def square_root_bits : Nat → Nat → Nat → Nat
  | 0, _, r => r
  | i + 1, n, r =>
    if (r + 1 <<< i) * (r + 1 <<< i) ≤ n then square_root_bits i n (r + 1 <<< i)
    else square_root_bits i n r

/-- The function `sqrt` of the C library, correctly rounded. -/
def sqrt : Double → Double
  | NaN => NaN
  | infinity s => if s then NaN else infinity false
  | finite s m e =>
    if m = 0 then finite false 0 0
    else if s then NaN
    else
      let k : Nat := if e % 2 = 0 then 128 else 129
      let n := m <<< k
      let r := square_root_bits (bit_length n / 2 + 1) n 0
      round false r ((e - (k : Int)) / 2) (decide (r * r ≠ n))

/-- The function `floor` of the C library followed by the conversion to an
integer type; the conversion of a NaN or of an infinity is undefined in C, 0
in the model. -/
def floor : Double → Int
  | NaN => 0
  | infinity _ => 0
  | finite s m e =>
    if 0 ≤ e then signed s (m <<< e.toNat)
    else Int.fdiv (signed s m) ((1 <<< (-e).toNat : Nat) : Int)

instance : Zero Double := ⟨finite false 0 0⟩

instance : One Double := ⟨round false 1 0 false⟩

instance : Add Double := ⟨add⟩

instance : Neg Double := ⟨neg⟩

instance : Sub Double := ⟨fun a b => add a (neg b)⟩

instance : Mul Double := ⟨mul⟩

instance : Div Double := ⟨div⟩

instance : LT Double := ⟨fun a b => less a b = true⟩

instance : LE Double := ⟨fun a b => less_equal a b = true⟩

instance (a b : Double) : Decidable (a < b) :=
  inferInstanceAs (Decidable (less a b = true))

instance (a b : Double) : Decidable (a ≤ b) :=
  inferInstanceAs (Decidable (less_equal a b = true))

instance : NatCast Double := ⟨fun n => round false n 0 false⟩

instance : IntCast Double := ⟨fun i => round (decide (i < 0)) i.natAbs 0 false⟩

instance : Has_floor Double := ⟨floor⟩

end Double

section

variable {K : Type} [Zero K] [One K] [Add K] [Sub K] [Mul K] [Div K] [Neg K] [LT K] [LE K]
  [NatCast K] [IntCast K] [∀ a b : K, Decidable (a < b)] [∀ a b : K, Decidable (a ≤ b)]
  [DecidableEq K]

/-! ## Arrays and loops -/

/-- The assignment `a[i] = v`. -/
def store {α : Type} (a : Int → α) (i : Int) (v : α) : Int → α :=
  fun j => if j = i then v else a j

/-- The assignment `a[i][j] = v`. -/
def store2 {α : Type} (a : Int → Int → α) (i j : Int) (v : α) : Int → Int → α :=
  fun i' => if i' = i then store (a i') j v else a i'

/-- The loop `for_less( i, lo, hi ) body`, as a state transformer. -/
def for_less {σ : Type} (lo hi : Int) (body : Int → σ → σ) (init : σ) : σ :=
  (List.range (hi - lo).toNat).foldl (fun s (k : Nat) => body (lo + Int.ofNat k) s) init

/-- The value of `i` after `for_less( i, lo, hi ) { if( stop ) break; }`. -/
def for_less_break (lo hi : Int) (stop : Int → Bool) : Int :=
  match (List.range (hi - lo).toNat).find? (fun (k : Nat) => stop (lo + Int.ofNat k)) with
  | some k => lo + Int.ofNat k
  | none => if lo ≤ hi then hi else lo

/-- The number of spatial dimensions, `N_DIMENSIONS`. -/
abbrev N_DIMENSIONS : Int := 3

/-- The largest number of volume dimensions, `MAX_DIMENSIONS`. -/
abbrev MAX_DIMENSIONS : Int := 5

/-- The canonical axis index `X`. -/
abbrev X : Int := 0

/-- The canonical axis index `Y`. -/
abbrev Y : Int := 1

/-- The canonical axis index `Z`. -/
abbrev Z : Int := 2

/-! ## Transforms (library types used by `volumes.c`) -/

/-- Modelled from the spec: the library type `Transform`, a 4 by 4 matrix
whose element in row `i` and column `j` is `Transform_elem(t,i,j)`; the
upper-left 3 by 3 block is the linear part and column 3 the translation. -/
abbrev Transform (K : Type) := Int → Int → K

/-- Modelled from the spec: the element accessor `Transform_elem`. -/
abbrev Transform_elem {K : Type} (t : Transform K) (i j : Int) : K := t i j

/-- Modelled from the spec: `make_identity_transform` (identity transform
construction of the linear-algebra collaborator). -/
def make_identity_transform : Transform K :=
  fun i j => if i = j then 1 else 0

/-- Modelled from the spec: the transform-type query distinguishes linear
from nonlinear transforms. -/
inductive Transform_types where
  | LINEAR
  | NONLINEAR
  deriving DecidableEq, Repr

/-- Determinant of the 3 by 3 linear part of a transform. -/
def det3 (t : Transform K) : K :=
  t 0 0 * (t 1 1 * t 2 2 - t 1 2 * t 2 1)
  - t 0 1 * (t 1 0 * t 2 2 - t 1 2 * t 2 0)
  + t 0 2 * (t 1 0 * t 2 1 - t 1 1 * t 2 0)

/-- Modelled from the spec: `compute_transform_inverse` (transform invert of
the linear-algebra collaborator) for an affine transform: the inverse linear
part is the adjugate of the linear part divided by its determinant, the
inverse translation is minus the inverse linear part applied to the
translation, and the bottom row is (0, 0, 0, 1). -/
def compute_transform_inverse (t : Transform K) :
    Transform K :=
  let d := det3 t
  let a00 := (t 1 1 * t 2 2 - t 1 2 * t 2 1) / d
  let a01 := (t 0 2 * t 2 1 - t 0 1 * t 2 2) / d
  let a02 := (t 0 1 * t 1 2 - t 0 2 * t 1 1) / d
  let a10 := (t 1 2 * t 2 0 - t 1 0 * t 2 2) / d
  let a11 := (t 0 0 * t 2 2 - t 0 2 * t 2 0) / d
  let a12 := (t 0 2 * t 1 0 - t 0 0 * t 1 2) / d
  let a20 := (t 1 0 * t 2 1 - t 1 1 * t 2 0) / d
  let a21 := (t 0 1 * t 2 0 - t 0 0 * t 2 1) / d
  let a22 := (t 0 0 * t 1 1 - t 0 1 * t 1 0) / d
  fun i j =>
    if i = 0 then
      (if j = 0 then a00 else if j = 1 then a01 else if j = 2 then a02
       else if j = 3 then -(a00 * t 0 3 + a01 * t 1 3 + a02 * t 2 3) else 0)
    else if i = 1 then
      (if j = 0 then a10 else if j = 1 then a11 else if j = 2 then a12
       else if j = 3 then -(a10 * t 0 3 + a11 * t 1 3 + a12 * t 2 3) else 0)
    else if i = 2 then
      (if j = 0 then a20 else if j = 1 then a21 else if j = 2 then a22
       else if j = 3 then -(a20 * t 0 3 + a21 * t 1 3 + a22 * t 2 3) else 0)
    else if i = 3 ∧ j = 3 then 1
    else 0

/-- Modelled from the spec: `transform_point` (point transform application):
the linear part applied to the point plus the translation column. -/
def transform_point (t : Transform K) (x y z : K) :
    K × K × K :=
  (Transform_elem t 0 0 * x + Transform_elem t 0 1 * y + Transform_elem t 0 2 * z
      + Transform_elem t 0 3,
   Transform_elem t 1 0 * x + Transform_elem t 1 1 * y + Transform_elem t 1 2 * z
      + Transform_elem t 1 3,
   Transform_elem t 2 0 * x + Transform_elem t 2 1 * y + Transform_elem t 2 2 * z
      + Transform_elem t 2 3)

/-- Modelled from the spec: the library type `General_transform`.  A linear
general transform holds the transform and its inverse; a nonlinear one is
applied through two functions the volume code never inspects. -/
structure General_transform (K : Type) where
  type : Transform_types
  linear_transform : Transform K
  inverse_linear_transform : Transform K
  nonlinear_point : K → K → K → K × K × K
  nonlinear_inverse_point : K → K → K → K × K × K

/-- Modelled from the spec: `create_linear_transform`, the general transform
made of a linear transform and its computed inverse. -/
def create_linear_transform (t : Transform K) :
    General_transform K :=
  { type := Transform_types.LINEAR
    linear_transform := t
    inverse_linear_transform := compute_transform_inverse t
    nonlinear_point := fun x y z => (x, y, z)
    nonlinear_inverse_point := fun x y z => (x, y, z) }

/-- Modelled from the spec: `get_transform_type` (transform-type query). -/
def get_transform_type {K : Type} (t : General_transform K) : Transform_types := t.type

/-- Modelled from the spec: `get_linear_transform_ptr`. -/
def get_linear_transform_ptr {K : Type} (t : General_transform K) : Transform K :=
  t.linear_transform

/-- Modelled from the spec: `general_transform_point` (point transform
application). -/
def general_transform_point (t : General_transform K)
    (x y z : K) : K × K × K :=
  match t.type with
  | Transform_types.LINEAR => transform_point t.linear_transform x y z
  | Transform_types.NONLINEAR => t.nonlinear_point x y z

/-- Modelled from the spec: `general_inverse_transform_point` (application of
the inverted transform to a point). -/
def general_inverse_transform_point
    (t : General_transform K) (x y z : K) : K × K × K :=
  match t.type with
  | Transform_types.LINEAR => transform_point t.inverse_linear_transform x y z
  | Transform_types.NONLINEAR => t.nonlinear_inverse_point x y z

/-- Modelled from the spec: `get_transform_origin_real` (origin extraction),
the translation column of a linear transform. -/
def get_transform_origin_real {K : Type} (t : Transform K) : Int → K :=
  fun i => Transform_elem t i 3

/-- Modelled from the spec: `get_transform_x_axis_real` (axis-vector
extraction), column 0 of a linear transform. -/
def get_transform_x_axis_real {K : Type} (t : Transform K) : Int → K :=
  fun i => Transform_elem t i 0

/-- Modelled from the spec: `get_transform_y_axis_real`, column 1. -/
def get_transform_y_axis_real {K : Type} (t : Transform K) : Int → K :=
  fun i => Transform_elem t i 1

/-- Modelled from the spec: `get_transform_z_axis_real`, column 2. -/
def get_transform_z_axis_real {K : Type} (t : Transform K) : Int → K :=
  fun i => Transform_elem t i 2

/-- Determinant of the 3 by 3 matrix `m[i][j]`, rows and columns 0..2. -/
def det3x3 (m : Int → Int → K) : K :=
  m 0 0 * (m 1 1 * m 2 2 - m 1 2 * m 2 1)
  - m 0 1 * (m 1 0 * m 2 2 - m 1 2 * m 2 0)
  + m 0 2 * (m 1 0 * m 2 1 - m 1 1 * m 2 0)

/-- Modelled from the spec: `solve_linear_system` for `n = 3` (3x3
linear-system solve, returns false if singular): `none` when the matrix is
singular, otherwise the solution of `matrix * solution = values`, by
Cramer's rule. -/
def solve_linear_system (matrix : Int → Int → K)
    (values : Int → K) : Option (Int → K) :=
  let d := det3x3 matrix
  if d = 0 then none
  else
    let col (k : Int) : Int → Int → K := fun i j => if j = k then values i else matrix i j
    some (fun k => if k = 0 then det3x3 (col 0) / d
                   else if k = 1 then det3x3 (col 1) / d
                   else if k = 2 then det3x3 (col 2) / d
                   else 0)

/-! ## Vector helpers of `volumes.c` -/

/-- The function `dot_vectors` (volumes.c 625-638). -/
def dot_vectors (n : Int) (v1 v2 : Int → K) : K :=
  for_less 0 n (fun i d => d + v1 i * v2 i) 0

/-- The function `cross_3D_vector` (volumes.c 655-663); `cross` is the
previous content of the output array. -/
def cross_3D_vector (v1 v2 cross : Int → K) : Int → K :=
  let cross := store cross 0 (v1 1 * v2 2 - v1 2 * v2 1)
  let cross := store cross 1 (v1 2 * v2 0 - v1 0 * v2 2)
  let cross := store cross 2 (v1 0 * v2 1 - v1 1 * v2 0)
  cross

/-- The function `normalize_vector` (volumes.c 680-695).  The callers pass
the same array as input and output; iteration `d` reads only entry `d`, which
no earlier iteration has written, so the input is read from the final loop
state. -/
def normalize_vector (sqrt : K → K)
    (v1 v1_normalized : Int → K) : Int → K :=
  let mag := dot_vectors N_DIMENSIONS v1 v1
  let mag := if mag ≤ 0 then 1 else mag
  let mag := sqrt mag
  for_less 0 N_DIMENSIONS (fun d out => store out d (v1 d / mag)) v1_normalized

/-! ## The transform synthesizer: `compute_world_transform` -/

/-- The local variables of `compute_world_transform` that its first loop
fills (volumes.c 725-730). -/
structure cwt_locals (K : Type) where
  separations_3D : Int → K
  starts_3D : Int → K
  directions : Int → Int → K
  axis_list : Int → Int
  n_axes : Int

/-- The first loop of `compute_world_transform` (volumes.c 735-755): collect
the separations, starts and direction cosines of the mapped axes.  The local
arrays start zero-filled; every entry the function reads is written first. -/
def cwt_collect (spatial_axes : Int → Int)
    (separations : Int → K) (direction_cosines : Int → Int → K) (starts : Int → K) :
    cwt_locals K :=
  for_less 0 N_DIMENSIONS
    (fun c s =>
      let axis := spatial_axes c
      if axis ≥ 0 then
        { separations_3D := store s.separations_3D c (separations axis)
          starts_3D := store s.starts_3D c (starts axis)
          directions :=
            store2 (store2 (store2 s.directions c X (direction_cosines axis X))
              c Y (direction_cosines axis Y)) c Z (direction_cosines axis Z)
          axis_list := store s.axis_list s.n_axes c
          n_axes := s.n_axes + 1 }
      else
        { separations_3D := store s.separations_3D c 1
          starts_3D := store s.starts_3D c 0
          directions := s.directions
          axis_list := s.axis_list
          n_axes := s.n_axes })
    { separations_3D := fun _ => 0
      starts_3D := fun _ => 0
      directions := fun _ _ => 0
      axis_list := fun _ => 0
      n_axes := 0 }

/-- The basis completion of `compute_world_transform` (volumes.c 763-792):
with one mapped axis two directions are synthesised, with two mapped axes
one; the result is the array `directions` before the singularity check. -/
def cwt_complete (sqrt : K → K) (s : cwt_locals K) :
    Int → Int → K :=
  if s.n_axes = 1 then
    let a1 := (s.axis_list 0 + 1) % N_DIMENSIONS
    let a2 := (s.axis_list 0 + 2) % N_DIMENSIONS
    let d := s.directions
    let d := store2 d a1 X (d (s.axis_list 0) Y + d (s.axis_list 0) Z)
    let d := store2 d a1 Y (-d (s.axis_list 0) X - d (s.axis_list 0) Z)
    let d := store2 d a1 Z (d (s.axis_list 0) Y - d (s.axis_list 0) X)
    let d := store d a2 (cross_3D_vector (d (s.axis_list 0)) (d a1) (d a2))
    let d := store d a1 (normalize_vector sqrt (d a1) (d a1))
    let d := store d a2 (normalize_vector sqrt (d a2) (d a2))
    d
  else if s.n_axes = 2 then
    let a2 := N_DIMENSIONS - s.axis_list 0 - s.axis_list 1
    let d := s.directions
    let d := store d a2 (cross_3D_vector (d (s.axis_list 0)) (d (s.axis_list 1)) (d a2))
    let d := store d a2 (normalize_vector sqrt (d a2) (d a2))
    d
  else
    s.directions

/-- The test `normal[0] == 0.0 && normal[1] == 0.0 && normal[2] == 0.0` on
the cross product of `directions[dim]` and `directions[(dim+1)%3]`
(volumes.c 798-800). -/
def cwt_normal_is_zero (directions : Int → Int → K)
    (dim : Int) : Bool :=
  let normal :=
    cross_3D_vector (directions dim) (directions ((dim + 1) % N_DIMENSIONS)) (fun _ => 0)
  decide (normal 0 = 0 ∧ normal 1 = 0 ∧ normal 2 = 0)

/-- The singularity check of `compute_world_transform` (volumes.c 794-815):
when the loop over `dim` breaks, the basis is replaced by the identity
basis. -/
def cwt_check (directions : Int → Int → K) :
    Int → Int → K :=
  let dim := for_less_break 0 N_DIMENSIONS (cwt_normal_is_zero directions)
  if dim < N_DIMENSIONS then
    let d := directions
    let d := store2 d 0 0 1
    let d := store2 d 0 1 0
    let d := store2 d 0 2 0
    let d := store2 d 1 0 0
    let d := store2 d 1 1 1
    let d := store2 d 1 2 0
    let d := store2 d 2 0 0
    let d := store2 d 2 1 0
    let d := store2 d 2 2 1
    d
  else
    directions

/-- The construction of the linear transformation in
`compute_world_transform` (volumes.c 817-831). -/
def cwt_make (directions : Int → Int → K)
    (separations_3D starts_3D : Int → K) : Transform K :=
  for_less 0 N_DIMENSIONS
    (fun c t =>
      for_less 0 N_DIMENSIONS
        (fun dim t =>
          let t := store2 t dim c (directions c dim * separations_3D c)
          store2 t dim 3 (Transform_elem t dim 3 + directions c dim * starts_3D c))
        t)
    make_identity_transform

/-- The function `compute_world_transform` (volumes.c 717-834).  The result
is the value written to `*world_transform`; `none` is the early return that
writes nothing when no axis is mapped. -/
def compute_world_transform (sqrt : K → K)
    (spatial_axes : Int → Int) (separations : Int → K)
    (direction_cosines : Int → Int → K) (starts : Int → K) :
    Option (General_transform K) :=
  let s := cwt_collect spatial_axes separations direction_cosines starts
  if s.n_axes = 0 then
    none
  else
    let directions := cwt_check (cwt_complete sqrt s)
    some (create_linear_transform (cwt_make directions s.separations_3D s.starts_3D))

/-! ## The transform decomposer -/

/-- The list of valid axes built by `convert_transform_origin_to_starts`
(volumes.c 901-912): the array `which` and the count `n_axes`.  The local
array starts zero-filled; only entries below `n_axes` are read. -/
def ctots_which (spatial_axes : Int → Int) : (Int → Int) × Int :=
  for_less 0 N_DIMENSIONS
    (fun dim (w : (Int → Int) × Int) =>
      let axis := spatial_axes dim
      if axis ≥ 0 then (store w.1 w.2 axis, w.2 + 1) else w)
    (fun _ => 0, 0)

/-- The denominator `bottom` of the two-axis case of
`convert_transform_origin_to_starts` (volumes.c 927-936). -/
def ctots_bottom (dir_cosines : Int → Int → K)
    (which : Int → Int) : K :=
  let x_dot_x := dot_vectors N_DIMENSIONS (dir_cosines (which 0)) (dir_cosines (which 0))
  let x_dot_y := dot_vectors N_DIMENSIONS (dir_cosines (which 0)) (dir_cosines (which 1))
  let y_dot_y := dot_vectors N_DIMENSIONS (dir_cosines (which 1)) (dir_cosines (which 1))
  x_dot_x * y_dot_y - x_dot_y * x_dot_y

/-- The matrix of the three-axis case of `convert_transform_origin_to_starts`
(volumes.c 949-955): `matrix[i][j] = dir_cosines[which[j]][i]`. -/
def ctots_matrix (dir_cosines : Int → Int → K)
    (which : Int → Int) : Int → Int → K :=
  for_less 0 N_DIMENSIONS
    (fun i m =>
      for_less 0 N_DIMENSIONS (fun j m => store2 m i j (dir_cosines (which j) i)) m)
    (fun _ _ => 0)

/-- The function `convert_transform_origin_to_starts` (volumes.c 886-971);
the result is the new content of the output array `starts`. -/
def convert_transform_origin_to_starts
    (origin : Int → K) (n_volume_dimensions : Int) (spatial_axes : Int → Int)
    (dir_cosines : Int → Int → K) (starts : Int → K) : Int → K :=
  let starts := for_less 0 n_volume_dimensions (fun dim st => store st dim 0) starts
  let which := (ctots_which spatial_axes).1
  let n_axes := (ctots_which spatial_axes).2
  if n_axes = 1 then
    let o_dot_c := dot_vectors N_DIMENSIONS origin (dir_cosines (which 0))
    let c_dot_c := dot_vectors N_DIMENSIONS (dir_cosines (which 0)) (dir_cosines (which 0))
    if c_dot_c ≠ 0 then store starts (which 0) (o_dot_c / c_dot_c) else starts
  else if n_axes = 2 then
    let x_dot_x := dot_vectors N_DIMENSIONS (dir_cosines (which 0)) (dir_cosines (which 0))
    let x_dot_v := dot_vectors N_DIMENSIONS (dir_cosines (which 0)) origin
    let x_dot_y := dot_vectors N_DIMENSIONS (dir_cosines (which 0)) (dir_cosines (which 1))
    let y_dot_y := dot_vectors N_DIMENSIONS (dir_cosines (which 1)) (dir_cosines (which 1))
    let y_dot_v := dot_vectors N_DIMENSIONS (dir_cosines (which 1)) origin
    let bottom := ctots_bottom dir_cosines which
    if bottom ≠ 0 then
      let starts := store starts (which 0) ((x_dot_v * y_dot_y - x_dot_y * y_dot_v) / bottom)
      let starts := store starts (which 1) ((y_dot_v * x_dot_x - x_dot_y * x_dot_v) / bottom)
      starts
    else
      starts
  else if n_axes = 3 then
    match solve_linear_system (ctots_matrix dir_cosines which) origin with
    | some solution =>
      let starts := store starts (which 0) (solution 0)
      let starts := store starts (which 1) (solution 1)
      let starts := store starts (which 2) (solution 2)
      starts
    | none => starts
  else
    starts

/-- The argument `step_signs` of `convert_transform_to_starts_and_steps`:
the null pointer, an array of its own, or the very array that is also passed
as the output `steps` (as `set_voxel_to_world_transform` does). -/
inductive Step_signs (K : Type) where
  | NULL : Step_signs K
  | array (a : Int → K) : Step_signs K
  | steps : Step_signs K

/-- The three outputs of `convert_transform_to_starts_and_steps`. -/
structure Starts_steps (K : Type) where
  starts : Int → K
  steps : Int → K
  dir_cosines : Int → Int → K

/-- The array `axes` of `convert_transform_to_starts_and_steps`
(volumes.c 1016-1018): row `c` is column `c` of the linear transform. -/
def cttss_axes (linear_transform : Transform K) :
    Int → Int → K :=
  let axes : Int → Int → K := fun _ _ => 0
  let axes := store axes X (get_transform_x_axis_real linear_transform)
  let axes := store axes Y (get_transform_y_axis_real linear_transform)
  let axes := store axes Z (get_transform_z_axis_real linear_transform)
  axes

/-- The body of the loop over the canonical axes in
`convert_transform_to_starts_and_steps` (volumes.c 1029-1057), acting on the
pair of the arrays `steps` and `dir_cosines`. -/
def cttss_axis (sqrt : K → K)
    (axes : Int → Int → K) (step_signs : Step_signs K) (spatial_axes : Int → Int)
    (dim : Int) (sd : (Int → K) × (Int → Int → K)) : (Int → K) × (Int → Int → K) :=
  let axis := spatial_axes dim
  if axis ≥ 0 then
    let mag := dot_vectors N_DIMENSIONS (axes dim) (axes dim)
    let mag := if mag ≤ 0 then 1 else mag
    let mag := sqrt mag
    let sign : K :=
      match step_signs with
      | Step_signs.NULL => if axes dim dim < 0 then -1 else 1
      | Step_signs.array a => if a axis < 0 then -1 else 1
      | Step_signs.steps => if sd.1 axis < 0 then -1 else 1
    let steps := store sd.1 axis (sign * mag)
    let dc := store2 sd.2 axis X (axes dim X / steps axis)
    let dc := store2 dc axis Y (axes dim Y / steps axis)
    let dc := store2 dc axis Z (axes dim Z / steps axis)
    (steps, dc)
  else sd

/-- The steps and direction cosines computed by
`convert_transform_to_starts_and_steps` (volumes.c 1020-1058): the default
steps, then the loop over the three canonical axes. -/
def cttss_steps (sqrt : K → K)
    (axes : Int → Int → K) (n_volume_dimensions : Int) (step_signs : Step_signs K)
    (spatial_axes : Int → Int) (steps : Int → K) (dir_cosines : Int → Int → K) :
    (Int → K) × (Int → Int → K) :=
  let steps := for_less 0 n_volume_dimensions (fun dim st => store st dim 1) steps
  for_less 0 N_DIMENSIONS (cttss_axis sqrt axes step_signs spatial_axes)
    (steps, dir_cosines)

/-- The function `convert_transform_to_starts_and_steps` (volumes.c
992-1064); `starts`, `steps` and `dir_cosines` are the previous contents of
the three output arrays, the result their new contents. -/
def convert_transform_to_starts_and_steps
    (sqrt : K → K) (transform : General_transform K) (n_volume_dimensions : Int)
    (step_signs : Step_signs K) (spatial_axes : Int → Int) (starts steps : Int → K)
    (dir_cosines : Int → Int → K) : Starts_steps K :=
  if get_transform_type transform ≠ Transform_types.LINEAR then
    { starts := starts, steps := steps, dir_cosines := dir_cosines }
  else
    let linear_transform := get_linear_transform_ptr transform
    let origin := get_transform_origin_real linear_transform
    let axes := cttss_axes linear_transform
    let sd := cttss_steps sqrt axes n_volume_dimensions step_signs spatial_axes steps
                dir_cosines
    { starts := convert_transform_origin_to_starts origin n_volume_dimensions spatial_axes
                  sd.2 starts
      steps := sd.1
      dir_cosines := sd.2 }

/-! ## The volume and its lazily recomputed transform -/

/-- Modelled from the spec: the storage types of a volume ("the 8 supported
element kinds"), with the names `volumes.c` uses, and `NO_DATA_TYPE`, the type
of an array whose type has not been set (volumes.c 209). -/
inductive Data_types where
  | NO_DATA_TYPE : Data_types
  | UNSIGNED_BYTE : Data_types
  | SIGNED_BYTE : Data_types
  | UNSIGNED_SHORT : Data_types
  | SIGNED_SHORT : Data_types
  | UNSIGNED_INT : Data_types
  | SIGNED_INT : Data_types
  | FLOAT : Data_types
  | DOUBLE : Data_types
  deriving DecidableEq, Repr

/-- Modelled from the spec: the file data types (`nc_type`, declared in a
header), restricted to the values `volumes.c` names: `MI_ORIGINAL_TYPE` (keep
the type found in the file) and the five types of the `switch` of
`set_volume_type` (volumes.c 249-281). -/
inductive nc_type where
  | MI_ORIGINAL_TYPE : nc_type
  | NC_BYTE : nc_type
  | NC_SHORT : nc_type
  | NC_INT : nc_type
  | NC_FLOAT : nc_type
  | NC_DOUBLE : nc_type
  deriving DecidableEq, Repr

/-- The value of a pointer `Real *` to a table of an irregularly sampled
dimension: `NULL`, a block of `count` Reals obtained from `malloc`, or a
pointer that is not `NULL` but whose block has been given back with `free`. -/
inductive Real_table (K : Type) where
  | NULL : Real_table K
  | table (count : Int) (entries : Int → K) : Real_table K
  | freed : Real_table K

/-- The test `p != NULL`. -/
def Real_table.not_null {K : Type} : Real_table K → Bool
  | Real_table.NULL => false
  | Real_table.table _ _ => true
  | Real_table.freed => true

/-- The read `p[i]`; a read through `NULL` or through a freed pointer has no
defined value and is given 0. -/
def Real_table.read {K : Type} [Zero K] : Real_table K → Int → K
  | Real_table.NULL, _ => 0
  | Real_table.table _ entries, i => entries i
  | Real_table.freed, _ => 0

/-- Modelled from the spec: the fields of the volume record (`volume_struct`,
declared in a header) that `volumes.c` reads and writes.  The multidimensional
array `array` is represented by its `n_dimensions`, `sizes` and `data_type`;
then the axis mapping `spatial_axes`, the per-dimension `starts`,
`separations` and `direction_cosines`, the cached voxel-to-world transform
with its up-to-date flag, the value range with its scaling, the flags, the
tables of the irregularly sampled dimensions and the names. -/
structure volume_struct (K : Type) where
  n_dimensions : Int
  spatial_axes : Int → Int
  starts : Int → K
  separations : Int → K
  direction_cosines : Int → Int → K
  voxel_to_world_transform_uptodate : Bool
  voxel_to_world_transform : General_transform K
  sizes : Int → Int
  data_type : Data_types
  nc_data_type : nc_type
  signed_flag : Bool
  voxel_min : K
  voxel_max : K
  real_range_set : Bool
  real_value_scale : K
  real_value_translation : K
  is_rgba_data : Bool
  is_cached_volume : Bool
  irregular_starts : Int → Real_table K
  irregular_widths : Int → Real_table K
  dimension_names : Int → String
  coordinate_system_name : String

/-- The function `get_volume_n_dimensions` (volumes.c 508-512). -/
def get_volume_n_dimensions {K : Type} (volume : volume_struct K) : Int :=
  volume.n_dimensions

/-- The function `assign_voxel_to_world_transform` (volumes.c 600-607). -/
def assign_voxel_to_world_transform {K : Type} (volume : volume_struct K)
    (transform : General_transform K) : volume_struct K :=
  { volume with voxel_to_world_transform := transform }

/-- The function `check_recompute_world_transform` (volumes.c 850-867).
The argument `world_transform` is the content of the uninitialised local of
that name, which `compute_world_transform` leaves as it is when it returns
early. -/
def check_recompute_world_transform (sqrt : K → K)
    (world_transform : General_transform K) (volume : volume_struct K) :
    volume_struct K :=
  if !volume.voxel_to_world_transform_uptodate then
    let volume := { volume with voxel_to_world_transform_uptodate := true }
    let world_transform :=
      match compute_world_transform sqrt volume.spatial_axes volume.separations
              volume.direction_cosines volume.starts with
      | some t => t
      | none => world_transform
    assign_voxel_to_world_transform volume world_transform
  else
    volume

/-- The function `get_voxel_to_world_transform` (volumes.c 1112-1118): the
volume after the lazy recompute and the transform it points to. -/
def get_voxel_to_world_transform (sqrt : K → K)
    (world_transform : General_transform K) (volume : volume_struct K) :
    volume_struct K × General_transform K :=
  let volume := check_recompute_world_transform sqrt world_transform volume
  (volume, volume.voxel_to_world_transform)

/-- The function `set_volume_separations` (volumes.c 1268-1278). -/
def set_volume_separations {K : Type} (volume : volume_struct K) (separations : Int → K) :
    volume_struct K :=
  let seps := for_less 0 (get_volume_n_dimensions volume)
    (fun i s => store s i (separations i)) volume.separations
  { volume with separations := seps, voxel_to_world_transform_uptodate := false }

/-- The function `set_volume_starts` (volumes.c 1295-1305). -/
def set_volume_starts {K : Type} (volume : volume_struct K) (starts : Int → K) :
    volume_struct K :=
  let sts := for_less 0 (get_volume_n_dimensions volume)
    (fun c s => store s c (starts c)) volume.starts
  { volume with starts := sts, voxel_to_world_transform_uptodate := false }

/-- The function `set_volume_direction_unit_cosine` (volumes.c 1345-1376). -/
def set_volume_direction_unit_cosine {K : Type} (volume : volume_struct K) (axis : Int)
    (dir : Int → K) : volume_struct K :=
  if axis < 0 ∨ axis ≥ get_volume_n_dimensions volume then
    volume
  else
    let dim := for_less_break 0 N_DIMENSIONS (fun dim => volume.spatial_axes dim == axis)
    if dim = N_DIMENSIONS then
      volume
    else
      let dc := store2 volume.direction_cosines axis X (dir X)
      let dc := store2 dc axis Y (dir Y)
      let dc := store2 dc axis Z (dir Z)
      { volume with direction_cosines := dc, voxel_to_world_transform_uptodate := false }

/-- The function `set_volume_direction_cosine` (volumes.c 1394-1419). -/
def set_volume_direction_cosine (sqrt : K → K)
    (volume : volume_struct K) (axis : Int) (dir : Int → K) : volume_struct K :=
  let len := dir X * dir X + dir Y * dir Y + dir Z * dir Z
  if len = 0 then
    volume
  else
    let len := if len ≤ 0 then 1 else len
    let len := sqrt len
    let unit_vector : Int → K := fun _ => 0
    let unit_vector := store unit_vector X (dir X / len)
    let unit_vector := store unit_vector Y (dir Y / len)
    let unit_vector := store unit_vector Z (dir Z / len)
    set_volume_direction_unit_cosine volume axis unit_vector

/-- The function `reorder_voxel_to_xyz` (volumes.c 1694-1709); `xyz` is the
previous content of the output array. -/
def reorder_voxel_to_xyz (volume : volume_struct K)
    (voxel xyz : Int → K) : Int → K :=
  for_less 0 N_DIMENSIONS
    (fun c xyz =>
      let axis := volume.spatial_axes c
      if axis ≥ 0 then store xyz c (voxel axis) else store xyz c 0)
    xyz

/-- The function `reorder_xyz_to_voxel` (volumes.c 1726-1743); `voxel` is the
previous content of the output array. -/
def reorder_xyz_to_voxel (volume : volume_struct K)
    (xyz voxel : Int → K) : Int → K :=
  let n_dims := get_volume_n_dimensions volume
  let voxel := for_less 0 n_dims (fun c v => store v c 0) voxel
  for_less 0 N_DIMENSIONS
    (fun c v =>
      let axis := volume.spatial_axes c
      if axis ≥ 0 then store v axis (xyz c) else v)
    voxel

/-- The function `convert_voxel_to_world` (volumes.c 1762-1780): the volume
after the lazy recompute and the world point (x, y, z). -/
def convert_voxel_to_world (sqrt : K → K)
    (world_transform : General_transform K) (volume : volume_struct K) (voxel : Int → K) :
    volume_struct K × (K × K × K) :=
  let volume := check_recompute_world_transform sqrt world_transform volume
  let xyz := reorder_voxel_to_xyz volume voxel (fun _ => 0)
  (volume, general_transform_point volume.voxel_to_world_transform (xyz X) (xyz Y) (xyz Z))

/-- The function `convert_world_to_voxel` (volumes.c 1954-1970): the volume
after the lazy recompute and the new content of the output array `voxel`. -/
def convert_world_to_voxel (sqrt : K → K)
    (world_transform : General_transform K) (volume : volume_struct K)
    (x_world y_world z_world : K) (voxel : Int → K) : volume_struct K × (Int → K) :=
  let volume := check_recompute_world_transform sqrt world_transform volume
  let p := general_inverse_transform_point volume.voxel_to_world_transform
             x_world y_world z_world
  let xyz : Int → K := fun _ => 0
  let xyz := store xyz X p.1
  let xyz := store xyz Y p.2.1
  let xyz := store xyz Z p.2.2
  (volume, reorder_xyz_to_voxel volume xyz voxel)

/-! ## Names of dimensions and the array of a volume -/

/-- Modelled from the spec: the name of the X dimension (`MIxspace`, a macro
of a header). -/
def MIxspace : String := "xspace"

/-- Modelled from the spec: the name of the Y dimension (`MIyspace`). -/
def MIyspace : String := "yspace"

/-- Modelled from the spec: the name of the Z dimension (`MIzspace`). -/
def MIzspace : String := "zspace"

/-- Modelled from the spec: the coordinate system name of a volume whose
space is not known (`MI_UNKNOWN_SPACE`, a macro of a header). -/
def MI_UNKNOWN_SPACE : String := "unknown___"

/-- The table `default_dimension_names` (volumes.c 26-33), row `r` and column
`i`; the elements the initialiser does not list are given the empty name. -/
def default_dimension_names (r i : Int) : String :=
  if r = 0 then (if i = 0 then MIxspace else "")
  else if r = 1 then (if i = 0 then MIyspace else if i = 1 then MIxspace else "")
  else if r = 2 then
    (if i = 0 then MIzspace else if i = 1 then MIyspace else if i = 2 then MIxspace else "")
  else if r = 3 then
    (if i = 0 then "" else if i = 1 then MIzspace else if i = 2 then MIyspace
     else if i = 3 then MIxspace else "")
  else if r = 4 then
    (if i = 0 then "" else if i = 1 then "" else if i = 2 then MIzspace
     else if i = 3 then MIyspace else if i = 4 then MIxspace else "")
  else ""

/-- Modelled from the spec: `equal_strings`, the comparison of two names. -/
def equal_strings (a b : String) : Bool := a == b

/-- The function `convert_dim_name_to_spatial_axis` (volumes.c 97-111): the
returned flag and the axis passed back. -/
def convert_dim_name_to_spatial_axis (name : String) : Bool × Int :=
  let axis : Int := -1
  let axis :=
    if equal_strings name MIxspace then X
    else if equal_strings name MIyspace then Y
    else if equal_strings name MIzspace then Z
    else axis
  (decide (axis ≥ 0), axis)

/-- Modelled from the spec: `create_empty_multidim_array`, which records the
number of dimensions and the data type of an array without data. -/
def create_empty_multidim_array {K : Type} (volume : volume_struct K) (n_dimensions : Int)
    (data_type : Data_types) : volume_struct K :=
  { volume with n_dimensions := n_dimensions, data_type := data_type }

/-- Modelled from the spec: `set_multidim_data_type`. -/
def set_multidim_data_type {K : Type} (volume : volume_struct K) (data_type : Data_types) :
    volume_struct K :=
  { volume with data_type := data_type }

/-- Modelled from the spec: `get_multidim_data_type`. -/
def get_multidim_data_type {K : Type} (volume : volume_struct K) : Data_types :=
  volume.data_type

/-- Modelled from the spec: `set_multidim_sizes`, which copies one size for
each dimension of the array. -/
def set_multidim_sizes {K : Type} (volume : volume_struct K) (sizes : Int → Int) :
    volume_struct K :=
  { volume with
    sizes := for_less 0 volume.n_dimensions (fun i s => store s i (sizes i)) volume.sizes }

/-- The function `get_volume_data_type` (volumes.c 328-332). -/
def get_volume_data_type {K : Type} (volume : volume_struct K) : Data_types :=
  get_multidim_data_type volume

/-- The function `set_volume_sizes` (volumes.c 549-554). -/
def set_volume_sizes {K : Type} (volume : volume_struct K) (sizes : Int → Int) :
    volume_struct K :=
  set_multidim_sizes volume sizes

/-! ## The value range -/

/-- The limit `UCHAR_MAX` of `<limits.h>` (8-bit char). -/
def UCHAR_MAX : Int := 255

/-- The limit `SCHAR_MIN` of `<limits.h>`. -/
def SCHAR_MIN : Int := -128

/-- The limit `SCHAR_MAX` of `<limits.h>`. -/
def SCHAR_MAX : Int := 127

/-- The limit `USHRT_MAX` of `<limits.h>` (16-bit short). -/
def USHRT_MAX : Int := 65535

/-- The limit `SHRT_MIN` of `<limits.h>`. -/
def SHRT_MIN : Int := -32768

/-- The limit `SHRT_MAX` of `<limits.h>`. -/
def SHRT_MAX : Int := 32767

/-- The limit `UINT_MAX` of `<limits.h>` (32-bit int). -/
def UINT_MAX : Int := 4294967295

/-- The limit `INT_MIN` of `<limits.h>`. -/
def INT_MIN : Int := -2147483648

/-- The limit `INT_MAX` of `<limits.h>`. -/
def INT_MAX : Int := 2147483647

/-- The limit `FLT_MAX` of `<float.h>`, the largest finite IEEE single:
(2^24 - 1) * 2^104. -/
def FLT_MAX : K := (((2 ^ 24 - 1) * 2 ^ 104 : Nat) : K)

/-- The limit `DBL_MAX` of `<float.h>`, the largest finite IEEE double:
(2^53 - 1) * 2^971. -/
def DBL_MAX : K := (((2 ^ 53 - 1) * 2 ^ 971 : Nat) : K)

/-- The function `get_volume_voxel_min` (volumes.c 2027-2032). -/
def get_volume_voxel_min {K : Type} (volume : volume_struct K) : K :=
  volume.voxel_min

/-- The function `get_volume_voxel_max` (volumes.c 2047-2051). -/
def get_volume_voxel_max {K : Type} (volume : volume_struct K) : K :=
  volume.voxel_max

/-- Modelled from the spec: `convert_voxel_to_value`, the real value of a
voxel value: `voxel*scale + translation` when `real_range_set`, else the
voxel value itself. -/
def convert_voxel_to_value (volume : volume_struct K)
    (voxel : K) : K :=
  if volume.real_range_set then
    volume.real_value_scale * voxel + volume.real_value_translation
  else
    voxel

/-- Modelled from the spec: `cache_volume_range_has_changed`, the notice to
the cache-backed storage that the range changed; it changes no field of the
volume record. -/
def cache_volume_range_has_changed {K : Type} (volume : volume_struct K) : volume_struct K :=
  volume

/-- The function `get_volume_real_min` (volumes.c 2181-2192). -/
def get_volume_real_min (volume : volume_struct K) : K :=
  let real_min := get_volume_voxel_min volume
  if volume.real_range_set then convert_voxel_to_value volume real_min else real_min

/-- The function `get_volume_real_max` (volumes.c 2207-2218). -/
def get_volume_real_max (volume : volume_struct K) : K :=
  let real_max := get_volume_voxel_max volume
  if volume.real_range_set then convert_voxel_to_value volume real_max else real_max

mutual

/-- The function `set_volume_voxel_range` (volumes.c 2093-2141).  The two
tests of `real_range_set` (lines 2131 and 2137) see the same value and are
one test here; the `switch` changes nothing for `NO_DATA_TYPE`. -/
def set_volume_voxel_range (volume : volume_struct K)
    (voxel_min voxel_max : K) : volume_struct K :=
  let range : K × K :=
    if voxel_min ≥ voxel_max then
      match get_volume_data_type volume with
      | Data_types.UNSIGNED_BYTE => (0, (UCHAR_MAX : K))
      | Data_types.SIGNED_BYTE => ((SCHAR_MIN : K), (SCHAR_MAX : K))
      | Data_types.UNSIGNED_SHORT => (0, (USHRT_MAX : K))
      | Data_types.SIGNED_SHORT => ((SHRT_MIN : K), (SHRT_MAX : K))
      | Data_types.UNSIGNED_INT => (0, (UINT_MAX : K))
      | Data_types.SIGNED_INT => ((INT_MIN : K), (INT_MAX : K))
      | Data_types.FLOAT => (-FLT_MAX, FLT_MAX)
      | Data_types.DOUBLE => (-DBL_MAX, DBL_MAX)
      | Data_types.NO_DATA_TYPE => (voxel_min, voxel_max)
    else
      (voxel_min, voxel_max)
  if _h : volume.real_range_set = true then
    let real_min := get_volume_real_min volume
    let real_max := get_volume_real_max volume
    set_volume_real_range { volume with voxel_min := range.1, voxel_max := range.2 }
      real_min real_max
  else
    cache_volume_range_has_changed
      { volume with voxel_min := range.1, voxel_max := range.2 }
termination_by (if volume.real_range_set = true then 3 else 1 : Nat)
decreasing_by simp_all

/-- The function `set_volume_real_range` (volumes.c 2236-2278). -/
def set_volume_real_range (volume : volume_struct K)
    (real_min real_max : K) : volume_struct K :=
  let volume :=
    if get_volume_data_type volume = Data_types.FLOAT ∨
        get_volume_data_type volume = Data_types.DOUBLE then
      let volume := { volume with real_range_set := false }
      let volume := set_volume_voxel_range volume real_min real_max
      { volume with real_value_scale := 1, real_value_translation := 0 }
    else
      let voxel_min := get_volume_voxel_min volume
      let voxel_max := get_volume_voxel_max volume
      let volume :=
        if voxel_min < voxel_max then
          let scale := (real_max - real_min) / (voxel_max - voxel_min)
          { volume with
            real_value_scale := scale
            real_value_translation := real_min - voxel_min * scale }
        else
          { volume with real_value_scale := 0, real_value_translation := real_min }
      { volume with real_range_set := true }
  if volume.is_cached_volume then cache_volume_range_has_changed volume else volume
termination_by (2 : Nat)
decreasing_by simp

end

/-! ## The storage type and the creation of a volume -/

/-- The function `set_volume_type` (volumes.c 240-290).  Inside the test
`nc_data_type != MI_ORIGINAL_TYPE` the `switch` has no case for
`MI_ORIGINAL_TYPE`; the local `data_type` is given `NO_DATA_TYPE` there. -/
def set_volume_type (volume : volume_struct K)
    (nc_data_type : nc_type) (signed_flag : Bool) (voxel_min voxel_max : K) :
    volume_struct K :=
  let volume :=
    if nc_data_type ≠ nc_type.MI_ORIGINAL_TYPE then
      let data_type :=
        match nc_data_type with
        | nc_type.NC_BYTE =>
          if signed_flag then Data_types.SIGNED_BYTE else Data_types.UNSIGNED_BYTE
        | nc_type.NC_SHORT =>
          if signed_flag then Data_types.SIGNED_SHORT else Data_types.UNSIGNED_SHORT
        | nc_type.NC_INT =>
          if signed_flag then Data_types.SIGNED_INT else Data_types.UNSIGNED_INT
        | nc_type.NC_FLOAT => Data_types.FLOAT
        | nc_type.NC_DOUBLE => Data_types.DOUBLE
        | nc_type.MI_ORIGINAL_TYPE => Data_types.NO_DATA_TYPE
      let volume := set_multidim_data_type volume data_type
      let volume := { volume with signed_flag := signed_flag }
      set_volume_voxel_range volume voxel_min voxel_max
    else
      volume
  { volume with nc_data_type := nc_data_type }

/-- The body of the loop `for_less( i, 0, n_dimensions )` of `create_volume`
(volumes.c 183-207) on the volume and the local array `sizes`;
`dimension_names` is `none` for a null pointer. -/
def create_volume_dimension (n_dimensions : Int)
    (dimension_names : Option (Int → String)) (i : Int)
    (s : volume_struct K × (Int → Int)) : volume_struct K × (Int → Int) :=
  let volume := s.1
  let sizes := s.2
  let volume :=
    { volume with
      starts := store volume.starts i 0
      separations := store volume.separations i 1
      direction_cosines :=
        store2 (store2 (store2 volume.direction_cosines i X 0) i Y 0) i Z 0
      irregular_starts := store volume.irregular_starts i Real_table.NULL
      irregular_widths := store volume.irregular_widths i Real_table.NULL }
  let sizes := store sizes i 0
  let name :=
    match dimension_names with
    | some names => names i
    | none => default_dimension_names (n_dimensions - 1) i
  let r := convert_dim_name_to_spatial_axis name
  let volume :=
    if r.1 then
      { volume with
        spatial_axes := store volume.spatial_axes r.2 i
        direction_cosines := store2 volume.direction_cosines i r.2 1 }
    else
      volume
  ({ volume with dimension_names := store volume.dimension_names i name }, sizes)

/-- The function `create_volume` (volumes.c 142-221); `none` is the null
pointer returned for a number of dimensions out of range.  The argument
`alloc` is the content of the record as `ALLOC` delivers it, before any field
is assigned. -/
def create_volume (alloc : volume_struct K)
    (n_dimensions : Int) (dimension_names : Option (Int → String)) (nc_data_type : nc_type)
    (signed_flag : Bool) (voxel_min voxel_max : K) : Option (volume_struct K) :=
  if n_dimensions < 1 ∨ n_dimensions > MAX_DIMENSIONS then
    none
  else
    let volume := alloc
    let volume := { volume with is_rgba_data := false, is_cached_volume := false }
    let volume :=
      { volume with
        real_range_set := false
        real_value_scale := 1
        real_value_translation := 0 }
    let volume :=
      { volume with
        spatial_axes := for_less 0 N_DIMENSIONS (fun i sa => store sa i (-1))
          volume.spatial_axes }
    let s := for_less 0 n_dimensions (create_volume_dimension n_dimensions dimension_names)
      (volume, fun _ => 0)
    let volume := s.1
    let sizes := s.2
    let volume := create_empty_multidim_array volume n_dimensions Data_types.NO_DATA_TYPE
    let volume := set_volume_type volume nc_data_type signed_flag voxel_min voxel_max
    let volume := set_volume_sizes volume sizes
    let identity : Transform K := make_identity_transform
    let volume :=
      { volume with voxel_to_world_transform := create_linear_transform identity }
    let volume := { volume with voxel_to_world_transform_uptodate := true }
    some { volume with coordinate_system_name := MI_UNKNOWN_SPACE }

/-! ## The translation setter -/

/-- The first loop of `set_volume_translation` (volumes.c 1504-1520) on the
locals `world_space_origin` and `transform`. -/
def svt_origin (volume : volume_struct K)
    (voxel world_space_voxel_maps_to : Int → K)
    (s : (Int → K) × Transform K) : (Int → K) × Transform K :=
  for_less 0 N_DIMENSIONS
    (fun dim s =>
      let s : (Int → K) × Transform K := (store s.1 dim (world_space_voxel_maps_to dim), s.2)
      for_less 0 N_DIMENSIONS
        (fun dim2 s =>
          let axis := volume.spatial_axes dim2
          if axis ≥ 0 then
            (store s.1 dim
               (s.1 dim -
                 volume.separations axis * volume.direction_cosines axis dim * voxel axis),
             store2 s.2 dim dim2 (volume.direction_cosines axis dim))
          else
            s)
        s)
    s

/-- The division of column `c` of the transform by its length, with the
length of the zero column taken as 1 (volumes.c 1559-1570 and 1608-1619). -/
def svt_normalize (sqrt : K → K) (transform : Transform K)
    (c : Int) : Transform K :=
  let len := Transform_elem transform 0 c * Transform_elem transform 0 c +
             Transform_elem transform 1 c * Transform_elem transform 1 c +
             Transform_elem transform 2 c * Transform_elem transform 2 c
  let len := if len = 0 then 1 else sqrt len
  let transform := store2 transform 0 c (Transform_elem transform 0 c / len)
  let transform := store2 transform 1 c (Transform_elem transform 1 c / len)
  store2 transform 2 c (Transform_elem transform 2 c / len)

/-- The block `if( n_axes == 1 )` of `set_volume_translation` (volumes.c
1533-1571): the transform and the local `dim` after it. -/
def svt_second_vector (sqrt : K → K)
    (volume : volume_struct K) (transform : Transform K) (dim : Int) : Transform K × Int :=
  let dim :=
    if volume.spatial_axes 0 ≥ 0 then 0
    else if volume.spatial_axes 1 ≥ 0 then 1
    else if volume.spatial_axes 2 ≥ 0 then 2
    else dim
  let a1 : Int := if dim = 0 then 1 else 0
  let transform := store2 transform 0 a1
    (Transform_elem transform 1 dim + Transform_elem transform 2 dim)
  let transform := store2 transform 1 a1
    (-Transform_elem transform 0 dim - Transform_elem transform 2 dim)
  let transform := store2 transform 2 a1
    (Transform_elem transform 1 dim - Transform_elem transform 0 dim)
  (svt_normalize sqrt transform a1, dim)

/-- The block `if( n_axes == 1 || n_axes == 2 )` of `set_volume_translation`
(volumes.c 1575-1620). -/
def svt_third_vector (sqrt : K → K)
    (volume : volume_struct K) (transform : Transform K) (dim : Int) : Transform K :=
  let dim :=
    if volume.spatial_axes 2 < 0 then 2
    else if volume.spatial_axes 1 < 0 then 1
    else if volume.spatial_axes 0 < 0 then 0
    else dim
  let a1 := (dim + 1) % N_DIMENSIONS
  let a2 := (dim + 2) % N_DIMENSIONS
  let transform := store2 transform 0 dim
    (Transform_elem transform 1 a1 * Transform_elem transform 2 a2 -
     Transform_elem transform 1 a2 * Transform_elem transform 2 a1)
  let transform := store2 transform 1 dim
    (Transform_elem transform 2 a1 * Transform_elem transform 0 a2 -
     Transform_elem transform 2 a2 * Transform_elem transform 0 a1)
  let transform := store2 transform 2 dim
    (Transform_elem transform 0 a1 * Transform_elem transform 1 a2 -
     Transform_elem transform 0 a2 * Transform_elem transform 1 a1)
  svt_normalize sqrt transform dim

/-- The function `set_volume_translation` (volumes.c 1488-1645).  The local
arrays start as zeros; the local `dim` holds `N_DIMENSIONS` after the counting
loop. -/
def set_volume_translation (sqrt : K → K)
    (volume : volume_struct K) (voxel world_space_voxel_maps_to : Int → K) :
    volume_struct K :=
  let transform : Transform K := make_identity_transform
  let s := svt_origin volume voxel world_space_voxel_maps_to (fun _ => 0, transform)
  let world_space_origin := s.1
  let transform := s.2
  let n_axes : Int := for_less 0 N_DIMENSIONS
    (fun dim n => if volume.spatial_axes dim ≥ 0 then n + 1 else n) 0
  let dim := N_DIMENSIONS
  let s := if n_axes = 1 then svt_second_vector sqrt volume transform dim else (transform, dim)
  let transform := s.1
  let dim := s.2
  let transform :=
    if n_axes = 1 ∨ n_axes = 2 then svt_third_vector sqrt volume transform dim else transform
  let inverse := compute_transform_inverse transform
  let p := transform_point inverse (world_space_origin X) (world_space_origin Y)
    (world_space_origin Z)
  let starts_3d : Int → K := fun _ => 0
  let starts_3d := store starts_3d X p.1
  let starts_3d := store starts_3d Y p.2.1
  let starts_3d := store starts_3d Z p.2.2
  let starts := for_less 0 (get_volume_n_dimensions volume) (fun dim s => store s dim 0)
    (fun _ => (0 : K))
  let starts := for_less 0 N_DIMENSIONS
    (fun dim s =>
      let axis := volume.spatial_axes dim
      if axis ≥ 0 then store s axis (starts_3d dim) else s)
    starts
  set_volume_starts volume starts

/-! ## Irregularly sampled dimensions -/

/-- The function `is_volume_dimension_irregular` (volumes.c 2454-2461). -/
def is_volume_dimension_irregular {K : Type} (volume : volume_struct K) (idim : Int) : Bool :=
  if idim > volume.n_dimensions then false
  else (volume.irregular_starts idim).not_null

/-- The function `get_volume_irregular_starts` (volumes.c 2463-2485): the
returned count and the new content of the output array `starts`. -/
def get_volume_irregular_starts {K : Type} [Zero K] (volume : volume_struct K)
    (idim count : Int) (starts : Int → K) : Int × (Int → K) :=
  if idim ≥ volume.n_dimensions then (0, starts)
  else if !(volume.irregular_starts idim).not_null then (0, starts)
  else
    let count := if count > volume.sizes idim then volume.sizes idim else count
    (count,
     for_less 0 count (fun i s => store s i ((volume.irregular_starts idim).read i)) starts)

/-- The function `get_volume_irregular_widths` (volumes.c 2487-2509): the
returned count and the new content of the output array `widths`. -/
def get_volume_irregular_widths {K : Type} [Zero K] (volume : volume_struct K)
    (idim count : Int) (widths : Int → K) : Int × (Int → K) :=
  if idim ≥ volume.n_dimensions then (0, widths)
  else if !(volume.irregular_widths idim).not_null then (0, widths)
  else
    let count := if count > volume.sizes idim then volume.sizes idim else count
    (count,
     for_less 0 count (fun i s => store s i ((volume.irregular_widths idim).read i)) widths)

/-- The function `set_volume_irregular_starts` (volumes.c 2511-2542): the
returned count and the volume.  The argument `starts` is `none` for a null
pointer; `malloc_ok` tells whether `malloc` delivers a block (a new block
holds zeros before it is filled).  After `free` the pointer of the volume is
left as it is, not null. -/
def set_volume_irregular_starts {K : Type} [Zero K] (malloc_ok : Bool)
    (volume : volume_struct K) (idim count : Int) (starts : Option (Int → K)) :
    Int × volume_struct K :=
  if idim ≥ volume.n_dimensions then (0, volume)
  else
    let volume :=
      if (volume.irregular_starts idim).not_null then
        { volume with irregular_starts := store volume.irregular_starts idim Real_table.freed }
      else
        volume
    match starts with
    | none => (0, volume)
    | some starts =>
      let count := if count > volume.sizes idim then volume.sizes idim else count
      if !malloc_ok then
        (0, { volume with
              irregular_starts := store volume.irregular_starts idim Real_table.NULL })
      else
        let entries := for_less 0 count (fun i t => store t i (starts i)) (fun _ => (0 : K))
        (count, { volume with
                  irregular_starts :=
                    store volume.irregular_starts idim (Real_table.table count entries) })

/-- The function `set_volume_irregular_widths` (volumes.c 2544-2575), as
`set_volume_irregular_starts`. -/
def set_volume_irregular_widths {K : Type} [Zero K] (malloc_ok : Bool)
    (volume : volume_struct K) (idim count : Int) (widths : Option (Int → K)) :
    Int × volume_struct K :=
  if idim ≥ volume.n_dimensions then (0, volume)
  else
    let volume :=
      if (volume.irregular_widths idim).not_null then
        { volume with irregular_widths := store volume.irregular_widths idim Real_table.freed }
      else
        volume
    match widths with
    | none => (0, volume)
    | some widths =>
      let count := if count > volume.sizes idim then volume.sizes idim else count
      if !malloc_ok then
        (0, { volume with
              irregular_widths := store volume.irregular_widths idim Real_table.NULL })
      else
        let entries := for_less 0 count (fun i t => store t i (widths i)) (fun _ => (0 : K))
        (count, { volume with
                  irregular_widths :=
                    store volume.irregular_widths idim (Real_table.table count entries) })

/-- The function `nonspatial_voxel_to_world` (volumes.c 2578-2607). -/
def nonspatial_voxel_to_world (volume : volume_struct K)
    (idim voxel : Int) : K :=
  if is_volume_dimension_irregular volume idim then
    if voxel < 0 then
      0
    else if voxel ≥ volume.sizes idim then
      let voxel := volume.sizes idim - 1
      (volume.irregular_starts idim).read voxel + (volume.irregular_widths idim).read voxel
    else
      (volume.irregular_starts idim).read voxel
  else
    volume.starts idim + ((voxel : K) * volume.separations idim)

/-- Modelled from the spec: the macro `ROUND` ("rounds to nearest integer"),
the floor of the argument plus one half. -/
def ROUND [Has_floor K] (x : K) : Int :=
  Has_floor.floor (x + 1 / 2)

/-- The conversion of an integer value to the 32-bit `int` of a result: the
value modulo 2^32 in the range -2^31 .. 2^31 - 1. -/
def to_int (z : Int) : Int :=
  (z + 2 ^ 31) % 2 ^ 32 - 2 ^ 31

/-- The function `nonspatial_world_to_voxel` (volumes.c 2609-2629).  In the
irregular case the loop leaves `voxel` at the size unless it breaks at an
index below the size. -/
def nonspatial_world_to_voxel [Has_floor K]
    (volume : volume_struct K) (idim : Int) (world : K) : Int :=
  if is_volume_dimension_irregular volume idim then
    let voxel := volume.sizes idim
    let i := for_less_break 0 (volume.sizes idim)
      (fun i => decide (world < (volume.irregular_starts idim).read i +
                                (volume.irregular_widths idim).read i))
    if i < volume.sizes idim then i else voxel
  else
    to_int (ROUND ((world - volume.starts idim) / volume.separations idim))

/-! ## Copies of a volume and the assignment of a transform -/

/-- Modelled from the spec: `get_multidim_sizes`, which copies one size for
each dimension of the array into the output array `sizes`. -/
def get_multidim_sizes {K : Type} (volume : volume_struct K) (sizes : Int → Int) : Int → Int :=
  for_less 0 volume.n_dimensions (fun i s => store s i (volume.sizes i)) sizes

/-- The function `get_volume_sizes` (volumes.c 528-533); `sizes` is the
previous content of the output array. -/
def get_volume_sizes {K : Type} (volume : volume_struct K) (sizes : Int → Int) : Int → Int :=
  get_multidim_sizes volume sizes

/-- The function `get_volume_total_n_voxels` (volumes.c 569-583): the product
is formed in an `unsigned int`, modulo 2^32. -/
def get_volume_total_n_voxels {K : Type} (volume : volume_struct K) : Int :=
  let sizes := get_volume_sizes volume (fun _ => 0)
  for_less 0 (get_volume_n_dimensions volume)
    (fun i n => (n * (sizes i % 2 ^ 32)) % 2 ^ 32) 1

/-- The function `alloc_volume_data` (volumes.c 391-410) on the volume
record.  The size of an element (`get_type_size`) and the cache threshold
(`get_n_bytes_cache_threshold`) are arguments; the data size is formed in an
`unsigned long`, modulo 2^64.  The storage itself is not part of the record. -/
def alloc_volume_data {K : Type} (type_size : Data_types → Int)
    (n_bytes_cache_threshold : Int) (volume : volume_struct K) : volume_struct K :=
  let data_size :=
    ((get_volume_total_n_voxels volume % 2 ^ 64) *
      (type_size (get_volume_data_type volume) % 2 ^ 64)) % 2 ^ 64
  if n_bytes_cache_threshold ≥ 0 ∧ data_size > n_bytes_cache_threshold % 2 ^ 64 then
    { volume with is_cached_volume := true }
  else
    { volume with is_cached_volume := false }

/-- The function `set_voxel_to_world_transform` (volumes.c 1080-1097).  The
array `volume->separations` is passed both as `step_signs` and as the output
`steps`. -/
def set_voxel_to_world_transform (sqrt : K → K)
    (volume : volume_struct K) (transform : General_transform K) : volume_struct K :=
  let volume := assign_voxel_to_world_transform volume transform
  let volume := { volume with voxel_to_world_transform_uptodate := true }
  if get_transform_type transform = Transform_types.LINEAR then
    let r := convert_transform_to_starts_and_steps sqrt transform
      (get_volume_n_dimensions volume) Step_signs.steps volume.spatial_axes volume.starts
      volume.separations volume.direction_cosines
    { volume with
      starts := r.starts
      separations := r.steps
      direction_cosines := r.dir_cosines }
  else
    volume

/-- The function `get_volume_space_type` (volumes.c 1201-1205). -/
def get_volume_space_type {K : Type} (volume : volume_struct K) : String :=
  volume.coordinate_system_name

/-- The function `set_volume_space_type` (volumes.c 1222-1228). -/
def set_volume_space_type {K : Type} (volume : volume_struct K) (name : String) :
    volume_struct K :=
  { volume with coordinate_system_name := name }

/-- The function `get_volume_separations` (volumes.c 1244-1252);
`separations` is the previous content of the output array. -/
def get_volume_separations {K : Type} (volume : volume_struct K) (separations : Int → K) :
    Int → K :=
  for_less 0 (get_volume_n_dimensions volume) (fun i s => store s i (volume.separations i))
    separations

/-- The function `get_volume_starts` (volumes.c 1320-1328); `starts` is the
previous content of the output array. -/
def get_volume_starts {K : Type} (volume : volume_struct K) (starts : Int → K) : Int → K :=
  for_less 0 (get_volume_n_dimensions volume) (fun c s => store s c (volume.starts c)) starts

/-- The function `get_volume_direction_cosine` (volumes.c 1436-1469); `dir`
is the previous content of the output array. -/
def get_volume_direction_cosine (volume : volume_struct K)
    (axis : Int) (dir : Int → K) : Int → K :=
  if axis < 0 ∨ axis ≥ get_volume_n_dimensions volume then
    dir
  else
    let d := for_less_break 0 N_DIMENSIONS (fun d => volume.spatial_axes d == axis)
    if d = N_DIMENSIONS then
      let dir := store dir X 0
      let dir := store dir Y 0
      store dir Z 0
    else
      let dir := store dir X (volume.direction_cosines axis X)
      let dir := store dir Y (volume.direction_cosines axis Y)
      store dir Z (volume.direction_cosines axis Z)

/-- The body of the last loop of `copy_volume_definition_no_alloc`
(volumes.c 2350-2360), which acts on the source `volume`: the tables read
from the source are installed on the source.  The two local blocks are taken
as delivered, holding zeros before they are filled; `malloc_ok` is passed to
the installers. -/
def copy_irregular_dimension (malloc_ok : Bool)
    (sizes : Int → Int) (c : Int) (volume : volume_struct K) : volume_struct K :=
  if is_volume_dimension_irregular volume c then
    let irr_starts : Int → K := fun _ => 0
    let irr_widths : Int → K := fun _ => 0
    let irr_starts := (get_volume_irregular_starts volume c (sizes c) irr_starts).2
    let volume := (set_volume_irregular_starts malloc_ok volume c (sizes c)
      (some irr_starts)).2
    let irr_widths := (get_volume_irregular_widths volume c (sizes c) irr_widths).2
    let volume := (set_volume_irregular_widths malloc_ok volume c (sizes c)
      (some irr_widths)).2
    volume
  else
    volume

/-- The function `copy_volume_definition_no_alloc` (volumes.c 2300-2364):
the copy (`none` when `create_volume` returns the null volume, which the code
then dereferences) and the source volume after the call.  The argument
`alloc` is the record `create_volume` obtains from `ALLOC`; the local arrays
hold zeros before they are filled. -/
def copy_volume_definition_no_alloc
    (alloc : volume_struct K) (malloc_ok : Bool) (volume : volume_struct K)
    (nc_data_type : nc_type) (signed_flag : Bool) (voxel_min voxel_max : K) :
    Option (volume_struct K) × volume_struct K :=
  let a : nc_type × Bool × K × K :=
    if nc_data_type = nc_type.MI_ORIGINAL_TYPE then
      (volume.nc_data_type, volume.signed_flag, get_volume_voxel_min volume,
        get_volume_voxel_max volume)
    else
      (nc_data_type, signed_flag, voxel_min, voxel_max)
  match create_volume alloc (get_volume_n_dimensions volume) (some volume.dimension_names)
      a.1 a.2.1 a.2.2.1 a.2.2.2 with
  | none => (none, volume)
  | some copy =>
    let copy :=
      { copy with
        spatial_axes := for_less 0 N_DIMENSIONS
          (fun c sa => store sa c (volume.spatial_axes c)) copy.spatial_axes }
    let copy := set_volume_real_range copy (get_volume_real_min volume)
      (get_volume_real_max volume)
    let sizes := get_volume_sizes volume (fun _ => 0)
    let copy := set_volume_sizes copy sizes
    let separations := get_volume_separations volume (fun _ => 0)
    let copy := set_volume_separations copy separations
    let starts := get_volume_starts volume (fun _ => 0)
    let copy := set_volume_starts copy starts
    let s := for_less 0 (get_volume_n_dimensions volume)
      (fun c (s : volume_struct K × (Int → K)) =>
        let dir_cosine := get_volume_direction_cosine volume c s.2
        (set_volume_direction_unit_cosine s.1 c dir_cosine, dir_cosine))
      (copy, fun _ => 0)
    let copy := s.1
    let copy := set_volume_space_type copy volume.coordinate_system_name
    let volume := for_less 0 (get_volume_n_dimensions volume)
      (copy_irregular_dimension malloc_ok sizes) volume
    (some copy, volume)

/-- The function `copy_volume_definition` (volumes.c 2385-2400). -/
def copy_volume_definition (alloc : volume_struct K)
    (malloc_ok : Bool) (type_size : Data_types → Int) (n_bytes_cache_threshold : Int)
    (volume : volume_struct K) (nc_data_type : nc_type) (signed_flag : Bool)
    (voxel_min voxel_max : K) : Option (volume_struct K) × volume_struct K :=
  let r := copy_volume_definition_no_alloc alloc malloc_ok volume nc_data_type signed_flag
    voxel_min voxel_max
  (r.1.map (alloc_volume_data type_size n_bytes_cache_threshold), r.2)

/-- The function `copy_volume` (volumes.c 2415-2451) on the volume records:
the copy (`none` for the null volume) and the source volume after the call.
The voxel values, copied in one block, are not part of the record. -/
def copy_volume (alloc : volume_struct K)
    (malloc_ok : Bool) (type_size : Data_types → Int) (n_bytes_cache_threshold : Int)
    (volume : volume_struct K) : Option (volume_struct K) × volume_struct K :=
  if volume.is_cached_volume then
    (none, volume)
  else
    copy_volume_definition alloc malloc_ok type_size n_bytes_cache_threshold volume
      nc_type.MI_ORIGINAL_TYPE false 0 0

/-! ## Vectors between voxel and world space -/

/-- Modelled from the spec: `get_inverse_linear_transform_ptr`, the inverse
that a linear general transform holds. -/
def get_inverse_linear_transform_ptr {K : Type} (t : General_transform K) : Transform K :=
  t.inverse_linear_transform

/-- The function `convert_voxel_normal_vector_to_world` (volumes.c
1841-1872): the volume after the lazy recompute and the world vector.  The
result is `none` when the transform is not linear, where the code raises an
internal error. -/
def convert_voxel_normal_vector_to_world (sqrt : K → K)
    (world_transform : General_transform K) (volume : volume_struct K)
    (voxel_vector : Int → K) : volume_struct K × Option (K × K × K) :=
  let volume := check_recompute_world_transform sqrt world_transform volume
  if get_transform_type volume.voxel_to_world_transform ≠ Transform_types.LINEAR then
    (volume, none)
  else
    let inverse := get_inverse_linear_transform_ptr volume.voxel_to_world_transform
    let xyz := reorder_voxel_to_xyz volume voxel_vector (fun _ => 0)
    (volume,
     some (Transform_elem inverse 0 0 * xyz X + Transform_elem inverse 1 0 * xyz Y
             + Transform_elem inverse 2 0 * xyz Z,
           Transform_elem inverse 0 1 * xyz X + Transform_elem inverse 1 1 * xyz Y
             + Transform_elem inverse 2 1 * xyz Z,
           Transform_elem inverse 0 2 * xyz X + Transform_elem inverse 1 2 * xyz Y
             + Transform_elem inverse 2 2 * xyz Z))

/-- The function `convert_voxel_vector_to_world` (volumes.c 1887-1907): the
volume after the two conversions and the world vector. -/
def convert_voxel_vector_to_world (sqrt : K → K)
    (world_transform : General_transform K) (volume : volume_struct K)
    (voxel_vector : Int → K) : volume_struct K × (K × K × K) :=
  let origin : Int → K := for_less 0 MAX_DIMENSIONS (fun i o => store o i 0) (fun _ => 0)
  let r0 := convert_voxel_to_world sqrt world_transform volume origin
  let r1 := convert_voxel_to_world sqrt world_transform r0.1 voxel_vector
  (r1.1, (r1.2.1 - r0.2.1, r1.2.2.1 - r0.2.2.1, r1.2.2.2 - r0.2.2.2))

/-! ## The accesses to the tables of an irregular dimension -/

/-- An access `p[index]` to the table of starts or to the table of widths of
a dimension. -/
inductive Table_read where
  | starts (index : Int) : Table_read
  | widths (index : Int) : Table_read
  deriving DecidableEq, Repr

/-- The accesses to the tables of dimension `idim` that
`nonspatial_voxel_to_world` (volumes.c 2578-2607) makes, in order: none for
a negative index or a regular dimension, `irregular_starts[idim][size-1]` and
`irregular_widths[idim][size-1]` for an index past the end, and
`irregular_starts[idim][voxel]` otherwise. -/
def nonspatial_voxel_to_world_reads {K : Type} (volume : volume_struct K)
    (idim voxel : Int) : List Table_read :=
  if is_volume_dimension_irregular volume idim then
    if voxel < 0 then
      []
    else if voxel ≥ volume.sizes idim then
      let voxel := volume.sizes idim - 1
      [Table_read.starts voxel, Table_read.widths voxel]
    else
      [Table_read.starts voxel]
  else
    []

/-- The accesses to the tables of dimension `idim` that
`nonspatial_world_to_voxel` (volumes.c 2609-2629) makes, in order: every
iteration `i` of the loop, up to and including the one that breaks, reads
`irregular_starts[idim][i]` and `irregular_widths[idim][i]`. -/
def nonspatial_world_to_voxel_reads
    (volume : volume_struct K) (idim : Int) (world : K) : List Table_read :=
  if is_volume_dimension_irregular volume idim then
    let i := for_less_break 0 (volume.sizes idim)
      (fun i => decide (world < (volume.irregular_starts idim).read i +
                                (volume.irregular_widths idim).read i))
    let iterations := if i < volume.sizes idim then i + 1 else volume.sizes idim
    (List.range iterations.toNat).flatMap
      (fun (k : Nat) => [Table_read.starts (Int.ofNat k), Table_read.widths (Int.ofNat k)])
  else
    []

/-! ## Predicates used to state the properties -/

/-- The cross product of `u` and `v` is the zero vector: the two vectors are
collinear (this is the test of volumes.c 798-800). -/
def cross_is_zero (u v : Int → K) : Prop :=
  u 1 * v 2 - u 2 * v 1 = 0 ∧ u 2 * v 0 - u 0 * v 2 = 0 ∧ u 0 * v 1 - u 1 * v 0 = 0

/-- The vector `u` has Euclidean length 1. -/
def is_unit_vector (u : Int → K) : Prop :=
  u 0 * u 0 + u 1 * u 1 + u 2 * u 2 = 1

/-- The mapped entries of `spatial_axes` are distinct dimension indices. -/
def axes_distinct (spatial_axes : Int → Int) : Prop :=
  ∀ c c', 0 ≤ c → c < 3 → 0 ≤ c' → c' < 3 → 0 ≤ spatial_axes c →
    spatial_axes c = spatial_axes c' → c = c'

/-- The weight of canonical axis `c` in a combination of the mapped direction
cosines: `a c` when the axis is mapped, nothing otherwise. -/
def mapped_term (spatial_axes : Int → Int)
    (direction_cosines : Int → Int → K) (a : Int → K) (c k : Int) : K :=
  if spatial_axes c ≥ 0 then a c * direction_cosines (spatial_axes c) k else 0

/-- Component `k` of the combination, with coefficients `a`, of the direction
cosines of the mapped axes. -/
def mapped_combination (spatial_axes : Int → Int)
    (direction_cosines : Int → Int → K) (a : Int → K) (k : Int) : K :=
  mapped_term spatial_axes direction_cosines a 0 k
  + mapped_term spatial_axes direction_cosines a 1 k
  + mapped_term spatial_axes direction_cosines a 2 k

/-- The direction cosines of the mapped axes are linearly independent: a
combination of them vanishes only when every coefficient of a mapped axis is
zero. -/
def mapped_independent (spatial_axes : Int → Int)
    (direction_cosines : Int → Int → K) : Prop :=
  ∀ a : Int → K,
    (∀ k, 0 ≤ k → k < 3 → mapped_combination spatial_axes direction_cosines a k = 0) →
    ∀ c, 0 ≤ c → c < 3 → 0 ≤ spatial_axes c → a c = 0

/-- The array `directions` of `compute_world_transform` after the basis
completion and before the singularity check. -/
def completed_basis (sqrt : K → K)
    (spatial_axes : Int → Int) (separations : Int → K)
    (direction_cosines : Int → Int → K) (starts : Int → K) : Int → Int → K :=
  cwt_complete sqrt (cwt_collect spatial_axes separations direction_cosines starts)

/-- The argument `step_signs` of the decomposer when it does not alias the
output `steps`: the null pointer (`none`) or an array of its own. -/
def separate_signs {K : Type} (signs : Option (Int → K)) : Step_signs K :=
  match signs with
  | none => Step_signs.NULL
  | some a => Step_signs.array a

/-- The sign the decomposer gives the step of canonical axis `c`
(volumes.c 1038-1051) when `step_signs` does not alias `steps`. -/
def step_sign (axes : Int → Int → K)
    (signs : Option (Int → K)) (spatial_axes : Int → Int) (c : Int) : K :=
  match signs with
  | none => if axes c c < 0 then -1 else 1
  | some a => if a (spatial_axes c) < 0 then -1 else 1

/-- The magnitude the decomposer gives the step of canonical axis `c`
(volumes.c 1032-1036). -/
def step_mag (sqrt : K → K) (axes : Int → Int → K)
    (c : Int) : K :=
  sqrt (if dot_vectors 3 (axes c) (axes c) ≤ 0 then 1 else dot_vectors 3 (axes c) (axes c))

/-- The sign the decomposer gives the step of canonical axis `c`
(volumes.c 1038-1051), for every form of the argument `step_signs`.  When
`step_signs` is the output array `steps` itself, the entry it reads is the
default step 1.0 for a dimension below `n_volume_dimensions` and the previous
content of `steps` for any other. -/
def step_sign_of (axes : Int → Int → K) (step_signs : Step_signs K)
    (n_volume_dimensions : Int) (steps : Int → K) (spatial_axes : Int → Int) (c : Int) : K :=
  match step_signs with
  | Step_signs.NULL => if axes c c < 0 then -1 else 1
  | Step_signs.array a => if a (spatial_axes c) < 0 then -1 else 1
  | Step_signs.steps =>
    if (if spatial_axes c < n_volume_dimensions then 1 else steps (spatial_axes c)) < 0 then -1
    else 1


/-- The start system of `convert_transform_origin_to_starts` is singular: two
mapped axes with a zero denominator `bottom`, or three mapped axes for which
`solve_linear_system` fails. -/
def start_system_singular (origin : Int → K)
    (spatial_axes : Int → Int) (dir_cosines : Int → Int → K) : Prop :=
  ((ctots_which spatial_axes).2 = 2 ∧
      ctots_bottom dir_cosines (ctots_which spatial_axes).1 = 0) ∨
  ((ctots_which spatial_axes).2 = 3 ∧
      solve_linear_system (ctots_matrix dir_cosines (ctots_which spatial_axes).1) origin = none)

/-- The coefficient function with values `a`, `b`, `c` at 0, 1, 2. -/
def coefficients (a b c : K) : Int → K :=
  fun i => if i = 0 then a else if i = 1 then b else c

/-- The vector `(y+z, -x-z, y-x)` that `compute_world_transform` builds from
`d = (x, y, z)` (volumes.c 772-777). -/
def orthogonal_vector (d : Int → K) : Int → K :=
  fun k => if k = 0 then d 1 + d 2 else if k = 1 then -d 0 - d 2 else d 1 - d 0

/-- The cross product of two vectors, as computed by `cross_3D_vector`. -/
def cross_product (u v : Int → K) : Int → K :=
  fun k => if k = 0 then u 1 * v 2 - u 2 * v 1
           else if k = 1 then u 2 * v 0 - u 0 * v 2
           else u 0 * v 1 - u 1 * v 0

/-- The divisor of `normalize_vector`: the square root of the squared length,
or of 1 when the squared length is not positive. -/
def vector_norm (sqrt : K → K) (u : Int → K) : K :=
  sqrt (if u 0 * u 0 + u 1 * u 1 + u 2 * u 2 ≤ 0 then 1 else u 0 * u 0 + u 1 * u 1 + u 2 * u 2)

/-- The slot of the lower mapped axis when `e` is the unmapped one. -/
def lower_axis (e : Int) : Int := if e = 0 then 1 else 0

/-- The slot of the upper mapped axis when `e` is the unmapped one. -/
def upper_axis (e : Int) : Int := if e = 2 then 1 else 2

/-- The determinant of the matrix whose rows are `u`, `v`, `w`. -/
def triple_product (u v w : Int → K) : K :=
  u 0 * (v 1 * w 2 - v 2 * w 1) - u 1 * (v 0 * w 2 - v 2 * w 0)
    + u 2 * (v 0 * w 1 - v 1 * w 0)

/-- The natural range of a storage type, lower end: 0 for the unsigned
integer types, -128, -32768 and -2147483648 for the signed ones, `-FLT_MAX`
for float and `-DBL_MAX` for double. -/
def natural_voxel_min (data_type : Data_types) : K :=
  match data_type with
  | Data_types.UNSIGNED_BYTE => 0
  | Data_types.SIGNED_BYTE => -128
  | Data_types.UNSIGNED_SHORT => 0
  | Data_types.SIGNED_SHORT => -32768
  | Data_types.UNSIGNED_INT => 0
  | Data_types.SIGNED_INT => -2147483648
  | Data_types.FLOAT => -FLT_MAX
  | Data_types.DOUBLE => -DBL_MAX
  | Data_types.NO_DATA_TYPE => 0

/-- The natural range of a storage type, upper end: 255, 127, 65535, 32767,
4294967295 and 2147483647 for the integer types, `FLT_MAX` for float and
`DBL_MAX` for double. -/
def natural_voxel_max (data_type : Data_types) : K :=
  match data_type with
  | Data_types.UNSIGNED_BYTE => 255
  | Data_types.SIGNED_BYTE => 127
  | Data_types.UNSIGNED_SHORT => 65535
  | Data_types.SIGNED_SHORT => 32767
  | Data_types.UNSIGNED_INT => 4294967295
  | Data_types.SIGNED_INT => 2147483647
  | Data_types.FLOAT => FLT_MAX
  | Data_types.DOUBLE => DBL_MAX
  | Data_types.NO_DATA_TYPE => 0

/-- The voxel range kept for a requested pair: the natural range of the
storage type for a pair with `voxel_min >= voxel_max`, the pair itself
otherwise (and for an array without a storage type). -/
def kept_range (data_type : Data_types)
    (voxel_min voxel_max : K) : K × K :=
  if voxel_min ≥ voxel_max ∧ data_type ≠ Data_types.NO_DATA_TYPE then
    (natural_voxel_min data_type, natural_voxel_max data_type)
  else
    (voxel_min, voxel_max)

/-- The storage type holds integers. -/
def is_integer_type (data_type : Data_types) : Prop :=
  data_type = Data_types.UNSIGNED_BYTE ∨ data_type = Data_types.SIGNED_BYTE ∨
  data_type = Data_types.UNSIGNED_SHORT ∨ data_type = Data_types.SIGNED_SHORT ∨
  data_type = Data_types.UNSIGNED_INT ∨ data_type = Data_types.SIGNED_INT

/-- The storage type holds floating-point numbers. -/
def is_floating_type (data_type : Data_types) : Prop :=
  data_type = Data_types.FLOAT ∨ data_type = Data_types.DOUBLE

/-- One call of a function that sets the storage type or a range of a
volume, with its arguments. -/
inductive Range_call (K : Type) where
  | type (nc_data_type : nc_type) (signed_flag : Bool) (voxel_min voxel_max : K) :
      Range_call K
  | voxel_range (voxel_min voxel_max : K) : Range_call K
  | real_range (real_min real_max : K) : Range_call K

/-- The volume after one call of `set_volume_type`, `set_volume_voxel_range`
or `set_volume_real_range`. -/
def Range_call.apply (call : Range_call K)
    (volume : volume_struct K) : volume_struct K :=
  match call with
  | Range_call.type nc_data_type signed_flag voxel_min voxel_max =>
    set_volume_type volume nc_data_type signed_flag voxel_min voxel_max
  | Range_call.voxel_range voxel_min voxel_max =>
    set_volume_voxel_range volume voxel_min voxel_max
  | Range_call.real_range real_min real_max =>
    set_volume_real_range volume real_min real_max

/-- The volume after a sequence of calls, in order. -/
def apply_calls (calls : List (Range_call K))
    (volume : volume_struct K) : volume_struct K :=
  calls.foldl (fun v call => call.apply v) volume

/-- The storage type is one of the eight and the voxel range is not
degenerate. -/
def range_valid (volume : volume_struct K) : Prop :=
  volume.data_type ≠ Data_types.NO_DATA_TYPE ∧ volume.voxel_min < volume.voxel_max

/-- The name of the canonical axis `a`: "xspace", "yspace", "zspace" for
0, 1, 2. -/
def spatial_name (a : Int) : String :=
  if a = 0 then MIxspace else if a = 1 then MIyspace else MIzspace

/-- The name `create_volume` uses for dimension `i`: the given name, or the
default name of a volume of `n_dimensions` dimensions when the list of names
is null. -/
def dimension_name (n_dimensions : Int) (dimension_names : Option (Int → String))
    (i : Int) : String :=
  match dimension_names with
  | some names => names i
  | none => default_dimension_names (n_dimensions - 1) i

/-- The storage type that `set_volume_type` derives from a file type other
than `MI_ORIGINAL_TYPE` and the signed flag. -/
def storage_type (nc_data_type : nc_type) (signed_flag : Bool) : Data_types :=
  match nc_data_type with
  | nc_type.NC_BYTE => if signed_flag then Data_types.SIGNED_BYTE else Data_types.UNSIGNED_BYTE
  | nc_type.NC_SHORT =>
    if signed_flag then Data_types.SIGNED_SHORT else Data_types.UNSIGNED_SHORT
  | nc_type.NC_INT => if signed_flag then Data_types.SIGNED_INT else Data_types.UNSIGNED_INT
  | nc_type.NC_FLOAT => Data_types.FLOAT
  | nc_type.NC_DOUBLE => Data_types.DOUBLE
  | nc_type.MI_ORIGINAL_TYPE => Data_types.NO_DATA_TYPE

/-- Canonical axis `a` is mapped to the last of the dimensions `0..k-1` named
after it, or carries -1 when none of them is. -/
def axis_of_names (name : Int → String) (k : Int) (spatial_axes : Int → Int) (a : Int) :
    Prop :=
  (spatial_axes a = -1 ∧ ∀ i, 0 ≤ i → i < k → name i ≠ spatial_name a) ∨
  (0 ≤ spatial_axes a ∧ spatial_axes a < k ∧ name (spatial_axes a) = spatial_name a ∧
    ∀ j, spatial_axes a < j → j < k → name j ≠ spatial_name a)

/-- The entries of dimension `i` are as `create_volume` initialises them:
start 0, separation 1, no tables, size 0, the name `name i`, and the unit
vector along the canonical axis the dimension is named after as direction
cosine (the zero vector for any other name). -/
def initial_dimension (name : Int → String)
    (volume : volume_struct K) (sizes : Int → Int) (i : Int) : Prop :=
  volume.starts i = 0 ∧ volume.separations i = 1 ∧
  volume.irregular_starts i = Real_table.NULL ∧
  volume.irregular_widths i = Real_table.NULL ∧
  sizes i = 0 ∧ volume.dimension_names i = name i ∧
  ∀ a, 0 ≤ a → a < 3 →
    volume.direction_cosines i a = if name i = spatial_name a then 1 else 0

/-- The value-range scaling and the flags are as `create_volume` initialises
them: no real range, scale 1, translation 0, not an RGB volume, not cached. -/
def initial_flags (volume : volume_struct K) : Prop :=
  volume.real_range_set = false ∧ volume.real_value_scale = 1 ∧
  volume.real_value_translation = 0 ∧ volume.is_rgba_data = false ∧
  volume.is_cached_volume = false

/-- The state of a volume of `n_dimensions` dimensions with the names `name`
right after its creation. -/
def initial_state (n_dimensions : Int)
    (name : Int → String) (volume : volume_struct K) : Prop :=
  volume.n_dimensions = n_dimensions ∧ initial_flags volume ∧
  (∀ i, 0 ≤ i → i < n_dimensions → initial_dimension name volume volume.sizes i) ∧
  (∀ a, 0 ≤ a → a < 3 → axis_of_names name n_dimensions volume.spatial_axes a) ∧
  volume.voxel_to_world_transform = create_linear_transform make_identity_transform ∧
  volume.voxel_to_world_transform_uptodate = true ∧
  volume.coordinate_system_name = MI_UNKNOWN_SPACE

/-- The state of the loop over the dimensions in `create_volume` before
dimension `k` is initialised: the volume and the local array `sizes`. -/
def creation_stage (name : Int → String) (k : Int)
    (s : volume_struct K × (Int → Int)) : Prop :=
  initial_flags s.1 ∧
  (∀ i, 0 ≤ i → i < k → initial_dimension name s.1 s.2 i) ∧
  (∀ a, 0 ≤ a → a < 3 → axis_of_names name k s.1.spatial_axes a)

/-- The volume `copy` has the definition of `volume`: the same number of
dimensions, names, sizes, separations and starts of the dimensions, the same
axis mapping, the same direction cosine on every spatial dimension, the same
coordinate system name, storage type, signedness and voxel range, and the
same real range. -/
def same_definition (volume copy : volume_struct K) :
    Prop :=
  copy.n_dimensions = volume.n_dimensions ∧
  (∀ i, 0 ≤ i → i < volume.n_dimensions →
    copy.dimension_names i = volume.dimension_names i ∧
    copy.sizes i = volume.sizes i ∧
    copy.separations i = volume.separations i ∧
    copy.starts i = volume.starts i) ∧
  (∀ c, 0 ≤ c → c < 3 → copy.spatial_axes c = volume.spatial_axes c) ∧
  (∀ c, 0 ≤ c → c < 3 → 0 ≤ volume.spatial_axes c →
    volume.spatial_axes c < volume.n_dimensions →
    ∀ k, 0 ≤ k → k < 3 →
      copy.direction_cosines (volume.spatial_axes c) k
        = volume.direction_cosines (volume.spatial_axes c) k) ∧
  copy.coordinate_system_name = volume.coordinate_system_name ∧
  copy.data_type = volume.data_type ∧
  copy.signed_flag = volume.signed_flag ∧
  copy.voxel_min = volume.voxel_min ∧
  copy.voxel_max = volume.voxel_max ∧
  get_volume_real_min copy = get_volume_real_min volume ∧
  get_volume_real_max copy = get_volume_real_max volume

/-- A table fits a dimension of `size` samples: the pointer is null, or it
points to a block of exactly `size` entries.  A pointer whose block has been
freed does not fit. -/
def table_fits {K : Type} (size : Int) : Real_table K → Prop
  | Real_table.NULL => True
  | Real_table.table count _ => count = size
  | Real_table.freed => False

/-- Every table of starts and of widths that is present on a dimension of
the volume has as many entries as the dimension has samples. -/
def tables_fit {K : Type} (volume : volume_struct K) : Prop :=
  ∀ i, 0 ≤ i → i < volume.n_dimensions →
    table_fits (volume.sizes i) (volume.irregular_starts i) ∧
    table_fits (volume.sizes i) (volume.irregular_widths i)

/-- One call of an operation that changes the sizes or the tables of a
volume: `set_volume_sizes`, `set_volume_irregular_starts`,
`set_volume_irregular_widths`, or `copy_volume_definition`, after which
either the source (`copy_source`) or the returned copy (`copy`) is followed.
`copy_volume` on a volume that is not cached is `copy_volume_definition` with
`MI_ORIGINAL_TYPE`. -/
inductive Table_call (K : Type) where
  | sizes (sizes : Int → Int) : Table_call K
  | irregular_starts (malloc_ok : Bool) (idim count : Int) (starts : Option (Int → K)) :
      Table_call K
  | irregular_widths (malloc_ok : Bool) (idim count : Int) (widths : Option (Int → K)) :
      Table_call K
  | copy_source (alloc : volume_struct K) (malloc_ok : Bool) (type_size : Data_types → Int)
      (n_bytes_cache_threshold : Int) (nc_data_type : nc_type) (signed_flag : Bool)
      (voxel_min voxel_max : K) : Table_call K
  | copy (alloc : volume_struct K) (malloc_ok : Bool) (type_size : Data_types → Int)
      (n_bytes_cache_threshold : Int) (nc_data_type : nc_type) (signed_flag : Bool)
      (voxel_min voxel_max : K) : Table_call K

/-- The volume that is followed after one call; a copy that is null leaves
the source to be followed. -/
def Table_call.apply (call : Table_call K)
    (volume : volume_struct K) : volume_struct K :=
  match call with
  | Table_call.sizes new_sizes => set_volume_sizes volume new_sizes
  | Table_call.irregular_starts malloc_ok idim count starts =>
    (set_volume_irregular_starts malloc_ok volume idim count starts).2
  | Table_call.irregular_widths malloc_ok idim count widths =>
    (set_volume_irregular_widths malloc_ok volume idim count widths).2
  | Table_call.copy_source alloc malloc_ok type_size n_bytes_cache_threshold nc_data_type
      signed_flag voxel_min voxel_max =>
    (copy_volume_definition alloc malloc_ok type_size n_bytes_cache_threshold volume
      nc_data_type signed_flag voxel_min voxel_max).2
  | Table_call.copy alloc malloc_ok type_size n_bytes_cache_threshold nc_data_type
      signed_flag voxel_min voxel_max =>
    match (copy_volume_definition alloc malloc_ok type_size n_bytes_cache_threshold volume
      nc_data_type signed_flag voxel_min voxel_max).1 with
    | some new_copy => new_copy
    | none => volume

/-- The calls that keep the tables fitting: a change of sizes keeps the size
of every dimension that has a table; an installer is called on a dimension
that is not negative and, when the dimension is one of the volume, with a
table and a count of at least the size of the dimension, or with the null
pointer while the dimension has no such table.  Copies are not restricted. -/
def Table_call.admissible {K : Type} (call : Table_call K) (volume : volume_struct K) :
    Prop :=
  match call with
  | Table_call.sizes new_sizes =>
    ∀ i, 0 ≤ i → i < volume.n_dimensions →
      ((volume.irregular_starts i).not_null = true ∨
        (volume.irregular_widths i).not_null = true) →
      new_sizes i = volume.sizes i
  | Table_call.irregular_starts _ idim count starts =>
    0 ≤ idim ∧ (idim < volume.n_dimensions →
      match starts with
      | some _ => volume.sizes idim ≤ count
      | none => volume.irregular_starts idim = Real_table.NULL)
  | Table_call.irregular_widths _ idim count widths =>
    0 ≤ idim ∧ (idim < volume.n_dimensions →
      match widths with
      | some _ => volume.sizes idim ≤ count
      | none => volume.irregular_widths idim = Real_table.NULL)
  | Table_call.copy_source _ _ _ _ _ _ _ _ => True
  | Table_call.copy _ _ _ _ _ _ _ _ => True

/-- The volume after a sequence of calls, in order. -/
def apply_table_calls (calls : List (Table_call K))
    (volume : volume_struct K) : volume_struct K :=
  calls.foldl (fun v call => call.apply v) volume

/-- Every call of the sequence is admissible in the state it is made in. -/
def table_calls_admissible :
    List (Table_call K) → volume_struct K → Prop
  | [], _ => True
  | call :: calls, volume =>
    call.admissible volume ∧ table_calls_admissible calls (call.apply volume)

/-- Every entry of `spatial_axes` is -1, or the index of a dimension of the
volume whose direction cosine is a unit vector. -/
def spatial_axes_valid (volume : volume_struct K) : Prop :=
  ∀ a, 0 ≤ a → a < 3 →
    volume.spatial_axes a = -1 ∨
    (0 ≤ volume.spatial_axes a ∧ volume.spatial_axes a < volume.n_dimensions ∧
      is_unit_vector (volume.direction_cosines (volume.spatial_axes a)))

/-- One call of an operation on the geometry of a volume:
`set_volume_direction_cosine`, `set_volume_direction_unit_cosine`,
`set_volume_separations`, `set_volume_starts`, `set_volume_translation` or
`set_voxel_to_world_transform`. -/
inductive Geometry_call (K : Type) where
  | direction_cosine (axis : Int) (dir : Int → K) : Geometry_call K
  | direction_unit_cosine (axis : Int) (dir : Int → K) : Geometry_call K
  | separations (separations : Int → K) : Geometry_call K
  | starts (starts : Int → K) : Geometry_call K
  | translation (voxel world_space_voxel_maps_to : Int → K) : Geometry_call K
  | transform (transform : General_transform K) : Geometry_call K

/-- The volume after one call on its geometry. -/
def Geometry_call.apply (sqrt : K → K)
    (call : Geometry_call K) (volume : volume_struct K) : volume_struct K :=
  match call with
  | Geometry_call.direction_cosine axis dir => set_volume_direction_cosine sqrt volume axis dir
  | Geometry_call.direction_unit_cosine axis dir =>
    set_volume_direction_unit_cosine volume axis dir
  | Geometry_call.separations new_separations =>
    set_volume_separations volume new_separations
  | Geometry_call.starts new_starts => set_volume_starts volume new_starts
  | Geometry_call.translation voxel world_space_voxel_maps_to =>
    set_volume_translation sqrt volume voxel world_space_voxel_maps_to
  | Geometry_call.transform new_transform =>
    set_voxel_to_world_transform sqrt volume new_transform

/-- The calls that keep the direction cosines unit vectors:
`set_volume_direction_unit_cosine` is given a unit vector, and a linear
transform given to `set_voxel_to_world_transform` has a column that is not
zero for every canonical axis that is mapped.  The other calls are not
restricted. -/
def Geometry_call.admissible (call : Geometry_call K)
    (volume : volume_struct K) : Prop :=
  match call with
  | Geometry_call.direction_unit_cosine _ dir => is_unit_vector dir
  | Geometry_call.transform new_transform =>
    get_transform_type new_transform = Transform_types.LINEAR →
    ∀ a, 0 ≤ a → a < 3 → 0 ≤ volume.spatial_axes a →
      ¬ (Transform_elem (get_linear_transform_ptr new_transform) 0 a = 0 ∧
        Transform_elem (get_linear_transform_ptr new_transform) 1 a = 0 ∧
        Transform_elem (get_linear_transform_ptr new_transform) 2 a = 0)
  | _ => True

/-- The volume after a sequence of calls on its geometry, in order. -/
def apply_geometry_calls (sqrt : K → K)
    (calls : List (Geometry_call K)) (volume : volume_struct K) : volume_struct K :=
  calls.foldl (fun v call => call.apply sqrt v) volume

/-- Every call of the sequence is admissible in the state it is made in. -/
def geometry_calls_admissible (sqrt : K → K) :
    List (Geometry_call K) → volume_struct K → Prop
  | [], _ => True
  | call :: calls, volume =>
    call.admissible volume ∧ geometry_calls_admissible sqrt calls (call.apply sqrt volume)

/-- The product of the sizes of the dimensions of a volume, as an integer. -/
def sizes_product {K : Type} (volume : volume_struct K) : Int :=
  ((List.range volume.n_dimensions.toNat).map
    (fun (k : Nat) => volume.sizes (Int.ofNat k))).prod

/-- The access is inside a table that the dimension has: the table is
present and the index is one of its entries. -/
def read_in_table {K : Type} (volume : volume_struct K) (idim : Int) : Table_read → Prop
  | Table_read.starts index =>
    ∃ count entries, volume.irregular_starts idim = Real_table.table count entries ∧
      0 ≤ index ∧ index < count
  | Table_read.widths index =>
    ∃ count entries, volume.irregular_widths idim = Real_table.table count entries ∧
      0 ≤ index ∧ index < count

/-- The state of the volume on entry to the call of `set_volume_real_range`
that `set_volume_voxel_range( volume, voxel_min, voxel_max )` makes when a
real range is set (volumes.c 2134-2138): the new voxel range is stored. -/
def voxel_range_entry (volume : volume_struct K)
    (voxel_min voxel_max : K) : volume_struct K :=
  { volume with
    voxel_min := (kept_range volume.data_type voxel_min voxel_max).1
    voxel_max := (kept_range volume.data_type voxel_min voxel_max).2 }

/-- The state of the volume on entry to the call of `set_volume_voxel_range`
that `set_volume_type` makes for a file type other than `MI_ORIGINAL_TYPE`
(volumes.c 283-286): the storage type and the signed flag are stored. -/
def type_entry {K : Type} (volume : volume_struct K) (nc_data_type : nc_type)
    (signed_flag : Bool) : volume_struct K :=
  { set_multidim_data_type volume (storage_type nc_data_type signed_flag) with
    signed_flag := signed_flag }

/-- The dot product of two triples. -/
def dot3 (u v : K × K × K) : K :=
  u.1 * v.1 + u.2.1 * v.2.1 + u.2.2 * v.2.2

/-- The triple of the canonical components of a voxel vector. -/
def canonical_triple (volume : volume_struct K)
    (voxel : Int → K) : K × K × K :=
  (reorder_voxel_to_xyz volume voxel (fun _ => 0) X,
   reorder_voxel_to_xyz volume voxel (fun _ => 0) Y,
   reorder_voxel_to_xyz volume voxel (fun _ => 0) Z)

/-- The geometry of `volume` synthesises to the linear transform `t`:
`compute_world_transform` on its spatial axes, separations, direction cosines
and starts returns a linear transform whose entries in rows 0..2 and columns
0..3 are those of `t`, whose last row is 0, 0, 0, 1, and which maps every
point, forwards and backwards, as `create_linear_transform t` does. -/
def synthesises_to (sqrt : K → K)
    (volume : volume_struct K) (t : Transform K) : Prop :=
  ∃ g, compute_world_transform sqrt volume.spatial_axes volume.separations
      volume.direction_cosines volume.starts = some g ∧
    g.type = Transform_types.LINEAR ∧
    (∀ i j, 0 ≤ i → i < 3 → 0 ≤ j → j < 4 →
      Transform_elem g.linear_transform i j = Transform_elem t i j) ∧
    (Transform_elem g.linear_transform 3 0 = 0 ∧ Transform_elem g.linear_transform 3 1 = 0 ∧
      Transform_elem g.linear_transform 3 2 = 0 ∧ Transform_elem g.linear_transform 3 3 = 1) ∧
    ∀ x y z,
      general_transform_point g x y z
        = general_transform_point (create_linear_transform t) x y z ∧
      general_inverse_transform_point g x y z
        = general_inverse_transform_point (create_linear_transform t) x y z

/-- The two volumes convert alike: every voxel to the same world point and
every world point to the same voxel, whatever the content of the
uninitialised local of the lazy recompute and of the output array. -/
def same_conversions (sqrt : K → K)
    (volume other : volume_struct K) : Prop :=
  ∀ (w : General_transform K) (voxel : Int → K) (x y z : K),
    (convert_voxel_to_world sqrt w volume voxel).2
      = (convert_voxel_to_world sqrt w other voxel).2 ∧
    (convert_world_to_voxel sqrt w volume x y z voxel).2
      = (convert_world_to_voxel sqrt w other x y z voxel).2

/-! ## Sample data -/

/-- The axis mapping of a three-dimensional volume whose dimensions are
(z, y, x): X is dimension 2, Y is dimension 1, Z is dimension 0. -/
def axes_zyx : Int → Int :=
  fun c => if c = 0 then 2 else if c = 1 then 1 else if c = 2 then 0 else -1

/-- Direction cosines that are neither unit nor orthogonal: dimension 2 has
(1, 0, 0), dimension 1 has (1, 2, 0), dimension 0 has (0, 0, 3). -/
def skew_cosines : Int → Int → K :=
  fun axis dim =>
    if axis = 2 then (if dim = 0 then 1 else 0)
    else if axis = 1 then (if dim = 0 then 1 else if dim = 1 then 2 else 0)
    else if axis = 0 then (if dim = 2 then 3 else 0)
    else 0

/-- Separations 2, 3, 5 for the dimensions 0, 1, 2. -/
def sample_separations : Int → K :=
  fun axis => if axis = 0 then 2 else if axis = 1 then 3 else 5

/-- Starts 7, 11, 13 for the dimensions 0, 1, 2. -/
def sample_starts : Int → K :=
  fun axis => if axis = 0 then 7 else if axis = 1 then 11 else 13

/-- A linear transform whose X column is (3, 4, 0), whose Y column is the
zero vector, whose Z column is (0, 0, -2) and whose origin is (1, 2, 3). -/
def sample_transform : Transform K :=
  fun i j =>
    if j = 0 then (if i = 0 then 3 else if i = 1 then 4 else 0)
    else if j = 1 then 0
    else if j = 2 then (if i = 2 then -2 else 0)
    else if j = 3 then (if i = 0 then 1 else if i = 1 then 2 else if i = 2 then 3 else 1)
    else 0

/-- The axis mapping of a two-dimensional volume whose dimensions are (x, y):
X is dimension 0, Y is dimension 1, Z is unmapped. -/
def axes_xy : Int → Int :=
  fun c => if c = 0 then 0 else if c = 1 then 1 else -1

/-- A linear transform whose X and Y columns are both (1, 0, 0), whose Z
column is (0, 0, 1) and whose origin is (1, 2, 3). -/
def flat_transform : Transform K :=
  fun i j =>
    if j = 0 then (if i = 0 then 1 else 0)
    else if j = 1 then (if i = 0 then 1 else 0)
    else if j = 2 then (if i = 2 then 1 else 0)
    else if j = 3 then (if i = 0 then 1 else if i = 1 then 2 else if i = 2 then 3 else 1)
    else 0

/-- The point (5, 10, 6), which is 2 times (0, 0, 3) plus 5 times (1, 2, 0). -/
def sample_origin : Int → K :=
  fun k => if k = 0 then 5 else if k = 1 then 10 else 6

/-- Unit direction cosines that are pairwise not collinear but lie in one
plane: dimension 2 has (1, 0, 0), dimension 1 has (0, 1, 0), dimension 0 has
(3/5, 4/5, 0). -/
def coplanar_cosines : Int → Int → K :=
  fun axis dim =>
    if axis = 2 then (if dim = 0 then 1 else 0)
    else if axis = 1 then (if dim = 1 then 1 else 0)
    else if axis = 0 then (if dim = 0 then 3 / 5 else if dim = 1 then 4 / 5 else 0)
    else 0

/-- The axis mapping of a one-dimensional volume whose dimension is x: X is
dimension 0, Y and Z are unmapped. -/
def axes_x : Int → Int :=
  fun c => if c = 0 then 0 else -1

/-- The unit direction cosine (1, 1, -1) / sqrt 3, for every dimension. -/
def diagonal_cosines (sqrt : K → K) : Int → Int → K :=
  fun _ dim => if dim = 2 then -(1 / sqrt 3) else 1 / sqrt 3

/-- A three-dimensional volume with the dimensions (x, y, t), as
`create_volume` leaves it: X is dimension 0, Y is dimension 1, dimension 2 is
not spatial; starts 0, separations 1, the direction cosines of x and y are
the unit vectors along X and Y, the identity transform is cached and up
to date, the storage type is unsigned byte with the voxel range 0 to 255 and
every size is 0. -/
def slice_volume : volume_struct K :=
  { n_dimensions := 3
    spatial_axes := axes_xy
    starts := fun _ => 0
    separations := fun _ => 1
    direction_cosines := fun axis dim =>
      if axis = 0 ∧ dim = 0 then 1 else if axis = 1 ∧ dim = 1 then 1 else 0
    voxel_to_world_transform_uptodate := true
    voxel_to_world_transform := create_linear_transform make_identity_transform
    sizes := fun _ => 0
    data_type := Data_types.UNSIGNED_BYTE
    nc_data_type := nc_type.NC_BYTE
    signed_flag := false
    voxel_min := 0
    voxel_max := 255
    real_range_set := false
    real_value_scale := 1
    real_value_translation := 0
    is_rgba_data := false
    is_cached_volume := false
    irregular_starts := fun _ => Real_table.NULL
    irregular_widths := fun _ => Real_table.NULL
    dimension_names := fun i =>
      if i = 0 then "xspace" else if i = 1 then "yspace" else if i = 2 then "time" else ""
    coordinate_system_name := "unknown___" }

/-- The unsigned byte volume `slice_volume` after
`set_volume_real_range( volume, -1000, 1000 )`. -/
def scaled_byte_volume : volume_struct K :=
  set_volume_real_range slice_volume (-1000) 1000

/-- The volume `scaled_byte_volume` with the storage type set to `FLOAT`: the
state in which `set_volume_type( volume, NC_FLOAT, ... )` calls
`set_volume_voxel_range` (volumes.c 283-286). -/
def retyped_volume : volume_struct K :=
  { set_multidim_data_type (scaled_byte_volume : volume_struct K) Data_types.FLOAT with
    signed_flag := false }

/-- A volume of storage type `FLOAT` with the voxel range 0 to 1. -/
def float_volume : volume_struct K :=
  { (slice_volume : volume_struct K) with
    data_type := Data_types.FLOAT
    nc_data_type := nc_type.NC_FLOAT
    voxel_min := 0
    voxel_max := 1 }

/-- A record whose memory holds zeros: every number 0, every flag false,
every pointer null, the first value of every enumeration. -/
def zeroed_record : volume_struct K :=
  { n_dimensions := 0
    spatial_axes := fun _ => 0
    starts := fun _ => 0
    separations := fun _ => 0
    direction_cosines := fun _ _ => 0
    voxel_to_world_transform_uptodate := false
    voxel_to_world_transform :=
      { type := Transform_types.LINEAR
        linear_transform := fun _ _ => 0
        inverse_linear_transform := fun _ _ => 0
        nonlinear_point := fun x y z => (x, y, z)
        nonlinear_inverse_point := fun x y z => (x, y, z) }
    sizes := fun _ => 0
    data_type := Data_types.NO_DATA_TYPE
    nc_data_type := nc_type.MI_ORIGINAL_TYPE
    signed_flag := false
    voxel_min := 0
    voxel_max := 0
    real_range_set := false
    real_value_scale := 0
    real_value_translation := 0
    is_rgba_data := false
    is_cached_volume := false
    irregular_starts := fun _ => Real_table.NULL
    irregular_widths := fun _ => Real_table.NULL
    dimension_names := fun _ => ""
    coordinate_system_name := "" }

/-- A three-dimensional volume with the dimensions (z, y, x), the direction
cosines `skew_cosines`, the separations 2, 3, 5 and the starts 7, 11, 13,
whose cached transform is not up to date. -/
def skew_volume : volume_struct K :=
  { (slice_volume : volume_struct K) with
    spatial_axes := axes_zyx
    direction_cosines := skew_cosines
    separations := sample_separations
    starts := sample_starts
    voxel_to_world_transform_uptodate := false }

/-- The table of starts 0, 10, 25. -/
def table_starts : Int → K :=
  fun i => if i = 0 then 0 else if i = 1 then 10 else if i = 2 then 25 else 0

/-- The table of widths 10, 15, 5. -/
def table_widths : Int → K :=
  fun i => if i = 0 then 10 else if i = 1 then 15 else if i = 2 then 5 else 0

/-- The volume `slice_volume` with three samples in every dimension and the
tables `table_starts` and `table_widths` installed on dimension 2. -/
def timed_volume : volume_struct K :=
  { (slice_volume : volume_struct K) with
    sizes := fun _ => 3
    irregular_starts := store (fun _ => Real_table.NULL) 2 (Real_table.table 3 table_starts)
    irregular_widths := store (fun _ => Real_table.NULL) 2 (Real_table.table 3 table_widths) }

/-- The axis mapping of a volume without a spatial dimension. -/
def axes_none : Int → Int :=
  fun _ => -1

/-- A one-dimensional volume whose dimension is not spatial, with a cached
identity transform that is up to date. -/
def timeline_volume : volume_struct K :=
  { (slice_volume : volume_struct K) with
    n_dimensions := 1
    spatial_axes := axes_none
    direction_cosines := fun _ _ => 0
    dimension_names := fun i => if i = 0 then "time" else "" }

/-- The three-dimensional volume `slice_volume` with 65536 samples in every
dimension. -/
def huge_volume : volume_struct K :=
  { (slice_volume : volume_struct K) with sizes := fun _ => 65536 }

/-- The volume `slice_volume` with the separation -2 in every dimension. -/
def mirrored_volume : volume_struct K :=
  { (slice_volume : volume_struct K) with separations := fun _ => -2 }

/-- The volume `slice_volume` with the starts 7, 11, 13; dimension 2, "time",
is not spatial. -/
def offset_volume : volume_struct K :=
  { (slice_volume : volume_struct K) with starts := sample_starts }

/-- The volume `timed_volume` without its table of widths: dimension 2 has
three samples and a table of starts only. -/
def half_tabled_volume : volume_struct K :=
  { (timed_volume : volume_struct K) with irregular_widths := fun _ => Real_table.NULL }

/-- The volume `slice_volume`, whose dimensions have no samples, with tables
of no entries installed on dimension 2. -/
def empty_axis_volume : volume_struct K :=
  { (slice_volume : volume_struct K) with
    irregular_starts := store (fun _ => Real_table.NULL) 2 (Real_table.table 0 (fun _ => 0))
    irregular_widths := store (fun _ => Real_table.NULL) 2 (Real_table.table 0 (fun _ => 0)) }

/-- The linear transform with the columns (3, 4, 0), (0, 2, 0), (1, 0, -2)
and the translation (1, 2, 3); its determinant is -12. -/
def oblique_transform : Transform K :=
  fun i j =>
    if j = 0 then (if i = 0 then 3 else if i = 1 then 4 else 0)
    else if j = 1 then (if i = 1 then 2 else 0)
    else if j = 2 then (if i = 0 then 1 else if i = 2 then -2 else 0)
    else if j = 3 then (if i = 0 then 1 else if i = 1 then 2 else if i = 2 then 3 else 1)
    else 0

/-- The vector (10^200, 0, 0). -/
def huge_vector : Int → K :=
  fun k => if k = 0 then ((10 ^ 200 : Nat) : K) else 0

/-- A linear transform whose X column is (10^200, 0, 0), whose Y column is
(0, 1, 0), whose Z column is (0, 0, 1) and whose origin is (0, 0, 0). -/
def huge_transform : Transform K :=
  fun i j => if i = 0 ∧ j = 0 then ((10 ^ 200 : Nat) : K) else if i = j then 1 else 0

/-- A linear transform whose X column is (1 / 10^200, 0, 0), whose Y column
is (0, 1, 0), whose Z column is (0, 0, 1) and whose origin is (0, 0, 0). -/
def tiny_transform : Transform K :=
  fun i j => if i = 0 ∧ j = 0 then 1 / ((10 ^ 200 : Nat) : K) else if i = j then 1 else 0

/-- The axis mapping of a three-dimensional volume whose dimensions are
(x, y, z): X is dimension 0, Y is dimension 1, Z is dimension 2. -/
def axes_xyz : Int → Int :=
  fun c => if c = 0 then 0 else if c = 1 then 1 else if c = 2 then 2 else -1

/-- The volume `slice_volume` with three samples in the dimensions 0 and 1
and one sample in dimension 2, the start 10^17 in every dimension, and on
dimension 2 the table of the start 10^17 and the table of the width 1. -/
def far_volume : volume_struct K :=
  { (slice_volume : volume_struct K) with
    sizes := fun i => if i = 2 then 1 else 3
    starts := fun _ => 100000000000000000
    irregular_starts :=
      store (fun _ => Real_table.NULL) 2 (Real_table.table 1 (fun _ => 100000000000000000))
    irregular_widths := store (fun _ => Real_table.NULL) 2 (Real_table.table 1 (fun _ => 1)) }

/-- The volume `skew_volume` holding the linear transform `huge_transform`,
with its inverse, as its up-to-date voxel-to-world transform. -/
def stretched_volume : volume_struct K :=
  { (skew_volume : volume_struct K) with
    voxel_to_world_transform := create_linear_transform huge_transform
    voxel_to_world_transform_uptodate := true }

/-- The voxel vector with the entry `x` in dimension 2 and 0 elsewhere. -/
def along_dimension_two (x : K) : Int → K :=
  fun i => if i = 2 then x else 0

/-- The vector (49, 0, 0). -/
def long_vector : Int → K :=
  fun k => if k = 0 then 49 else 0

/-- The vector (1, 0, 0). -/
def short_vector : Int → K :=
  fun k => if k = 0 then 1 else 0

/-- A linear transform whose X column is (49, 0, 0), whose Y column is
(0, 1, 0), whose Z column is (0, 0, 1) and whose origin is (0, 0, 0). -/
def scaling_transform : Transform K :=
  fun i j => if i = 0 ∧ j = 0 then 49 else if i = j then 1 else 0

/-- The vector (2, 0, 5). -/
def slant_vector : Int → K :=
  fun k => if k = 0 then 2 else if k = 2 then 5 else 0

/-- A linear transform whose X column is (2, 0, 5), whose Y column is
(0, 1, 0), whose Z column is (0, 0, 1) and whose origin is (0, 0, 0). -/
def shear_transform : Transform K :=
  fun i j => if j = 0 then slant_vector i else if i = j then 1 else 0

/-- The volume `skew_volume` holding the linear transform `scaling_transform`,
with its inverse, as its up-to-date voxel-to-world transform. -/
def scaled_volume : volume_struct K :=
  { (skew_volume : volume_struct K) with
    voxel_to_world_transform := create_linear_transform scaling_transform
    voxel_to_world_transform_uptodate := true }

end

/-! ## Loops and array stores -/

theorem for_less_three {σ : Type} (body : Int → σ → σ) (s : σ) :
    for_less 0 3 body s = body 2 (body 1 (body 0 s)) := rfl

theorem for_less_break_three (stop : Int → Bool) :
    for_less_break 0 3 stop
      = if stop 0 then 0 else if stop 1 then 1 else if stop 2 then 2 else 3 := by
  have hr : List.range (3 - 0 : Int).toNat = [0, 1, 2] := rfl
  unfold for_less_break
  rw [hr]
  cases h0 : stop 0 <;> cases h1 : stop 1 <;> cases h2 : stop 2 <;>
    simp [List.find?, h0, h1, h2]

theorem store_apply {α : Type} (a : Int → α) (i : Int) (v : α) (j : Int) :
    store a i v j = if j = i then v else a j := rfl

theorem store2_apply {α : Type} (a : Int → Int → α) (i j : Int) (v : α) (i' j' : Int) :
    store2 a i j v i' j' = if i' = i then (if j' = j then v else a i' j') else a i' j' := by
  unfold store2 store
  split <;> rfl

theorem int_lt_three {c : Int} (h0 : 0 ≤ c) (h3 : c < 3) : c = 0 ∨ c = 1 ∨ c = 2 := by
  omega

theorem dot_vectors_three {K : Type} [LinearOrderedField K] (u v : Int → K) :
    dot_vectors 3 u v = u 0 * v 0 + u 1 * v 1 + u 2 * v 2 := by
  unfold dot_vectors
  rw [for_less_three]
  ring

theorem for_less_store {α : Type} (n : Int) (f : Int → α) (a : Int → α) :
    for_less 0 n (fun i s => store s i (f i)) a
      = fun i => if 0 ≤ i ∧ i < n then f i else a i := by
  unfold for_less
  have key : ∀ m : Nat,
      (List.range m).foldl
          (fun s (k : Nat) => (fun i s => store s i (f i)) (0 + Int.ofNat k) s) a
        = fun i => if 0 ≤ i ∧ i < (m : Int) then f i else a i := by
    intro m
    induction m with
    | zero =>
      funext i
      have : ¬ (0 ≤ i ∧ i < 0) := by omega
      simp [this]
    | succ m ih =>
      rw [List.range_succ, List.foldl_append, ih]
      funext i
      simp only [List.foldl_cons, List.foldl_nil, store_apply, zero_add, Int.ofNat_eq_coe]
      by_cases h : i = (m : Int)
      · subst h
        have : (0 : Int) ≤ (m : Int) ∧ (m : Int) < ((m + 1 : Nat) : Int) := by omega
        simp only [if_true, this, and_self]
      · by_cases h' : 0 ≤ i ∧ i < (m : Int)
        · have : 0 ≤ i ∧ i < ((m + 1 : Nat) : Int) := by omega
          simp only [h, h', this, if_true, if_false, and_self]
        · have : ¬ (0 ≤ i ∧ i < ((m + 1 : Nat) : Int)) := by omega
          simp only [h, h', this, if_true, if_false, and_self]
  rw [key]
  funext i
  have : (0 ≤ i ∧ i < (((n - 0).toNat : Nat) : Int)) ↔ (0 ≤ i ∧ i < n) := by omega
  simp only [this]

/-! ## The synthesizer, stage by stage -/

theorem cwt_make_linear {K : Type} [LinearOrderedField K] (d : Int → Int → K)
    (s t : Int → K) (dim c : Int) (hd0 : 0 ≤ dim) (hd3 : dim < 3) (hc0 : 0 ≤ c)
    (hc3 : c < 3) : cwt_make d s t dim c = d c dim * s c := by
  rcases int_lt_three hd0 hd3 with h | h | h <;>
    rcases int_lt_three hc0 hc3 with h' | h' | h' <;>
    subst h <;> subst h' <;>
    simp [cwt_make, for_less_three, store2_apply, Transform_elem, make_identity_transform]

theorem cwt_make_translation {K : Type} [LinearOrderedField K] (d : Int → Int → K)
    (s t : Int → K) (dim : Int) (hd0 : 0 ≤ dim) (hd3 : dim < 3) :
    cwt_make d s t dim 3 = d 0 dim * t 0 + d 1 dim * t 1 + d 2 dim * t 2 := by
  rcases int_lt_three hd0 hd3 with h | h | h <;>
    subst h <;>
    simp [cwt_make, for_less_three, store2_apply, Transform_elem, make_identity_transform]

theorem cwt_make_bottom {K : Type} [LinearOrderedField K] (d : Int → Int → K)
    (s t : Int → K) (c : Int) : cwt_make d s t 3 c = if c = 3 then 1 else 0 := by
  simp [cwt_make, for_less_three, store2_apply, Transform_elem, make_identity_transform]
  split_ifs <;> simp_all

theorem cwt_normal_is_zero_iff {K : Type} [LinearOrderedField K] (d : Int → Int → K)
    (dim : Int) :
    cwt_normal_is_zero d dim = true ↔ cross_is_zero (d dim) (d ((dim + 1) % 3)) := by
  simp [cwt_normal_is_zero, cross_is_zero, cross_3D_vector, store_apply]

theorem cwt_check_regular {K : Type} [LinearOrderedField K] (d : Int → Int → K)
    (h : ∀ dim, 0 ≤ dim → dim < 3 → ¬ cross_is_zero (d dim) (d ((dim + 1) % 3))) :
    cwt_check d = d := by
  have h0 := h 0 (by norm_num) (by norm_num)
  have h1 := h 1 (by norm_num) (by norm_num)
  have h2 := h 2 (by norm_num) (by norm_num)
  rw [← cwt_normal_is_zero_iff] at h0 h1 h2
  simp [cwt_check, for_less_break_three, h0, h1, h2]

theorem cwt_check_singular {K : Type} [LinearOrderedField K] (d : Int → Int → K)
    (h : ∃ dim, 0 ≤ dim ∧ dim < 3 ∧ cross_is_zero (d dim) (d ((dim + 1) % 3)))
    (c dim : Int) (hc0 : 0 ≤ c) (hc3 : c < 3) (hd0 : 0 ≤ dim) (hd3 : dim < 3) :
    cwt_check d c dim = if c = dim then 1 else 0 := by
  obtain ⟨k, hk0, hk3, hk⟩ := h
  rw [← cwt_normal_is_zero_iff] at hk
  have hlt : for_less_break 0 N_DIMENSIONS (cwt_normal_is_zero d) < N_DIMENSIONS := by
    rw [for_less_break_three]
    rcases int_lt_three hk0 hk3 with h | h | h <;> subst h <;> split_ifs <;> decide
  unfold cwt_check
  simp only [hlt, if_true]
  rcases int_lt_three hc0 hc3 with h | h | h <;>
    rcases int_lt_three hd0 hd3 with h' | h' | h' <;>
    subst h <;> subst h' <;> simp [store2_apply]

theorem cwt_collect_n_axes {K : Type} [LinearOrderedField K] (sa : Int → Int)
    (sep st : Int → K) (dc : Int → Int → K) :
    (cwt_collect sa sep dc st).n_axes
      = (if sa 0 ≥ 0 then 1 else 0) + (if sa 1 ≥ 0 then 1 else 0)
        + (if sa 2 ≥ 0 then 1 else 0) := by
  simp only [cwt_collect, for_less_three]
  split_ifs <;> simp

theorem cwt_collect_separations {K : Type} [LinearOrderedField K] (sa : Int → Int)
    (sep st : Int → K) (dc : Int → Int → K) (c : Int) (hc0 : 0 ≤ c) (hc3 : c < 3) :
    (cwt_collect sa sep dc st).separations_3D c = if sa c ≥ 0 then sep (sa c) else 1 := by
  simp only [cwt_collect, for_less_three]
  rcases int_lt_three hc0 hc3 with h | h | h <;> subst h <;>
    split_ifs <;> simp_all [store_apply]

theorem cwt_collect_starts {K : Type} [LinearOrderedField K] (sa : Int → Int)
    (sep st : Int → K) (dc : Int → Int → K) (c : Int) (hc0 : 0 ≤ c) (hc3 : c < 3) :
    (cwt_collect sa sep dc st).starts_3D c = if sa c ≥ 0 then st (sa c) else 0 := by
  simp only [cwt_collect, for_less_three]
  rcases int_lt_three hc0 hc3 with h | h | h <;> subst h <;>
    split_ifs <;> simp_all [store_apply]

theorem cwt_collect_directions {K : Type} [LinearOrderedField K] (sa : Int → Int)
    (sep st : Int → K) (dc : Int → Int → K) (c dim : Int) (hc0 : 0 ≤ c) (hc3 : c < 3)
    (hd0 : 0 ≤ dim) (hd3 : dim < 3) :
    (cwt_collect sa sep dc st).directions c dim = if sa c ≥ 0 then dc (sa c) dim else 0 := by
  simp only [cwt_collect, for_less_three]
  rcases int_lt_three hc0 hc3 with h | h | h <;>
    rcases int_lt_three hd0 hd3 with h' | h' | h' <;>
    subst h <;> subst h' <;>
    split_ifs <;> simp_all [store2_apply]

theorem cwt_collect_n_axes_pos {K : Type} [LinearOrderedField K] (sa : Int → Int)
    (sep st : Int → K) (dc : Int → Int → K)
    (h : ∃ c, 0 ≤ c ∧ c < 3 ∧ 0 ≤ sa c) : (cwt_collect sa sep dc st).n_axes ≠ 0 := by
  obtain ⟨c, hc0, hc3, hc⟩ := h
  rw [cwt_collect_n_axes]
  rcases int_lt_three hc0 hc3 with h | h | h <;> subst h <;> simp only [ge_iff_le, hc, if_true] <;>
    split_ifs <;> omega

theorem compute_world_transform_some {K : Type} [LinearOrderedField K] (sqrt : K → K)
    (sa : Int → Int) (sep st : Int → K) (dc : Int → Int → K)
    (h : ∃ c, 0 ≤ c ∧ c < 3 ∧ 0 ≤ sa c) :
    compute_world_transform sqrt sa sep dc st
      = some (create_linear_transform
          (cwt_make (cwt_check (completed_basis sqrt sa sep dc st))
            (cwt_collect sa sep dc st).separations_3D (cwt_collect sa sep dc st).starts_3D)) := by
  unfold compute_world_transform completed_basis
  simp only [cwt_collect_n_axes_pos sa sep st dc h, if_false]

theorem completed_basis_three {K : Type} [LinearOrderedField K] (sqrt : K → K)
    (sa : Int → Int) (sep st : Int → K) (dc : Int → Int → K)
    (hm : ∀ c, 0 ≤ c → c < 3 → 0 ≤ sa c) :
    completed_basis sqrt sa sep dc st = (cwt_collect sa sep dc st).directions := by
  have h0 := hm 0 (by norm_num) (by norm_num)
  have h1 := hm 1 (by norm_num) (by norm_num)
  have h2 := hm 2 (by norm_num) (by norm_num)
  unfold completed_basis cwt_complete
  rw [cwt_collect_n_axes]
  simp [h0, h1, h2]

theorem cwt_three_axes_form {K : Type} [LinearOrderedField K] (sqrt : K → K)
    (sa : Int → Int) (sep st : Int → K) (dc : Int → Int → K)
    (hm : ∀ c, 0 ≤ c → c < 3 → 0 ≤ sa c)
    (hnc : ∀ c, 0 ≤ c → c < 3 → ¬ cross_is_zero (dc (sa c)) (dc (sa ((c + 1) % 3)))) :
    compute_world_transform sqrt sa sep dc st
      = some (create_linear_transform
          (cwt_make (cwt_collect sa sep dc st).directions
            (cwt_collect sa sep dc st).separations_3D (cwt_collect sa sep dc st).starts_3D)) := by
  have hdir : ∀ c dim, 0 ≤ c → c < 3 → 0 ≤ dim → dim < 3 →
      (cwt_collect sa sep dc st).directions c dim = dc (sa c) dim := by
    intro c dim hc0 hc3 hd0 hd3
    rw [cwt_collect_directions sa sep st dc c dim hc0 hc3 hd0 hd3]
    simp [hm c hc0 hc3]
  have hreg : cwt_check (completed_basis sqrt sa sep dc st)
      = (cwt_collect sa sep dc st).directions := by
    rw [completed_basis_three sqrt sa sep st dc hm]
    apply cwt_check_regular
    intro dim hd0 hd3 hz
    apply hnc dim hd0 hd3
    have hd' : 0 ≤ (dim + 1) % 3 ∧ (dim + 1) % 3 < 3 := by omega
    unfold cross_is_zero at hz ⊢
    simpa [hdir dim _ hd0 hd3, hdir ((dim + 1) % 3) _ hd'.1 hd'.2] using hz
  rw [compute_world_transform_some sqrt sa sep st dc
    ⟨0, by norm_num, by norm_num, hm 0 (by norm_num) (by norm_num)⟩, hreg]

theorem axes_zyx_mapped : ∀ c, 0 ≤ c → c < 3 → 0 ≤ axes_zyx c := by
  intro c h0 h3
  rcases int_lt_three h0 h3 with h | h | h <;> subst h <;> decide

theorem axes_distinct_ne {sa : Int → Int} (h : axes_distinct sa) (c c' : Int)
    (hc0 : 0 ≤ c) (hc3 : c < 3) (hc0' : 0 ≤ c') (hc3' : c' < 3) (hm : 0 ≤ sa c) (hne : c ≠ c') :
    sa c ≠ sa c' := fun e => hne (h c c' hc0 hc3 hc0' hc3' hm e)

theorem cttss_axis_other {K : Type} [LinearOrderedField K] (sqrt : K → K)
    (axes : Int → Int → K) (ss : Step_signs K) (sa : Int → Int) (dim : Int)
    (sd : (Int → K) × (Int → Int → K)) (i : Int) (h : i ≠ sa dim) :
    (cttss_axis sqrt axes ss sa dim sd).1 i = sd.1 i ∧
    (cttss_axis sqrt axes ss sa dim sd).2 i = sd.2 i := by
  unfold cttss_axis
  by_cases hm : sa dim ≥ 0
  · simp only [hm, if_true]
    refine ⟨by simp [store_apply, h], ?_⟩
    funext k
    simp [store2_apply, h]
  · simp only [hm, if_false, and_self]

theorem cttss_axis_self {K : Type} [LinearOrderedField K] (sqrt : K → K)
    (axes : Int → Int → K) (signs : Option (Int → K)) (sa : Int → Int) (dim : Int)
    (sd : (Int → K) × (Int → Int → K)) (hm : 0 ≤ sa dim) :
    (cttss_axis sqrt axes (separate_signs signs) sa dim sd).1 (sa dim)
      = step_sign axes signs sa dim * step_mag sqrt axes dim ∧
    ∀ k, 0 ≤ k → k < 3 →
      (cttss_axis sqrt axes (separate_signs signs) sa dim sd).2 (sa dim) k
        = axes dim k / (step_sign axes signs sa dim * step_mag sqrt axes dim) := by
  unfold cttss_axis
  simp only [ge_iff_le, hm, if_true]
  cases signs with
  | none =>
    refine ⟨by simp [separate_signs, step_sign, step_mag, store_apply], ?_⟩
    intro k hk0 hk3
    rcases int_lt_three hk0 hk3 with h | h | h <;> subst h <;>
      simp [separate_signs, step_sign, step_mag, store_apply, store2_apply]
  | some a =>
    refine ⟨by simp [separate_signs, step_sign, step_mag, store_apply], ?_⟩
    intro k hk0 hk3
    rcases int_lt_three hk0 hk3 with h | h | h <;> subst h <;>
      simp [separate_signs, step_sign, step_mag, store_apply, store2_apply]

theorem cttss_steps_mapped {K : Type} [LinearOrderedField K] (sqrt : K → K)
    (axes : Int → Int → K) (n : Int) (signs : Option (Int → K)) (sa : Int → Int)
    (hsa : axes_distinct sa) (steps : Int → K) (dcs : Int → Int → K)
    (c : Int) (hc0 : 0 ≤ c) (hc3 : c < 3) (hc : 0 ≤ sa c) :
    (cttss_steps sqrt axes n (separate_signs signs) sa steps dcs).1 (sa c)
      = step_sign axes signs sa c * step_mag sqrt axes c ∧
    ∀ k, 0 ≤ k → k < 3 →
      (cttss_steps sqrt axes n (separate_signs signs) sa steps dcs).2 (sa c) k
        = axes c k / (step_sign axes signs sa c * step_mag sqrt axes c) := by
  unfold cttss_steps
  rw [for_less_three]
  rcases int_lt_three hc0 hc3 with h | h | h <;> subst h
  · have h1 := axes_distinct_ne hsa 0 1 (by norm_num) (by norm_num) (by norm_num) (by norm_num) hc (by norm_num)
    have h2 := axes_distinct_ne hsa 0 2 (by norm_num) (by norm_num) (by norm_num) (by norm_num) hc (by norm_num)
    rw [(cttss_axis_other sqrt axes _ sa 2 _ (sa 0) h2).1, (cttss_axis_other sqrt axes _ sa 2 _ (sa 0) h2).2,
      (cttss_axis_other sqrt axes _ sa 1 _ (sa 0) h1).1, (cttss_axis_other sqrt axes _ sa 1 _ (sa 0) h1).2]
    exact cttss_axis_self sqrt axes signs sa 0 _ hc
  · have h2 := axes_distinct_ne hsa 1 2 (by norm_num) (by norm_num) (by norm_num) (by norm_num) hc (by norm_num)
    rw [(cttss_axis_other sqrt axes _ sa 2 _ (sa 1) h2).1, (cttss_axis_other sqrt axes _ sa 2 _ (sa 1) h2).2]
    exact cttss_axis_self sqrt axes signs sa 1 _ hc
  · exact cttss_axis_self sqrt axes signs sa 2 _ hc


theorem cttss_axes_apply {K : Type} [LinearOrderedField K] (t : Transform K) (c k : Int)
    (hc0 : 0 ≤ c) (hc3 : c < 3) : cttss_axes t c k = t k c := by
  rcases int_lt_three hc0 hc3 with h | h | h <;> subst h <;>
    simp [cttss_axes, store_apply, get_transform_x_axis_real, get_transform_y_axis_real,
      get_transform_z_axis_real, Transform_elem]

theorem convert_transform_linear {K : Type} [LinearOrderedField K] (sqrt : K → K)
    (T : General_transform K) (hT : T.type = Transform_types.LINEAR) (n : Int)
    (ss : Step_signs K) (sa : Int → Int) (starts steps : Int → K) (dcs : Int → Int → K) :
    convert_transform_to_starts_and_steps sqrt T n ss sa starts steps dcs
      = { starts := convert_transform_origin_to_starts
            (get_transform_origin_real T.linear_transform) n sa
            (cttss_steps sqrt (cttss_axes T.linear_transform) n ss sa steps dcs).2 starts
          steps := (cttss_steps sqrt (cttss_axes T.linear_transform) n ss sa steps dcs).1
          dir_cosines :=
            (cttss_steps sqrt (cttss_axes T.linear_transform) n ss sa steps dcs).2 } := by
  simp [convert_transform_to_starts_and_steps, get_transform_type, hT,
    get_linear_transform_ptr]

theorem step_mag_real (axes : Int → Int → ℝ) (c : Int) :
    0 < step_mag Real.sqrt axes c ∧
    step_mag Real.sqrt axes c
      = (if axes c 0 = 0 ∧ axes c 1 = 0 ∧ axes c 2 = 0 then 1
         else Real.sqrt (axes c 0 * axes c 0 + axes c 1 * axes c 1 + axes c 2 * axes c 2)) ∧
    (¬ (axes c 0 = 0 ∧ axes c 1 = 0 ∧ axes c 2 = 0) →
      step_mag Real.sqrt axes c * step_mag Real.sqrt axes c
        = axes c 0 * axes c 0 + axes c 1 * axes c 1 + axes c 2 * axes c 2) := by
  unfold step_mag
  rw [dot_vectors_three]
  have hq : 0 ≤ axes c 0 * axes c 0 + axes c 1 * axes c 1 + axes c 2 * axes c 2 := by
    nlinarith [mul_self_nonneg (axes c 0), mul_self_nonneg (axes c 1), mul_self_nonneg (axes c 2)]
  by_cases hz : axes c 0 = 0 ∧ axes c 1 = 0 ∧ axes c 2 = 0
  · obtain ⟨h0, h1, h2⟩ := hz
    simp [h0, h1, h2]
  · have hpos : 0 < axes c 0 * axes c 0 + axes c 1 * axes c 1 + axes c 2 * axes c 2 := by
      rcases lt_or_eq_of_le hq with h | h
      · exact h
      · exfalso
        apply hz
        have e0 : axes c 0 * axes c 0 = 0 := by nlinarith [mul_self_nonneg (axes c 0), mul_self_nonneg (axes c 1), mul_self_nonneg (axes c 2)]
        have e1 : axes c 1 * axes c 1 = 0 := by nlinarith [mul_self_nonneg (axes c 0), mul_self_nonneg (axes c 1), mul_self_nonneg (axes c 2)]
        have e2 : axes c 2 * axes c 2 = 0 := by nlinarith [mul_self_nonneg (axes c 0), mul_self_nonneg (axes c 1), mul_self_nonneg (axes c 2)]
        exact ⟨mul_self_eq_zero.mp e0, mul_self_eq_zero.mp e1, mul_self_eq_zero.mp e2⟩
    have hn : ¬ (axes c 0 * axes c 0 + axes c 1 * axes c 1 + axes c 2 * axes c 2 ≤ 0) := not_le.mpr hpos
    rw [if_neg hn, if_neg hz]
    exact ⟨Real.sqrt_pos.mpr hpos, rfl, fun _ => Real.mul_self_sqrt hq⟩

theorem step_sign_cases {K : Type} [LinearOrderedField K] (axes : Int → Int → K)
    (signs : Option (Int → K)) (sa : Int → Int) (c : Int) :
    (step_sign axes signs sa c = -1 ∧
        (match signs with
          | none => axes c c < 0
          | some a => a (sa c) < 0)) ∨
    (step_sign axes signs sa c = 1 ∧
        ¬ (match signs with
          | none => axes c c < 0
          | some a => a (sa c) < 0)) := by
  cases signs with
  | none =>
    by_cases h : axes c c < 0
    · left; simp [step_sign, h]
    · right; simp [step_sign, h]
  | some a =>
    by_cases h : a (sa c) < 0
    · left; simp [step_sign, h]
    · right; simp [step_sign, h]

theorem cttss_axis_self_signed {K : Type} [LinearOrderedField K] (sqrt : K → K)
    (axes : Int → Int → K) (ss : Step_signs K) (n : Int) (steps : Int → K) (sa : Int → Int)
    (dim : Int) (sd : (Int → K) × (Int → Int → K)) (hm : 0 ≤ sa dim)
    (hsd : sd.1 (sa dim) = if sa dim < n then 1 else steps (sa dim)) :
    (cttss_axis sqrt axes ss sa dim sd).1 (sa dim)
      = step_sign_of axes ss n steps sa dim * step_mag sqrt axes dim ∧
    ∀ k, 0 ≤ k → k < 3 →
      (cttss_axis sqrt axes ss sa dim sd).2 (sa dim) k
        = axes dim k / (step_sign_of axes ss n steps sa dim * step_mag sqrt axes dim) := by
  unfold cttss_axis
  simp only [ge_iff_le, hm, if_true, hsd]
  cases ss with
  | NULL =>
    refine ⟨by simp [step_sign_of, step_mag, store_apply], ?_⟩
    intro k hk0 hk3
    rcases int_lt_three hk0 hk3 with h | h | h <;> subst h <;>
      simp [step_sign_of, step_mag, store_apply, store2_apply]
  | array a =>
    refine ⟨by simp [step_sign_of, step_mag, store_apply], ?_⟩
    intro k hk0 hk3
    rcases int_lt_three hk0 hk3 with h | h | h <;> subst h <;>
      simp [step_sign_of, step_mag, store_apply, store2_apply]
  | steps =>
    refine ⟨by simp [step_sign_of, step_mag, store_apply], ?_⟩
    intro k hk0 hk3
    rcases int_lt_three hk0 hk3 with h | h | h <;> subst h <;>
      simp [step_sign_of, step_mag, store_apply, store2_apply]

theorem default_steps_at {K : Type} [LinearOrderedField K] (n : Int) (steps : Int → K)
    (i : Int) (h0 : 0 ≤ i) :
    for_less 0 n (fun dim st => store st dim (1 : K)) steps i
      = if i < n then 1 else steps i := by
  rw [for_less_store n (fun _ => (1 : K)) steps]
  by_cases h : i < n <;> simp [h0, h]

theorem cttss_steps_signed {K : Type} [LinearOrderedField K] (sqrt : K → K)
    (axes : Int → Int → K) (n : Int) (ss : Step_signs K) (sa : Int → Int)
    (hsa : axes_distinct sa) (steps : Int → K) (dcs : Int → Int → K)
    (c : Int) (hc0 : 0 ≤ c) (hc3 : c < 3) (hc : 0 ≤ sa c) :
    (cttss_steps sqrt axes n ss sa steps dcs).1 (sa c)
      = step_sign_of axes ss n steps sa c * step_mag sqrt axes c ∧
    ∀ k, 0 ≤ k → k < 3 →
      (cttss_steps sqrt axes n ss sa steps dcs).2 (sa c) k
        = axes c k / (step_sign_of axes ss n steps sa c * step_mag sqrt axes c) := by
  have hd := default_steps_at n steps (sa c) hc
  unfold cttss_steps
  rw [for_less_three]
  rcases int_lt_three hc0 hc3 with h | h | h <;> subst h
  · have h1 := axes_distinct_ne hsa 0 1 (by norm_num) (by norm_num) (by norm_num)
      (by norm_num) hc (by norm_num)
    have h2 := axes_distinct_ne hsa 0 2 (by norm_num) (by norm_num) (by norm_num)
      (by norm_num) hc (by norm_num)
    rw [(cttss_axis_other sqrt axes _ sa 2 _ (sa 0) h2).1,
      (cttss_axis_other sqrt axes _ sa 2 _ (sa 0) h2).2,
      (cttss_axis_other sqrt axes _ sa 1 _ (sa 0) h1).1,
      (cttss_axis_other sqrt axes _ sa 1 _ (sa 0) h1).2]
    exact cttss_axis_self_signed sqrt axes ss n steps sa 0 _ hc hd
  · have h0 := axes_distinct_ne hsa 1 0 (by norm_num) (by norm_num) (by norm_num)
      (by norm_num) hc (by norm_num)
    have h2 := axes_distinct_ne hsa 1 2 (by norm_num) (by norm_num) (by norm_num)
      (by norm_num) hc (by norm_num)
    rw [(cttss_axis_other sqrt axes _ sa 2 _ (sa 1) h2).1,
      (cttss_axis_other sqrt axes _ sa 2 _ (sa 1) h2).2]
    refine cttss_axis_self_signed sqrt axes ss n steps sa 1 _ hc ?_
    rw [(cttss_axis_other sqrt axes _ sa 0 _ (sa 1) h0).1]
    exact hd
  · have h0 := axes_distinct_ne hsa 2 0 (by norm_num) (by norm_num) (by norm_num)
      (by norm_num) hc (by norm_num)
    have h1 := axes_distinct_ne hsa 2 1 (by norm_num) (by norm_num) (by norm_num)
      (by norm_num) hc (by norm_num)
    refine cttss_axis_self_signed sqrt axes ss n steps sa 2 _ hc ?_
    rw [(cttss_axis_other sqrt axes _ sa 1 _ (sa 2) h1).1,
      (cttss_axis_other sqrt axes _ sa 0 _ (sa 2) h0).1]
    exact hd

theorem step_sign_of_cases {K : Type} [LinearOrderedField K] (axes : Int → Int → K)
    (ss : Step_signs K) (n : Int) (steps : Int → K) (sa : Int → Int) (c : Int) :
    (step_sign_of axes ss n steps sa c = -1 ∧
        (match ss with
          | Step_signs.NULL => axes c c < 0
          | Step_signs.array a => a (sa c) < 0
          | Step_signs.steps => n ≤ sa c ∧ steps (sa c) < 0)) ∨
    (step_sign_of axes ss n steps sa c = 1 ∧
        ¬ (match ss with
          | Step_signs.NULL => axes c c < 0
          | Step_signs.array a => a (sa c) < 0
          | Step_signs.steps => n ≤ sa c ∧ steps (sa c) < 0)) := by
  cases ss with
  | NULL =>
    by_cases h : axes c c < 0
    · left; simp [step_sign_of, h]
    · right; simp [step_sign_of, h]
  | array a =>
    by_cases h : a (sa c) < 0
    · left; simp [step_sign_of, h]
    · right; simp [step_sign_of, h]
  | steps =>
    by_cases hn : sa c < n
    · right
      have h1 : ¬ ((1 : K) < 0) := by norm_num
      simp only [step_sign_of, hn, if_true, h1, if_false, true_and]
      intro h
      omega
    · by_cases h : steps (sa c) < 0
      · left
        simp only [step_sign_of, hn, if_false, h, if_true, true_and]
        exact ⟨by omega, trivial⟩
      · right
        simp only [step_sign_of, hn, if_false, h, true_and]
        intro h'
        exact h'.2

theorem axes_zyx_distinct : axes_distinct axes_zyx := by
  intro c c' hc0 hc3 hc0' hc3' _ he
  rcases int_lt_three hc0 hc3 with h | h | h <;>
    rcases int_lt_three hc0' hc3' with h' | h' | h' <;>
    subst h <;> subst h' <;> first | rfl | (exfalso; revert he; decide)

/-- Claim C8, amended.  In exact real arithmetic, for every linear transform,
every form of the argument `step_signs` and every mapped canonical axis `c`
(the mapped dimensions being distinct), the direction cosine that
`convert_transform_to_starts_and_steps` returns for the dimension mapped to
`c`, multiplied by the returned step, is column `c` of the transform, and it
is a unit vector whenever that column is not the zero vector. -/
theorem decomposer_direction_cosines (T : General_transform ℝ)
    (hT : T.type = Transform_types.LINEAR)
    (n : Int) (step_signs : Step_signs ℝ) (sa : Int → Int) (hsa : axes_distinct sa)
    (starts steps : Int → ℝ) (dcs : Int → Int → ℝ)
    (c : Int) (hc0 : 0 ≤ c) (hc3 : c < 3) (hc : 0 ≤ sa c) :
    (∀ k, 0 ≤ k → k < 3 →
      (convert_transform_to_starts_and_steps Real.sqrt T n step_signs sa starts
          steps dcs).dir_cosines (sa c) k
        * (convert_transform_to_starts_and_steps Real.sqrt T n step_signs sa
            starts steps dcs).steps (sa c)
        = Transform_elem T.linear_transform k c) ∧
    (¬ (Transform_elem T.linear_transform 0 c = 0 ∧
          Transform_elem T.linear_transform 1 c = 0 ∧
          Transform_elem T.linear_transform 2 c = 0) →
      is_unit_vector
        ((convert_transform_to_starts_and_steps Real.sqrt T n step_signs sa
          starts steps dcs).dir_cosines (sa c))) := by
  rw [convert_transform_linear Real.sqrt T hT]
  simp only []
  obtain ⟨hst, hdc⟩ := cttss_steps_signed Real.sqrt (cttss_axes T.linear_transform) n
    step_signs sa hsa steps dcs c hc0 hc3 hc
  obtain ⟨hpos, -, hsq⟩ := step_mag_real (cttss_axes T.linear_transform) c
  have e0 := cttss_axes_apply T.linear_transform c 0 hc0 hc3
  have e1 := cttss_axes_apply T.linear_transform c 1 hc0 hc3
  have e2 := cttss_axes_apply T.linear_transform c 2 hc0 hc3
  have hne : step_sign_of (cttss_axes T.linear_transform) step_signs n steps sa c
      * step_mag Real.sqrt (cttss_axes T.linear_transform) c ≠ 0 := by
    rcases step_sign_of_cases (cttss_axes T.linear_transform) step_signs n steps sa c with
      ⟨hs, _⟩ | ⟨hs, _⟩ <;> rw [hs] <;> intro h <;> linarith
  have hss : step_sign_of (cttss_axes T.linear_transform) step_signs n steps sa c
      * step_sign_of (cttss_axes T.linear_transform) step_signs n steps sa c = 1 := by
    rcases step_sign_of_cases (cttss_axes T.linear_transform) step_signs n steps sa c with
      ⟨hs, _⟩ | ⟨hs, _⟩ <;> rw [hs] <;> norm_num
  constructor
  · intro k hk0 hk3
    rw [hst, hdc k hk0 hk3, cttss_axes_apply T.linear_transform c k hc0 hc3]
    simp only [Transform_elem]
    field_simp
  · intro hnz
    simp only [Transform_elem] at hnz
    rw [← e0, ← e1, ← e2] at hnz
    have hq := hsq hnz
    unfold is_unit_vector
    rw [hdc 0 (by norm_num) (by norm_num), hdc 1 (by norm_num) (by norm_num),
      hdc 2 (by norm_num) (by norm_num)]
    field_simp
    rw [← hq]
    have : (step_sign_of (cttss_axes T.linear_transform) step_signs n steps sa c
      * step_mag Real.sqrt (cttss_axes T.linear_transform) c) *
      (step_sign_of (cttss_axes T.linear_transform) step_signs n steps sa c
      * step_mag Real.sqrt (cttss_axes T.linear_transform) c)
      = step_mag Real.sqrt (cttss_axes T.linear_transform) c
        * step_mag Real.sqrt (cttss_axes T.linear_transform) c := by
      calc _ = (step_sign_of (cttss_axes T.linear_transform) step_signs n steps sa c
              * step_sign_of (cttss_axes T.linear_transform) step_signs n steps sa c)
              * (step_mag Real.sqrt (cttss_axes T.linear_transform) c
                * step_mag Real.sqrt (cttss_axes T.linear_transform) c) := by ring
        _ = _ := by rw [hss, one_mul]
    linarith


theorem decomposer_direction_cosines_witness :
    (create_linear_transform (sample_transform : Transform ℝ)).type = Transform_types.LINEAR ∧
    axes_distinct axes_zyx ∧ 0 ≤ axes_zyx 0 ∧
    (convert_transform_to_starts_and_steps Real.sqrt
        (create_linear_transform (sample_transform : Transform ℝ)) 3
        Step_signs.steps axes_zyx sample_starts sample_separations
        skew_cosines).dir_cosines 2 1
      * (convert_transform_to_starts_and_steps Real.sqrt
        (create_linear_transform (sample_transform : Transform ℝ)) 3
        Step_signs.steps axes_zyx sample_starts sample_separations
        skew_cosines).steps 2 = 4 ∧
    is_unit_vector
      ((convert_transform_to_starts_and_steps Real.sqrt
        (create_linear_transform (sample_transform : Transform ℝ)) 3
        Step_signs.steps axes_zyx sample_starts sample_separations
        skew_cosines).dir_cosines 2) := by
  have h := decomposer_direction_cosines
    (create_linear_transform (sample_transform : Transform ℝ)) rfl 3
    Step_signs.steps axes_zyx axes_zyx_distinct sample_starts sample_separations
    skew_cosines 0 (by norm_num) (by norm_num) (by decide)
  have e : axes_zyx 0 = 2 := by decide
  rw [e] at h
  refine ⟨rfl, axes_zyx_distinct, by decide, ?_, ?_⟩
  · rw [h.1 1 (by norm_num) (by norm_num)]
    norm_num [create_linear_transform, sample_transform, Transform_elem]
  · apply h.2
    norm_num [create_linear_transform, sample_transform, Transform_elem]

theorem ctots_singular_starts {K : Type} [LinearOrderedField K] (origin : Int → K) (n : Int)
    (sa : Int → Int) (dc : Int → Int → K) (starts : Int → K)
    (h : start_system_singular origin sa dc) :
    convert_transform_origin_to_starts origin n sa dc starts
      = fun i => if 0 ≤ i ∧ i < n then 0 else starts i := by
  unfold convert_transform_origin_to_starts
  rw [for_less_store n (fun _ => 0) starts]
  rcases h with ⟨h2, hb⟩ | ⟨h3, hs⟩
  · simp [h2, hb]
  · simp [h3, hs]

theorem axes_xy_distinct : axes_distinct axes_xy := by
  intro c c' hc0 hc3 hc0' hc3' hm he
  rcases int_lt_three hc0 hc3 with h | h | h <;>
    rcases int_lt_three hc0' hc3' with h' | h' | h' <;>
    subst h <;> subst h' <;> first | rfl | (exfalso; revert he hm; decide)

theorem flat_transform_singular :
    start_system_singular (get_transform_origin_real (flat_transform : Transform ℝ)) axes_xy
      (convert_transform_to_starts_and_steps Real.sqrt
        (create_linear_transform (flat_transform : Transform ℝ)) 2 Step_signs.NULL axes_xy
        sample_starts sample_separations skew_cosines).dir_cosines := by
  left
  have hw2 : (ctots_which axes_xy).2 = 2 := by decide
  have hw0 : (ctots_which axes_xy).1 0 = 0 := by decide
  have hw1 : (ctots_which axes_xy).1 1 = 1 := by decide
  refine ⟨hw2, ?_⟩
  rw [convert_transform_linear Real.sqrt _ rfl]
  simp only []
  have h0 := (cttss_steps_mapped Real.sqrt
    (cttss_axes (create_linear_transform (flat_transform : Transform ℝ)).linear_transform) 2 none
    axes_xy axes_xy_distinct sample_separations skew_cosines 0 (by norm_num) (by norm_num)
    (by decide)).2
  have h1 := (cttss_steps_mapped Real.sqrt
    (cttss_axes (create_linear_transform (flat_transform : Transform ℝ)).linear_transform) 2 none
    axes_xy axes_xy_distinct sample_separations skew_cosines 1 (by norm_num) (by norm_num)
    (by decide)).2
  have e0 : axes_xy 0 = 0 := by decide
  have e1 : axes_xy 1 = 1 := by decide
  rw [e0] at h0
  rw [e1] at h1
  have hs : separate_signs (none : Option (Int → ℝ)) = Step_signs.NULL := rfl
  rw [hs] at h0 h1
  unfold ctots_bottom
  rw [hw0, hw1]
  simp only [dot_vectors_three]
  rw [h0 0 (by norm_num) (by norm_num), h0 1 (by norm_num) (by norm_num),
    h0 2 (by norm_num) (by norm_num), h1 0 (by norm_num) (by norm_num),
    h1 1 (by norm_num) (by norm_num), h1 2 (by norm_num) (by norm_num)]
  simp only [cttss_axes_apply _ 0 _ (le_refl 0) (by norm_num : (0:Int) < 3),
    cttss_axes_apply _ 1 _ (by norm_num : (0:Int) ≤ 1) (by norm_num : (1:Int) < 3)]
  norm_num [create_linear_transform, flat_transform, step_sign, step_mag, dot_vectors_three,
    cttss_axes, store_apply, get_transform_x_axis_real, get_transform_y_axis_real,
    get_transform_z_axis_real, Transform_elem]


/-- Claim C10 (amended).  When the transform is linear and the start system
is singular (two mapped axes with a zero denominator, or three mapped axes
for which the linear solve fails), `convert_transform_to_starts_and_steps`
sets the start of every dimension 0..n_volume_dimensions-1 to 0.0 and leaves
the other entries of the caller's starts array as they were. -/
theorem decomposer_failure_starts (T : General_transform ℝ)
    (hT : T.type = Transform_types.LINEAR) (n : Int) (ss : Step_signs ℝ) (sa : Int → Int)
    (starts steps : Int → ℝ) (dcs : Int → Int → ℝ)
    (hsing : start_system_singular (get_transform_origin_real T.linear_transform) sa
      (convert_transform_to_starts_and_steps Real.sqrt T n ss sa starts steps
        dcs).dir_cosines) :
    ∀ i, (convert_transform_to_starts_and_steps Real.sqrt T n ss sa starts steps dcs).starts i
      = if 0 ≤ i ∧ i < n then 0 else starts i := by
  intro i
  rw [convert_transform_linear Real.sqrt T hT] at hsing ⊢
  simp only [] at hsing ⊢
  rw [ctots_singular_starts _ n sa _ starts hsing]

theorem decomposer_failure_starts_witness :
    (create_linear_transform (flat_transform : Transform ℝ)).type = Transform_types.LINEAR ∧
    start_system_singular (get_transform_origin_real (flat_transform : Transform ℝ)) axes_xy
      (convert_transform_to_starts_and_steps Real.sqrt
        (create_linear_transform (flat_transform : Transform ℝ)) 2 Step_signs.NULL axes_xy
        sample_starts sample_separations skew_cosines).dir_cosines ∧
    (convert_transform_to_starts_and_steps Real.sqrt
        (create_linear_transform (flat_transform : Transform ℝ)) 2 Step_signs.NULL axes_xy
        sample_starts sample_separations skew_cosines).starts 1 = 0 ∧
    (convert_transform_to_starts_and_steps Real.sqrt
        (create_linear_transform (flat_transform : Transform ℝ)) 2 Step_signs.NULL axes_xy
        sample_starts sample_separations skew_cosines).starts 2 = 13 := by
  have h := decomposer_failure_starts (create_linear_transform (flat_transform : Transform ℝ))
    rfl 2 Step_signs.NULL axes_xy sample_starts sample_separations skew_cosines
    flat_transform_singular
  refine ⟨rfl, flat_transform_singular, ?_, ?_⟩
  · rw [h 1]
    norm_num
  · rw [h 2]
    norm_num [sample_starts]

/-- Claim C10 as stated fails: the X and Y columns of `flat_transform` are
collinear, so the two-axis start system is singular, and the start of
dimension 0, which was 7 before the call, is 0 after it. -/
theorem decomposer_failure_counterexample :
    start_system_singular (get_transform_origin_real (flat_transform : Transform ℝ)) axes_xy
      (convert_transform_to_starts_and_steps Real.sqrt
        (create_linear_transform (flat_transform : Transform ℝ)) 2 Step_signs.NULL axes_xy
        sample_starts sample_separations skew_cosines).dir_cosines ∧
    ¬ (∀ i, (convert_transform_to_starts_and_steps Real.sqrt
        (create_linear_transform (flat_transform : Transform ℝ)) 2 Step_signs.NULL axes_xy
        sample_starts sample_separations skew_cosines).starts i = sample_starts i) := by
  refine ⟨flat_transform_singular, ?_⟩
  intro hall
  have h0 := hall 0
  have hs := flat_transform_singular
  rw [convert_transform_linear Real.sqrt _ rfl] at h0 hs
  simp only [] at h0 hs
  rw [ctots_singular_starts
    (get_transform_origin_real
      (create_linear_transform (flat_transform : Transform ℝ)).linear_transform)
    2 axes_xy _ sample_starts hs] at h0
  norm_num [sample_starts] at h0

/-! ## Linear algebra of three-vectors -/

theorem sum_three_squares_eq_zero {K : Type} [LinearOrderedField K] {a b c : K}
    (h : a * a + b * b + c * c = 0) : a = 0 ∧ b = 0 ∧ c = 0 := by
  have ha := mul_self_nonneg a
  have hb := mul_self_nonneg b
  have hc := mul_self_nonneg c
  refine ⟨mul_self_eq_zero.mp (by linarith), mul_self_eq_zero.mp (by linarith),
    mul_self_eq_zero.mp (by linarith)⟩

/-- Two vectors, independent: the cross product is not zero. -/
theorem cross_ne_zero_of_independent {K : Type} [LinearOrderedField K] (x y : Int → K)
    (hind : ∀ a b : K, (∀ k, 0 ≤ k → k < 3 → a * x k + b * y k = 0) → a = 0 ∧ b = 0) :
    ¬ cross_is_zero x y := by
  rintro ⟨h0, h1, h2⟩
  have hx : ∀ i, 0 ≤ i → i < 3 → x i = 0 := by
    intro i hi0 hi3
    have := (hind (y i) (-(x i)) (by
      intro k hk0 hk3
      rcases int_lt_three hi0 hi3 with h | h | h <;>
        rcases int_lt_three hk0 hk3 with h' | h' | h' <;> subst h <;> subst h' <;>
        linarith)).2
    linarith
  have := (hind 1 0 (by
    intro k hk0 hk3
    rw [hx k hk0 hk3]; ring)).1
  exact one_ne_zero this

theorem bottom_ne_zero_of_independent {K : Type} [LinearOrderedField K] (x y : Int → K)
    (hind : ∀ a b : K, (∀ k, 0 ≤ k → k < 3 → a * x k + b * y k = 0) → a = 0 ∧ b = 0) :
    (x 0 * x 0 + x 1 * x 1 + x 2 * x 2) * (y 0 * y 0 + y 1 * y 1 + y 2 * y 2)
      - (x 0 * y 0 + x 1 * y 1 + x 2 * y 2) * (x 0 * y 0 + x 1 * y 1 + x 2 * y 2) ≠ 0 := by
  intro hb
  apply cross_ne_zero_of_independent x y hind
  have hl : (x 1 * y 2 - x 2 * y 1) * (x 1 * y 2 - x 2 * y 1)
      + (x 2 * y 0 - x 0 * y 2) * (x 2 * y 0 - x 0 * y 2)
      + (x 0 * y 1 - x 1 * y 0) * (x 0 * y 1 - x 1 * y 0) = 0 := by
    rw [← hb]; ring
  exact sum_three_squares_eq_zero hl

/-- Three independent vectors: the determinant of the matrix of columns is not zero. -/
theorem det_ne_zero_of_independent {K : Type} [LinearOrderedField K] (x y z : Int → K)
    (hind : ∀ a b c : K, (∀ k, 0 ≤ k → k < 3 → a * x k + b * y k + c * z k = 0) →
      a = 0 ∧ b = 0 ∧ c = 0) :
    x 0 * (y 1 * z 2 - z 1 * y 2) - y 0 * (x 1 * z 2 - z 1 * x 2)
      + z 0 * (x 1 * y 2 - y 1 * x 2) ≠ 0 := by
  intro hd
  -- the rows of the adjugate are dependences
  have r0 := hind (y 1 * z 2 - y 2 * z 1) (z 1 * x 2 - z 2 * x 1) (x 1 * y 2 - x 2 * y 1) (by
    intro k hk0 hk3
    rcases int_lt_three hk0 hk3 with h | h | h <;> subst h
    · linear_combination hd
    · ring
    · ring)
  have r1 := hind (y 2 * z 0 - y 0 * z 2) (z 2 * x 0 - z 0 * x 2) (x 2 * y 0 - x 0 * y 2) (by
    intro k hk0 hk3
    rcases int_lt_three hk0 hk3 with h | h | h <;> subst h
    · ring
    · linear_combination hd
    · ring)
  have r2 := hind (y 0 * z 1 - y 1 * z 0) (z 0 * x 1 - z 1 * x 0) (x 0 * y 1 - x 1 * y 0) (by
    intro k hk0 hk3
    rcases int_lt_three hk0 hk3 with h | h | h <;> subst h
    · ring
    · ring
    · linear_combination hd)
  have hxy : cross_is_zero x y := ⟨r0.2.2, r1.2.2, r2.2.2⟩
  apply cross_ne_zero_of_independent x y _ hxy
  intro a b hab
  have := hind a b 0 (by
    intro k hk0 hk3
    have := hab k hk0 hk3
    linarith)
  exact ⟨this.1, this.2.1⟩

theorem ctots_one {K : Type} [LinearOrderedField K] (origin : Int → K) (n : Int)
    (sa : Int → Int) (dc : Int → Int → K) (starts : Int → K)
    (h1 : (ctots_which sa).2 = 1)
    (hc : dot_vectors 3 (dc ((ctots_which sa).1 0)) (dc ((ctots_which sa).1 0)) ≠ 0) :
    convert_transform_origin_to_starts origin n sa dc starts
      = store (fun i => if 0 ≤ i ∧ i < n then 0 else starts i) ((ctots_which sa).1 0)
          (dot_vectors 3 origin (dc ((ctots_which sa).1 0))
            / dot_vectors 3 (dc ((ctots_which sa).1 0)) (dc ((ctots_which sa).1 0))) := by
  unfold convert_transform_origin_to_starts
  rw [for_less_store n (fun _ => 0) starts]
  simp [h1, hc]

theorem ctots_two {K : Type} [LinearOrderedField K] (origin : Int → K) (n : Int)
    (sa : Int → Int) (dc : Int → Int → K) (starts : Int → K)
    (h2 : (ctots_which sa).2 = 2)
    (hb : ctots_bottom dc (ctots_which sa).1 ≠ 0) :
    convert_transform_origin_to_starts origin n sa dc starts
      = store (store (fun i => if 0 ≤ i ∧ i < n then 0 else starts i) ((ctots_which sa).1 0)
          ((dot_vectors 3 (dc ((ctots_which sa).1 0)) origin
              * dot_vectors 3 (dc ((ctots_which sa).1 1)) (dc ((ctots_which sa).1 1))
            - dot_vectors 3 (dc ((ctots_which sa).1 0)) (dc ((ctots_which sa).1 1))
              * dot_vectors 3 (dc ((ctots_which sa).1 1)) origin)
            / ctots_bottom dc (ctots_which sa).1))
          ((ctots_which sa).1 1)
          ((dot_vectors 3 (dc ((ctots_which sa).1 1)) origin
              * dot_vectors 3 (dc ((ctots_which sa).1 0)) (dc ((ctots_which sa).1 0))
            - dot_vectors 3 (dc ((ctots_which sa).1 0)) (dc ((ctots_which sa).1 1))
              * dot_vectors 3 (dc ((ctots_which sa).1 0)) origin)
            / ctots_bottom dc (ctots_which sa).1) := by
  unfold convert_transform_origin_to_starts
  rw [for_less_store n (fun _ => 0) starts]
  simp [h2, hb]

theorem ctots_three {K : Type} [LinearOrderedField K] (origin : Int → K) (n : Int)
    (sa : Int → Int) (dc : Int → Int → K) (starts : Int → K)
    (h3 : (ctots_which sa).2 = 3) (sol : Int → K)
    (hs : solve_linear_system (ctots_matrix dc (ctots_which sa).1) origin = some sol) :
    convert_transform_origin_to_starts origin n sa dc starts
      = store (store (store (fun i => if 0 ≤ i ∧ i < n then 0 else starts i)
          ((ctots_which sa).1 0) (sol 0)) ((ctots_which sa).1 1) (sol 1))
          ((ctots_which sa).1 2) (sol 2) := by
  unfold convert_transform_origin_to_starts
  rw [for_less_store n (fun _ => 0) starts]
  simp [h3, hs]

theorem ctots_matrix_apply {K : Type} [LinearOrderedField K] (dc : Int → Int → K)
    (w : Int → Int) (i j : Int) (hi0 : 0 ≤ i) (hi3 : i < 3) (hj0 : 0 ≤ j) (hj3 : j < 3) :
    ctots_matrix dc w i j = dc (w j) i := by
  rcases int_lt_three hi0 hi3 with h | h | h <;>
    rcases int_lt_three hj0 hj3 with h' | h' | h' <;>
    subst h <;> subst h' <;>
    simp [ctots_matrix, for_less_three, store2_apply]

theorem solve_linear_system_columns {K : Type} [LinearOrderedField K] (m : Int → Int → K)
    (v : Int → K) (a b c : K)
    (hv : ∀ k, 0 ≤ k → k < 3 → v k = a * m k 0 + b * m k 1 + c * m k 2)
    (hd : det3x3 m ≠ 0) :
    ∃ sol, solve_linear_system m v = some sol ∧ sol 0 = a ∧ sol 1 = b ∧ sol 2 = c := by
  unfold solve_linear_system
  simp only [hd, if_false]
  refine ⟨_, rfl, ?_, ?_, ?_⟩
  · simp only [if_true]
    rw [div_eq_iff hd]
    simp only [det3x3, if_true, if_false, hv 0 (by norm_num) (by norm_num),
      hv 1 (by norm_num) (by norm_num), hv 2 (by norm_num) (by norm_num)]
    norm_num
    ring
  · norm_num
    rw [div_eq_iff hd]
    simp only [det3x3, hv 0 (by norm_num) (by norm_num),
      hv 1 (by norm_num) (by norm_num), hv 2 (by norm_num) (by norm_num)]
    norm_num
    ring
  · norm_num
    rw [div_eq_iff hd]
    simp only [det3x3, hv 0 (by norm_num) (by norm_num),
      hv 1 (by norm_num) (by norm_num), hv 2 (by norm_num) (by norm_num)]
    norm_num
    ring

theorem ctots_which_eq (sa : Int → Int) :
    ctots_which sa =
      if 0 ≤ sa 0 then
        if 0 ≤ sa 1 then
          if 0 ≤ sa 2 then (store (store (store (fun _ => 0) 0 (sa 0)) 1 (sa 1)) 2 (sa 2), 3)
          else (store (store (fun _ => 0) 0 (sa 0)) 1 (sa 1), 2)
        else
          if 0 ≤ sa 2 then (store (store (fun _ => 0) 0 (sa 0)) 1 (sa 2), 2)
          else (store (fun _ => 0) 0 (sa 0), 1)
      else
        if 0 ≤ sa 1 then
          if 0 ≤ sa 2 then (store (store (fun _ => 0) 0 (sa 1)) 1 (sa 2), 2)
          else (store (fun _ => 0) 0 (sa 1), 1)
        else
          if 0 ≤ sa 2 then (store (fun _ => 0) 0 (sa 2), 1)
          else (fun _ => 0, 0) := by
  unfold ctots_which
  rw [for_less_three]
  by_cases m0 : 0 ≤ sa 0 <;> by_cases m1 : 0 ≤ sa 1 <;> by_cases m2 : 0 ≤ sa 2 <;>
    simp [m0, m1, m2]

theorem ctots_solves_one {K : Type} [LinearOrderedField K] (origin : Int → K) (n : Int)
    (sa : Int → Int) (dc : Int → Int → K) (starts : Int → K) (w : Int → Int) (c : Int)
    (hw : ctots_which sa = (w, 1)) (hw0 : w 0 = sa c) (t : K)
    (hne : ¬ (dc (sa c) 0 = 0 ∧ dc (sa c) 1 = 0 ∧ dc (sa c) 2 = 0))
    (ho : ∀ k, 0 ≤ k → k < 3 → origin k = t * dc (sa c) k) :
    convert_transform_origin_to_starts origin n sa dc starts
      = store (fun i => if 0 ≤ i ∧ i < n then 0 else starts i) (sa c) t := by
  have hcc : dot_vectors 3 (dc (sa c)) (dc (sa c)) ≠ 0 := by
    rw [dot_vectors_three]
    intro h
    exact hne (sum_three_squares_eq_zero h)
  rw [ctots_one origin n sa dc starts (by rw [hw]) (by rw [hw]; simpa [hw0] using hcc)]
  have e : dot_vectors 3 origin (dc (sa c)) / dot_vectors 3 (dc (sa c)) (dc (sa c)) = t := by
    rw [div_eq_iff hcc, dot_vectors_three, dot_vectors_three, ho 0 (by norm_num) (by norm_num),
      ho 1 (by norm_num) (by norm_num), ho 2 (by norm_num) (by norm_num)]
    ring
  simp only [hw, hw0, e]

theorem ctots_solves_two {K : Type} [LinearOrderedField K] (origin : Int → K) (n : Int)
    (sa : Int → Int) (dc : Int → Int → K) (starts : Int → K) (w : Int → Int) (c c' : Int)
    (hw : ctots_which sa = (w, 2)) (hw0 : w 0 = sa c) (hw1 : w 1 = sa c') (t t' : K)
    (hind : ∀ a b : K, (∀ k, 0 ≤ k → k < 3 → a * dc (sa c) k + b * dc (sa c') k = 0) →
      a = 0 ∧ b = 0)
    (ho : ∀ k, 0 ≤ k → k < 3 → origin k = t * dc (sa c) k + t' * dc (sa c') k) :
    convert_transform_origin_to_starts origin n sa dc starts
      = store (store (fun i => if 0 ≤ i ∧ i < n then 0 else starts i) (sa c) t) (sa c') t' := by
  have hb := bottom_ne_zero_of_independent (dc (sa c)) (dc (sa c')) hind
  have hb' : ctots_bottom dc w ≠ 0 := by
    unfold ctots_bottom
    simp only [dot_vectors_three, hw0, hw1]
    exact hb
  rw [ctots_two origin n sa dc starts (by rw [hw]) (by rw [hw]; exact hb')]
  simp only [hw, hw0, hw1]
  have e1 : (dot_vectors 3 (dc (sa c)) origin * dot_vectors 3 (dc (sa c')) (dc (sa c'))
      - dot_vectors 3 (dc (sa c)) (dc (sa c')) * dot_vectors 3 (dc (sa c')) origin)
      / ctots_bottom dc w = t := by
    rw [div_eq_iff hb']
    unfold ctots_bottom
    simp only [dot_vectors_three, hw0, hw1, ho 0 (by norm_num) (by norm_num),
      ho 1 (by norm_num) (by norm_num), ho 2 (by norm_num) (by norm_num)]
    ring
  have e2 : (dot_vectors 3 (dc (sa c')) origin * dot_vectors 3 (dc (sa c)) (dc (sa c))
      - dot_vectors 3 (dc (sa c)) (dc (sa c')) * dot_vectors 3 (dc (sa c)) origin)
      / ctots_bottom dc w = t' := by
    rw [div_eq_iff hb']
    unfold ctots_bottom
    simp only [dot_vectors_three, hw0, hw1, ho 0 (by norm_num) (by norm_num),
      ho 1 (by norm_num) (by norm_num), ho 2 (by norm_num) (by norm_num)]
    ring
  rw [e1, e2]

theorem ctots_solves_three {K : Type} [LinearOrderedField K] (origin : Int → K) (n : Int)
    (sa : Int → Int) (dc : Int → Int → K) (starts : Int → K) (w : Int → Int)
    (hw : ctots_which sa = (w, 3)) (hw0 : w 0 = sa 0) (hw1 : w 1 = sa 1) (hw2 : w 2 = sa 2)
    (t0 t1 t2 : K)
    (hind : ∀ a b c : K,
      (∀ k, 0 ≤ k → k < 3 → a * dc (sa 0) k + b * dc (sa 1) k + c * dc (sa 2) k = 0) →
      a = 0 ∧ b = 0 ∧ c = 0)
    (ho : ∀ k, 0 ≤ k → k < 3 →
      origin k = t0 * dc (sa 0) k + t1 * dc (sa 1) k + t2 * dc (sa 2) k) :
    convert_transform_origin_to_starts origin n sa dc starts
      = store (store (store (fun i => if 0 ≤ i ∧ i < n then 0 else starts i) (sa 0) t0)
          (sa 1) t1) (sa 2) t2 := by
  have hd := det_ne_zero_of_independent (dc (sa 0)) (dc (sa 1)) (dc (sa 2)) hind
  have hm : ∀ i j, 0 ≤ i → i < 3 → 0 ≤ j → j < 3 → ctots_matrix dc w i j = dc (w j) i :=
    fun i j => ctots_matrix_apply dc w i j
  have hd' : det3x3 (ctots_matrix dc w) ≠ 0 := by
    unfold det3x3
    simp only [hm 0 0 (by norm_num) (by norm_num) (by norm_num) (by norm_num),
      hm 0 1 (by norm_num) (by norm_num) (by norm_num) (by norm_num),
      hm 0 2 (by norm_num) (by norm_num) (by norm_num) (by norm_num),
      hm 1 0 (by norm_num) (by norm_num) (by norm_num) (by norm_num),
      hm 1 1 (by norm_num) (by norm_num) (by norm_num) (by norm_num),
      hm 1 2 (by norm_num) (by norm_num) (by norm_num) (by norm_num),
      hm 2 0 (by norm_num) (by norm_num) (by norm_num) (by norm_num),
      hm 2 1 (by norm_num) (by norm_num) (by norm_num) (by norm_num),
      hm 2 2 (by norm_num) (by norm_num) (by norm_num) (by norm_num), hw0, hw1, hw2]
    intro h
    apply hd
    linear_combination h
  obtain ⟨sol, hs, s0, s1, s2⟩ := solve_linear_system_columns (ctots_matrix dc w) origin
    t0 t1 t2 (by
      intro k hk0 hk3
      rw [hm k 0 hk0 hk3 (by norm_num) (by norm_num), hm k 1 hk0 hk3 (by norm_num) (by norm_num),
        hm k 2 hk0 hk3 (by norm_num) (by norm_num), hw0, hw1, hw2]
      exact ho k hk0 hk3) hd'
  rw [ctots_three origin n sa dc starts (by rw [hw]) sol (by rw [hw]; exact hs)]
  simp only [hw, hw0, hw1, hw2, s0, s1, s2]

theorem ctots_explicit {K : Type} [LinearOrderedField K] (origin : Int → K) (n : Int)
    (sa : Int → Int) (dc : Int → Int → K) (starts : Int → K) (t : Int → K)
    (hind : mapped_independent sa dc)
    (ho : ∀ k, 0 ≤ k → k < 3 → origin k = mapped_combination sa dc t k) :
    convert_transform_origin_to_starts origin n sa dc starts
      = (fun f2 : Int → K => if 0 ≤ sa 2 then store f2 (sa 2) (t 2) else f2)
          ((fun f1 : Int → K => if 0 ≤ sa 1 then store f1 (sa 1) (t 1) else f1)
            ((fun f0 : Int → K => if 0 ≤ sa 0 then store f0 (sa 0) (t 0) else f0)
              (fun i => if 0 ≤ i ∧ i < n then 0 else starts i))) := by
  have hw := ctots_which_eq sa
  have hi : ∀ a b c : K,
      (∀ k, 0 ≤ k → k < 3 → mapped_combination sa dc (coefficients a b c) k = 0) →
      (0 ≤ sa 0 → a = 0) ∧ (0 ≤ sa 1 → b = 0) ∧ (0 ≤ sa 2 → c = 0) := by
    intro a b c h
    have := hind (coefficients a b c) h
    refine ⟨fun m => ?_, fun m => ?_, fun m => ?_⟩
    · simpa [coefficients] using this 0 (by norm_num) (by norm_num) m
    · simpa [coefficients] using this 1 (by norm_num) (by norm_num) m
    · simpa [coefficients] using this 2 (by norm_num) (by norm_num) m
  by_cases m0 : 0 ≤ sa 0 <;> by_cases m1 : 0 ≤ sa 1 <;> by_cases m2 : 0 ≤ sa 2
  · -- three axes
    simp only [m0, m1, m2, if_true] at hw ⊢
    apply ctots_solves_three origin n sa dc starts _ hw rfl rfl rfl (t 0) (t 1) (t 2)
    · intro a b c h
      have := hi a b c (by
        intro k hk0 hk3
        have := h k hk0 hk3
        simpa [mapped_combination, mapped_term, m0, m1, m2, coefficients] using this)
      exact ⟨this.1 m0, this.2.1 m1, this.2.2 m2⟩
    · intro k hk0 hk3
      rw [ho k hk0 hk3]
      simp [mapped_combination, mapped_term, m0, m1, m2]
  · -- two axes: 0 and 1
    simp only [m0, m1, m2, if_true, if_false] at hw ⊢
    apply ctots_solves_two origin n sa dc starts _ 0 1 hw rfl rfl (t 0) (t 1)
    · intro a b h
      have := hi a b 0 (by
        intro k hk0 hk3
        have := h k hk0 hk3
        simpa [mapped_combination, mapped_term, m0, m1, m2, coefficients] using this)
      exact ⟨this.1 m0, this.2.1 m1⟩
    · intro k hk0 hk3
      rw [ho k hk0 hk3]
      simp [mapped_combination, mapped_term, m0, m1, m2]
  · -- two axes: 0 and 2
    simp only [m0, m1, m2, if_true, if_false] at hw ⊢
    apply ctots_solves_two origin n sa dc starts _ 0 2 hw rfl rfl (t 0) (t 2)
    · intro a b h
      have := hi a 0 b (by
        intro k hk0 hk3
        have := h k hk0 hk3
        simpa [mapped_combination, mapped_term, m0, m1, m2, coefficients] using this)
      exact ⟨this.1 m0, this.2.2 m2⟩
    · intro k hk0 hk3
      rw [ho k hk0 hk3]
      simp [mapped_combination, mapped_term, m0, m1, m2]
  · -- one axis: 0
    simp only [m0, m1, m2, if_true, if_false] at hw ⊢
    apply ctots_solves_one origin n sa dc starts _ 0 hw rfl (t 0)
    · rintro ⟨z0, z1, z2⟩
      have := hi 1 0 0 (by
        intro k hk0 hk3
        rcases int_lt_three hk0 hk3 with h | h | h <;> subst h <;>
          simp [mapped_combination, mapped_term, m0, m1, m2, coefficients, z0, z1, z2])
      exact one_ne_zero (this.1 m0)
    · intro k hk0 hk3
      rw [ho k hk0 hk3]
      simp [mapped_combination, mapped_term, m0, m1, m2]
  · -- two axes: 1 and 2
    simp only [m0, m1, m2, if_true, if_false] at hw ⊢
    apply ctots_solves_two origin n sa dc starts _ 1 2 hw rfl rfl (t 1) (t 2)
    · intro a b h
      have := hi 0 a b (by
        intro k hk0 hk3
        have := h k hk0 hk3
        simpa [mapped_combination, mapped_term, m0, m1, m2, coefficients] using this)
      exact ⟨this.2.1 m1, this.2.2 m2⟩
    · intro k hk0 hk3
      rw [ho k hk0 hk3]
      simp [mapped_combination, mapped_term, m0, m1, m2]
  · -- one axis: 1
    simp only [m0, m1, m2, if_true, if_false] at hw ⊢
    apply ctots_solves_one origin n sa dc starts _ 1 hw rfl (t 1)
    · rintro ⟨z0, z1, z2⟩
      have := hi 0 1 0 (by
        intro k hk0 hk3
        rcases int_lt_three hk0 hk3 with h | h | h <;> subst h <;>
          simp [mapped_combination, mapped_term, m0, m1, m2, coefficients, z0, z1, z2])
      exact one_ne_zero (this.2.1 m1)
    · intro k hk0 hk3
      rw [ho k hk0 hk3]
      simp [mapped_combination, mapped_term, m0, m1, m2]
  · -- one axis: 2
    simp only [m0, m1, m2, if_true, if_false] at hw ⊢
    apply ctots_solves_one origin n sa dc starts _ 2 hw rfl (t 2)
    · rintro ⟨z0, z1, z2⟩
      have := hi 0 0 1 (by
        intro k hk0 hk3
        rcases int_lt_three hk0 hk3 with h | h | h <;> subst h <;>
          simp [mapped_combination, mapped_term, m0, m1, m2, coefficients, z0, z1, z2])
      exact one_ne_zero (this.2.2 m2)
    · intro k hk0 hk3
      rw [ho k hk0 hk3]
      simp [mapped_combination, mapped_term, m0, m1, m2]
  · -- no axis
    simp only [m0, m1, m2, if_false] at hw ⊢
    unfold convert_transform_origin_to_starts
    rw [for_less_store n (fun _ => 0) starts, hw]
    simp

theorem ctots_mapped {K : Type} [LinearOrderedField K] (origin : Int → K) (n : Int)
    (sa : Int → Int) (dc : Int → Int → K) (starts : Int → K) (t : Int → K)
    (hsa : axes_distinct sa) (hind : mapped_independent sa dc)
    (ho : ∀ k, 0 ≤ k → k < 3 → origin k = mapped_combination sa dc t k)
    (c : Int) (hc0 : 0 ≤ c) (hc3 : c < 3) (hc : 0 ≤ sa c) :
    convert_transform_origin_to_starts origin n sa dc starts (sa c) = t c := by
  rw [ctots_explicit origin n sa dc starts t hind ho]
  rcases int_lt_three hc0 hc3 with h | h | h <;> subst h
  · have h1 := axes_distinct_ne hsa 0 1 (by norm_num) (by norm_num) (by norm_num) (by norm_num) hc (by norm_num)
    have h2 := axes_distinct_ne hsa 0 2 (by norm_num) (by norm_num) (by norm_num) (by norm_num) hc (by norm_num)
    by_cases m1 : 0 ≤ sa 1 <;> by_cases m2 : 0 ≤ sa 2 <;>
      simp [store_apply, hc, m1, m2, h1, h2]
  · have h2 := axes_distinct_ne hsa 1 2 (by norm_num) (by norm_num) (by norm_num) (by norm_num) hc (by norm_num)
    by_cases m0 : 0 ≤ sa 0 <;> by_cases m2 : 0 ≤ sa 2 <;>
      simp [store_apply, hc, m0, m2, h2]
  · by_cases m0 : 0 ≤ sa 0 <;> by_cases m1 : 0 ≤ sa 1 <;>
      simp [store_apply, hc, m0, m1]

theorem ctots_unmapped {K : Type} [LinearOrderedField K] (origin : Int → K) (n : Int)
    (sa : Int → Int) (dc : Int → Int → K) (starts : Int → K) (t : Int → K)
    (hind : mapped_independent sa dc)
    (ho : ∀ k, 0 ≤ k → k < 3 → origin k = mapped_combination sa dc t k)
    (i : Int) (hi : ∀ c, 0 ≤ c → c < 3 → sa c ≠ i) :
    convert_transform_origin_to_starts origin n sa dc starts i
      = if 0 ≤ i ∧ i < n then 0 else starts i := by
  rw [ctots_explicit origin n sa dc starts t hind ho]
  have h0 : i ≠ sa 0 := fun e => hi 0 (by norm_num) (by norm_num) e.symm
  have h1 : i ≠ sa 1 := fun e => hi 1 (by norm_num) (by norm_num) e.symm
  have h2 : i ≠ sa 2 := fun e => hi 2 (by norm_num) (by norm_num) e.symm
  by_cases m0 : 0 ≤ sa 0 <;> by_cases m1 : 0 ≤ sa 1 <;> by_cases m2 : 0 ≤ sa 2 <;>
    simp [store_apply, m0, m1, m2, h0, h1, h2]

theorem mapped_combination_congr {K : Type} [LinearOrderedField K] (sa : Int → Int)
    (dc : Int → Int → K) (a b : Int → K)
    (h : ∀ c, 0 ≤ c → c < 3 → 0 ≤ sa c → a c = b c) (k : Int) :
    mapped_combination sa dc a k = mapped_combination sa dc b k := by
  unfold mapped_combination mapped_term
  by_cases m0 : 0 ≤ sa 0 <;> by_cases m1 : 0 ≤ sa 1 <;> by_cases m2 : 0 ≤ sa 2 <;>
    simp [m0, m1, m2, h 0 (by norm_num) (by norm_num), h 1 (by norm_num) (by norm_num),
      h 2 (by norm_num) (by norm_num)]

/-- Claim C9, amended.  In exact real arithmetic: when the mapped dimensions
are distinct, their direction cosines are linearly independent and the origin
lies in the span of those cosines (in particular for 1, 2 or 3 mapped axes),
`convert_transform_origin_to_starts` computes starts whose combination with
the direction cosines of the mapped axes is the origin, and the start of every
dimension 0..n-1 that is not spatial is 0.0. -/
theorem origin_to_starts_reproduces_origin (origin : Int → ℝ) (n : Int) (sa : Int → Int)
    (dc : Int → Int → ℝ) (starts : Int → ℝ)
    (hsa : axes_distinct sa) (hind : mapped_independent sa dc)
    (hspan : ∃ t : Int → ℝ, ∀ k, 0 ≤ k → k < 3 → origin k = mapped_combination sa dc t k) :
    (∀ k, 0 ≤ k → k < 3 →
      mapped_combination sa dc
        (fun c => convert_transform_origin_to_starts origin n sa dc starts (sa c)) k
        = origin k) ∧
    (∀ i, 0 ≤ i → i < n → (∀ c, 0 ≤ c → c < 3 → sa c ≠ i) →
      convert_transform_origin_to_starts origin n sa dc starts i = 0) := by
  obtain ⟨t, ho⟩ := hspan
  constructor
  · intro k hk0 hk3
    rw [ho k hk0 hk3]
    apply mapped_combination_congr
    intro c hc0 hc3 hc
    exact ctots_mapped origin n sa dc starts t hsa hind ho c hc0 hc3 hc
  · intro i hi0 hin hi
    rw [ctots_unmapped origin n sa dc starts t hind ho i hi]
    simp [hi0, hin]

theorem axes_xy_skew_independent :
    mapped_independent axes_xy (skew_cosines : Int → Int → ℝ) := by
  intro a h c hc0 hc3 hc
  have h0 := h 0 (by norm_num) (by norm_num)
  have h2 := h 2 (by norm_num) (by norm_num)
  simp [mapped_combination, mapped_term, axes_xy, skew_cosines] at h0 h2
  rcases int_lt_three hc0 hc3 with e | e | e <;> subst e
  · exact h2
  · exact h0
  · exact absurd hc (by decide)

theorem sample_origin_in_span :
    ∃ t : Int → ℝ, ∀ k, 0 ≤ k → k < 3 →
      (sample_origin : Int → ℝ) k = mapped_combination axes_xy skew_cosines t k := by
  refine ⟨coefficients 2 5 0, ?_⟩
  intro k hk0 hk3
  rcases int_lt_three hk0 hk3 with e | e | e <;> subst e <;>
    norm_num [sample_origin, mapped_combination, mapped_term, axes_xy, skew_cosines,
      coefficients]

theorem origin_to_starts_reproduces_origin_witness :
    axes_distinct axes_xy ∧
    mapped_independent axes_xy (skew_cosines : Int → Int → ℝ) ∧
    (∃ t : Int → ℝ, ∀ k, 0 ≤ k → k < 3 →
      (sample_origin : Int → ℝ) k = mapped_combination axes_xy skew_cosines t k) ∧
    mapped_combination axes_xy (skew_cosines : Int → Int → ℝ)
      (fun c => convert_transform_origin_to_starts sample_origin 3 axes_xy skew_cosines
        sample_starts (axes_xy c)) 1 = 10 ∧
    convert_transform_origin_to_starts (sample_origin : Int → ℝ) 3 axes_xy skew_cosines
      sample_starts 2 = 0 := by
  have h := origin_to_starts_reproduces_origin (sample_origin : Int → ℝ) 3 axes_xy
    skew_cosines sample_starts axes_xy_distinct axes_xy_skew_independent
    sample_origin_in_span
  refine ⟨axes_xy_distinct, axes_xy_skew_independent, sample_origin_in_span, ?_, ?_⟩
  · rw [h.1 1 (by norm_num) (by norm_num)]
    norm_num [sample_origin]
  · apply h.2 2 (by norm_num) (by norm_num)
    intro c hc0 hc3
    rcases int_lt_three hc0 hc3 with e | e | e <;> subst e <;> decide

theorem det3_cwt_make {K : Type} [LinearOrderedField K] (d : Int → Int → K)
    (s t : Int → K) : det3 (cwt_make d s t) = det3x3 d * (s 0 * s 1 * s 2) := by
  unfold det3 det3x3
  rw [cwt_make_linear d s t 0 0 (by norm_num) (by norm_num) (by norm_num) (by norm_num),
    cwt_make_linear d s t 0 1 (by norm_num) (by norm_num) (by norm_num) (by norm_num),
    cwt_make_linear d s t 0 2 (by norm_num) (by norm_num) (by norm_num) (by norm_num),
    cwt_make_linear d s t 1 0 (by norm_num) (by norm_num) (by norm_num) (by norm_num),
    cwt_make_linear d s t 1 1 (by norm_num) (by norm_num) (by norm_num) (by norm_num),
    cwt_make_linear d s t 1 2 (by norm_num) (by norm_num) (by norm_num) (by norm_num),
    cwt_make_linear d s t 2 0 (by norm_num) (by norm_num) (by norm_num) (by norm_num),
    cwt_make_linear d s t 2 1 (by norm_num) (by norm_num) (by norm_num) (by norm_num),
    cwt_make_linear d s t 2 2 (by norm_num) (by norm_num) (by norm_num) (by norm_num)]
  ring

theorem det3x3_congr {K : Type} [LinearOrderedField K] (m m' : Int → Int → K)
    (h : ∀ i j, 0 ≤ i → i < 3 → 0 ≤ j → j < 3 → m i j = m' i j) :
    det3x3 m = det3x3 m' := by
  unfold det3x3
  rw [h 0 0 (by norm_num) (by norm_num) (by norm_num) (by norm_num),
    h 0 1 (by norm_num) (by norm_num) (by norm_num) (by norm_num),
    h 0 2 (by norm_num) (by norm_num) (by norm_num) (by norm_num),
    h 1 0 (by norm_num) (by norm_num) (by norm_num) (by norm_num),
    h 1 1 (by norm_num) (by norm_num) (by norm_num) (by norm_num),
    h 1 2 (by norm_num) (by norm_num) (by norm_num) (by norm_num),
    h 2 0 (by norm_num) (by norm_num) (by norm_num) (by norm_num),
    h 2 1 (by norm_num) (by norm_num) (by norm_num) (by norm_num),
    h 2 2 (by norm_num) (by norm_num) (by norm_num) (by norm_num)]

/-- Claim C5 fails in the code.  The three direction cosines (1, 0, 0),
(0, 1, 0) and (3/5, 4/5, 0) are unit vectors and the separations 2, 3, 5 are
not zero; no two of the cosines are collinear, so the singularity check of
`compute_world_transform` passes, but they lie in one plane and the linear
part of the returned transform has determinant 0. -/
theorem synthesizer_singular_transform :
    (∀ c, 0 ≤ c → c < 3 →
      0 ≤ axes_zyx c ∧ is_unit_vector ((coplanar_cosines : Int → Int → ℝ) (axes_zyx c)) ∧
      (sample_separations : Int → ℝ) (axes_zyx c) ≠ 0) ∧
    ∃ g, compute_world_transform Real.sqrt axes_zyx sample_separations
          (coplanar_cosines : Int → Int → ℝ) sample_starts = some g ∧
      det3 g.linear_transform = 0 := by
  constructor
  · intro c hc0 hc3
    rcases int_lt_three hc0 hc3 with h | h | h <;> subst h <;>
      refine ⟨by decide, ?_, ?_⟩ <;>
      norm_num [is_unit_vector, coplanar_cosines, axes_zyx, sample_separations]
  · have hnc : ∀ c, 0 ≤ c → c < 3 →
        ¬ cross_is_zero ((coplanar_cosines : Int → Int → ℝ) (axes_zyx c))
            (coplanar_cosines (axes_zyx ((c + 1) % 3))) := by
      intro c h0 h3
      rcases int_lt_three h0 h3 with h | h | h <;> subst h <;>
        norm_num [cross_is_zero, coplanar_cosines, axes_zyx]
    refine ⟨_, cwt_three_axes_form Real.sqrt axes_zyx sample_separations sample_starts
      coplanar_cosines axes_zyx_mapped hnc, ?_⟩
    simp only [create_linear_transform]
    rw [det3_cwt_make]
    rw [det3x3_congr _ _ (fun i j hi0 hi3 hj0 hj3 =>
      cwt_collect_directions axes_zyx sample_separations sample_starts
        (coplanar_cosines : Int → Int → ℝ) i j hi0 hi3 hj0 hj3)]
    norm_num [det3x3, coplanar_cosines, axes_zyx]

/-! ## The basis completion, explicitly -/

theorem normalize_vector_apply {K : Type} [LinearOrderedField K] (sqrt : K → K)
    (v out : Int → K) (k : Int) (hk0 : 0 ≤ k) (hk3 : k < 3) :
    normalize_vector sqrt v out k = v k / vector_norm sqrt v := by
  unfold normalize_vector vector_norm
  rw [for_less_three, dot_vectors_three]
  rcases int_lt_three hk0 hk3 with h | h | h <;> subst h <;> simp [store_apply]

theorem cross_3D_vector_apply {K : Type} [LinearOrderedField K] (u v out : Int → K) (k : Int)
    (hk0 : 0 ≤ k) (hk3 : k < 3) : cross_3D_vector u v out k = cross_product u v k := by
  unfold cross_3D_vector cross_product
  rcases int_lt_three hk0 hk3 with h | h | h <;> subst h <;> simp [store_apply]

theorem cwt_collect_axis_list {K : Type} [LinearOrderedField K] (sa : Int → Int)
    (sep st : Int → K) (dc : Int → Int → K) :
    (cwt_collect sa sep dc st).axis_list = (
      if 0 ≤ sa 0 then
        if 0 ≤ sa 1 then
          if 0 ≤ sa 2 then store (store (store (fun _ => 0) 0 0) 1 1) 2 2
          else store (store (fun _ => 0) 0 0) 1 1
        else
          if 0 ≤ sa 2 then store (store (fun _ => 0) 0 0) 1 2
          else store (fun _ => 0) 0 0
      else
        if 0 ≤ sa 1 then
          if 0 ≤ sa 2 then store (store (fun _ => 0) 0 1) 1 2
          else store (fun _ => 0) 0 1
        else
          if 0 ≤ sa 2 then store (fun _ => 0) 0 2
          else fun _ => 0) := by
  unfold cwt_collect
  rw [for_less_three]
  by_cases m0 : 0 ≤ sa 0 <;> by_cases m1 : 0 ≤ sa 1 <;> by_cases m2 : 0 ≤ sa 2 <;>
    simp [m0, m1, m2]

theorem completed_basis_one {K : Type} [LinearOrderedField K] (sqrt : K → K)
    (sa : Int → Int) (sep st : Int → K) (dc : Int → Int → K)
    (a : Int) (ha0 : 0 ≤ a) (ha3 : a < 3) (ma : 0 ≤ sa a)
    (hothers : ∀ c, 0 ≤ c → c < 3 → c ≠ a → ¬ 0 ≤ sa c)
    (k : Int) (hk0 : 0 ≤ k) (hk3 : k < 3) :
    completed_basis sqrt sa sep dc st a k = dc (sa a) k ∧
    completed_basis sqrt sa sep dc st ((a + 1) % 3) k
      = orthogonal_vector (dc (sa a)) k / vector_norm sqrt (orthogonal_vector (dc (sa a))) ∧
    completed_basis sqrt sa sep dc st ((a + 2) % 3) k
      = cross_product (dc (sa a)) (orthogonal_vector (dc (sa a))) k
        / vector_norm sqrt (cross_product (dc (sa a)) (orthogonal_vector (dc (sa a)))) := by
  have hd : ∀ j, 0 ≤ j → j < 3 → (cwt_collect sa sep dc st).directions a j = dc (sa a) j := by
    intro j hj0 hj3
    rw [cwt_collect_directions sa sep st dc a j ha0 ha3 hj0 hj3]
    simp [ma]
  rcases int_lt_three ha0 ha3 with h | h | h <;> subst h
  · have m1 := hothers 1 (by norm_num) (by norm_num) (by norm_num)
    have m2 := hothers 2 (by norm_num) (by norm_num) (by norm_num)
    have hn : (cwt_collect sa sep dc st).n_axes = 1 := by
      rw [cwt_collect_n_axes]; simp [ma, m1, m2]
    have hl : (cwt_collect sa sep dc st).axis_list 0 = 0 := by
      rw [cwt_collect_axis_list]; simp [ma, m1, m2, store_apply]
    unfold completed_basis cwt_complete
    simp only [hn, hl, if_true]
    have e1 : ((0 : Int) + 1) % N_DIMENSIONS = 1 := by decide
    have e2 : ((0 : Int) + 2) % N_DIMENSIONS = 2 := by decide
    have e3 : ((0 : Int) + 1) % 3 = 1 := by decide
    have e4 : ((0 : Int) + 2) % 3 = 2 := by decide
    rw [e1, e2]
    try rw [e3, e4]
    rcases int_lt_three hk0 hk3 with h | h | h <;> subst h <;>
      simp [X, Y, Z, store_apply, store2_apply, normalize_vector_apply, cross_3D_vector_apply,
        vector_norm, cross_product, orthogonal_vector, hd]
  · have m0 := hothers 0 (by norm_num) (by norm_num) (by norm_num)
    have m2 := hothers 2 (by norm_num) (by norm_num) (by norm_num)
    have hn : (cwt_collect sa sep dc st).n_axes = 1 := by
      rw [cwt_collect_n_axes]; simp [ma, m0, m2]
    have hl : (cwt_collect sa sep dc st).axis_list 0 = 1 := by
      rw [cwt_collect_axis_list]; simp [ma, m0, m2, store_apply]
    unfold completed_basis cwt_complete
    simp only [hn, hl, if_true]
    have e1 : ((1 : Int) + 1) % N_DIMENSIONS = 2 := by decide
    have e2 : ((1 : Int) + 2) % N_DIMENSIONS = 0 := by decide
    have e3 : ((1 : Int) + 1) % 3 = 2 := by decide
    have e4 : ((1 : Int) + 2) % 3 = 0 := by decide
    rw [e1, e2]
    try rw [e3, e4]
    rcases int_lt_three hk0 hk3 with h | h | h <;> subst h <;>
      simp [X, Y, Z, store_apply, store2_apply, normalize_vector_apply, cross_3D_vector_apply,
        vector_norm, cross_product, orthogonal_vector, hd]
  · have m0 := hothers 0 (by norm_num) (by norm_num) (by norm_num)
    have m1 := hothers 1 (by norm_num) (by norm_num) (by norm_num)
    have hn : (cwt_collect sa sep dc st).n_axes = 1 := by
      rw [cwt_collect_n_axes]; simp [ma, m0, m1]
    have hl : (cwt_collect sa sep dc st).axis_list 0 = 2 := by
      rw [cwt_collect_axis_list]; simp [ma, m0, m1, store_apply]
    unfold completed_basis cwt_complete
    simp only [hn, hl, if_true]
    have e1 : ((2 : Int) + 1) % N_DIMENSIONS = 0 := by decide
    have e2 : ((2 : Int) + 2) % N_DIMENSIONS = 1 := by decide
    have e3 : ((2 : Int) + 1) % 3 = 0 := by decide
    have e4 : ((2 : Int) + 2) % 3 = 1 := by decide
    rw [e1, e2]
    try rw [e3, e4]
    rcases int_lt_three hk0 hk3 with h | h | h <;> subst h <;>
      simp [X, Y, Z, store_apply, store2_apply, normalize_vector_apply, cross_3D_vector_apply,
        vector_norm, cross_product, orthogonal_vector, hd]

theorem completed_basis_two {K : Type} [LinearOrderedField K] (sqrt : K → K)
    (sa : Int → Int) (sep st : Int → K) (dc : Int → Int → K)
    (e : Int) (he0 : 0 ≤ e) (he3 : e < 3) (me : ¬ 0 ≤ sa e)
    (hothers : ∀ c, 0 ≤ c → c < 3 → c ≠ e → 0 ≤ sa c)
    (k : Int) (hk0 : 0 ≤ k) (hk3 : k < 3) :
    completed_basis sqrt sa sep dc st (lower_axis e) k = dc (sa (lower_axis e)) k ∧
    completed_basis sqrt sa sep dc st (upper_axis e) k = dc (sa (upper_axis e)) k ∧
    completed_basis sqrt sa sep dc st e k
      = cross_product (dc (sa (lower_axis e))) (dc (sa (upper_axis e))) k
        / vector_norm sqrt
            (cross_product (dc (sa (lower_axis e))) (dc (sa (upper_axis e)))) := by
  have hd : ∀ c j, 0 ≤ c → c < 3 → c ≠ e → 0 ≤ j → j < 3 →
      (cwt_collect sa sep dc st).directions c j = dc (sa c) j := by
    intro c j hc0 hc3 hce hj0 hj3
    rw [cwt_collect_directions sa sep st dc c j hc0 hc3 hj0 hj3]
    simp [hothers c hc0 hc3 hce]
  rcases int_lt_three he0 he3 with h | h | h <;> subst h
  · have m1 := hothers 1 (by norm_num) (by norm_num) (by norm_num)
    have m2 := hothers 2 (by norm_num) (by norm_num) (by norm_num)
    have hn : (cwt_collect sa sep dc st).n_axes = 2 := by
      rw [cwt_collect_n_axes]; simp [me, m1, m2]
    have hl0 : (cwt_collect sa sep dc st).axis_list 0 = 1 := by
      rw [cwt_collect_axis_list]; simp [me, m1, m2, store_apply]
    have hl1 : (cwt_collect sa sep dc st).axis_list 1 = 2 := by
      rw [cwt_collect_axis_list]; simp [me, m1, m2, store_apply]
    have d1 := fun j hj0 hj3 => hd 1 j (by norm_num) (by norm_num) (by norm_num) hj0 hj3
    have d2 := fun j hj0 hj3 => hd 2 j (by norm_num) (by norm_num) (by norm_num) hj0 hj3
    unfold completed_basis cwt_complete
    simp only [hn, hl0, hl1, if_true]
    have e1 : N_DIMENSIONS - 1 - 2 = 0 := by decide
    rw [e1]
    rcases int_lt_three hk0 hk3 with h | h | h <;> subst h <;>
      simp [lower_axis, upper_axis, store_apply, store2_apply, normalize_vector_apply,
        cross_3D_vector_apply, vector_norm, cross_product, d1, d2]
  · have m0 := hothers 0 (by norm_num) (by norm_num) (by norm_num)
    have m2 := hothers 2 (by norm_num) (by norm_num) (by norm_num)
    have hn : (cwt_collect sa sep dc st).n_axes = 2 := by
      rw [cwt_collect_n_axes]; simp [me, m0, m2]
    have hl0 : (cwt_collect sa sep dc st).axis_list 0 = 0 := by
      rw [cwt_collect_axis_list]; simp [me, m0, m2, store_apply]
    have hl1 : (cwt_collect sa sep dc st).axis_list 1 = 2 := by
      rw [cwt_collect_axis_list]; simp [me, m0, m2, store_apply]
    have d0 := fun j hj0 hj3 => hd 0 j (by norm_num) (by norm_num) (by norm_num) hj0 hj3
    have d2 := fun j hj0 hj3 => hd 2 j (by norm_num) (by norm_num) (by norm_num) hj0 hj3
    unfold completed_basis cwt_complete
    simp only [hn, hl0, hl1, if_true]
    have e1 : N_DIMENSIONS - 0 - 2 = 1 := by decide
    rw [e1]
    rcases int_lt_three hk0 hk3 with h | h | h <;> subst h <;>
      simp [lower_axis, upper_axis, store_apply, store2_apply, normalize_vector_apply,
        cross_3D_vector_apply, vector_norm, cross_product, d0, d2]
  · have m0 := hothers 0 (by norm_num) (by norm_num) (by norm_num)
    have m1 := hothers 1 (by norm_num) (by norm_num) (by norm_num)
    have hn : (cwt_collect sa sep dc st).n_axes = 2 := by
      rw [cwt_collect_n_axes]; simp [me, m0, m1]
    have hl0 : (cwt_collect sa sep dc st).axis_list 0 = 0 := by
      rw [cwt_collect_axis_list]; simp [me, m0, m1, store_apply]
    have hl1 : (cwt_collect sa sep dc st).axis_list 1 = 1 := by
      rw [cwt_collect_axis_list]; simp [me, m0, m1, store_apply]
    have d0 := fun j hj0 hj3 => hd 0 j (by norm_num) (by norm_num) (by norm_num) hj0 hj3
    have d1 := fun j hj0 hj3 => hd 1 j (by norm_num) (by norm_num) (by norm_num) hj0 hj3
    unfold completed_basis cwt_complete
    simp only [hn, hl0, hl1, if_true]
    have e1 : N_DIMENSIONS - 0 - 1 = 2 := by decide
    rw [e1]
    rcases int_lt_three hk0 hk3 with h | h | h <;> subst h <;>
      simp [lower_axis, upper_axis, store_apply, store2_apply, normalize_vector_apply,
        cross_3D_vector_apply, vector_norm, cross_product, d0, d1]

/-! ## The inverse law at a diagonal direction -/

theorem diagonal_cosines_unit : is_unit_vector (diagonal_cosines Real.sqrt 0) := by
  have h3 : Real.sqrt 3 * Real.sqrt 3 = 3 := Real.mul_self_sqrt (by norm_num)
  have hpos : 0 < Real.sqrt 3 := Real.sqrt_pos.mpr (by norm_num)
  unfold is_unit_vector diagonal_cosines
  norm_num
  field_simp
  nlinarith

theorem diagonal_cosines_ne_zero : diagonal_cosines Real.sqrt 0 1 ≠ 0 := by
  have hpos : 0 < Real.sqrt 3 := Real.sqrt_pos.mpr (by norm_num)
  unfold diagonal_cosines
  norm_num

theorem axes_x_distinct : axes_distinct axes_x := by
  intro c c' hc0 hc3 hc0' hc3' hm he
  rcases int_lt_three hc0 hc3 with h | h | h <;>
    rcases int_lt_three hc0' hc3' with h' | h' | h' <;>
    subst h <;> subst h' <;> first | rfl | (exfalso; revert he hm; decide)

theorem axes_x_diagonal_independent :
    mapped_independent axes_x (diagonal_cosines Real.sqrt) := by
  intro a h c hc0 hc3 hc
  have h0 := h 0 (by norm_num) (by norm_num)
  have hpos : 0 < Real.sqrt 3 := Real.sqrt_pos.mpr (by norm_num)
  have hne : Real.sqrt 3 ≠ 0 := ne_of_gt hpos
  simp [mapped_combination, mapped_term, axes_x, diagonal_cosines] at h0
  rcases int_lt_three hc0 hc3 with e | e | e <;> subst e
  · exact h0
  · exact absurd hc (by decide)
  · exact absurd hc (by decide)

theorem diagonal_completed_degenerate :
    ∃ dim, 0 ≤ dim ∧ dim < 3 ∧
      cross_is_zero
        (completed_basis Real.sqrt axes_x sample_separations (diagonal_cosines Real.sqrt)
          sample_starts dim)
        (completed_basis Real.sqrt axes_x sample_separations (diagonal_cosines Real.sqrt)
          sample_starts ((dim + 1) % 3)) := by
  refine ⟨0, by norm_num, by norm_num, ?_⟩
  have hb := fun k hk0 hk3 => (completed_basis_one Real.sqrt axes_x sample_separations
    sample_starts (diagonal_cosines Real.sqrt) 0 (by norm_num) (by norm_num) (by decide)
    (by
      intro c hc0 hc3 hne
      rcases int_lt_three hc0 hc3 with e | e | e <;> subst e
      · exact absurd rfl hne
      · decide
      · decide) k hk0 hk3).2.1
  have e : ((0 : Int) + 1) % 3 = 1 := by decide
  rw [e] at hb ⊢
  have z : ∀ k, 0 ≤ k → k < 3 →
      completed_basis Real.sqrt axes_x sample_separations (diagonal_cosines Real.sqrt)
        sample_starts 1 k = 0 := by
    intro k hk0 hk3
    rw [hb k hk0 hk3]
    rcases int_lt_three hk0 hk3 with e | e | e <;> subst e <;>
      simp [orthogonal_vector, diagonal_cosines, axes_x]
  unfold cross_is_zero
  rw [z 0 (by norm_num) (by norm_num), z 1 (by norm_num) (by norm_num),
    z 2 (by norm_num) (by norm_num)]
  simp

/-- Claim C2 fails in the code.  A one-dimensional volume whose only mapped
axis X has the unit direction cosine (1, 1, -1) / sqrt 3, separation 2 and
start 7: the vector (y+z, -x-z, y-x) that `compute_world_transform` builds
to complete the basis is the zero vector, the singularity check then
replaces the whole basis by the identity basis, and decomposing the
resulting transform (with the separations as sign convention) returns a
direction cosine whose Y component is 0, not the original 1 / sqrt 3. -/
theorem inverse_law_failure :
    is_unit_vector (diagonal_cosines Real.sqrt 0) ∧
    mapped_independent axes_x (diagonal_cosines Real.sqrt) ∧
    (sample_separations : Int → ℝ) (axes_x 0) ≠ 0 ∧
    ∃ g, compute_world_transform Real.sqrt axes_x sample_separations
          (diagonal_cosines Real.sqrt) sample_starts = some g ∧
      (convert_transform_to_starts_and_steps Real.sqrt g 1
          (Step_signs.array sample_separations) axes_x (fun _ => 0) (fun _ => 0)
          (fun _ _ => 0)).dir_cosines 0 1 = 0 ∧
      diagonal_cosines Real.sqrt 0 1 ≠ 0 := by
  have hm : ∃ c, 0 ≤ c ∧ c < 3 ∧ 0 ≤ axes_x c := ⟨0, by norm_num, by norm_num, by decide⟩
  refine ⟨diagonal_cosines_unit, axes_x_diagonal_independent, ?_,
    _, compute_world_transform_some Real.sqrt axes_x sample_separations sample_starts
      (diagonal_cosines Real.sqrt) hm, ?_, diagonal_cosines_ne_zero⟩
  · norm_num [sample_separations, axes_x]
  · rw [convert_transform_linear Real.sqrt _ rfl]
    simp only []
    have h := (cttss_steps_mapped Real.sqrt
      (cttss_axes (create_linear_transform
        (cwt_make (cwt_check (completed_basis Real.sqrt axes_x sample_separations
            (diagonal_cosines Real.sqrt) sample_starts))
          (cwt_collect axes_x sample_separations (diagonal_cosines Real.sqrt)
            sample_starts).separations_3D
          (cwt_collect axes_x sample_separations (diagonal_cosines Real.sqrt)
            sample_starts).starts_3D)).linear_transform)
      1 (some sample_separations) axes_x axes_x_distinct (fun _ => 0) (fun _ _ => 0) 0
      (by norm_num) (by norm_num) (by decide)).2 1 (by norm_num) (by norm_num)
    have e0 : axes_x 0 = 0 := by decide
    rw [e0] at h
    have hs : separate_signs (some (sample_separations : Int → ℝ))
        = Step_signs.array sample_separations := rfl
    rw [hs] at h
    rw [h, cttss_axes_apply _ 0 1 (by norm_num) (by norm_num)]
    simp only [create_linear_transform]
    rw [cwt_make_linear _ _ _ 1 0 (by norm_num) (by norm_num) (by norm_num) (by norm_num),
      cwt_check_singular _ diagonal_completed_degenerate 0 1 (by norm_num) (by norm_num)
        (by norm_num) (by norm_num)]
    norm_num

/-! ## The lazily recomputed transform -/

theorem check_recompute_stale {K : Type} [LinearOrderedField K] (sqrt : K → K)
    (w : General_transform K) (v : volume_struct K) (g : General_transform K)
    (hf : v.voxel_to_world_transform_uptodate = false)
    (hg : compute_world_transform sqrt v.spatial_axes v.separations v.direction_cosines
      v.starts = some g) :
    check_recompute_world_transform sqrt w v
      = { v with voxel_to_world_transform_uptodate := true, voxel_to_world_transform := g } := by
  unfold check_recompute_world_transform assign_voxel_to_world_transform
  simp [hf, hg]

theorem check_recompute_fresh {K : Type} [LinearOrderedField K] (sqrt : K → K)
    (w : General_transform K) (v : volume_struct K)
    (hf : v.voxel_to_world_transform_uptodate = true) :
    check_recompute_world_transform sqrt w v = v := by
  unfold check_recompute_world_transform
  simp [hf]

theorem set_volume_direction_unit_cosine_spatial {K : Type} (v : volume_struct K)
    (axis : Int) (dir : Int → K)
    (hax : 0 ≤ axis ∧ axis < get_volume_n_dimensions v)
    (hsp : ∃ c, 0 ≤ c ∧ c < 3 ∧ v.spatial_axes c = axis) :
    set_volume_direction_unit_cosine v axis dir
      = { v with
          direction_cosines :=
            store2 (store2 (store2 v.direction_cosines axis X (dir X)) axis Y (dir Y))
              axis Z (dir Z)
          voxel_to_world_transform_uptodate := false } := by
  obtain ⟨c, hc0, hc3, hc⟩ := hsp
  have hne : for_less_break 0 N_DIMENSIONS (fun dim => v.spatial_axes dim == axis)
      ≠ N_DIMENSIONS := by
    rw [for_less_break_three]
    rcases int_lt_three hc0 hc3 with h | h | h <;> subst h <;> simp [hc] <;>
      split_ifs <;> decide
  have hr : ¬ (axis < 0 ∨ axis ≥ get_volume_n_dimensions v) := by omega
  unfold set_volume_direction_unit_cosine
  simp only [hr, hne, if_false]

/-- Claim C6.  For every volume with at least one spatial axis, after
`set_volume_separations`, `set_volume_starts` or
`set_volume_direction_unit_cosine` on a spatial axis the up-to-date flag is
false, and the next `get_voxel_to_world_transform`, `convert_voxel_to_world`
or `convert_world_to_voxel` stores in the volume, with the flag set to true,
and uses exactly the transform that `compute_world_transform` yields for the
volume's current spatial axes, separations, direction cosines and starts. -/
theorem lazy_recompute_after_setter (volume : volume_struct ℝ)
    (hm : ∃ c, 0 ≤ c ∧ c < 3 ∧ 0 ≤ volume.spatial_axes c)
    (separations starts dir : Int → ℝ) (axis : Int)
    (hax : 0 ≤ axis ∧ axis < get_volume_n_dimensions volume)
    (hsp : ∃ c, 0 ≤ c ∧ c < 3 ∧ volume.spatial_axes c = axis)
    (world_transform : General_transform ℝ) (voxel out : Int → ℝ) (x y z : ℝ)
    (v : volume_struct ℝ)
    (hv : v = set_volume_separations volume separations ∨
          v = set_volume_starts volume starts ∨
          v = set_volume_direction_unit_cosine volume axis dir) :
    v.voxel_to_world_transform_uptodate = false ∧
    ∃ g, compute_world_transform Real.sqrt v.spatial_axes v.separations
          v.direction_cosines v.starts = some g ∧
      get_voxel_to_world_transform Real.sqrt world_transform v
        = ({ v with voxel_to_world_transform_uptodate := true,
                    voxel_to_world_transform := g }, g) ∧
      convert_voxel_to_world Real.sqrt world_transform v voxel
        = ({ v with voxel_to_world_transform_uptodate := true,
                    voxel_to_world_transform := g },
           general_transform_point g (reorder_voxel_to_xyz v voxel (fun _ => 0) X)
             (reorder_voxel_to_xyz v voxel (fun _ => 0) Y)
             (reorder_voxel_to_xyz v voxel (fun _ => 0) Z)) ∧
      convert_world_to_voxel Real.sqrt world_transform v x y z out
        = ({ v with voxel_to_world_transform_uptodate := true,
                    voxel_to_world_transform := g },
           reorder_xyz_to_voxel v
             (store (store (store (fun _ => 0) X (general_inverse_transform_point g x y z).1)
               Y (general_inverse_transform_point g x y z).2.1)
               Z (general_inverse_transform_point g x y z).2.2) out) := by
  have hflag : v.voxel_to_world_transform_uptodate = false := by
    rcases hv with h | h | h
    · rw [h]; rfl
    · rw [h]; rfl
    · rw [h, set_volume_direction_unit_cosine_spatial volume axis dir hax hsp]
  have haxes : v.spatial_axes = volume.spatial_axes := by
    rcases hv with h | h | h
    · rw [h]; rfl
    · rw [h]; rfl
    · rw [h, set_volume_direction_unit_cosine_spatial volume axis dir hax hsp]
  have hm' : ∃ c, 0 ≤ c ∧ c < 3 ∧ 0 ≤ v.spatial_axes c := by rw [haxes]; exact hm
  have hg := compute_world_transform_some Real.sqrt v.spatial_axes v.separations v.starts
    v.direction_cosines hm'
  refine ⟨hflag, _, hg, ?_, ?_, ?_⟩
  · unfold get_voxel_to_world_transform
    rw [check_recompute_stale Real.sqrt world_transform v _ hflag hg]
  · unfold convert_voxel_to_world
    rw [check_recompute_stale Real.sqrt world_transform v _ hflag hg]
    rfl
  · unfold convert_world_to_voxel
    rw [check_recompute_stale Real.sqrt world_transform v _ hflag hg]
    rfl

theorem lazy_recompute_after_setter_witness :
    (∃ c, 0 ≤ c ∧ c < 3 ∧ 0 ≤ (slice_volume : volume_struct ℝ).spatial_axes c) ∧
    (slice_volume : volume_struct ℝ).voxel_to_world_transform_uptodate = true ∧
    (set_volume_starts (slice_volume : volume_struct ℝ)
      sample_starts).voxel_to_world_transform_uptodate = false ∧
    (get_voxel_to_world_transform Real.sqrt (create_linear_transform make_identity_transform)
      (set_volume_starts (slice_volume : volume_struct ℝ)
        sample_starts)).1.voxel_to_world_transform_uptodate = true ∧
    compute_world_transform Real.sqrt axes_xy
        (set_volume_starts (slice_volume : volume_struct ℝ) sample_starts).separations
        (set_volume_starts (slice_volume : volume_struct ℝ) sample_starts).direction_cosines
        (set_volume_starts (slice_volume : volume_struct ℝ) sample_starts).starts
      = some (get_voxel_to_world_transform Real.sqrt
          (create_linear_transform make_identity_transform)
          (set_volume_starts (slice_volume : volume_struct ℝ) sample_starts)).2 := by
  have hm : ∃ c, 0 ≤ c ∧ c < 3 ∧ 0 ≤ (slice_volume : volume_struct ℝ).spatial_axes c :=
    ⟨0, by norm_num, by norm_num, by decide⟩
  obtain ⟨hflag, g, hg, hget, -, -⟩ :=
    lazy_recompute_after_setter (slice_volume : volume_struct ℝ) hm sample_separations
      sample_starts sample_starts 0 ⟨by norm_num, by decide⟩
      ⟨0, by norm_num, by norm_num, by decide⟩
      (create_linear_transform make_identity_transform) sample_starts sample_starts 0 0 0
      (set_volume_starts slice_volume sample_starts) (Or.inr (Or.inl rfl))
  refine ⟨hm, rfl, hflag, ?_, ?_⟩
  · rw [hget]
  · rw [hget]
    exact hg

/-! ## Invertibility of the synthesized transform -/

theorem det3x3_rows {K : Type} [LinearOrderedField K] (m : Int → Int → K) :
    det3x3 m = triple_product (m 0) (m 1) (m 2) := rfl

theorem triple_product_congr {K : Type} [LinearOrderedField K] (u v w u' v' w' : Int → K)
    (hu : ∀ k, 0 ≤ k → k < 3 → u k = u' k) (hv : ∀ k, 0 ≤ k → k < 3 → v k = v' k)
    (hw : ∀ k, 0 ≤ k → k < 3 → w k = w' k) :
    triple_product u v w = triple_product u' v' w' := by
  unfold triple_product
  rw [hu 0 (by norm_num) (by norm_num), hu 1 (by norm_num) (by norm_num),
    hu 2 (by norm_num) (by norm_num), hv 0 (by norm_num) (by norm_num),
    hv 1 (by norm_num) (by norm_num), hv 2 (by norm_num) (by norm_num),
    hw 0 (by norm_num) (by norm_num), hw 1 (by norm_num) (by norm_num),
    hw 2 (by norm_num) (by norm_num)]

theorem vector_norm_pos (u : Int → ℝ) : 0 < vector_norm Real.sqrt u := by
  unfold vector_norm
  apply Real.sqrt_pos.mpr
  split_ifs with h
  · norm_num
  · exact not_le.mp h

theorem triple_product_one_axis (d : Int → ℝ) (rf rg : ℝ) (hrf : rf ≠ 0) (hrg : rg ≠ 0)
    (hd : ¬ (d 0 = 0 ∧ d 1 = 0 ∧ d 2 = 0))
    (hf : ¬ (orthogonal_vector d 0 = 0 ∧ orthogonal_vector d 1 = 0 ∧
      orthogonal_vector d 2 = 0)) :
    triple_product d (fun k => orthogonal_vector d k / rf)
      (fun k => cross_product d (orthogonal_vector d) k / rg) ≠ 0 := by
  intro h
  have key : triple_product d (fun k => orthogonal_vector d k / rf)
      (fun k => cross_product d (orthogonal_vector d) k / rg) * (rf * rg)
      = (d 0 * d 0 + d 1 * d 1 + d 2 * d 2)
        * (orthogonal_vector d 0 * orthogonal_vector d 0
          + orthogonal_vector d 1 * orthogonal_vector d 1
          + orthogonal_vector d 2 * orthogonal_vector d 2) := by
    unfold triple_product cross_product orthogonal_vector
    norm_num
    field_simp
    ring
  rw [h, zero_mul] at key
  rcases mul_eq_zero.mp key.symm with e | e
  · exact hd (sum_three_squares_eq_zero e)
  · exact hf (sum_three_squares_eq_zero e)

theorem triple_product_two_axes (x y : Int → ℝ) (r : ℝ) (hr : r ≠ 0)
    (hc : ¬ cross_is_zero x y) :
    triple_product x y (fun k => cross_product x y k / r) ≠ 0 := by
  intro h
  have key : triple_product x y (fun k => cross_product x y k / r) * r
      = (x 1 * y 2 - x 2 * y 1) * (x 1 * y 2 - x 2 * y 1)
        + (x 2 * y 0 - x 0 * y 2) * (x 2 * y 0 - x 0 * y 2)
        + (x 0 * y 1 - x 1 * y 0) * (x 0 * y 1 - x 1 * y 0) := by
    unfold triple_product cross_product
    norm_num
    field_simp
    ring
  rw [h, zero_mul] at key
  exact hc (sum_three_squares_eq_zero key.symm)

theorem triple_product_rotate {K : Type} [LinearOrderedField K] (u v w : Int → K) :
    triple_product u v w = triple_product v w u := by
  unfold triple_product
  ring

theorem triple_product_swap {K : Type} [LinearOrderedField K] (u v w : Int → K) :
    triple_product u v w = - triple_product u w v := by
  unfold triple_product
  ring

theorem mapped_independent_ne_zero {K : Type} [LinearOrderedField K] (sa : Int → Int)
    (dc : Int → Int → K) (hind : mapped_independent sa dc)
    (c : Int) (hc0 : 0 ≤ c) (hc3 : c < 3) (hc : 0 ≤ sa c) :
    ¬ (dc (sa c) 0 = 0 ∧ dc (sa c) 1 = 0 ∧ dc (sa c) 2 = 0) := by
  rintro ⟨z0, z1, z2⟩
  have := hind (fun i => if i = c then 1 else 0) (by
    intro k hk0 hk3
    rcases int_lt_three hc0 hc3 with h | h | h <;> subst h <;>
      rcases int_lt_three hk0 hk3 with h' | h' | h' <;> subst h' <;>
      simp [mapped_combination, mapped_term, z0, z1, z2]) c hc0 hc3 hc
  simp at this

theorem mapped_independent_pair {K : Type} [LinearOrderedField K] (sa : Int → Int)
    (dc : Int → Int → K) (hind : mapped_independent sa dc)
    (e : Int) (he0 : 0 ≤ e) (he3 : e < 3) (me : ¬ 0 ≤ sa e)
    (hothers : ∀ c, 0 ≤ c → c < 3 → c ≠ e → 0 ≤ sa c) :
    ∀ a b : K,
      (∀ k, 0 ≤ k → k < 3 →
        a * dc (sa (lower_axis e)) k + b * dc (sa (upper_axis e)) k = 0) →
      a = 0 ∧ b = 0 := by
  intro a b h
  rcases int_lt_three he0 he3 with h' | h' | h' <;> subst h'
  · have m1 := hothers 1 (by norm_num) (by norm_num) (by norm_num)
    have m2 := hothers 2 (by norm_num) (by norm_num) (by norm_num)
    have := hind (coefficients 0 a b) (by
      intro k hk0 hk3
      have := h k hk0 hk3
      simpa [mapped_combination, mapped_term, me, m1, m2, coefficients, lower_axis,
        upper_axis] using this)
    exact ⟨by simpa [coefficients] using this 1 (by norm_num) (by norm_num) m1,
      by simpa [coefficients] using this 2 (by norm_num) (by norm_num) m2⟩
  · have m0 := hothers 0 (by norm_num) (by norm_num) (by norm_num)
    have m2 := hothers 2 (by norm_num) (by norm_num) (by norm_num)
    have := hind (coefficients a 0 b) (by
      intro k hk0 hk3
      have := h k hk0 hk3
      simpa [mapped_combination, mapped_term, me, m0, m2, coefficients, lower_axis,
        upper_axis] using this)
    exact ⟨by simpa [coefficients] using this 0 (by norm_num) (by norm_num) m0,
      by simpa [coefficients] using this 2 (by norm_num) (by norm_num) m2⟩
  · have m0 := hothers 0 (by norm_num) (by norm_num) (by norm_num)
    have m1 := hothers 1 (by norm_num) (by norm_num) (by norm_num)
    have := hind (coefficients a b 0) (by
      intro k hk0 hk3
      have := h k hk0 hk3
      simpa [mapped_combination, mapped_term, me, m0, m1, coefficients, lower_axis,
        upper_axis] using this)
    exact ⟨by simpa [coefficients] using this 0 (by norm_num) (by norm_num) m0,
      by simpa [coefficients] using this 1 (by norm_num) (by norm_num) m1⟩

theorem mapped_independent_triple {K : Type} [LinearOrderedField K] (sa : Int → Int)
    (dc : Int → Int → K) (hind : mapped_independent sa dc)
    (hm : ∀ c, 0 ≤ c → c < 3 → 0 ≤ sa c) :
    ∀ a b c : K,
      (∀ k, 0 ≤ k → k < 3 → a * dc (sa 0) k + b * dc (sa 1) k + c * dc (sa 2) k = 0) →
      a = 0 ∧ b = 0 ∧ c = 0 := by
  intro a b c h
  have m0 := hm 0 (by norm_num) (by norm_num)
  have m1 := hm 1 (by norm_num) (by norm_num)
  have m2 := hm 2 (by norm_num) (by norm_num)
  have := hind (coefficients a b c) (by
    intro k hk0 hk3
    have := h k hk0 hk3
    simpa [mapped_combination, mapped_term, m0, m1, m2, coefficients] using this)
  exact ⟨by simpa [coefficients] using this 0 (by norm_num) (by norm_num) m0,
    by simpa [coefficients] using this 1 (by norm_num) (by norm_num) m1,
    by simpa [coefficients] using this 2 (by norm_num) (by norm_num) m2⟩

theorem axes_pattern (sa : Int → Int) :
    (∀ c, 0 ≤ c → c < 3 → 0 ≤ sa c) ∨
    (∃ e, 0 ≤ e ∧ e < 3 ∧ ¬ 0 ≤ sa e ∧ ∀ c, 0 ≤ c → c < 3 → c ≠ e → 0 ≤ sa c) ∨
    (∃ a, 0 ≤ a ∧ a < 3 ∧ 0 ≤ sa a ∧ ∀ c, 0 ≤ c → c < 3 → c ≠ a → ¬ 0 ≤ sa c) ∨
    (∀ c, 0 ≤ c → c < 3 → ¬ 0 ≤ sa c) := by
  by_cases m0 : 0 ≤ sa 0 <;> by_cases m1 : 0 ≤ sa 1 <;> by_cases m2 : 0 ≤ sa 2
  · left
    intro c hc0 hc3
    rcases int_lt_three hc0 hc3 with h | h | h <;> subst h <;> assumption
  · right; left
    refine ⟨2, by norm_num, by norm_num, m2, ?_⟩
    intro c hc0 hc3 hne
    rcases int_lt_three hc0 hc3 with h | h | h <;> subst h <;>
      first | assumption | exact absurd rfl hne
  · right; left
    refine ⟨1, by norm_num, by norm_num, m1, ?_⟩
    intro c hc0 hc3 hne
    rcases int_lt_three hc0 hc3 with h | h | h <;> subst h <;>
      first | assumption | exact absurd rfl hne
  · right; right; left
    refine ⟨0, by norm_num, by norm_num, m0, ?_⟩
    intro c hc0 hc3 hne
    rcases int_lt_three hc0 hc3 with h | h | h <;> subst h <;>
      first | assumption | exact absurd rfl hne
  · right; left
    refine ⟨0, by norm_num, by norm_num, m0, ?_⟩
    intro c hc0 hc3 hne
    rcases int_lt_three hc0 hc3 with h | h | h <;> subst h <;>
      first | assumption | exact absurd rfl hne
  · right; right; left
    refine ⟨1, by norm_num, by norm_num, m1, ?_⟩
    intro c hc0 hc3 hne
    rcases int_lt_three hc0 hc3 with h | h | h <;> subst h <;>
      first | assumption | exact absurd rfl hne
  · right; right; left
    refine ⟨2, by norm_num, by norm_num, m2, ?_⟩
    intro c hc0 hc3 hne
    rcases int_lt_three hc0 hc3 with h | h | h <;> subst h <;>
      first | assumption | exact absurd rfl hne
  · right; right; right
    intro c hc0 hc3
    rcases int_lt_three hc0 hc3 with h | h | h <;> subst h <;> assumption

theorem completed_basis_det_of (sa : Int → Int) (sep st : Int → ℝ) (dc : Int → Int → ℝ)
    (hm : ∃ c, 0 ≤ c ∧ c < 3 ∧ 0 ≤ sa c) (hind : mapped_independent sa dc)
    (hf : ∀ a, 0 ≤ a → a < 3 → 0 ≤ sa a → (∀ c, 0 ≤ c → c < 3 → c ≠ a → ¬ 0 ≤ sa c) →
      ¬ (orthogonal_vector (dc (sa a)) 0 = 0 ∧ orthogonal_vector (dc (sa a)) 1 = 0 ∧
        orthogonal_vector (dc (sa a)) 2 = 0)) :
    det3x3 (completed_basis Real.sqrt sa sep dc st) ≠ 0 := by
  rw [det3x3_rows]
  rcases axes_pattern sa with h3 | ⟨e, he0, he3, me, ho⟩ | ⟨a, ha0, ha3, ma, ho⟩ | h0
  · -- three mapped axes
    have hd : ∀ c k, 0 ≤ c → c < 3 → 0 ≤ k → k < 3 →
        completed_basis Real.sqrt sa sep dc st c k = dc (sa c) k := by
      intro c k hc0 hc3 hk0 hk3
      rw [completed_basis_three Real.sqrt sa sep st dc h3,
        cwt_collect_directions sa sep st dc c k hc0 hc3 hk0 hk3]
      simp [h3 c hc0 hc3]
    rw [triple_product_congr _ _ _ (dc (sa 0)) (dc (sa 1)) (dc (sa 2))
      (fun k => hd 0 k (by norm_num) (by norm_num))
      (fun k => hd 1 k (by norm_num) (by norm_num))
      (fun k => hd 2 k (by norm_num) (by norm_num))]
    have := det_ne_zero_of_independent (dc (sa 0)) (dc (sa 1)) (dc (sa 2))
      (mapped_independent_triple sa dc hind h3)
    intro h
    apply this
    unfold triple_product at h
    linear_combination h
  · -- two mapped axes
    have hb := fun k hk0 hk3 =>
      completed_basis_two Real.sqrt sa sep st dc e he0 he3 me ho k hk0 hk3
    have hc := cross_ne_zero_of_independent _ _ (mapped_independent_pair sa dc hind e he0 he3 me ho)
    have hr := ne_of_gt (vector_norm_pos
      (cross_product (dc (sa (lower_axis e))) (dc (sa (upper_axis e)))))
    have key := triple_product_two_axes _ _ _ hr hc
    rcases int_lt_three he0 he3 with h | h | h <;> subst h
    · -- rows: normal, lower = 1, upper = 2
      have e1 : lower_axis 0 = 1 := by decide
      have e2 : upper_axis 0 = 2 := by decide
      rw [e1, e2] at hb key
      rw [triple_product_congr _ _ _ _ _ _ (fun k h0 h3 => (hb k h0 h3).2.2)
        (fun k h0 h3 => (hb k h0 h3).1) (fun k h0 h3 => (hb k h0 h3).2.1),
        triple_product_rotate]
      exact key
    · have e1 : lower_axis 1 = 0 := by decide
      have e2 : upper_axis 1 = 2 := by decide
      rw [e1, e2] at hb key
      rw [triple_product_congr _ _ _ _ _ _ (fun k h0 h3 => (hb k h0 h3).1)
        (fun k h0 h3 => (hb k h0 h3).2.2) (fun k h0 h3 => (hb k h0 h3).2.1),
        triple_product_swap]
      exact neg_ne_zero.mpr key
    · have e1 : lower_axis 2 = 0 := by decide
      have e2 : upper_axis 2 = 1 := by decide
      rw [e1, e2] at hb key
      rw [triple_product_congr _ _ _ _ _ _ (fun k h0 h3 => (hb k h0 h3).1)
        (fun k h0 h3 => (hb k h0 h3).2.1) (fun k h0 h3 => (hb k h0 h3).2.2)]
      exact key
  · -- one mapped axis
    have hb := fun k hk0 hk3 =>
      completed_basis_one Real.sqrt sa sep st dc a ha0 ha3 ma ho k hk0 hk3
    have hd := mapped_independent_ne_zero sa dc hind a ha0 ha3 ma
    have hf := hf a ha0 ha3 ma ho
    have key := triple_product_one_axis (dc (sa a)) _ _
      (ne_of_gt (vector_norm_pos (orthogonal_vector (dc (sa a)))))
      (ne_of_gt (vector_norm_pos (cross_product (dc (sa a)) (orthogonal_vector (dc (sa a))))))
      hd hf
    rcases int_lt_three ha0 ha3 with h | h | h <;> subst h
    · have e1 : ((0 : Int) + 1) % 3 = 1 := by decide
      have e2 : ((0 : Int) + 2) % 3 = 2 := by decide
      rw [e1, e2] at hb
      rw [triple_product_congr _ _ _ _ _ _ (fun k h0 h3 => (hb k h0 h3).1)
        (fun k h0 h3 => (hb k h0 h3).2.1) (fun k h0 h3 => (hb k h0 h3).2.2)]
      exact key
    · have e1 : ((1 : Int) + 1) % 3 = 2 := by decide
      have e2 : ((1 : Int) + 2) % 3 = 0 := by decide
      rw [e1, e2] at hb
      rw [triple_product_congr _ _ _ _ _ _ (fun k h0 h3 => (hb k h0 h3).2.2)
        (fun k h0 h3 => (hb k h0 h3).1) (fun k h0 h3 => (hb k h0 h3).2.1),
        triple_product_rotate]
      exact key
    · have e1 : ((2 : Int) + 1) % 3 = 0 := by decide
      have e2 : ((2 : Int) + 2) % 3 = 1 := by decide
      rw [e1, e2] at hb
      rw [triple_product_congr _ _ _ _ _ _ (fun k h0 h3 => (hb k h0 h3).2.1)
        (fun k h0 h3 => (hb k h0 h3).2.2) (fun k h0 h3 => (hb k h0 h3).1),
        triple_product_rotate, triple_product_rotate]
      exact key
  · obtain ⟨c, hc0, hc3, hc⟩ := hm
    exact absurd hc (h0 c hc0 hc3)

theorem completed_basis_det (sa : Int → Int) (sep st : Int → ℝ) (dc : Int → Int → ℝ)
    (hm : ∃ c, 0 ≤ c ∧ c < 3 ∧ 0 ≤ sa c) (hind : mapped_independent sa dc)
    (hnd : ∀ dim, 0 ≤ dim → dim < 3 →
      ¬ cross_is_zero (completed_basis Real.sqrt sa sep dc st dim)
          (completed_basis Real.sqrt sa sep dc st ((dim + 1) % 3))) :
    det3x3 (completed_basis Real.sqrt sa sep dc st) ≠ 0 := by
  apply completed_basis_det_of sa sep st dc hm hind
  intro a ha0 ha3 ma ho
  have hb := fun k hk0 hk3 =>
    completed_basis_one Real.sqrt sa sep st dc a ha0 ha3 ma ho k hk0 hk3
  rintro ⟨z0, z1, z2⟩
  apply hnd a ha0 ha3
  unfold cross_is_zero
  rw [(hb 0 (by norm_num) (by norm_num)).2.1, (hb 1 (by norm_num) (by norm_num)).2.1,
    (hb 2 (by norm_num) (by norm_num)).2.1, z0, z1, z2]
  simp

theorem regular_of_det_ne_zero {K : Type} [LinearOrderedField K] (d : Int → Int → K)
    (h : det3x3 d ≠ 0) :
    ∀ dim, 0 ≤ dim → dim < 3 → ¬ cross_is_zero (d dim) (d ((dim + 1) % 3)) := by
  intro dim hd0 hd3 hz
  apply h
  unfold cross_is_zero at hz
  unfold det3x3
  rcases int_lt_three hd0 hd3 with e | e | e <;> subst e
  · have e1 : ((0 : Int) + 1) % 3 = 1 := by decide
    rw [e1] at hz
    obtain ⟨h0, h1, h2⟩ := hz
    linear_combination (d 2 0) * h0 + (d 2 1) * h1 + (d 2 2) * h2
  · have e1 : ((1 : Int) + 1) % 3 = 2 := by decide
    rw [e1] at hz
    obtain ⟨h0, h1, h2⟩ := hz
    linear_combination (d 0 0) * h0 + (d 0 1) * h1 + (d 0 2) * h2
  · have e1 : ((2 : Int) + 1) % 3 = 0 := by decide
    rw [e1] at hz
    obtain ⟨h0, h1, h2⟩ := hz
    linear_combination (d 1 0) * h0 + (d 1 1) * h1 + (d 1 2) * h2

theorem cwt_check_det (d : Int → Int → ℝ)
    (h : (∀ dim, 0 ≤ dim → dim < 3 → ¬ cross_is_zero (d dim) (d ((dim + 1) % 3))) →
      det3x3 d ≠ 0) :
    det3x3 (cwt_check d) ≠ 0 := by
  by_cases hdeg : ∃ dim, 0 ≤ dim ∧ dim < 3 ∧ cross_is_zero (d dim) (d ((dim + 1) % 3))
  · rw [det3x3_congr (cwt_check d) (fun c dim => if c = dim then 1 else 0)
      (fun i j hi0 hi3 hj0 hj3 => cwt_check_singular d hdeg i j hi0 hi3 hj0 hj3)]
    norm_num [det3x3]
  · have hnd : ∀ dim, 0 ≤ dim → dim < 3 → ¬ cross_is_zero (d dim) (d ((dim + 1) % 3)) :=
      fun dim h0 h3 hz => hdeg ⟨dim, h0, h3, hz⟩
    rw [cwt_check_regular d hnd]
    exact h hnd

theorem cwt_invertible (sa : Int → Int) (sep st : Int → ℝ) (dc : Int → Int → ℝ)
    (hm : ∃ c, 0 ≤ c ∧ c < 3 ∧ 0 ≤ sa c) (hind : mapped_independent sa dc)
    (hsep : ∀ c, 0 ≤ c → c < 3 → 0 ≤ sa c → sep (sa c) ≠ 0) :
    ∃ g, compute_world_transform Real.sqrt sa sep dc st = some g ∧
      g.type = Transform_types.LINEAR ∧
      g.inverse_linear_transform = compute_transform_inverse g.linear_transform ∧
      det3 g.linear_transform ≠ 0 := by
  refine ⟨_, compute_world_transform_some Real.sqrt sa sep st dc hm, rfl, rfl, ?_⟩
  simp only [create_linear_transform]
  rw [det3_cwt_make]
  have hs : ∀ c, 0 ≤ c → c < 3 → (cwt_collect sa sep dc st).separations_3D c ≠ 0 := by
    intro c hc0 hc3
    rw [cwt_collect_separations sa sep st dc c hc0 hc3]
    by_cases h : 0 ≤ sa c
    · simp only [ge_iff_le, h, if_true]
      exact hsep c hc0 hc3 h
    · simp only [ge_iff_le, h, if_false]
      exact one_ne_zero
  apply mul_ne_zero
  · exact cwt_check_det _ (completed_basis_det sa sep st dc hm hind)
  · exact mul_ne_zero (mul_ne_zero (hs 0 (by norm_num) (by norm_num))
      (hs 1 (by norm_num) (by norm_num))) (hs 2 (by norm_num) (by norm_num))

theorem check_recompute_axes {K : Type} [LinearOrderedField K] (sqrt : K → K)
    (w : General_transform K) (v : volume_struct K) :
    (check_recompute_world_transform sqrt w v).spatial_axes = v.spatial_axes ∧
    (check_recompute_world_transform sqrt w v).n_dimensions = v.n_dimensions := by
  unfold check_recompute_world_transform assign_voxel_to_world_transform
  by_cases h : v.voxel_to_world_transform_uptodate <;> simp [h]

theorem reorder_voxel_to_xyz_apply {K : Type} [LinearOrderedField K] (v : volume_struct K)
    (voxel xyz : Int → K) (c : Int) (hc0 : 0 ≤ c) (hc3 : c < 3) :
    reorder_voxel_to_xyz v voxel xyz c
      = if 0 ≤ v.spatial_axes c then voxel (v.spatial_axes c) else 0 := by
  unfold reorder_voxel_to_xyz
  rw [for_less_three]
  rcases int_lt_three hc0 hc3 with h | h | h <;> subst h <;>
    by_cases m0 : 0 ≤ v.spatial_axes 0 <;> by_cases m1 : 0 ≤ v.spatial_axes 1 <;>
    by_cases m2 : 0 ≤ v.spatial_axes 2 <;> simp [m0, m1, m2, store_apply]

theorem reorder_xyz_to_voxel_eq {K : Type} [LinearOrderedField K] (v : volume_struct K)
    (xyz voxel : Int → K) :
    reorder_xyz_to_voxel v xyz voxel
      = (fun f2 : Int → K =>
          if 0 ≤ v.spatial_axes 2 then store f2 (v.spatial_axes 2) (xyz 2) else f2)
          ((fun f1 : Int → K =>
            if 0 ≤ v.spatial_axes 1 then store f1 (v.spatial_axes 1) (xyz 1) else f1)
            ((fun f0 : Int → K =>
              if 0 ≤ v.spatial_axes 0 then store f0 (v.spatial_axes 0) (xyz 0) else f0)
              (fun i => if 0 ≤ i ∧ i < v.n_dimensions then 0 else voxel i))) := by
  unfold reorder_xyz_to_voxel get_volume_n_dimensions
  dsimp only
  rw [for_less_store v.n_dimensions (fun _ => 0) voxel, for_less_three]

theorem layered_store_mapped {K : Type} [LinearOrderedField K] (sa : Int → Int)
    (hsa : axes_distinct sa) (t : Int → K) (fill : Int → K)
    (c : Int) (hc0 : 0 ≤ c) (hc3 : c < 3) (hc : 0 ≤ sa c) :
    (fun f2 : Int → K => if 0 ≤ sa 2 then store f2 (sa 2) (t 2) else f2)
      ((fun f1 : Int → K => if 0 ≤ sa 1 then store f1 (sa 1) (t 1) else f1)
        ((fun f0 : Int → K => if 0 ≤ sa 0 then store f0 (sa 0) (t 0) else f0) fill))
      (sa c) = t c := by
  rcases int_lt_three hc0 hc3 with h | h | h <;> subst h
  · have h1 := axes_distinct_ne hsa 0 1 (by norm_num) (by norm_num) (by norm_num) (by norm_num) hc (by norm_num)
    have h2 := axes_distinct_ne hsa 0 2 (by norm_num) (by norm_num) (by norm_num) (by norm_num) hc (by norm_num)
    by_cases m1 : 0 ≤ sa 1 <;> by_cases m2 : 0 ≤ sa 2 <;>
      simp [store_apply, hc, m1, m2, h1, h2]
  · have h2 := axes_distinct_ne hsa 1 2 (by norm_num) (by norm_num) (by norm_num) (by norm_num) hc (by norm_num)
    by_cases m0 : 0 ≤ sa 0 <;> by_cases m2 : 0 ≤ sa 2 <;>
      simp [store_apply, hc, m0, m2, h2]
  · by_cases m0 : 0 ≤ sa 0 <;> by_cases m1 : 0 ≤ sa 1 <;>
      simp [store_apply, hc, m0, m1]

theorem layered_store_unmapped {K : Type} [LinearOrderedField K] (sa : Int → Int)
    (t : Int → K) (fill : Int → K) (i : Int) (hi : ∀ c, 0 ≤ c → c < 3 → sa c ≠ i) :
    (fun f2 : Int → K => if 0 ≤ sa 2 then store f2 (sa 2) (t 2) else f2)
      ((fun f1 : Int → K => if 0 ≤ sa 1 then store f1 (sa 1) (t 1) else f1)
        ((fun f0 : Int → K => if 0 ≤ sa 0 then store f0 (sa 0) (t 0) else f0) fill))
      i = fill i := by
  have h0 : i ≠ sa 0 := fun e => hi 0 (by norm_num) (by norm_num) e.symm
  have h1 : i ≠ sa 1 := fun e => hi 1 (by norm_num) (by norm_num) e.symm
  have h2 : i ≠ sa 2 := fun e => hi 2 (by norm_num) (by norm_num) e.symm
  by_cases m0 : 0 ≤ sa 0 <;> by_cases m1 : 0 ≤ sa 1 <;> by_cases m2 : 0 ≤ sa 2 <;>
    simp [store_apply, m0, m1, m2, h0, h1, h2]

/-! ## The voxel to world round trip -/

theorem time_axis_not_spatial :
    ∀ c, 0 ≤ c → c < 3 → (slice_volume : volume_struct ℝ).spatial_axes c ≠ 2 := by
  intro c hc0 hc3
  rcases int_lt_three hc0 hc3 with e | e | e <;> subst e <;> decide

theorem lower_upper_axis (e : Int) (he0 : 0 ≤ e) (he3 : e < 3) :
    ∀ c, 0 ≤ c → c < 3 → c ≠ e → c = lower_axis e ∨ c = upper_axis e := by
  intro c hc0 hc3 hne
  rcases int_lt_three he0 he3 with h | h | h <;> subst h <;>
    rcases int_lt_three hc0 hc3 with h' | h' | h' <;> subst h' <;>
    first
    | exact absurd rfl hne
    | (left; decide)
    | (right; decide)

theorem completed_basis_mapped {K : Type} [LinearOrderedField K] (sqrt : K → K)
    (sa : Int → Int) (sep st : Int → K) (dc : Int → Int → K)
    (c k : Int) (hc0 : 0 ≤ c) (hc3 : c < 3) (hc : 0 ≤ sa c) (hk0 : 0 ≤ k) (hk3 : k < 3) :
    completed_basis sqrt sa sep dc st c k = dc (sa c) k := by
  rcases axes_pattern sa with h3 | ⟨e, he0, he3, me, ho⟩ | ⟨a, ha0, ha3, ma, ho⟩ | h0
  · rw [completed_basis_three sqrt sa sep st dc h3,
      cwt_collect_directions sa sep st dc c k hc0 hc3 hk0 hk3]
    simp [hc]
  · have hne : c ≠ e := fun h => me (h ▸ hc)
    have hb := completed_basis_two sqrt sa sep st dc e he0 he3 me ho k hk0 hk3
    rcases lower_upper_axis e he0 he3 c hc0 hc3 hne with h | h
    · rw [h]; exact hb.1
    · rw [h]; exact hb.2.1
  · have hca : c = a := by
      by_contra hne
      exact ho c hc0 hc3 hne hc
    rw [hca]
    exact (completed_basis_one sqrt sa sep st dc a ha0 ha3 ma ho k hk0 hk3).1
  · exact absurd hc (h0 c hc0 hc3)

theorem cwt_regular_entries {K : Type} [LinearOrderedField K] (sqrt : K → K)
    (sa : Int → Int) (sep st : Int → K) (dc : Int → Int → K)
    (hm : ∃ c, 0 ≤ c ∧ c < 3 ∧ 0 ≤ sa c)
    (hreg : ∀ dim, 0 ≤ dim → dim < 3 →
      ¬ cross_is_zero (completed_basis sqrt sa sep dc st dim)
          (completed_basis sqrt sa sep dc st ((dim + 1) % 3))) :
    ∃ g, compute_world_transform sqrt sa sep dc st = some g ∧
      g.type = Transform_types.LINEAR ∧
      (∀ c k, 0 ≤ c → c < 3 → 0 ≤ sa c → 0 ≤ k → k < 3 →
        g.linear_transform k c = dc (sa c) k * sep (sa c)) ∧
      (∀ k, 0 ≤ k → k < 3 →
        g.linear_transform k 3 = mapped_combination sa dc (fun c => st (sa c)) k) := by
  refine ⟨_, compute_world_transform_some sqrt sa sep st dc hm, rfl, ?_, ?_⟩
  · intro c k hc0 hc3 hc hk0 hk3
    simp only [create_linear_transform]
    rw [cwt_make_linear _ _ _ k c hk0 hk3 hc0 hc3, cwt_check_regular _ hreg,
      completed_basis_mapped sqrt sa sep st dc c k hc0 hc3 hc hk0 hk3,
      cwt_collect_separations sa sep st dc c hc0 hc3]
    simp [hc]
  · intro k hk0 hk3
    simp only [create_linear_transform]
    rw [cwt_make_translation _ _ _ k hk0 hk3, cwt_check_regular _ hreg,
      cwt_collect_starts sa sep st dc 0 (by norm_num) (by norm_num),
      cwt_collect_starts sa sep st dc 1 (by norm_num) (by norm_num),
      cwt_collect_starts sa sep st dc 2 (by norm_num) (by norm_num)]
    unfold mapped_combination mapped_term
    by_cases m0 : 0 ≤ sa 0 <;> by_cases m1 : 0 ≤ sa 1 <;> by_cases m2 : 0 ≤ sa 2 <;>
      simp [m0, m1, m2, completed_basis_mapped sqrt sa sep st dc _ k _ _ _ hk0 hk3,
        mul_comm]

theorem mapped_combination_congr_cosines {K : Type} [LinearOrderedField K] (sa : Int → Int)
    (dc dc' : Int → Int → K) (a : Int → K) (k : Int)
    (h : ∀ c, 0 ≤ c → c < 3 → 0 ≤ sa c → dc' (sa c) k = dc (sa c) k) :
    mapped_combination sa dc' a k = mapped_combination sa dc a k := by
  unfold mapped_combination mapped_term
  by_cases m0 : 0 ≤ sa 0 <;> by_cases m1 : 0 ≤ sa 1 <;> by_cases m2 : 0 ≤ sa 2 <;>
    simp [m0, m1, m2, h 0 (by norm_num) (by norm_num), h 1 (by norm_num) (by norm_num),
      h 2 (by norm_num) (by norm_num)]

theorem mapped_independent_congr {K : Type} [LinearOrderedField K] (sa : Int → Int)
    (dc dc' : Int → Int → K) (hind : mapped_independent sa dc)
    (h : ∀ c k, 0 ≤ c → c < 3 → 0 ≤ sa c → 0 ≤ k → k < 3 → dc' (sa c) k = dc (sa c) k) :
    mapped_independent sa dc' := by
  intro a ha
  apply hind a
  intro k hk0 hk3
  rw [← mapped_combination_congr_cosines sa dc dc' a k
    (fun c hc0 hc3 hc => h c k hc0 hc3 hc hk0 hk3)]
  exact ha k hk0 hk3

theorem inverse_law_of_regular (sa : Int → Int) (sep st : Int → ℝ) (dc : Int → Int → ℝ)
    (n : Int) (hsa : axes_distinct sa) (hm : ∃ c, 0 ≤ c ∧ c < 3 ∧ 0 ≤ sa c)
    (hunit : ∀ c, 0 ≤ c → c < 3 → 0 ≤ sa c → is_unit_vector (dc (sa c)))
    (hind : mapped_independent sa dc)
    (hsep : ∀ c, 0 ≤ c → c < 3 → 0 ≤ sa c → sep (sa c) ≠ 0)
    (hreg : ∀ dim, 0 ≤ dim → dim < 3 →
      ¬ cross_is_zero (completed_basis Real.sqrt sa sep dc st dim)
          (completed_basis Real.sqrt sa sep dc st ((dim + 1) % 3)))
    (starts steps : Int → ℝ) (dcs : Int → Int → ℝ) :
    ∃ g, compute_world_transform Real.sqrt sa sep dc st = some g ∧
      ∀ c, 0 ≤ c → c < 3 → 0 ≤ sa c →
        (convert_transform_to_starts_and_steps Real.sqrt g n (Step_signs.array sep) sa
          starts steps dcs).steps (sa c) = sep (sa c) ∧
        (∀ k, 0 ≤ k → k < 3 →
          (convert_transform_to_starts_and_steps Real.sqrt g n (Step_signs.array sep) sa
            starts steps dcs).dir_cosines (sa c) k = dc (sa c) k) ∧
        (convert_transform_to_starts_and_steps Real.sqrt g n (Step_signs.array sep) sa
          starts steps dcs).starts (sa c) = st (sa c) := by
  obtain ⟨g, hg, hl, hlin, htr⟩ := cwt_regular_entries Real.sqrt sa sep st dc hm hreg
  refine ⟨g, hg, ?_⟩
  rw [convert_transform_linear Real.sqrt g hl]
  simp only []
  have hs : Step_signs.array sep = separate_signs (some sep) := rfl
  rw [hs]
  -- the steps and the cosines of the mapped axes
  have hstep : ∀ c, 0 ≤ c → c < 3 → 0 ≤ sa c →
      step_sign (cttss_axes g.linear_transform) (some sep) sa c
        * step_mag Real.sqrt (cttss_axes g.linear_transform) c = sep (sa c) := by
    intro c hc0 hc3 hc
    obtain ⟨hpos, -, hsq⟩ := step_mag_real (cttss_axes g.linear_transform) c
    have e : ∀ k, 0 ≤ k → k < 3 →
        cttss_axes g.linear_transform c k = dc (sa c) k * sep (sa c) := by
      intro k hk0 hk3
      rw [cttss_axes_apply g.linear_transform c k hc0 hc3, hlin c k hc0 hc3 hc hk0 hk3]
    have hu := hunit c hc0 hc3 hc
    unfold is_unit_vector at hu
    have hne := hsep c hc0 hc3 hc
    have hnz : ¬ (cttss_axes g.linear_transform c 0 = 0 ∧
        cttss_axes g.linear_transform c 1 = 0 ∧ cttss_axes g.linear_transform c 2 = 0) := by
      rw [e 0 (by norm_num) (by norm_num), e 1 (by norm_num) (by norm_num),
        e 2 (by norm_num) (by norm_num)]
      rintro ⟨z0, z1, z2⟩
      have z0' := (mul_eq_zero.mp z0).resolve_right hne
      have z1' := (mul_eq_zero.mp z1).resolve_right hne
      have z2' := (mul_eq_zero.mp z2).resolve_right hne
      rw [z0', z1', z2'] at hu
      norm_num at hu
    have hmm := hsq hnz
    rw [e 0 (by norm_num) (by norm_num), e 1 (by norm_num) (by norm_num),
      e 2 (by norm_num) (by norm_num)] at hmm
    have hmm' : step_mag Real.sqrt (cttss_axes g.linear_transform) c
        * step_mag Real.sqrt (cttss_axes g.linear_transform) c = sep (sa c) * sep (sa c) := by
      rw [hmm]
      linear_combination (sep (sa c) * sep (sa c)) * hu
    by_cases hneg : sep (sa c) < 0
    · have hsg : step_sign (cttss_axes g.linear_transform) (some sep) sa c = -1 := by
        simp [step_sign, hneg]
      rw [hsg]
      nlinarith
    · have hsg : step_sign (cttss_axes g.linear_transform) (some sep) sa c = 1 := by
        simp [step_sign, hneg]
      rw [hsg]
      have : 0 ≤ sep (sa c) := not_lt.mp hneg
      nlinarith
  have hdcs : ∀ c k, 0 ≤ c → c < 3 → 0 ≤ sa c → 0 ≤ k → k < 3 →
      (cttss_steps Real.sqrt (cttss_axes g.linear_transform) n (separate_signs (some sep)) sa
        steps dcs).2 (sa c) k = dc (sa c) k := by
    intro c k hc0 hc3 hc hk0 hk3
    rw [(cttss_steps_mapped Real.sqrt _ n (some sep) sa hsa steps dcs c hc0 hc3 hc).2 k hk0 hk3,
      hstep c hc0 hc3 hc, cttss_axes_apply g.linear_transform c k hc0 hc3,
      hlin c k hc0 hc3 hc hk0 hk3]
    field_simp [hsep c hc0 hc3 hc]
  intro c hc0 hc3 hc
  refine ⟨?_, fun k hk0 hk3 => hdcs c k hc0 hc3 hc hk0 hk3, ?_⟩
  · rw [(cttss_steps_mapped Real.sqrt _ n (some sep) sa hsa steps dcs c hc0 hc3 hc).1]
    exact hstep c hc0 hc3 hc
  · apply ctots_mapped _ n sa _ starts (fun c => st (sa c)) hsa
      (mapped_independent_congr sa dc _ hind hdcs) _ c hc0 hc3 hc
    intro k hk0 hk3
    rw [mapped_combination_congr_cosines sa dc _ _ k
      (fun c hc0 hc3 hc => hdcs c k hc0 hc3 hc hk0 hk3)]
    exact htr k hk0 hk3

/-- The inverse law away from the diagonal direction: with distinct mapped
dimensions, unit and linearly independent direction cosines, separations
that are not zero and, when exactly one axis is mapped, a cosine (x, y, z)
for which (y+z, -x-z, y-x) is not the zero vector, decomposing the transform
that `compute_world_transform` returns gives back the separation, the
direction cosine and the start of every mapped axis. -/
theorem inverse_law_regular (sa : Int → Int) (sep st : Int → ℝ) (dc : Int → Int → ℝ)
    (n : Int) (hsa : axes_distinct sa) (hm : ∃ c, 0 ≤ c ∧ c < 3 ∧ 0 ≤ sa c)
    (hunit : ∀ c, 0 ≤ c → c < 3 → 0 ≤ sa c → is_unit_vector (dc (sa c)))
    (hind : mapped_independent sa dc)
    (hsep : ∀ c, 0 ≤ c → c < 3 → 0 ≤ sa c → sep (sa c) ≠ 0)
    (hf : ∀ a, 0 ≤ a → a < 3 → 0 ≤ sa a → (∀ c, 0 ≤ c → c < 3 → c ≠ a → ¬ 0 ≤ sa c) →
      ¬ (orthogonal_vector (dc (sa a)) 0 = 0 ∧ orthogonal_vector (dc (sa a)) 1 = 0 ∧
        orthogonal_vector (dc (sa a)) 2 = 0))
    (starts steps : Int → ℝ) (dcs : Int → Int → ℝ) :
    ∃ g, compute_world_transform Real.sqrt sa sep dc st = some g ∧
      ∀ c, 0 ≤ c → c < 3 → 0 ≤ sa c →
        (convert_transform_to_starts_and_steps Real.sqrt g n (Step_signs.array sep) sa
          starts steps dcs).steps (sa c) = sep (sa c) ∧
        (∀ k, 0 ≤ k → k < 3 →
          (convert_transform_to_starts_and_steps Real.sqrt g n (Step_signs.array sep) sa
            starts steps dcs).dir_cosines (sa c) k = dc (sa c) k) ∧
        (convert_transform_to_starts_and_steps Real.sqrt g n (Step_signs.array sep) sa
          starts steps dcs).starts (sa c) = st (sa c) :=
  inverse_law_of_regular sa sep st dc n hsa hm hunit hind hsep
    (regular_of_det_ne_zero _ (completed_basis_det_of sa sep st dc hm hind hf))
    starts steps dcs

/-! ## The value range -/

theorem set_volume_voxel_range_unset {K : Type} [LinearOrderedField K]
    (volume : volume_struct K) (voxel_min voxel_max : K)
    (h : volume.real_range_set = false) :
    set_volume_voxel_range volume voxel_min voxel_max =
      { volume with
        voxel_min := (kept_range volume.data_type voxel_min voxel_max).1
        voxel_max := (kept_range volume.data_type voxel_min voxel_max).2 } := by
  rw [set_volume_voxel_range]
  simp only [h, cache_volume_range_has_changed, get_volume_data_type, get_multidim_data_type,
    kept_range]
  by_cases hd : voxel_min ≥ voxel_max
  · cases ht : volume.data_type <;>
      simp [hd, ht, natural_voxel_min, natural_voxel_max, UCHAR_MAX, SCHAR_MIN, SCHAR_MAX,
        USHRT_MAX, SHRT_MIN, SHRT_MAX, UINT_MAX, INT_MIN, INT_MAX]
  · simp [hd]

theorem set_volume_real_range_integer {K : Type} [LinearOrderedField K]
    (volume : volume_struct K) (real_min real_max : K)
    (ht : ¬ is_floating_type volume.data_type) :
    set_volume_real_range volume real_min real_max =
      { volume with
        real_value_scale :=
          if volume.voxel_min < volume.voxel_max then
            (real_max - real_min) / (volume.voxel_max - volume.voxel_min)
          else 0
        real_value_translation :=
          if volume.voxel_min < volume.voxel_max then
            real_min - volume.voxel_min *
              ((real_max - real_min) / (volume.voxel_max - volume.voxel_min))
          else real_min
        real_range_set := true } := by
  rw [set_volume_real_range]
  simp only [is_floating_type] at ht
  simp only [get_volume_data_type, get_multidim_data_type, ht, if_false,
    cache_volume_range_has_changed, get_volume_voxel_min, get_volume_voxel_max, ite_self]
  by_cases h : volume.voxel_min < volume.voxel_max <;> simp [h]

theorem set_volume_real_range_floating {K : Type} [LinearOrderedField K]
    (volume : volume_struct K) (real_min real_max : K)
    (ht : is_floating_type volume.data_type) :
    set_volume_real_range volume real_min real_max =
      { volume with
        real_range_set := false
        voxel_min := (kept_range volume.data_type real_min real_max).1
        voxel_max := (kept_range volume.data_type real_min real_max).2
        real_value_scale := 1
        real_value_translation := 0 } := by
  rw [set_volume_real_range]
  simp only [is_floating_type] at ht
  simp only [get_volume_data_type, get_multidim_data_type, ht, if_true,
    cache_volume_range_has_changed, ite_self]
  rw [set_volume_voxel_range_unset _ _ _ rfl]

theorem set_volume_voxel_range_set {K : Type} [LinearOrderedField K]
    (volume : volume_struct K) (voxel_min voxel_max : K)
    (h : volume.real_range_set = true) :
    set_volume_voxel_range volume voxel_min voxel_max =
      set_volume_real_range
        { volume with
          voxel_min := (kept_range volume.data_type voxel_min voxel_max).1
          voxel_max := (kept_range volume.data_type voxel_min voxel_max).2 }
        (get_volume_real_min volume) (get_volume_real_max volume) := by
  rw [set_volume_voxel_range]
  simp only [h, dif_pos, get_volume_data_type, get_multidim_data_type, kept_range]
  by_cases hd : voxel_min ≥ voxel_max
  · cases ht : volume.data_type <;>
      simp [hd, ht, natural_voxel_min, natural_voxel_max, UCHAR_MAX, SCHAR_MIN, SCHAR_MAX,
        USHRT_MAX, SHRT_MIN, SHRT_MAX, UINT_MAX, INT_MIN, INT_MAX]
  · simp [hd]

theorem FLT_MAX_pos {K : Type} [LinearOrderedField K] : (0 : K) < FLT_MAX := by
  unfold FLT_MAX
  exact Nat.cast_pos.mpr (Nat.mul_pos (by decide) (pow_pos (by decide) 104))

theorem DBL_MAX_pos {K : Type} [LinearOrderedField K] : (0 : K) < DBL_MAX := by
  unfold DBL_MAX
  exact Nat.cast_pos.mpr (Nat.mul_pos (by decide) (pow_pos (by decide) 971))

theorem natural_range_lt {K : Type} [LinearOrderedField K] (data_type : Data_types)
    (ht : data_type ≠ Data_types.NO_DATA_TYPE) :
    (natural_voxel_min data_type : K) < natural_voxel_max data_type := by
  have hf : (0 : K) < FLT_MAX := FLT_MAX_pos
  have hd : (0 : K) < DBL_MAX := DBL_MAX_pos
  cases data_type <;> simp only [natural_voxel_min, natural_voxel_max] <;>
    first
      | exact absurd rfl ht
      | linarith

theorem kept_range_lt {K : Type} [LinearOrderedField K] (data_type : Data_types)
    (ht : data_type ≠ Data_types.NO_DATA_TYPE) (voxel_min voxel_max : K) :
    (kept_range data_type voxel_min voxel_max).1 <
      (kept_range data_type voxel_min voxel_max).2 := by
  unfold kept_range
  by_cases hd : voxel_min ≥ voxel_max
  · simp only [hd, ht, ne_eq, not_false_eq_true, and_self, if_true]
    exact natural_range_lt data_type ht
  · simp only [hd, false_and, if_false]
    exact lt_of_not_ge hd

theorem kept_range_degenerate {K : Type} [LinearOrderedField K] (data_type : Data_types)
    (ht : data_type ≠ Data_types.NO_DATA_TYPE) (voxel_min voxel_max : K)
    (hd : voxel_min ≥ voxel_max) :
    kept_range data_type voxel_min voxel_max =
      (natural_voxel_min data_type, natural_voxel_max data_type) := by
  simp [kept_range, hd, ht]

theorem kept_range_proper {K : Type} [LinearOrderedField K] (data_type : Data_types)
    (voxel_min voxel_max : K) (hd : voxel_min < voxel_max) :
    kept_range data_type voxel_min voxel_max = (voxel_min, voxel_max) := by
  simp [kept_range, not_le.mpr hd]

theorem integer_not_floating (data_type : Data_types) (ht : is_integer_type data_type) :
    ¬ is_floating_type data_type := by
  unfold is_integer_type at ht
  unfold is_floating_type
  rcases ht with h | h | h | h | h | h <;> subst h <;> decide

theorem integer_not_none (data_type : Data_types) (ht : is_integer_type data_type) :
    data_type ≠ Data_types.NO_DATA_TYPE := by
  unfold is_integer_type at ht
  rcases ht with h | h | h | h | h | h <;> subst h <;> decide

theorem floating_not_none (data_type : Data_types) (ht : is_floating_type data_type) :
    data_type ≠ Data_types.NO_DATA_TYPE := by
  unfold is_floating_type at ht
  rcases ht with h | h <;> subst h <;> decide

theorem set_volume_voxel_range_set_floating {K : Type} [LinearOrderedField K]
    (volume : volume_struct K) (voxel_min voxel_max : K)
    (h : volume.real_range_set = true) (ht : is_floating_type volume.data_type) :
    set_volume_voxel_range volume voxel_min voxel_max =
      { volume with
        real_range_set := false
        voxel_min :=
          (kept_range volume.data_type (get_volume_real_min volume)
            (get_volume_real_max volume)).1
        voxel_max :=
          (kept_range volume.data_type (get_volume_real_min volume)
            (get_volume_real_max volume)).2
        real_value_scale := 1
        real_value_translation := 0 } := by
  rw [set_volume_voxel_range_set _ _ _ h]
  exact set_volume_real_range_floating
    { volume with
      voxel_min := (kept_range volume.data_type voxel_min voxel_max).1
      voxel_max := (kept_range volume.data_type voxel_min voxel_max).2 }
    (get_volume_real_min volume) (get_volume_real_max volume) ht

theorem set_volume_voxel_range_set_integer {K : Type} [LinearOrderedField K]
    (volume : volume_struct K) (voxel_min voxel_max : K)
    (h : volume.real_range_set = true) (ht : ¬ is_floating_type volume.data_type) :
    set_volume_voxel_range volume voxel_min voxel_max =
      { volume with
        voxel_min := (kept_range volume.data_type voxel_min voxel_max).1
        voxel_max := (kept_range volume.data_type voxel_min voxel_max).2
        real_value_scale :=
          if (kept_range volume.data_type voxel_min voxel_max).1 <
              (kept_range volume.data_type voxel_min voxel_max).2 then
            (get_volume_real_max volume - get_volume_real_min volume) /
              ((kept_range volume.data_type voxel_min voxel_max).2 -
                (kept_range volume.data_type voxel_min voxel_max).1)
          else 0
        real_value_translation :=
          if (kept_range volume.data_type voxel_min voxel_max).1 <
              (kept_range volume.data_type voxel_min voxel_max).2 then
            get_volume_real_min volume - (kept_range volume.data_type voxel_min voxel_max).1 *
              ((get_volume_real_max volume - get_volume_real_min volume) /
                ((kept_range volume.data_type voxel_min voxel_max).2 -
                  (kept_range volume.data_type voxel_min voxel_max).1))
          else get_volume_real_min volume
        real_range_set := true } := by
  rw [set_volume_voxel_range_set _ _ _ h]
  exact set_volume_real_range_integer
    { volume with
      voxel_min := (kept_range volume.data_type voxel_min voxel_max).1
      voxel_max := (kept_range volume.data_type voxel_min voxel_max).2 }
    (get_volume_real_min volume) (get_volume_real_max volume) ht

theorem set_volume_voxel_range_data_type {K : Type} [LinearOrderedField K]
    (volume : volume_struct K) (voxel_min voxel_max : K) :
    (set_volume_voxel_range volume voxel_min voxel_max).data_type = volume.data_type := by
  cases h : volume.real_range_set
  · rw [set_volume_voxel_range_unset _ _ _ h]
  · by_cases ht : is_floating_type volume.data_type
    · rw [set_volume_voxel_range_set_floating _ _ _ h ht]
    · rw [set_volume_voxel_range_set_integer _ _ _ h ht]

theorem set_volume_real_range_data_type {K : Type} [LinearOrderedField K]
    (volume : volume_struct K) (real_min real_max : K) :
    (set_volume_real_range volume real_min real_max).data_type = volume.data_type := by
  by_cases ht : is_floating_type volume.data_type
  · rw [set_volume_real_range_floating _ _ _ ht]
  · rw [set_volume_real_range_integer _ _ _ ht]

theorem set_volume_voxel_range_valid {K : Type} [LinearOrderedField K]
    (volume : volume_struct K) (voxel_min voxel_max : K)
    (ht : volume.data_type ≠ Data_types.NO_DATA_TYPE) :
    (set_volume_voxel_range volume voxel_min voxel_max).voxel_min <
      (set_volume_voxel_range volume voxel_min voxel_max).voxel_max := by
  cases h : volume.real_range_set
  · rw [set_volume_voxel_range_unset _ _ _ h]
    exact kept_range_lt _ ht _ _
  · by_cases hf : is_floating_type volume.data_type
    · rw [set_volume_voxel_range_set_floating _ _ _ h hf]
      exact kept_range_lt _ ht _ _
    · rw [set_volume_voxel_range_set_integer _ _ _ h hf]
      exact kept_range_lt _ ht _ _

theorem set_volume_real_range_valid {K : Type} [LinearOrderedField K]
    (volume : volume_struct K) (real_min real_max : K) (hv : range_valid volume) :
    (set_volume_real_range volume real_min real_max).voxel_min <
      (set_volume_real_range volume real_min real_max).voxel_max := by
  by_cases hf : is_floating_type volume.data_type
  · rw [set_volume_real_range_floating _ _ _ hf]
    exact kept_range_lt _ hv.1 _ _
  · rw [set_volume_real_range_integer _ _ _ hf]
    exact hv.2

theorem for_less_invariant {σ : Type} (P : σ → Prop) (lo hi : Int) (body : Int → σ → σ)
    (init : σ) (h0 : P init) (hs : ∀ i s, P s → P (body i s)) :
    P (for_less lo hi body init) := by
  unfold for_less
  generalize List.range (hi - lo).toNat = l
  induction l generalizing init with
  | nil => exact h0
  | cons k l ih => exact ih _ (hs _ _ h0)

theorem set_volume_type_valid {K : Type} [LinearOrderedField K] (volume : volume_struct K)
    (nc_data_type : nc_type) (hnc : nc_data_type ≠ nc_type.MI_ORIGINAL_TYPE)
    (signed_flag : Bool) (voxel_min voxel_max : K) :
    range_valid (set_volume_type volume nc_data_type signed_flag voxel_min voxel_max) := by
  unfold set_volume_type range_valid
  simp only [hnc, ne_eq, not_false_eq_true, if_true]
  have ht : ∀ v : volume_struct K, v.data_type ≠ Data_types.NO_DATA_TYPE →
      (set_volume_voxel_range v voxel_min voxel_max).data_type ≠ Data_types.NO_DATA_TYPE ∧
      (set_volume_voxel_range v voxel_min voxel_max).voxel_min <
        (set_volume_voxel_range v voxel_min voxel_max).voxel_max := fun v hv =>
    ⟨by rw [set_volume_voxel_range_data_type]; exact hv,
     set_volume_voxel_range_valid v voxel_min voxel_max hv⟩
  apply ht
  cases nc_data_type <;> cases signed_flag <;>
    first
      | exact absurd rfl hnc
      | simp [set_multidim_data_type]

theorem set_volume_type_keeps_valid {K : Type} [LinearOrderedField K]
    (volume : volume_struct K) (hv : range_valid volume)
    (nc_data_type : nc_type) (signed_flag : Bool) (voxel_min voxel_max : K) :
    range_valid (set_volume_type volume nc_data_type signed_flag voxel_min voxel_max) := by
  by_cases hnc : nc_data_type = nc_type.MI_ORIGINAL_TYPE
  · subst hnc
    simpa [set_volume_type, range_valid] using hv
  · exact set_volume_type_valid volume nc_data_type hnc signed_flag voxel_min voxel_max

theorem range_call_keeps_valid {K : Type} [LinearOrderedField K] (call : Range_call K)
    (volume : volume_struct K) (hv : range_valid volume) : range_valid (call.apply volume) := by
  cases call with
  | type nc signed_flag a b => exact set_volume_type_keeps_valid volume hv nc signed_flag a b
  | voxel_range a b =>
    exact ⟨by
      simp only [Range_call.apply]
      rw [set_volume_voxel_range_data_type]; exact hv.1,
      set_volume_voxel_range_valid volume a b hv.1⟩
  | real_range a b =>
    exact ⟨by
      simp only [Range_call.apply]
      rw [set_volume_real_range_data_type]; exact hv.1,
      set_volume_real_range_valid volume a b hv⟩

theorem apply_calls_keeps_valid {K : Type} [LinearOrderedField K]
    (calls : List (Range_call K)) (volume : volume_struct K) (hv : range_valid volume) :
    range_valid (apply_calls calls volume) := by
  unfold apply_calls
  induction calls generalizing volume with
  | nil => exact hv
  | cons call calls ih => exact ih _ (range_call_keeps_valid call volume hv)

theorem create_volume_some {K : Type} [LinearOrderedField K] (alloc : volume_struct K)
    (n_dimensions : Int) (h1 : 1 ≤ n_dimensions) (h5 : n_dimensions ≤ MAX_DIMENSIONS)
    (dimension_names : Option (Int → String)) (nc_data_type : nc_type)
    (signed_flag : Bool) (voxel_min voxel_max : K) :
    ∃ w : volume_struct K, ∃ volume : volume_struct K,
      create_volume alloc n_dimensions dimension_names nc_data_type signed_flag
        voxel_min voxel_max = some volume ∧
      volume.data_type =
        (set_volume_type w nc_data_type signed_flag voxel_min voxel_max).data_type ∧
      volume.voxel_min =
        (set_volume_type w nc_data_type signed_flag voxel_min voxel_max).voxel_min ∧
      volume.voxel_max =
        (set_volume_type w nc_data_type signed_flag voxel_min voxel_max).voxel_max := by
  have hn : ¬ (n_dimensions < 1 ∨ n_dimensions > MAX_DIMENSIONS) := by
    simp only [MAX_DIMENSIONS] at h5 ⊢
    omega
  unfold create_volume
  simp only [hn, if_false]
  exact ⟨_, _, rfl, rfl, rfl, rfl⟩

/-- Claim C12, amended.  On a volume of one of the eight storage types,
`set_volume_voxel_range` with `voxel_min >= voxel_max` stores the natural
range of the storage type, unless the volume is a FLOAT or DOUBLE volume with
a real range set; with `voxel_min < voxel_max` on a volume without a real
range set it stores exactly the given pair. -/
theorem natural_range_substitution (volume : volume_struct ℝ) (voxel_min voxel_max : ℝ)
    (ht : volume.data_type ≠ Data_types.NO_DATA_TYPE) :
    (voxel_min ≥ voxel_max →
      (is_floating_type volume.data_type → volume.real_range_set = false) →
      (set_volume_voxel_range volume voxel_min voxel_max).voxel_min =
          natural_voxel_min volume.data_type ∧
      (set_volume_voxel_range volume voxel_min voxel_max).voxel_max =
          natural_voxel_max volume.data_type) ∧
    (voxel_min < voxel_max → volume.real_range_set = false →
      (set_volume_voxel_range volume voxel_min voxel_max).voxel_min = voxel_min ∧
      (set_volume_voxel_range volume voxel_min voxel_max).voxel_max = voxel_max) := by
  constructor
  · intro hd hr
    have hk := kept_range_degenerate volume.data_type ht voxel_min voxel_max hd
    cases h : volume.real_range_set
    · rw [set_volume_voxel_range_unset _ _ _ h]
      simp only [hk, and_self]
    · have hf : ¬ is_floating_type volume.data_type := fun hf => by
        rw [hr hf] at h
        exact Bool.noConfusion h
      rw [set_volume_voxel_range_set_integer _ _ _ h hf]
      simp only [hk, and_self]
  · intro hd hr
    rw [set_volume_voxel_range_unset _ _ _ hr, kept_range_proper _ _ _ hd]
    exact ⟨rfl, rfl⟩

theorem natural_range_substitution_witness :
    ({ (slice_volume : volume_struct ℝ) with
        data_type := Data_types.SIGNED_SHORT }).data_type ≠ Data_types.NO_DATA_TYPE ∧
    (5 : ℝ) ≥ 5 ∧
    (set_volume_voxel_range
        { (slice_volume : volume_struct ℝ) with data_type := Data_types.SIGNED_SHORT }
        5 5).voxel_min = -32768 ∧
    (set_volume_voxel_range
        { (slice_volume : volume_struct ℝ) with data_type := Data_types.SIGNED_SHORT }
        5 5).voxel_max = 32767 := by
  have h := (natural_range_substitution
    { (slice_volume : volume_struct ℝ) with data_type := Data_types.SIGNED_SHORT } 5 5
    (by decide)).1 (le_refl _) (fun hf => by rfl)
  exact ⟨by decide, le_refl _, h.1, h.2⟩

theorem scaled_byte_volume_eq {K : Type} [LinearOrderedField K] :
    (scaled_byte_volume : volume_struct K) =
      { (slice_volume : volume_struct K) with
        real_value_scale := (1000 - -1000) / (255 - 0)
        real_value_translation := -1000 - 0 * ((1000 - -1000) / (255 - 0))
        real_range_set := true } := by
  unfold scaled_byte_volume
  rw [set_volume_real_range_integer _ _ _ (by simp [slice_volume, is_floating_type])]
  simp [slice_volume]

theorem natural_range_substitution_counterexample :
    (retyped_volume : volume_struct ℝ).data_type = Data_types.FLOAT ∧
    (5 : ℝ) ≥ 5 ∧
    (set_volume_voxel_range (retyped_volume : volume_struct ℝ) 5 5).voxel_min = -1000 ∧
    (set_volume_voxel_range (retyped_volume : volume_struct ℝ) 5 5).voxel_min ≠
      natural_voxel_min Data_types.FLOAT ∧
    set_volume_type (scaled_byte_volume : volume_struct ℝ) nc_type.NC_FLOAT false 5 5 =
      { set_volume_voxel_range (retyped_volume : volume_struct ℝ) 5 5 with
        nc_data_type := nc_type.NC_FLOAT } := by
  have hd : (retyped_volume : volume_struct ℝ).data_type = Data_types.FLOAT := rfl
  have hr : (retyped_volume : volume_struct ℝ).real_range_set = true := by
    simp [retyped_volume, set_multidim_data_type, scaled_byte_volume_eq]
  have hmin : get_volume_real_min (retyped_volume : volume_struct ℝ) = -1000 := by
    simp [get_volume_real_min, get_volume_voxel_min, convert_voxel_to_value, retyped_volume,
      set_multidim_data_type, scaled_byte_volume_eq, slice_volume]
  have hmax : get_volume_real_max (retyped_volume : volume_struct ℝ) = 1000 := by
    simp [get_volume_real_max, get_volume_voxel_max, convert_voxel_to_value, retyped_volume,
      set_multidim_data_type, scaled_byte_volume_eq, slice_volume]
  have hv : (set_volume_voxel_range (retyped_volume : volume_struct ℝ) 5 5).voxel_min
      = -1000 := by
    rw [set_volume_voxel_range_set_floating _ _ _ hr (Or.inl hd), hmin, hmax,
      kept_range_proper _ _ _ (by norm_num)]
  refine ⟨hd, le_refl _, hv, ?_, ?_⟩
  · rw [hv]
    simp only [natural_voxel_min, FLT_MAX]
    norm_num
  · simp [set_volume_type, retyped_volume]

/-- Claim C13, amended.  In exact real arithmetic, where every argument is a
number: for every accepted dimension count, every data type argument among
`NC_BYTE`, `NC_SHORT`, `NC_INT`, `NC_FLOAT` and `NC_DOUBLE` and every
requested range, `create_volume` returns a volume with `voxel_min <
voxel_max`, and this still holds after every sequence of calls of
`set_volume_type` (with one of these types or `MI_ORIGINAL_TYPE`),
`set_volume_voxel_range` and `set_volume_real_range` with arbitrary arguments.
-/
theorem voxel_range_invariant (alloc : volume_struct ℝ) (n_dimensions : Int)
    (h1 : 1 ≤ n_dimensions) (h5 : n_dimensions ≤ MAX_DIMENSIONS)
    (dimension_names : Option (Int → String)) (nc_data_type : nc_type)
    (hnc : nc_data_type ≠ nc_type.MI_ORIGINAL_TYPE) (signed_flag : Bool)
    (voxel_min voxel_max : ℝ) (calls : List (Range_call ℝ)) :
    ∃ volume : volume_struct ℝ,
      create_volume alloc n_dimensions dimension_names nc_data_type signed_flag
        voxel_min voxel_max = some volume ∧
      volume.voxel_min < volume.voxel_max ∧
      (apply_calls calls volume).voxel_min < (apply_calls calls volume).voxel_max := by
  obtain ⟨w, volume, hc, hd, hmin, hmax⟩ := create_volume_some alloc n_dimensions h1 h5
    dimension_names nc_data_type signed_flag voxel_min voxel_max
  have hv := set_volume_type_valid w nc_data_type hnc signed_flag voxel_min voxel_max
  have hvol : range_valid volume := by
    unfold range_valid at hv ⊢
    rw [hd, hmin, hmax]
    exact hv
  exact ⟨volume, hc, hvol.2, (apply_calls_keeps_valid calls volume hvol).2⟩

theorem voxel_range_invariant_witness :
    (1 : Int) ≤ 3 ∧ (3 : Int) ≤ MAX_DIMENSIONS ∧ nc_type.NC_SHORT ≠ nc_type.MI_ORIGINAL_TYPE ∧
    ∃ volume : volume_struct ℝ,
      create_volume zeroed_record 3 none nc_type.NC_SHORT true 5 5 = some volume ∧
      volume.voxel_min < volume.voxel_max ∧
      (apply_calls
          [Range_call.real_range 7 7, Range_call.type nc_type.NC_FLOAT false 2 1,
           Range_call.voxel_range 0 0] volume).voxel_min <
        (apply_calls
          [Range_call.real_range 7 7, Range_call.type nc_type.NC_FLOAT false 2 1,
           Range_call.voxel_range 0 0] volume).voxel_max :=
  ⟨by decide, by decide, by decide,
   voxel_range_invariant zeroed_record 3 (by decide) (by decide) none nc_type.NC_SHORT
     (by decide) true 5 5 _⟩

theorem create_volume_dimension_range {K : Type} [LinearOrderedField K] (n_dimensions : Int)
    (dimension_names : Option (Int → String)) (i : Int)
    (s : volume_struct K × (Int → Int)) :
    (create_volume_dimension n_dimensions dimension_names i s).1.voxel_min = s.1.voxel_min ∧
    (create_volume_dimension n_dimensions dimension_names i s).1.voxel_max = s.1.voxel_max := by
  unfold create_volume_dimension
  dsimp only
  split_ifs <;> exact ⟨rfl, rfl⟩

theorem create_volume_original_type {K : Type} [LinearOrderedField K]
    (alloc : volume_struct K) (n_dimensions : Int)
    (h1 : 1 ≤ n_dimensions) (h5 : n_dimensions ≤ MAX_DIMENSIONS)
    (dimension_names : Option (Int → String)) (signed_flag : Bool) (voxel_min voxel_max : K) :
    ∃ volume : volume_struct K,
      create_volume alloc n_dimensions dimension_names nc_type.MI_ORIGINAL_TYPE signed_flag
        voxel_min voxel_max = some volume ∧
      volume.voxel_min = alloc.voxel_min ∧ volume.voxel_max = alloc.voxel_max := by
  have hn : ¬ (n_dimensions < 1 ∨ n_dimensions > MAX_DIMENSIONS) := by
    simp only [MAX_DIMENSIONS] at h5 ⊢
    omega
  unfold create_volume
  simp only [hn, if_false]
  refine ⟨_, rfl, ?_⟩
  simp only [set_volume_sizes, set_multidim_sizes, set_volume_type, ne_eq, not_true_eq_false,
    if_false, create_empty_multidim_array]
  exact for_less_invariant
    (fun s : volume_struct K × (Int → Int) =>
      s.1.voxel_min = alloc.voxel_min ∧ s.1.voxel_max = alloc.voxel_max)
    0 n_dimensions _ _ ⟨rfl, rfl⟩
    (fun i s hs => by
      have h := create_volume_dimension_range n_dimensions dimension_names i s
      exact ⟨h.1.trans hs.1, h.2.trans hs.2⟩)

theorem voxel_range_original_type_degenerate :
    ∃ volume : volume_struct ℝ,
      create_volume zeroed_record 3 none nc_type.MI_ORIGINAL_TYPE false 0 1 = some volume ∧
      ¬ (volume.voxel_min < volume.voxel_max) := by
  obtain ⟨volume, hc, hmin, hmax⟩ :=
    create_volume_original_type (zeroed_record : volume_struct ℝ) 3 (by decide) (by decide)
      none false 0 1
  refine ⟨volume, hc, ?_⟩
  rw [hmin, hmax]
  simp [zeroed_record]

/-- Claim C14.  On a volume of an integer storage type with
`voxel_min < voxel_max`, `set_volume_real_range` sets `real_range_set`, the
scale `(real_max - real_min)/(voxel_max - voxel_min)` and the translation
`real_min - voxel_min*scale`; then `get_volume_real_min` returns `real_min`,
`get_volume_real_max` returns `real_max`, and a voxel value maps to
`voxel*scale + translation`. -/
theorem real_range_on_integer_storage (volume : volume_struct ℝ)
    (ht : is_integer_type volume.data_type) (hr : volume.voxel_min < volume.voxel_max)
    (real_min real_max : ℝ) :
    (set_volume_real_range volume real_min real_max).real_range_set = true ∧
    (set_volume_real_range volume real_min real_max).real_value_scale =
      (real_max - real_min) / (volume.voxel_max - volume.voxel_min) ∧
    (set_volume_real_range volume real_min real_max).real_value_translation =
      real_min - volume.voxel_min *
        (set_volume_real_range volume real_min real_max).real_value_scale ∧
    get_volume_real_min (set_volume_real_range volume real_min real_max) = real_min ∧
    get_volume_real_max (set_volume_real_range volume real_min real_max) = real_max ∧
    ∀ voxel : ℝ,
      convert_voxel_to_value (set_volume_real_range volume real_min real_max) voxel =
        voxel * (set_volume_real_range volume real_min real_max).real_value_scale +
          (set_volume_real_range volume real_min real_max).real_value_translation := by
  rw [set_volume_real_range_integer _ _ _ (integer_not_floating _ ht)]
  have hne : volume.voxel_max - volume.voxel_min ≠ 0 := by linarith
  simp only [hr, if_true, get_volume_real_min, get_volume_real_max, get_volume_voxel_min,
    get_volume_voxel_max, convert_voxel_to_value, true_and]
  refine ⟨?_, ?_, ?_⟩
  · ring
  · field_simp
    ring
  · intro voxel
    ring

theorem real_range_on_integer_storage_witness :
    is_integer_type (slice_volume : volume_struct ℝ).data_type ∧
    (slice_volume : volume_struct ℝ).voxel_min < (slice_volume : volume_struct ℝ).voxel_max ∧
    get_volume_real_min (set_volume_real_range (slice_volume : volume_struct ℝ) (-1000) 1000)
      = -1000 ∧
    get_volume_real_max (set_volume_real_range (slice_volume : volume_struct ℝ) (-1000) 1000)
      = 1000 ∧
    convert_voxel_to_value
        (set_volume_real_range (slice_volume : volume_struct ℝ) (-1000) 1000) 128
      = 128 * (2000 / 255) + (-1000) := by
  have ht : is_integer_type (slice_volume : volume_struct ℝ).data_type := Or.inl rfl
  have hr : (slice_volume : volume_struct ℝ).voxel_min <
      (slice_volume : volume_struct ℝ).voxel_max := by
    norm_num [slice_volume]
  have h := real_range_on_integer_storage (slice_volume : volume_struct ℝ) ht hr (-1000) 1000
  refine ⟨ht, hr, h.2.2.2.1, h.2.2.2.2.1, ?_⟩
  rw [h.2.2.2.2.2 128, h.2.2.1, h.2.1]
  norm_num [slice_volume]

/-- Claim C15, amended.  On a FLOAT or DOUBLE volume, after
`set_volume_real_range` the volume has `real_range_set = false`, scale 1 and
translation 0, and its real range is its voxel range; that range is
`real_min`, `real_max` when `real_min < real_max`, and the natural range of
the storage type when `real_min >= real_max`. -/
theorem real_range_on_floating_storage (volume : volume_struct ℝ)
    (ht : is_floating_type volume.data_type) (real_min real_max : ℝ) :
    (set_volume_real_range volume real_min real_max).real_range_set = false ∧
    (set_volume_real_range volume real_min real_max).real_value_scale = 1 ∧
    (set_volume_real_range volume real_min real_max).real_value_translation = 0 ∧
    get_volume_real_min (set_volume_real_range volume real_min real_max) =
      get_volume_voxel_min (set_volume_real_range volume real_min real_max) ∧
    get_volume_real_max (set_volume_real_range volume real_min real_max) =
      get_volume_voxel_max (set_volume_real_range volume real_min real_max) ∧
    (real_min < real_max →
      get_volume_voxel_min (set_volume_real_range volume real_min real_max) = real_min ∧
      get_volume_voxel_max (set_volume_real_range volume real_min real_max) = real_max) ∧
    (real_min ≥ real_max →
      get_volume_voxel_min (set_volume_real_range volume real_min real_max) =
        natural_voxel_min volume.data_type ∧
      get_volume_voxel_max (set_volume_real_range volume real_min real_max) =
        natural_voxel_max volume.data_type) := by
  rw [set_volume_real_range_floating _ _ _ ht]
  refine ⟨rfl, rfl, rfl, ?_, ?_, ?_, ?_⟩
  · simp [get_volume_real_min]
  · simp [get_volume_real_max]
  · intro hd
    simp only [get_volume_voxel_min, get_volume_voxel_max, kept_range_proper _ _ _ hd,
      and_self]
  · intro hd
    simp only [get_volume_voxel_min, get_volume_voxel_max,
      kept_range_degenerate _ (floating_not_none _ ht) _ _ hd, and_self]

theorem real_range_on_floating_storage_witness :
    is_floating_type (float_volume : volume_struct ℝ).data_type ∧ (2 : ℝ) < 3 ∧
    get_volume_real_min (set_volume_real_range (float_volume : volume_struct ℝ) 2 3) = 2 ∧
    get_volume_real_max (set_volume_real_range (float_volume : volume_struct ℝ) 2 3) = 3 := by
  have ht : is_floating_type (float_volume : volume_struct ℝ).data_type := Or.inl rfl
  have h := real_range_on_floating_storage (float_volume : volume_struct ℝ) ht 2 3
  have hd : (2 : ℝ) < 3 := by norm_num
  exact ⟨ht, hd, h.2.2.2.1.trans (h.2.2.2.2.2.1 hd).1,
    h.2.2.2.2.1.trans (h.2.2.2.2.2.1 hd).2⟩

theorem real_range_on_floating_storage_counterexample :
    (float_volume : volume_struct ℝ).data_type = Data_types.FLOAT ∧
    get_volume_voxel_min (set_volume_real_range (float_volume : volume_struct ℝ) 5 5)
      = -FLT_MAX ∧
    get_volume_voxel_min (set_volume_real_range (float_volume : volume_struct ℝ) 5 5) ≠ 5 := by
  have ht : is_floating_type (float_volume : volume_struct ℝ).data_type := Or.inl rfl
  have hv : get_volume_voxel_min (set_volume_real_range (float_volume : volume_struct ℝ) 5 5)
      = -FLT_MAX := by
    rw [set_volume_real_range_floating _ _ _ ht]
    simp only [get_volume_voxel_min,
      kept_range_degenerate _ (floating_not_none _ ht) _ _ (le_refl (5 : ℝ))]
    rfl
  refine ⟨rfl, hv, ?_⟩
  rw [hv]
  have hp : (0 : ℝ) < FLT_MAX := FLT_MAX_pos
  linarith

/-- Claim C16.  On a volume of an integer storage type with a real range
set, `get_volume_real_min` and `get_volume_real_max` return the same values
after `set_volume_voxel_range` as before it, for every new pair, degenerate
pairs included. -/
theorem voxel_range_change_preserves_real_range (volume : volume_struct ℝ)
    (ht : is_integer_type volume.data_type) (hr : volume.real_range_set = true)
    (voxel_min voxel_max : ℝ) :
    get_volume_real_min (set_volume_voxel_range volume voxel_min voxel_max) =
      get_volume_real_min volume ∧
    get_volume_real_max (set_volume_voxel_range volume voxel_min voxel_max) =
      get_volume_real_max volume := by
  rw [set_volume_voxel_range_set_integer _ _ _ hr (integer_not_floating _ ht)]
  have hk := kept_range_lt volume.data_type (integer_not_none _ ht) voxel_min voxel_max
  have hne : (kept_range volume.data_type voxel_min voxel_max).2 -
      (kept_range volume.data_type voxel_min voxel_max).1 ≠ 0 := by linarith
  generalize get_volume_real_min volume = rmin at *
  generalize get_volume_real_max volume = rmax at *
  generalize kept_range volume.data_type voxel_min voxel_max = k at *
  simp only [get_volume_real_min, get_volume_real_max, get_volume_voxel_min,
    get_volume_voxel_max, convert_voxel_to_value, hk, if_true]
  constructor
  · ring
  · field_simp
    ring

theorem voxel_range_change_preserves_real_range_witness :
    is_integer_type (scaled_byte_volume : volume_struct ℝ).data_type ∧
    (scaled_byte_volume : volume_struct ℝ).real_range_set = true ∧
    get_volume_real_min (set_volume_voxel_range (scaled_byte_volume : volume_struct ℝ) 5 5)
      = -1000 ∧
    get_volume_real_max (set_volume_voxel_range (scaled_byte_volume : volume_struct ℝ) 10 20)
      = 1000 := by
  have ht : is_integer_type (scaled_byte_volume : volume_struct ℝ).data_type := by
    rw [scaled_byte_volume_eq]
    exact Or.inl rfl
  have hr : (scaled_byte_volume : volume_struct ℝ).real_range_set = true := by
    rw [scaled_byte_volume_eq]
  have hmin : get_volume_real_min (scaled_byte_volume : volume_struct ℝ) = -1000 := by
    simp [get_volume_real_min, get_volume_voxel_min, convert_voxel_to_value,
      scaled_byte_volume_eq, slice_volume]
  have hmax : get_volume_real_max (scaled_byte_volume : volume_struct ℝ) = 1000 := by
    simp [get_volume_real_max, get_volume_voxel_max, convert_voxel_to_value,
      scaled_byte_volume_eq, slice_volume]
  exact ⟨ht, hr,
    (voxel_range_change_preserves_real_range _ ht hr 5 5).1.trans hmin,
    (voxel_range_change_preserves_real_range _ ht hr 10 20).2.trans hmax⟩

/-! ## Irregularly sampled dimensions -/

theorem find_range (p : Nat → Bool) (m : Nat) :
    (∃ k, (List.range m).find? p = some k ∧ k < m ∧ p k = true ∧ ∀ j, j < k → p j = false) ∨
    ((List.range m).find? p = none ∧ ∀ j, j < m → p j = false) := by
  induction m with
  | zero => exact Or.inr ⟨rfl, fun j hj => absurd hj (Nat.not_lt_zero j)⟩
  | succ m ih =>
    rw [List.range_succ, List.find?_append]
    rcases ih with ⟨k, hk, hkm, hpk, hlt⟩ | ⟨hn, hlt⟩
    · exact Or.inl ⟨k, by simp [hk], Nat.lt_succ_of_lt hkm, hpk, hlt⟩
    · cases hp : p m
      · refine Or.inr ⟨by simp [hn, List.find?, hp], fun j hj => ?_⟩
        rcases Nat.lt_succ_iff_lt_or_eq.mp hj with h | h
        · exact hlt j h
        · rw [h]; exact hp
      · exact Or.inl ⟨m, by simp [hn, List.find?, hp], Nat.lt_succ_self m, hp, hlt⟩

theorem for_less_break_first (n : Int) (hn : 0 ≤ n) (stop : Int → Bool) :
    0 ≤ for_less_break 0 n stop ∧ for_less_break 0 n stop ≤ n ∧
    (∀ i, 0 ≤ i → i < for_less_break 0 n stop → stop i = false) ∧
    (for_less_break 0 n stop < n → stop (for_less_break 0 n stop) = true) := by
  unfold for_less_break
  rcases find_range (fun k : Nat => stop (0 + Int.ofNat k)) (n - 0).toNat with
    ⟨k, hk, hkm, hpk, hlt⟩ | ⟨hnone, hlt⟩
  · rw [hk]
    have hkn : (k : Int) < n := by omega
    refine ⟨by simp, by simp; omega, ?_, ?_⟩
    · intro i hi0 hik
      have h := hlt i.toNat (by simp at hik; omega)
      simpa [Int.toNat_of_nonneg hi0] using h
    · intro _
      simpa using hpk
  · rw [hnone]
    simp only [if_pos hn]
    refine ⟨hn, le_refl _, ?_, fun h => absurd h (lt_irrefl _)⟩
    intro i hi0 hin
    have h := hlt i.toNat (by omega)
    simpa [Int.toNat_of_nonneg hi0] using h

theorem is_volume_dimension_irregular_table {K : Type} (volume : volume_struct K)
    (idim : Int) (hd : idim ≤ volume.n_dimensions) (n : Int) (entries : Int → K)
    (hs : volume.irregular_starts idim = Real_table.table n entries) :
    is_volume_dimension_irregular volume idim = true := by
  simp [is_volume_dimension_irregular, not_lt.mpr hd, hs, Real_table.not_null]

theorem is_volume_dimension_irregular_null {K : Type} (volume : volume_struct K)
    (idim : Int) (hs : volume.irregular_starts idim = Real_table.NULL) :
    is_volume_dimension_irregular volume idim = false := by
  simp [is_volume_dimension_irregular, hs, Real_table.not_null]

/-- Claim C17.  On a dimension with tables of starts and widths of the size
`n >= 1` of the dimension, `nonspatial_voxel_to_world` returns 0 for an index
below 0, `starts[n-1] + widths[n-1]` for an index at or above `n`, and
`starts[index]` otherwise; on a regular dimension it returns
`start + index*separation`. -/
theorem world_position_of_index (volume : volume_struct ℝ) (idim : Int)
    (hd : idim < volume.n_dimensions) :
    (∀ (n : Int) (starts widths : Int → ℝ), 1 ≤ n → volume.sizes idim = n →
      volume.irregular_starts idim = Real_table.table n starts →
      volume.irregular_widths idim = Real_table.table n widths →
      ∀ index : Int,
        (index < 0 → nonspatial_voxel_to_world volume idim index = 0) ∧
        (index ≥ n →
          nonspatial_voxel_to_world volume idim index = starts (n - 1) + widths (n - 1)) ∧
        (0 ≤ index → index < n →
          nonspatial_voxel_to_world volume idim index = starts index)) ∧
    (volume.irregular_starts idim = Real_table.NULL →
      ∀ index : Int,
        nonspatial_voxel_to_world volume idim index =
          volume.starts idim + (index : ℝ) * volume.separations idim) := by
  constructor
  · intro n starts widths hn hsz hs hw index
    have hi := is_volume_dimension_irregular_table volume idim (le_of_lt hd) n starts hs
    unfold nonspatial_voxel_to_world
    simp only [hi, if_true, hsz, hs, hw, Real_table.read]
    refine ⟨fun h => by simp [h], fun h => ?_, fun h0 hlt => ?_⟩
    · have h0 : ¬ index < 0 := by omega
      simp [h0, h]
    · have h1 : ¬ index ≥ n := by omega
      have h2 : ¬ index < 0 := by omega
      simp [h1, h2]
  · intro hs index
    have hi := is_volume_dimension_irregular_null volume idim hs
    unfold nonspatial_voxel_to_world
    simp [hi]

theorem world_position_of_index_witness :
    (2 : Int) < (timed_volume : volume_struct ℝ).n_dimensions ∧
    nonspatial_voxel_to_world (timed_volume : volume_struct ℝ) 2 1 = 10 ∧
    nonspatial_voxel_to_world (timed_volume : volume_struct ℝ) 2 5 = 30 ∧
    nonspatial_voxel_to_world (timed_volume : volume_struct ℝ) 2 (-4) = 0 := by
  have hd : (2 : Int) < (timed_volume : volume_struct ℝ).n_dimensions := by decide
  have h := (world_position_of_index (timed_volume : volume_struct ℝ) 2 hd).1 3
    table_starts table_widths (by decide) rfl rfl rfl
  refine ⟨hd, ?_, ?_, (h (-4)).1 (by decide)⟩
  · rw [(h 1).2.2 (by decide) (by decide)]
    norm_num [table_starts]
  · rw [(h 5).2.1 (by decide)]
    norm_num [table_starts, table_widths]

/-- Claim C18, amended.  On an irregular dimension of size `n` with tables
starts and widths, `nonspatial_world_to_voxel` returns the smallest index `i`
in 0..n-1 with `world < starts[i] + widths[i]` (the lower end of the interval
is not tested), and `n` if there is none. -/
theorem voxel_index_irregular (volume : volume_struct ℝ) (idim : Int)
    (hd : idim < volume.n_dimensions) (n : Int) (hn : 0 ≤ n) (starts widths : Int → ℝ)
    (hsz : volume.sizes idim = n)
    (hs : volume.irregular_starts idim = Real_table.table n starts)
    (hw : volume.irregular_widths idim = Real_table.table n widths) (world : ℝ) :
    0 ≤ nonspatial_world_to_voxel volume idim world ∧
    nonspatial_world_to_voxel volume idim world ≤ n ∧
    (∀ i, 0 ≤ i → i < nonspatial_world_to_voxel volume idim world →
      ¬ world < starts i + widths i) ∧
    (nonspatial_world_to_voxel volume idim world < n →
      world < starts (nonspatial_world_to_voxel volume idim world) +
        widths (nonspatial_world_to_voxel volume idim world)) := by
  have hi := is_volume_dimension_irregular_table volume idim (le_of_lt hd) n starts hs
  have hb := for_less_break_first n hn
    (fun i => decide (world < starts i + widths i))
  unfold nonspatial_world_to_voxel
  simp only [hi, if_true, hsz, hs, hw, Real_table.read]
  obtain ⟨h0, hle, hlt, hstop⟩ := hb
  by_cases hr : for_less_break 0 n (fun i => decide (world < starts i + widths i)) < n
  · simp only [hr, if_true]
    refine ⟨h0, hle, fun i hi0 hir => ?_, fun _ => ?_⟩
    · simpa using hlt i hi0 hir
    · simpa using hstop hr
  · simp only [hr, if_false]
    have he : for_less_break 0 n (fun i => decide (world < starts i + widths i)) = n :=
      le_antisymm hle (not_lt.mp hr)
    refine ⟨hn, le_refl _, fun i hi0 hir => ?_, fun h => absurd h (lt_irrefl _)⟩
    rw [← he] at hir
    simpa using hlt i hi0 hir

theorem timed_volume_index (world : ℝ) :
    nonspatial_world_to_voxel (timed_volume : volume_struct ℝ) 2 world =
      if world < 10 then 0 else if world < 25 then 1 else if world < 30 then 2 else 3 := by
  unfold nonspatial_world_to_voxel
  have hi : is_volume_dimension_irregular (timed_volume : volume_struct ℝ) 2 = true :=
    is_volume_dimension_irregular_table _ 2 (by decide) 3 table_starts rfl
  have hsz : (timed_volume : volume_struct ℝ).sizes 2 = 3 := rfl
  have hs : (timed_volume : volume_struct ℝ).irregular_starts 2
      = Real_table.table 3 table_starts := rfl
  have hw : (timed_volume : volume_struct ℝ).irregular_widths 2
      = Real_table.table 3 table_widths := rfl
  simp only [hi, if_true, hsz, hs, hw, Real_table.read, for_less_break_three]
  norm_num [table_starts, table_widths]
  split_ifs <;> omega

theorem voxel_index_irregular_witness :
    (2 : Int) < (timed_volume : volume_struct ℝ).n_dimensions ∧ (0 : Int) ≤ 3 ∧
    nonspatial_world_to_voxel (timed_volume : volume_struct ℝ) 2 27 = 2 ∧
    nonspatial_world_to_voxel (timed_volume : volume_struct ℝ) 2 100 = 3 ∧
    (27 : ℝ) < table_starts 2 + table_widths 2 ∧
    ¬ (27 : ℝ) < table_starts 1 + table_widths 1 := by
  have hd : (2 : Int) < (timed_volume : volume_struct ℝ).n_dimensions := by decide
  have h := voxel_index_irregular (timed_volume : volume_struct ℝ) 2 hd 3 (by decide)
    table_starts table_widths rfl rfl rfl 27
  have e27 : nonspatial_world_to_voxel (timed_volume : volume_struct ℝ) 2 27 = 2 := by
    rw [timed_volume_index]; norm_num
  have e100 : nonspatial_world_to_voxel (timed_volume : volume_struct ℝ) 2 100 = 3 := by
    rw [timed_volume_index]; norm_num
  rw [e27] at h
  exact ⟨hd, by decide, e27, e100, h.2.2.2 (by decide),
    h.2.2.1 1 (by decide) (by decide)⟩

theorem voxel_index_irregular_counterexample :
    nonspatial_world_to_voxel (timed_volume : volume_struct ℝ) 2 (-5) = 0 ∧
    (∀ i : Int, 0 ≤ i → i < 3 →
      ¬ ((table_starts i : ℝ) ≤ -5 ∧ (-5 : ℝ) < table_starts i + table_widths i)) ∧
    (timed_volume : volume_struct ℝ).sizes 2 = 3 := by
  refine ⟨by rw [timed_volume_index]; norm_num, ?_, rfl⟩
  intro i h0 h3
  rcases (show i = 0 ∨ i = 1 ∨ i = 2 by omega) with h | h | h <;> subst h <;>
    norm_num [table_starts]

theorem to_int_of_range (z : Int) (h0 : -2147483648 ≤ z) (h1 : z < 2147483648) :
    to_int z = z := by
  unfold to_int
  rw [Int.emod_eq_of_lt (by omega) (by omega)]
  omega

theorem ROUND_real (x : ℝ) : ROUND x = Int.floor (x + 1 / 2) := rfl

theorem round_nearest (x : ℝ) : |((ROUND x : Int) : ℝ) - x| ≤ 1 / 2 := by
  rw [ROUND_real]
  have h1 := Int.floor_le (x + 1 / 2)
  have h2 := Int.lt_floor_add_one (x + 1 / 2)
  rw [abs_le]
  constructor <;> linarith

/-- Claim C19, amended.  In exact real arithmetic: on a regular dimension with
a separation other than 0, for every world value whose quotient `q = (world -
start)/separation` rounds into the range of the 32-bit result (`-2147483648 <=
q + 1/2 < 2147483648`), `nonspatial_world_to_voxel` returns an integer `k`
nearest to `q`: `|k - q| <= 1/2`; the world position of `k` is then within
half a separation of the world value. -/
theorem voxel_index_regular (volume : volume_struct ℝ) (idim : Int)
    (hs : volume.irregular_starts idim = Real_table.NULL)
    (hsep : volume.separations idim ≠ 0) (world : ℝ)
    (h0 : -2147483648 ≤ (world - volume.starts idim) / volume.separations idim + 1 / 2)
    (h1 : (world - volume.starts idim) / volume.separations idim + 1 / 2 < 2147483648) :
    |((nonspatial_world_to_voxel volume idim world : Int) : ℝ) -
        (world - volume.starts idim) / volume.separations idim| ≤ 1 / 2 ∧
    |nonspatial_voxel_to_world volume idim (nonspatial_world_to_voxel volume idim world)
        - world| ≤ |volume.separations idim| / 2 := by
  have hi := is_volume_dimension_irregular_null volume idim hs
  have hk : nonspatial_world_to_voxel volume idim world
      = ROUND ((world - volume.starts idim) / volume.separations idim) := by
    unfold nonspatial_world_to_voxel
    simp only [hi, Bool.false_eq_true, if_false]
    apply to_int_of_range
    · rw [ROUND_real]
      rw [Int.le_floor]
      push_cast
      exact h0
    · rw [ROUND_real]
      rw [Int.floor_lt]
      push_cast
      exact h1
  have hn := round_nearest ((world - volume.starts idim) / volume.separations idim)
  rw [hk]
  refine ⟨hn, ?_⟩
  unfold nonspatial_voxel_to_world
  simp only [hi, Bool.false_eq_true, if_false]
  have e : volume.starts idim +
      ((ROUND ((world - volume.starts idim) / volume.separations idim) : Int) : ℝ) *
        volume.separations idim - world
      = (((ROUND ((world - volume.starts idim) / volume.separations idim) : Int) : ℝ) -
          (world - volume.starts idim) / volume.separations idim) *
        volume.separations idim := by
    field_simp
    ring
  rw [e, abs_mul]
  have hp := abs_nonneg (volume.separations idim)
  nlinarith

theorem voxel_index_regular_witness :
    ({ (slice_volume : volume_struct ℝ) with
        separations := fun _ => -2 }).irregular_starts 2 = Real_table.NULL ∧
    ({ (slice_volume : volume_struct ℝ) with
        separations := fun _ => -2 }).separations 2 ≠ 0 ∧
    |((nonspatial_world_to_voxel
          { (slice_volume : volume_struct ℝ) with separations := fun _ => -2 } 2 7 : Int) : ℝ)
        - (7 - 0) / (-2)| ≤ 1 / 2 := by
  have h := voxel_index_regular
    { (slice_volume : volume_struct ℝ) with separations := fun _ => -2 } 2 rfl
    (by norm_num) 7 (by norm_num [slice_volume]) (by norm_num [slice_volume])
  refine ⟨rfl, by norm_num, ?_⟩
  have e := h.1
  simpa [slice_volume] using e

theorem voxel_index_regular_out_of_range :
    (slice_volume : volume_struct ℝ).irregular_starts 2 = Real_table.NULL ∧
    (slice_volume : volume_struct ℝ).separations 2 = 1 ∧
    (slice_volume : volume_struct ℝ).starts 2 = 0 ∧
    nonspatial_world_to_voxel (slice_volume : volume_struct ℝ) 2 2147483648 = -2147483648 ∧
    ¬ |((nonspatial_world_to_voxel (slice_volume : volume_struct ℝ) 2 2147483648 : Int) : ℝ)
        - (2147483648 - 0) / 1| ≤ 1 / 2 ∧
    ∀ k : Int, k ≤ INT_MAX → ¬ |(k : ℝ) - (2147483648 - 0) / 1| ≤ 1 / 2 := by
  have hr : ROUND (((2147483648 : ℝ) - 0) / 1) = 2147483648 := by
    rw [ROUND_real]
    rw [Int.floor_eq_iff]
    norm_num
  have hv : nonspatial_world_to_voxel (slice_volume : volume_struct ℝ) 2 2147483648
      = -2147483648 := by
    have hi := is_volume_dimension_irregular_null (slice_volume : volume_struct ℝ) 2 rfl
    unfold nonspatial_world_to_voxel
    simp only [hi, Bool.false_eq_true, if_false]
    have e0 : (slice_volume : volume_struct ℝ).starts 2 = 0 := rfl
    have e1 : (slice_volume : volume_struct ℝ).separations 2 = 1 := rfl
    rw [e0, e1, hr]
    decide
  refine ⟨rfl, rfl, rfl, hv, ?_, ?_⟩
  · rw [hv]
    norm_num
  · intro k hk h
    have hk' : (k : ℝ) ≤ 2147483647 := by
      have : k ≤ 2147483647 := hk
      exact_mod_cast this
    rw [abs_le] at h
    linarith [h.1]

theorem clamp_count (count size : Int) :
    (if count > size then size else count) = min count size := by
  by_cases h : count > size
  · rw [if_pos h, min_eq_right (le_of_lt h)]
  · rw [if_neg h, min_eq_left (not_lt.mp h)]

theorem set_volume_irregular_starts_installs {K : Type} [Zero K] (volume : volume_struct K)
    (d count : Int) (hd : d < volume.n_dimensions) (t : Int → K) :
    (set_volume_irregular_starts true volume d count (some t)).1
        = min count (volume.sizes d) ∧
    (set_volume_irregular_starts true volume d count (some t)).2.irregular_starts d
        = Real_table.table (min count (volume.sizes d))
            (fun i => if 0 ≤ i ∧ i < min count (volume.sizes d) then t i else 0) ∧
    (set_volume_irregular_starts true volume d count (some t)).2.sizes = volume.sizes ∧
    (set_volume_irregular_starts true volume d count (some t)).2.n_dimensions
        = volume.n_dimensions := by
  have hnd : ¬ d ≥ volume.n_dimensions := not_le.mpr hd
  unfold set_volume_irregular_starts
  by_cases hnn : (volume.irregular_starts d).not_null = true <;>
    simp [hnd, hnn, clamp_count, store_apply, for_less_store]

theorem set_volume_irregular_starts_fails {K : Type} [Zero K] (volume : volume_struct K)
    (d count : Int) (hd : d < volume.n_dimensions) (t : Int → K) :
    (set_volume_irregular_starts false volume d count (some t)).1 = 0 ∧
    (set_volume_irregular_starts false volume d count (some t)).2.irregular_starts d
        = Real_table.NULL ∧
    (set_volume_irregular_starts false volume d count (some t)).2.sizes = volume.sizes ∧
    (set_volume_irregular_starts false volume d count (some t)).2.n_dimensions
        = volume.n_dimensions := by
  have hnd : ¬ d ≥ volume.n_dimensions := not_le.mpr hd
  unfold set_volume_irregular_starts
  by_cases hnn : (volume.irregular_starts d).not_null = true <;>
    simp [hnd, hnn, store_apply]

theorem get_volume_irregular_starts_table {K : Type} [Zero K] (volume : volume_struct K)
    (d count : Int) (hd : d < volume.n_dimensions) (n : Int) (entries out : Int → K)
    (hs : volume.irregular_starts d = Real_table.table n entries) :
    get_volume_irregular_starts volume d count out =
      (min count (volume.sizes d),
       fun i => if 0 ≤ i ∧ i < min count (volume.sizes d) then entries i else out i) := by
  have hnd : ¬ d ≥ volume.n_dimensions := not_le.mpr hd
  unfold get_volume_irregular_starts
  simp [hnd, hs, Real_table.not_null, Real_table.read, clamp_count, for_less_store]

theorem get_volume_irregular_starts_null {K : Type} [Zero K] (volume : volume_struct K)
    (d count : Int) (out : Int → K)
    (hs : volume.irregular_starts d = Real_table.NULL) :
    get_volume_irregular_starts volume d count out = (0, out) := by
  unfold get_volume_irregular_starts
  simp [hs, Real_table.not_null]

theorem set_volume_irregular_widths_installs {K : Type} [Zero K] (volume : volume_struct K)
    (d count : Int) (hd : d < volume.n_dimensions) (t : Int → K) :
    (set_volume_irregular_widths true volume d count (some t)).1
        = min count (volume.sizes d) ∧
    (set_volume_irregular_widths true volume d count (some t)).2.irregular_widths d
        = Real_table.table (min count (volume.sizes d))
            (fun i => if 0 ≤ i ∧ i < min count (volume.sizes d) then t i else 0) ∧
    (set_volume_irregular_widths true volume d count (some t)).2.sizes = volume.sizes ∧
    (set_volume_irregular_widths true volume d count (some t)).2.n_dimensions
        = volume.n_dimensions := by
  have hnd : ¬ d ≥ volume.n_dimensions := not_le.mpr hd
  unfold set_volume_irregular_widths
  by_cases hnn : (volume.irregular_widths d).not_null = true <;>
    simp [hnd, hnn, clamp_count, store_apply, for_less_store]

theorem set_volume_irregular_widths_fails {K : Type} [Zero K] (volume : volume_struct K)
    (d count : Int) (hd : d < volume.n_dimensions) (t : Int → K) :
    (set_volume_irregular_widths false volume d count (some t)).1 = 0 ∧
    (set_volume_irregular_widths false volume d count (some t)).2.irregular_widths d
        = Real_table.NULL ∧
    (set_volume_irregular_widths false volume d count (some t)).2.sizes = volume.sizes ∧
    (set_volume_irregular_widths false volume d count (some t)).2.n_dimensions
        = volume.n_dimensions := by
  have hnd : ¬ d ≥ volume.n_dimensions := not_le.mpr hd
  unfold set_volume_irregular_widths
  by_cases hnn : (volume.irregular_widths d).not_null = true <;>
    simp [hnd, hnn, store_apply]

theorem get_volume_irregular_widths_table {K : Type} [Zero K] (volume : volume_struct K)
    (d count : Int) (hd : d < volume.n_dimensions) (n : Int) (entries out : Int → K)
    (hs : volume.irregular_widths d = Real_table.table n entries) :
    get_volume_irregular_widths volume d count out =
      (min count (volume.sizes d),
       fun i => if 0 ≤ i ∧ i < min count (volume.sizes d) then entries i else out i) := by
  have hnd : ¬ d ≥ volume.n_dimensions := not_le.mpr hd
  unfold get_volume_irregular_widths
  simp [hnd, hs, Real_table.not_null, Real_table.read, clamp_count, for_less_store]

theorem get_volume_irregular_widths_null {K : Type} [Zero K] (volume : volume_struct K)
    (d count : Int) (out : Int → K)
    (hs : volume.irregular_widths d = Real_table.NULL) :
    get_volume_irregular_widths volume d count out = (0, out) := by
  unfold get_volume_irregular_widths
  simp [hs, Real_table.not_null]

theorem starts_round_trip {K : Type} [Zero K] (volume : volume_struct K) (d count : Int)
    (hd : d < volume.n_dimensions) (t out : Int → K) (malloc_ok : Bool)
    (hm : malloc_ok = true ∨ min count (volume.sizes d) = 0) :
    (set_volume_irregular_starts malloc_ok volume d count (some t)).1
        = min count (volume.sizes d) ∧
    get_volume_irregular_starts
        (set_volume_irregular_starts malloc_ok volume d count (some t)).2 d count out
      = (min count (volume.sizes d),
         fun i => if 0 ≤ i ∧ i < min count (volume.sizes d) then t i else out i) := by
  cases malloc_ok
  · have h0 : min count (volume.sizes d) = 0 := by
      rcases hm with h | h
      · exact Bool.noConfusion h
      · exact h
    obtain ⟨h1, h2, _, _⟩ := set_volume_irregular_starts_fails volume d count hd t
    rw [h1, get_volume_irregular_starts_null _ _ _ _ h2, h0]
    refine ⟨rfl, ?_⟩
    congr 1
    funext i
    have : ¬ (0 ≤ i ∧ i < 0) := by omega
    simp [this]
  · obtain ⟨h1, h2, h3, h4⟩ := set_volume_irregular_starts_installs volume d count hd t
    rw [h1, get_volume_irregular_starts_table _ _ _ (by rw [h4]; exact hd) _ _ _ h2, h3]
    refine ⟨rfl, ?_⟩
    congr 1
    funext i
    by_cases h : 0 ≤ i ∧ i < min count (volume.sizes d)
    · simp only [if_pos h]
    · simp only [if_neg h]

theorem widths_round_trip {K : Type} [Zero K] (volume : volume_struct K) (d count : Int)
    (hd : d < volume.n_dimensions) (t out : Int → K) (malloc_ok : Bool)
    (hm : malloc_ok = true ∨ min count (volume.sizes d) = 0) :
    (set_volume_irregular_widths malloc_ok volume d count (some t)).1
        = min count (volume.sizes d) ∧
    get_volume_irregular_widths
        (set_volume_irregular_widths malloc_ok volume d count (some t)).2 d count out
      = (min count (volume.sizes d),
         fun i => if 0 ≤ i ∧ i < min count (volume.sizes d) then t i else out i) := by
  cases malloc_ok
  · have h0 : min count (volume.sizes d) = 0 := by
      rcases hm with h | h
      · exact Bool.noConfusion h
      · exact h
    obtain ⟨h1, h2, _, _⟩ := set_volume_irregular_widths_fails volume d count hd t
    rw [h1, get_volume_irregular_widths_null _ _ _ _ h2, h0]
    refine ⟨rfl, ?_⟩
    congr 1
    funext i
    have : ¬ (0 ≤ i ∧ i < 0) := by omega
    simp [this]
  · obtain ⟨h1, h2, h3, h4⟩ := set_volume_irregular_widths_installs volume d count hd t
    rw [h1, get_volume_irregular_widths_table _ _ _ (by rw [h4]; exact hd) _ _ _ h2, h3]
    refine ⟨rfl, ?_⟩
    congr 1
    funext i
    by_cases h : 0 ≤ i ∧ i < min count (volume.sizes d)
    · simp only [if_pos h]
    · simp only [if_neg h]

/-- Claim C20.  For an in-range dimension `d` of size `n`, a count `>= 0`
and a non-null input table `t`, `set_volume_irregular_starts` (and
`set_volume_irregular_widths`) returns `min(count, n)`; a following getter
call with the same count returns `min(count, n)`, passes back `t[i]` for
every `i` below `min(count, n)` and leaves the rest of the output array as it
was, whatever table was installed before.  For `d >= n_dimensions` the
installers and the getters return 0. -/
theorem irregular_table_round_trip (volume : volume_struct ℝ) (d count : Int)
    (t out : Int → ℝ) (malloc_ok : Bool) :
    (d < volume.n_dimensions → 0 ≤ count →
      (malloc_ok = true ∨ min count (volume.sizes d) = 0) →
      (set_volume_irregular_starts malloc_ok volume d count (some t)).1
          = min count (volume.sizes d) ∧
      (get_volume_irregular_starts
          (set_volume_irregular_starts malloc_ok volume d count (some t)).2 d count out).1
          = min count (volume.sizes d) ∧
      (∀ i, 0 ≤ i → i < min count (volume.sizes d) →
        (get_volume_irregular_starts
          (set_volume_irregular_starts malloc_ok volume d count (some t)).2 d count out).2 i
          = t i) ∧
      (∀ i, (i < 0 ∨ min count (volume.sizes d) ≤ i) →
        (get_volume_irregular_starts
          (set_volume_irregular_starts malloc_ok volume d count (some t)).2 d count out).2 i
          = out i) ∧
      (set_volume_irregular_widths malloc_ok volume d count (some t)).1
          = min count (volume.sizes d) ∧
      (get_volume_irregular_widths
          (set_volume_irregular_widths malloc_ok volume d count (some t)).2 d count out).1
          = min count (volume.sizes d) ∧
      (∀ i, 0 ≤ i → i < min count (volume.sizes d) →
        (get_volume_irregular_widths
          (set_volume_irregular_widths malloc_ok volume d count (some t)).2 d count out).2 i
          = t i) ∧
      (∀ i, (i < 0 ∨ min count (volume.sizes d) ≤ i) →
        (get_volume_irregular_widths
          (set_volume_irregular_widths malloc_ok volume d count (some t)).2 d count out).2 i
          = out i)) ∧
    (d ≥ volume.n_dimensions →
      (set_volume_irregular_starts malloc_ok volume d count (some t)).1 = 0 ∧
      (get_volume_irregular_starts volume d count out).1 = 0 ∧
      (set_volume_irregular_widths malloc_ok volume d count (some t)).1 = 0 ∧
      (get_volume_irregular_widths volume d count out).1 = 0) := by
  constructor
  · intro hd _ hm
    obtain ⟨s1, s2⟩ := starts_round_trip volume d count hd t out malloc_ok hm
    obtain ⟨w1, w2⟩ := widths_round_trip volume d count hd t out malloc_ok hm
    rw [s2, w2]
    refine ⟨s1, rfl, fun i h0 h1 => ?_, fun i h => ?_, w1, rfl, fun i h0 h1 => ?_,
      fun i h => ?_⟩
    · simp [h0, h1]
    · have : ¬ (0 ≤ i ∧ i < min count (volume.sizes d)) := by omega
      simp only [this, if_false]
    · simp [h0, h1]
    · have : ¬ (0 ≤ i ∧ i < min count (volume.sizes d)) := by omega
      simp only [this, if_false]
  · intro hd
    simp [set_volume_irregular_starts, set_volume_irregular_widths,
      get_volume_irregular_starts, get_volume_irregular_widths, hd]

theorem irregular_table_round_trip_witness :
    (2 : Int) < (timed_volume : volume_struct ℝ).n_dimensions ∧ (0 : Int) ≤ 7 ∧
    (set_volume_irregular_starts true (timed_volume : volume_struct ℝ) 2 7
        (some (fun i => (i : ℝ) + 40))).1 = 3 ∧
    (get_volume_irregular_starts
        (set_volume_irregular_starts true (timed_volume : volume_struct ℝ) 2 7
          (some (fun i => (i : ℝ) + 40))).2 2 7 (fun _ => 0)).2 2 = 42 ∧
    (get_volume_irregular_starts
        (set_volume_irregular_starts true (timed_volume : volume_struct ℝ) 2 7
          (some (fun i => (i : ℝ) + 40))).2 2 7 (fun _ => 0)).2 3 = 0 := by
  have hd : (2 : Int) < (timed_volume : volume_struct ℝ).n_dimensions := by decide
  have h := (irregular_table_round_trip (timed_volume : volume_struct ℝ) 2 7
    (fun i => (i : ℝ) + 40) (fun _ => 0) true).1 hd (by decide) (Or.inl rfl)
  have hm : min (7 : Int) ((timed_volume : volume_struct ℝ).sizes 2) = 3 := by decide
  rw [hm] at h
  refine ⟨hd, by decide, h.1, ?_, ?_⟩
  · rw [h.2.2.1 2 (by decide) (by decide)]
    norm_num
  · exact h.2.2.2.1 3 (Or.inr (le_refl _))

/-! ## The translation setter -/

theorem transform_inverse_point {K : Type} [LinearOrderedField K] (t : Transform K)
    (hd : det3 t ≠ 0) (x y z : K) :
    transform_point t (transform_point (compute_transform_inverse t) x y z).1
      (transform_point (compute_transform_inverse t) x y z).2.1
      (transform_point (compute_transform_inverse t) x y z).2.2 = (x, y, z) := by
  have h : det3 t * (det3 t)⁻¹ = 1 := mul_inv_cancel₀ hd
  unfold transform_point compute_transform_inverse
  simp only [Transform_elem, div_eq_mul_inv]
  norm_num
  generalize (det3 t)⁻¹ = i at h ⊢
  unfold det3 at h
  refine ⟨?_, ?_, ?_⟩
  · linear_combination (x - t 0 3) * h
  · linear_combination (y - t 1 3) * h
  · linear_combination (z - t 2 3) * h

theorem svt_origin_three {K : Type} [LinearOrderedField K] (volume : volume_struct K)
    (voxel w : Int → K) (hm : ∀ c, 0 ≤ c → c < 3 → 0 ≤ volume.spatial_axes c)
    (k : Int) (hk0 : 0 ≤ k) (hk3 : k < 3) :
    (svt_origin volume voxel w (fun _ => 0, make_identity_transform)).1 k =
      w k
        - volume.separations (volume.spatial_axes 0) *
            volume.direction_cosines (volume.spatial_axes 0) k * voxel (volume.spatial_axes 0)
        - volume.separations (volume.spatial_axes 1) *
            volume.direction_cosines (volume.spatial_axes 1) k * voxel (volume.spatial_axes 1)
        - volume.separations (volume.spatial_axes 2) *
            volume.direction_cosines (volume.spatial_axes 2) k * voxel (volume.spatial_axes 2) ∧
    (∀ c, 0 ≤ c → c < 3 →
      (svt_origin volume voxel w (fun _ => 0, make_identity_transform)).2 k c =
        volume.direction_cosines (volume.spatial_axes c) k) ∧
    (svt_origin volume voxel w (fun _ => 0, make_identity_transform)).2 k 3 = 0 := by
  have m0 := hm 0 (by norm_num) (by norm_num)
  have m1 := hm 1 (by norm_num) (by norm_num)
  have m2 := hm 2 (by norm_num) (by norm_num)
  simp only [svt_origin, N_DIMENSIONS, for_less_three, ge_iff_le, m0, m1, m2, if_true]
  refine ⟨?_, ?_, ?_⟩
  · rcases int_lt_three hk0 hk3 with h | h | h <;> subst h <;> simp [store_apply]
  · intro c hc0 hc3
    rcases int_lt_three hk0 hk3 with h | h | h <;> subst h <;>
      rcases int_lt_three hc0 hc3 with h' | h' | h' <;> subst h' <;>
      simp [store2_apply, store_apply]
  · rcases int_lt_three hk0 hk3 with h | h | h <;> subst h <;>
      simp [store2_apply, store_apply, make_identity_transform]

theorem set_volume_translation_three {K : Type} [LinearOrderedField K] (sqrt : K → K)
    (volume : volume_struct K) (voxel w : Int → K)
    (hm : ∀ c, 0 ≤ c → c < 3 → 0 ≤ volume.spatial_axes c) :
    set_volume_translation sqrt volume voxel w =
      set_volume_starts volume
        ((fun f2 : Int → K =>
          if 0 ≤ volume.spatial_axes 2 then
            store f2 (volume.spatial_axes 2)
              (transform_point
                (compute_transform_inverse
                  (svt_origin volume voxel w (fun _ => 0, make_identity_transform)).2)
                ((svt_origin volume voxel w (fun _ => 0, make_identity_transform)).1 0)
                ((svt_origin volume voxel w (fun _ => 0, make_identity_transform)).1 1)
                ((svt_origin volume voxel w (fun _ => 0, make_identity_transform)).1 2)).2.2
          else f2)
          ((fun f1 : Int → K =>
            if 0 ≤ volume.spatial_axes 1 then
              store f1 (volume.spatial_axes 1)
                (transform_point
                  (compute_transform_inverse
                    (svt_origin volume voxel w (fun _ => 0, make_identity_transform)).2)
                  ((svt_origin volume voxel w (fun _ => 0, make_identity_transform)).1 0)
                  ((svt_origin volume voxel w (fun _ => 0, make_identity_transform)).1 1)
                  ((svt_origin volume voxel w (fun _ => 0, make_identity_transform)).1 2)).2.1
            else f1)
            ((fun f0 : Int → K =>
              if 0 ≤ volume.spatial_axes 0 then
                store f0 (volume.spatial_axes 0)
                  (transform_point
                    (compute_transform_inverse
                      (svt_origin volume voxel w (fun _ => 0, make_identity_transform)).2)
                    ((svt_origin volume voxel w (fun _ => 0, make_identity_transform)).1 0)
                    ((svt_origin volume voxel w (fun _ => 0, make_identity_transform)).1 1)
                    ((svt_origin volume voxel w (fun _ => 0, make_identity_transform)).1 2)).1
              else f0)
              (fun _ => 0)))) := by
  have m0 := hm 0 (by norm_num) (by norm_num)
  have m1 := hm 1 (by norm_num) (by norm_num)
  have m2 := hm 2 (by norm_num) (by norm_num)
  have hn : for_less 0 N_DIMENSIONS
      (fun dim (n : Int) => if volume.spatial_axes dim ≥ 0 then n + 1 else n) 0 = 3 := by
    simp only [N_DIMENSIONS, for_less_three, ge_iff_le, m0, m1, m2, if_true]
    norm_num
  unfold set_volume_translation
  simp only [hn]
  have e1 : ¬ ((3 : Int) = 1) := by decide
  have e2 : ¬ ((3 : Int) = 1 ∨ (3 : Int) = 2) := by decide
  simp only [e1, e2, if_false]
  have hfill : for_less 0 (get_volume_n_dimensions volume) (fun dim s => store s dim 0)
      (fun _ => (0 : K)) = fun _ => 0 := by
    rw [for_less_store (get_volume_n_dimensions volume) (fun _ => (0 : K)) (fun _ => 0)]
    funext i
    simp
  rw [hfill]
  simp only [N_DIMENSIONS, for_less_three, X, Y, Z, ge_iff_le, m0, m1, m2, if_true,
    store_apply]
  simp

theorem three_axes_regular (sa : Int → Int) (sep st : Int → ℝ) (dc : Int → Int → ℝ)
    (hm : ∀ c, 0 ≤ c → c < 3 → 0 ≤ sa c) (hind : mapped_independent sa dc) :
    ∀ dim, 0 ≤ dim → dim < 3 →
      ¬ cross_is_zero (completed_basis Real.sqrt sa sep dc st dim)
          (completed_basis Real.sqrt sa sep dc st ((dim + 1) % 3)) := by
  apply regular_of_det_ne_zero
  apply completed_basis_det_of sa sep st dc ⟨0, le_refl _, by norm_num, hm 0 (le_refl _)
    (by norm_num)⟩ hind
  intro a ha0 ha3 _ hothers
  exfalso
  rcases int_lt_three ha0 ha3 with h | h | h <;> subst h
  · exact hothers 1 (by norm_num) (by norm_num) (by norm_num) (hm 1 (by norm_num) (by norm_num))
  · exact hothers 0 (by norm_num) (by norm_num) (by norm_num) (hm 0 (by norm_num) (by norm_num))
  · exact hothers 0 (by norm_num) (by norm_num) (by norm_num) (hm 0 (by norm_num) (by norm_num))

theorem set_volume_starts_apply {K : Type} (volume : volume_struct K) (starts : Int → K)
    (i : Int) (h0 : 0 ≤ i) (hn : i < volume.n_dimensions) :
    (set_volume_starts volume starts).starts i = starts i := by
  unfold set_volume_starts
  simp only [get_volume_n_dimensions]
  rw [for_less_store volume.n_dimensions starts volume.starts]
  simp [h0, hn]

/-- Claim C11.  For a volume with three spatial axes (distinct dimensions of
the volume) whose direction cosines are linearly independent, every voxel
vector and every world point `w`: after `set_volume_translation` with that
voxel and `w`, `convert_voxel_to_world` of the voxel returns exactly `w`. -/
theorem set_volume_translation_postcondition (volume : volume_struct ℝ)
    (hm : ∀ c, 0 ≤ c → c < 3 → 0 ≤ volume.spatial_axes c)
    (hn : ∀ c, 0 ≤ c → c < 3 → volume.spatial_axes c < volume.n_dimensions)
    (hsa : axes_distinct volume.spatial_axes)
    (hind : mapped_independent volume.spatial_axes volume.direction_cosines)
    (voxel w : Int → ℝ) (world_transform : General_transform ℝ) :
    (convert_voxel_to_world Real.sqrt world_transform
        (set_volume_translation Real.sqrt volume voxel w) voxel).2 = (w X, w Y, w Z) := by
  have m0 := hm 0 (by norm_num) (by norm_num)
  have m1 := hm 1 (by norm_num) (by norm_num)
  have m2 := hm 2 (by norm_num) (by norm_num)
  rw [set_volume_translation_three Real.sqrt volume voxel w hm]
  obtain ⟨o0, a0, b0⟩ := svt_origin_three volume voxel w hm 0 (by norm_num) (by norm_num)
  obtain ⟨o1, a1, b1⟩ := svt_origin_three volume voxel w hm 1 (by norm_num) (by norm_num)
  obtain ⟨o2, a2, b2⟩ := svt_origin_three volume voxel w hm 2 (by norm_num) (by norm_num)
  generalize (svt_origin volume voxel w (fun _ => 0, make_identity_transform)).1 = o
    at o0 o1 o2 ⊢
  generalize (svt_origin volume voxel w (fun _ => 0, make_identity_transform)).2 = A
    at a0 a1 a2 b0 b1 b2 ⊢
  have hdet : det3 A ≠ 0 := by
    have h := det_ne_zero_of_independent (volume.direction_cosines (volume.spatial_axes 0))
      (volume.direction_cosines (volume.spatial_axes 1))
      (volume.direction_cosines (volume.spatial_axes 2))
      (mapped_independent_triple volume.spatial_axes volume.direction_cosines hind hm)
    unfold det3
    rw [a0 0 (by norm_num) (by norm_num), a0 1 (by norm_num) (by norm_num),
      a0 2 (by norm_num) (by norm_num), a1 0 (by norm_num) (by norm_num),
      a1 1 (by norm_num) (by norm_num), a1 2 (by norm_num) (by norm_num),
      a2 0 (by norm_num) (by norm_num), a2 1 (by norm_num) (by norm_num),
      a2 2 (by norm_num) (by norm_num)]
    exact h
  have hinv := transform_inverse_point A hdet (o 0) (o 1) (o 2)
  generalize transform_point (compute_transform_inverse A) (o 0) (o 1) (o 2) = p at hinv ⊢
  generalize hst : ((fun f2 : Int → ℝ =>
      if 0 ≤ volume.spatial_axes 2 then store f2 (volume.spatial_axes 2) p.2.2 else f2)
      ((fun f1 : Int → ℝ =>
        if 0 ≤ volume.spatial_axes 1 then store f1 (volume.spatial_axes 1) p.2.1 else f1)
        ((fun f0 : Int → ℝ =>
          if 0 ≤ volume.spatial_axes 0 then store f0 (volume.spatial_axes 0) p.1 else f0)
          (fun _ => 0)))) = st
  have hp : ∀ c, 0 ≤ c → c < 3 →
      st (volume.spatial_axes c) = (fun c : Int => if c = 0 then p.1 else if c = 1 then p.2.1
        else p.2.2) c := by
    intro c hc0 hc3
    rw [← hst]
    have h := layered_store_mapped volume.spatial_axes hsa
      (fun c : Int => if c = 0 then p.1 else if c = 1 then p.2.1 else p.2.2) (fun _ => 0)
      c hc0 hc3 (hm c hc0 hc3)
    simpa using h
  have hnew : ∀ c, 0 ≤ c → c < 3 →
      (set_volume_starts volume st).starts (volume.spatial_axes c)
        = (fun c : Int => if c = 0 then p.1 else if c = 1 then p.2.1 else p.2.2) c := by
    intro c hc0 hc3
    rw [set_volume_starts_apply volume st _ (hm c hc0 hc3) (hn c hc0 hc3)]
    exact hp c hc0 hc3
  have hf : (set_volume_starts volume st).voxel_to_world_transform_uptodate = false := rfl
  obtain ⟨g, hg, hl, hlin, htr⟩ := cwt_regular_entries Real.sqrt
    (set_volume_starts volume st).spatial_axes (set_volume_starts volume st).separations
    (set_volume_starts volume st).starts (set_volume_starts volume st).direction_cosines
    ⟨0, le_refl _, by norm_num, m0⟩
    (three_axes_regular volume.spatial_axes _ _ volume.direction_cosines hm hind)
  unfold convert_voxel_to_world
  dsimp only
  rw [check_recompute_stale Real.sqrt world_transform _ g hf hg]
  simp only [general_transform_point, hl, transform_point, Transform_elem]
  have e : ∀ c, 0 ≤ c → c < 3 →
      reorder_voxel_to_xyz
        { set_volume_starts volume st with
          voxel_to_world_transform_uptodate := true, voxel_to_world_transform := g }
        voxel (fun _ => 0) c = voxel (volume.spatial_axes c) := by
    intro c hc0 hc3
    rw [reorder_voxel_to_xyz_apply _ _ _ c hc0 hc3]
    have : (0 : Int) ≤ volume.spatial_axes c := hm c hc0 hc3
    simp [set_volume_starts, this]
  simp only [X, Y, Z]
  rw [e 0 (by norm_num) (by norm_num), e 1 (by norm_num) (by norm_num),
    e 2 (by norm_num) (by norm_num)]
  have hlin' : ∀ c k, 0 ≤ c → c < 3 → 0 ≤ k → k < 3 →
      g.linear_transform k c = volume.direction_cosines (volume.spatial_axes c) k *
        volume.separations (volume.spatial_axes c) := fun c k hc0 hc3 hk0 hk3 =>
    hlin c k hc0 hc3 (hm c hc0 hc3) hk0 hk3
  have htr' : ∀ k, 0 ≤ k → k < 3 →
      g.linear_transform k 3 =
        p.1 * volume.direction_cosines (volume.spatial_axes 0) k
        + p.2.1 * volume.direction_cosines (volume.spatial_axes 1) k
        + p.2.2 * volume.direction_cosines (volume.spatial_axes 2) k := by
    intro k hk0 hk3
    rw [htr k hk0 hk3]
    have n0 := hnew 0 (by norm_num) (by norm_num)
    have n1 := hnew 1 (by norm_num) (by norm_num)
    have n2 := hnew 2 (by norm_num) (by norm_num)
    simp only [mapped_combination, mapped_term]
    have s0 : (set_volume_starts volume st).spatial_axes = volume.spatial_axes := rfl
    have s1 : (set_volume_starts volume st).direction_cosines = volume.direction_cosines := rfl
    rw [s0, s1, n0, n1, n2]
    simp [m0, m1, m2]
  unfold transform_point at hinv
  simp only [Transform_elem, b0, b1, b2, Prod.mk.injEq] at hinv
  obtain ⟨i0, i1, i2⟩ := hinv
  rw [a0 0 (by norm_num) (by norm_num), a0 1 (by norm_num) (by norm_num),
    a0 2 (by norm_num) (by norm_num)] at i0
  rw [a1 0 (by norm_num) (by norm_num), a1 1 (by norm_num) (by norm_num),
    a1 2 (by norm_num) (by norm_num)] at i1
  rw [a2 0 (by norm_num) (by norm_num), a2 1 (by norm_num) (by norm_num),
    a2 2 (by norm_num) (by norm_num)] at i2
  rw [hlin' 0 0 (by norm_num) (by norm_num) (by norm_num) (by norm_num),
    hlin' 1 0 (by norm_num) (by norm_num) (by norm_num) (by norm_num),
    hlin' 2 0 (by norm_num) (by norm_num) (by norm_num) (by norm_num),
    hlin' 0 1 (by norm_num) (by norm_num) (by norm_num) (by norm_num),
    hlin' 1 1 (by norm_num) (by norm_num) (by norm_num) (by norm_num),
    hlin' 2 1 (by norm_num) (by norm_num) (by norm_num) (by norm_num),
    hlin' 0 2 (by norm_num) (by norm_num) (by norm_num) (by norm_num),
    hlin' 1 2 (by norm_num) (by norm_num) (by norm_num) (by norm_num),
    hlin' 2 2 (by norm_num) (by norm_num) (by norm_num) (by norm_num),
    htr' 0 (by norm_num) (by norm_num), htr' 1 (by norm_num) (by norm_num),
    htr' 2 (by norm_num) (by norm_num)]
  refine Prod.ext ?_ (Prod.ext ?_ ?_)
  · simp only
    linear_combination i0 + o0
  · simp only
    linear_combination i1 + o1
  · simp only
    linear_combination i2 + o2

theorem skew_volume_independent :
    mapped_independent (skew_volume : volume_struct ℝ).spatial_axes
      (skew_volume : volume_struct ℝ).direction_cosines := by
  intro a h c hc0 hc3 _
  have h0 := h 0 (by norm_num) (by norm_num)
  have h1 := h 1 (by norm_num) (by norm_num)
  have h2 := h 2 (by norm_num) (by norm_num)
  simp [mapped_combination, mapped_term, skew_volume, axes_zyx, skew_cosines] at h0 h1 h2
  rcases int_lt_three hc0 hc3 with e | e | e <;> subst e
  · rw [h1] at h0
    simpa using h0
  · exact h1
  · exact h2

theorem set_volume_translation_postcondition_witness :
    (∀ c, 0 ≤ c → c < 3 → 0 ≤ (skew_volume : volume_struct ℝ).spatial_axes c) ∧
    (∀ c, 0 ≤ c → c < 3 →
      (skew_volume : volume_struct ℝ).spatial_axes c
        < (skew_volume : volume_struct ℝ).n_dimensions) ∧
    axes_distinct (skew_volume : volume_struct ℝ).spatial_axes ∧
    mapped_independent (skew_volume : volume_struct ℝ).spatial_axes
      (skew_volume : volume_struct ℝ).direction_cosines ∧
    (convert_voxel_to_world Real.sqrt (create_linear_transform make_identity_transform)
        (set_volume_translation Real.sqrt (skew_volume : volume_struct ℝ) sample_starts
          sample_origin) sample_starts).2 = (5, 10, 6) := by
  have hn : ∀ c, 0 ≤ c → c < 3 →
      (skew_volume : volume_struct ℝ).spatial_axes c
        < (skew_volume : volume_struct ℝ).n_dimensions := by
    intro c hc0 hc3
    rcases int_lt_three hc0 hc3 with e | e | e <;> subst e <;> decide
  have h := set_volume_translation_postcondition (skew_volume : volume_struct ℝ)
    axes_zyx_mapped hn axes_zyx_distinct skew_volume_independent sample_starts sample_origin
    (create_linear_transform make_identity_transform)
  refine ⟨axes_zyx_mapped, hn, axes_zyx_distinct, skew_volume_independent, ?_⟩
  rw [h]
  simp [sample_origin, X, Y, Z]

/-! ## Uninstalling a table -/

theorem set_volume_irregular_starts_null {K : Type} [Zero K] (malloc_ok : Bool)
    (volume : volume_struct K) (d count : Int) (hd : d < volume.n_dimensions)
    (hs : (volume.irregular_starts d).not_null = true) :
    set_volume_irregular_starts malloc_ok volume d count none =
      (0, { volume with
            irregular_starts := store volume.irregular_starts d Real_table.freed }) := by
  have hnd : ¬ d ≥ volume.n_dimensions := not_le.mpr hd
  unfold set_volume_irregular_starts
  simp only [hnd, if_false, hs, if_true]

/-- Claim C21 fails in the code.  On the volume `timed_volume`, whose
dimension 2 has a table of starts, `set_volume_irregular_starts` with a null
table returns 0 after `free`, but the pointer of the volume is left as it
was: it is not null, `is_volume_dimension_irregular` still answers true and
`get_volume_irregular_starts` returns the count 3 instead of 0. -/
theorem null_table_not_uninstalled :
    (timed_volume : volume_struct ℝ).irregular_starts 2
      = Real_table.table 3 table_starts ∧
    (set_volume_irregular_starts true (timed_volume : volume_struct ℝ) 2 3 none).1 = 0 ∧
    (set_volume_irregular_starts true (timed_volume : volume_struct ℝ) 2 3
      none).2.irregular_starts 2 = Real_table.freed ∧
    is_volume_dimension_irregular
      (set_volume_irregular_starts true (timed_volume : volume_struct ℝ) 2 3 none).2 2
      = true ∧
    (get_volume_irregular_starts
      (set_volume_irregular_starts true (timed_volume : volume_struct ℝ) 2 3 none).2 2 3
      (fun _ => 0)).1 = 3 := by
  have hd : (2 : Int) < (timed_volume : volume_struct ℝ).n_dimensions := by decide
  rw [set_volume_irregular_starts_null true (timed_volume : volume_struct ℝ) 2 3 hd rfl]
  refine ⟨rfl, rfl, by simp [store_apply], ?_, ?_⟩
  · simp [is_volume_dimension_irregular, store_apply, Real_table.not_null, timed_volume,
      slice_volume]
  · simp [get_volume_irregular_starts, store_apply, Real_table.not_null, timed_volume,
      slice_volume]

/-! ## Rejected direction cosines -/

theorem set_volume_direction_unit_cosine_rejected {K : Type} (volume : volume_struct K)
    (axis : Int) (dir : Int → K)
    (h : axis < 0 ∨ axis ≥ volume.n_dimensions ∨
      ∀ c, 0 ≤ c → c < 3 → volume.spatial_axes c ≠ axis) :
    set_volume_direction_unit_cosine volume axis dir = volume := by
  unfold set_volume_direction_unit_cosine
  by_cases hr : axis < 0 ∨ axis ≥ get_volume_n_dimensions volume
  · simp only [hr, if_true]
  · simp only [hr, if_false]
    have hs : ∀ c, 0 ≤ c → c < 3 → volume.spatial_axes c ≠ axis := by
      rcases h with h | h | h
      · exact absurd (Or.inl h) hr
      · exact absurd (Or.inr h) hr
      · exact h
    have h0 := hs 0 (by norm_num) (by norm_num)
    have h1 := hs 1 (by norm_num) (by norm_num)
    have h2 := hs 2 (by norm_num) (by norm_num)
    simp [N_DIMENSIONS, for_less_break_three, h0, h1, h2]

/-- Claim C25, amended.  `set_volume_direction_cosine` leaves the volume as
it is when the input vector has zero length; `set_volume_direction_cosine`
and `set_volume_direction_unit_cosine` leave the volume as it is when the
axis is outside 0..N-1 or is not a spatial dimension.
(`set_volume_direction_unit_cosine` does not test the length of its input.) -/
theorem rejected_direction_cosine (volume : volume_struct ℝ) (axis : Int) (dir : Int → ℝ) :
    (dir X * dir X + dir Y * dir Y + dir Z * dir Z = 0 →
      set_volume_direction_cosine Real.sqrt volume axis dir = volume) ∧
    ((axis < 0 ∨ axis ≥ volume.n_dimensions ∨
        ∀ c, 0 ≤ c → c < 3 → volume.spatial_axes c ≠ axis) →
      set_volume_direction_cosine Real.sqrt volume axis dir = volume ∧
      set_volume_direction_unit_cosine volume axis dir = volume) := by
  constructor
  · intro h
    unfold set_volume_direction_cosine
    simp only [h, if_true]
  · intro h
    refine ⟨?_, set_volume_direction_unit_cosine_rejected volume axis dir h⟩
    unfold set_volume_direction_cosine
    dsimp only
    split_ifs
    · rfl
    · exact set_volume_direction_unit_cosine_rejected volume axis _ h
    · exact set_volume_direction_unit_cosine_rejected volume axis _ h

theorem rejected_direction_cosine_witness :
    set_volume_direction_cosine Real.sqrt (slice_volume : volume_struct ℝ) 0 (fun _ => 0)
      = slice_volume ∧
    set_volume_direction_cosine Real.sqrt (slice_volume : volume_struct ℝ) 2
      (fun _ => 1) = slice_volume ∧
    set_volume_direction_unit_cosine (slice_volume : volume_struct ℝ) 7 (fun _ => 1)
      = slice_volume :=
  ⟨(rejected_direction_cosine slice_volume 0 (fun _ => 0)).1 (by norm_num),
   ((rejected_direction_cosine slice_volume 2 (fun _ => 1)).2
      (Or.inr (Or.inr time_axis_not_spatial))).1,
   ((rejected_direction_cosine slice_volume 7 (fun _ => 1)).2
      (Or.inr (Or.inl (by decide)))).2⟩

theorem rejected_direction_cosine_counterexample :
    (fun _ : Int => (0 : ℝ)) X * (fun _ : Int => (0 : ℝ)) X
      + (fun _ : Int => (0 : ℝ)) Y * (fun _ : Int => (0 : ℝ)) Y
      + (fun _ : Int => (0 : ℝ)) Z * (fun _ : Int => (0 : ℝ)) Z = 0 ∧
    (slice_volume : volume_struct ℝ).direction_cosines 0 0 = 1 ∧
    (slice_volume : volume_struct ℝ).voxel_to_world_transform_uptodate = true ∧
    (set_volume_direction_unit_cosine (slice_volume : volume_struct ℝ) 0
      (fun _ => 0)).direction_cosines 0 0 = 0 ∧
    (set_volume_direction_unit_cosine (slice_volume : volume_struct ℝ) 0
      (fun _ => 0)).voxel_to_world_transform_uptodate = false := by
  refine ⟨by norm_num, by simp [slice_volume], rfl, ?_, ?_⟩
  · simp [set_volume_direction_unit_cosine, slice_volume, get_volume_n_dimensions,
      N_DIMENSIONS, for_less_break_three, axes_xy, store2_apply, store_apply, X, Y, Z]
  · simp [set_volume_direction_unit_cosine, slice_volume, get_volume_n_dimensions,
      N_DIMENSIONS, for_less_break_three, axes_xy]

/-! ## Names of the spatial dimensions -/

/-- Claim C27.  `convert_dim_name_to_spatial_axis` returns true with the axis
0, 1, 2 for the names "xspace", "yspace", "zspace", and for every other name
it returns false and passes back the axis -1. -/
theorem axis_name_mapping :
    convert_dim_name_to_spatial_axis "xspace" = (true, 0) ∧
    convert_dim_name_to_spatial_axis "yspace" = (true, 1) ∧
    convert_dim_name_to_spatial_axis "zspace" = (true, 2) ∧
    ∀ name : String, name ≠ "xspace" → name ≠ "yspace" → name ≠ "zspace" →
      convert_dim_name_to_spatial_axis name = (false, -1) := by
  refine ⟨by decide, by decide, by decide, ?_⟩
  intro name hx hy hz
  simp [convert_dim_name_to_spatial_axis, equal_strings, MIxspace, MIyspace, MIzspace, hx, hy,
    hz]

theorem axis_name_mapping_witness :
    convert_dim_name_to_spatial_axis "time" = (false, -1) ∧
    convert_dim_name_to_spatial_axis "" = (false, -1) :=
  ⟨axis_name_mapping.2.2.2 "time" (by decide) (by decide) (by decide),
   axis_name_mapping.2.2.2 "" (by decide) (by decide) (by decide)⟩

/-! ## Scatter and gather between logical and canonical order -/

/-- Claim C28.  For a volume whose mapped entries of `spatial_axes` are
distinct: reordering a triple `xyz` to a voxel vector and back gives `xyz` on
every mapped canonical axis and 0 on every unmapped one; reordering a voxel
vector to canonical order and back gives the vector on every spatial
dimension and 0 on every dimension 0..N-1 that is not spatial. -/
theorem scatter_gather (volume : volume_struct ℝ) (hsa : axes_distinct volume.spatial_axes)
    (xyz voxel out_xyz out_voxel : Int → ℝ) :
    (∀ c, 0 ≤ c → c < 3 →
      reorder_voxel_to_xyz volume (reorder_xyz_to_voxel volume xyz out_voxel) out_xyz c
        = if 0 ≤ volume.spatial_axes c then xyz c else 0) ∧
    (∀ c, 0 ≤ c → c < 3 → 0 ≤ volume.spatial_axes c →
      reorder_xyz_to_voxel volume (reorder_voxel_to_xyz volume voxel out_xyz) out_voxel
        (volume.spatial_axes c) = voxel (volume.spatial_axes c)) ∧
    (∀ i, 0 ≤ i → i < volume.n_dimensions →
      (∀ c, 0 ≤ c → c < 3 → volume.spatial_axes c ≠ i) →
      reorder_xyz_to_voxel volume (reorder_voxel_to_xyz volume voxel out_xyz) out_voxel i
        = 0) := by
  refine ⟨?_, ?_, ?_⟩
  · intro c hc0 hc3
    rw [reorder_voxel_to_xyz_apply volume _ _ c hc0 hc3]
    by_cases hc : 0 ≤ volume.spatial_axes c
    · simp only [hc, if_true]
      rw [reorder_xyz_to_voxel_eq]
      exact layered_store_mapped volume.spatial_axes hsa xyz _ c hc0 hc3 hc
    · simp only [hc, if_false]
  · intro c hc0 hc3 hc
    rw [reorder_xyz_to_voxel_eq,
      layered_store_mapped volume.spatial_axes hsa _ _ c hc0 hc3 hc,
      reorder_voxel_to_xyz_apply volume _ _ c hc0 hc3]
    simp only [hc, if_true]
  · intro i hi0 hin hi
    rw [reorder_xyz_to_voxel_eq, layered_store_unmapped volume.spatial_axes _ _ i hi]
    simp [hi0, hin]

theorem scatter_gather_witness :
    axes_distinct (slice_volume : volume_struct ℝ).spatial_axes ∧
    reorder_voxel_to_xyz (slice_volume : volume_struct ℝ)
      (reorder_xyz_to_voxel slice_volume sample_origin (fun _ => 9)) (fun _ => 9) 1 = 10 ∧
    reorder_voxel_to_xyz (slice_volume : volume_struct ℝ)
      (reorder_xyz_to_voxel slice_volume sample_origin (fun _ => 9)) (fun _ => 9) 2 = 0 ∧
    reorder_xyz_to_voxel (slice_volume : volume_struct ℝ)
      (reorder_voxel_to_xyz slice_volume sample_starts (fun _ => 9)) (fun _ => 9) 1 = 11 ∧
    reorder_xyz_to_voxel (slice_volume : volume_struct ℝ)
      (reorder_voxel_to_xyz slice_volume sample_starts (fun _ => 9)) (fun _ => 9) 2 = 0 := by
  have h := scatter_gather (slice_volume : volume_struct ℝ) axes_xy_distinct sample_origin
    sample_starts (fun _ => 9) (fun _ => 9)
  refine ⟨axes_xy_distinct, ?_, ?_, ?_, ?_⟩
  · rw [h.1 1 (by norm_num) (by norm_num)]
    norm_num [slice_volume, axes_xy, sample_origin]
  · rw [h.1 2 (by norm_num) (by norm_num)]
    norm_num [slice_volume, axes_xy]
  · have e := h.2.1 1 (by norm_num) (by norm_num) (by decide)
    have e1 : (slice_volume : volume_struct ℝ).spatial_axes 1 = 1 := by decide
    rw [e1] at e
    rw [e]
    norm_num [sample_starts]
  · exact h.2.2 2 (by norm_num) (by decide) time_axis_not_spatial

/-! ## A volume without a spatial dimension -/

theorem compute_world_transform_none_iff {K : Type} [LinearOrderedField K] (sqrt : K → K)
    (sa : Int → Int) (sep st : Int → K) (dc : Int → Int → K) :
    compute_world_transform sqrt sa sep dc st = none ↔
      ∀ c, 0 ≤ c → c < 3 → ¬ 0 ≤ sa c := by
  constructor
  · intro h c hc0 hc3 hc
    rw [compute_world_transform_some sqrt sa sep st dc ⟨c, hc0, hc3, hc⟩] at h
    exact Option.noConfusion h
  · intro h
    have h0 := h 0 (by norm_num) (by norm_num)
    have h1 := h 1 (by norm_num) (by norm_num)
    have h2 := h 2 (by norm_num) (by norm_num)
    unfold compute_world_transform
    simp only [cwt_collect_n_axes, ge_iff_le, h0, h1, h2, if_false]
    simp

theorem check_recompute_no_axes {K : Type} [LinearOrderedField K] (sqrt : K → K)
    (w : General_transform K) (v : volume_struct K)
    (hf : v.voxel_to_world_transform_uptodate = false)
    (h : ∀ c, 0 ≤ c → c < 3 → ¬ 0 ≤ v.spatial_axes c) :
    check_recompute_world_transform sqrt w v
      = { v with voxel_to_world_transform_uptodate := true, voxel_to_world_transform := w } := by
  have hn := (compute_world_transform_none_iff sqrt v.spatial_axes v.separations v.starts
    v.direction_cosines).mpr h
  unfold check_recompute_world_transform assign_voxel_to_world_transform
  simp [hf, hn]

/-- Claim C29 fails in the code.  `compute_world_transform` writes no
transform exactly when no canonical axis is mapped, but the lazy recompute
does not return without effect: on the one-dimensional volume
`timeline_volume`, which has no spatial dimension, after `set_volume_starts`
the call `get_voxel_to_world_transform` assigns the content of the local
`world_transform`, which nothing has written, to the volume and flags it up
to date; with the content `w` of that local the cached transform is `w`, not
the identity transform cached before. -/
theorem no_axes_recompute_overwrites :
    (∀ (sa : Int → Int) (sep st : Int → ℝ) (dc : Int → Int → ℝ),
      compute_world_transform Real.sqrt sa sep dc st = none ↔
        ∀ c, 0 ≤ c → c < 3 → ¬ 0 ≤ sa c) ∧
    (∀ c, 0 ≤ c → c < 3 → ¬ 0 ≤ (timeline_volume : volume_struct ℝ).spatial_axes c) ∧
    (set_volume_starts (timeline_volume : volume_struct ℝ)
      sample_starts).voxel_to_world_transform
        = create_linear_transform make_identity_transform ∧
    (∀ w : General_transform ℝ,
      (get_voxel_to_world_transform Real.sqrt w
        (set_volume_starts (timeline_volume : volume_struct ℝ) sample_starts)).2 = w ∧
      (get_voxel_to_world_transform Real.sqrt w
        (set_volume_starts (timeline_volume : volume_struct ℝ)
          sample_starts)).1.voxel_to_world_transform_uptodate = true) ∧
    (get_voxel_to_world_transform Real.sqrt (create_linear_transform sample_transform)
        (set_volume_starts (timeline_volume : volume_struct ℝ)
          sample_starts)).2.linear_transform 0 0 = 3 ∧
    (set_volume_starts (timeline_volume : volume_struct ℝ)
      sample_starts).voxel_to_world_transform.linear_transform 0 0 = 1 := by
  have hna : ∀ c, 0 ≤ c → c < 3 →
      ¬ 0 ≤ (timeline_volume : volume_struct ℝ).spatial_axes c := by
    intro c _ _
    simp [timeline_volume, axes_none]
  have hw : ∀ w : General_transform ℝ,
      (get_voxel_to_world_transform Real.sqrt w
        (set_volume_starts (timeline_volume : volume_struct ℝ) sample_starts)).2 = w ∧
      (get_voxel_to_world_transform Real.sqrt w
        (set_volume_starts (timeline_volume : volume_struct ℝ)
          sample_starts)).1.voxel_to_world_transform_uptodate = true := by
    intro w
    unfold get_voxel_to_world_transform
    dsimp only
    rw [check_recompute_no_axes Real.sqrt w
      (set_volume_starts (timeline_volume : volume_struct ℝ) sample_starts) rfl hna]
    exact ⟨rfl, rfl⟩
  refine ⟨fun sa sep st dc => compute_world_transform_none_iff Real.sqrt sa sep st dc,
    hna, rfl, hw, ?_, ?_⟩
  · rw [(hw _).1]
    simp [create_linear_transform, sample_transform]
  · simp [set_volume_starts, timeline_volume, slice_volume, create_linear_transform,
      make_identity_transform]

/-! ## The state of a volume after its creation -/

theorem for_less_induction {σ : Type} (P : Int → σ → Prop) (n : Int) (hn : 0 ≤ n)
    (body : Int → σ → σ) (init : σ) (h0 : P 0 init)
    (hs : ∀ k s, 0 ≤ k → k < n → P k s → P (k + 1) (body k s)) :
    P n (for_less 0 n body init) := by
  unfold for_less
  have key : ∀ m : Nat, (m : Int) ≤ n →
      P (m : Int) ((List.range m).foldl (fun s (k : Nat) => body (0 + Int.ofNat k) s) init) := by
    intro m
    induction m with
    | zero => intro _; exact h0
    | succ m ih =>
      intro hm
      rw [List.range_succ, List.foldl_append]
      simp only [List.foldl_cons, List.foldl_nil, zero_add, Int.ofNat_eq_coe]
      have h := hs (m : Int) _ (by omega) (by omega) (ih (by omega))
      simpa using h
  have e : ((n - 0).toNat : Int) = n := by omega
  have h := key (n - 0).toNat (by omega)
  rw [e] at h
  exact h

theorem convert_dim_name_cases (name : String) :
    (name = spatial_name 0 ∧ convert_dim_name_to_spatial_axis name = (true, 0)) ∨
    (name = spatial_name 1 ∧ convert_dim_name_to_spatial_axis name = (true, 1)) ∨
    (name = spatial_name 2 ∧ convert_dim_name_to_spatial_axis name = (true, 2)) ∨
    ((∀ a, 0 ≤ a → a < 3 → name ≠ spatial_name a) ∧
      convert_dim_name_to_spatial_axis name = (false, -1)) := by
  by_cases hx : name = "xspace"
  · exact Or.inl ⟨hx, by rw [hx]; decide⟩
  · by_cases hy : name = "yspace"
    · exact Or.inr (Or.inl ⟨hy, by rw [hy]; decide⟩)
    · by_cases hz : name = "zspace"
      · exact Or.inr (Or.inr (Or.inl ⟨hz, by rw [hz]; decide⟩))
      · refine Or.inr (Or.inr (Or.inr ⟨?_, ?_⟩))
        · intro a ha0 ha3
          rcases int_lt_three ha0 ha3 with h | h | h <;> subst h <;>
            simp [spatial_name, MIxspace, MIyspace, MIzspace, hx, hy, hz]
        · simp [convert_dim_name_to_spatial_axis, equal_strings, MIxspace, MIyspace,
            MIzspace, hx, hy, hz]

theorem spatial_name_injective (a b : Int) (ha0 : 0 ≤ a) (ha3 : a < 3) (hb0 : 0 ≤ b)
    (hb3 : b < 3) (h : spatial_name a = spatial_name b) : a = b := by
  rcases int_lt_three ha0 ha3 with e | e | e <;> subst e <;>
    rcases int_lt_three hb0 hb3 with e' | e' | e' <;> subst e' <;>
    first | rfl | (exfalso; revert h; decide)

theorem axis_of_names_keep (name : Int → String) (k : Int) (sa sa' : Int → Int) (a : Int)
    (hk : name k ≠ spatial_name a) (he : sa' a = sa a)
    (h : axis_of_names name k sa a) : axis_of_names name (k + 1) sa' a := by
  unfold axis_of_names at h ⊢
  rw [he]
  rcases h with ⟨h1, h2⟩ | ⟨h1, h2, h3, h4⟩
  · refine Or.inl ⟨h1, fun i hi0 hik => ?_⟩
    by_cases e : i = k
    · rw [e]; exact hk
    · exact h2 i hi0 (by omega)
  · refine Or.inr ⟨h1, by omega, h3, fun j hj hjk => ?_⟩
    by_cases e : j = k
    · rw [e]; exact hk
    · exact h4 j hj (by omega)

theorem axis_of_names_new (name : Int → String) (k : Int) (hk0 : 0 ≤ k) (sa' : Int → Int)
    (a : Int) (hk : name k = spatial_name a) (he : sa' a = k) :
    axis_of_names name (k + 1) sa' a := by
  unfold axis_of_names
  rw [he]
  exact Or.inr ⟨hk0, by omega, hk, fun j hj hjk => by omega⟩

theorem create_volume_dimension_eq {K : Type} [LinearOrderedField K] (n : Int)
    (names : Option (Int → String)) (i : Int) (s : volume_struct K × (Int → Int)) :
    create_volume_dimension n names i s =
      ({ s.1 with
         starts := store s.1.starts i 0
         separations := store s.1.separations i 1
         direction_cosines :=
           if (convert_dim_name_to_spatial_axis (dimension_name n names i)).1 then
             store2 (store2 (store2 (store2 s.1.direction_cosines i X 0) i Y 0) i Z 0) i
               (convert_dim_name_to_spatial_axis (dimension_name n names i)).2 1
           else
             store2 (store2 (store2 s.1.direction_cosines i X 0) i Y 0) i Z 0
         irregular_starts := store s.1.irregular_starts i Real_table.NULL
         irregular_widths := store s.1.irregular_widths i Real_table.NULL
         spatial_axes :=
           if (convert_dim_name_to_spatial_axis (dimension_name n names i)).1 then
             store s.1.spatial_axes (convert_dim_name_to_spatial_axis
               (dimension_name n names i)).2 i
           else
             s.1.spatial_axes
         dimension_names := store s.1.dimension_names i (dimension_name n names i) },
       store s.2 i 0) := by
  unfold create_volume_dimension dimension_name
  cases names <;> (dsimp only; split_ifs <;> rfl)

theorem create_volume_dimension_stage {K : Type} [LinearOrderedField K] (n : Int)
    (names : Option (Int → String)) (k : Int) (hk0 : 0 ≤ k)
    (s : volume_struct K × (Int → Int))
    (h : creation_stage (dimension_name n names) k s) :
    creation_stage (dimension_name n names) (k + 1) (create_volume_dimension n names k s) := by
  rw [create_volume_dimension_eq]
  generalize dimension_name n names = name at *
  obtain ⟨hf, hd, ha⟩ := h
  have hold : ∀ i, 0 ≤ i → i < k + 1 → i ≠ k → ∀ (sa : Int → Int) (dc : Int → Int → K),
      dc i = (store2 (store2 (store2 s.1.direction_cosines k X 0) k Y 0) k Z 0) i →
      initial_dimension name
        { s.1 with
          starts := store s.1.starts k 0
          separations := store s.1.separations k 1
          direction_cosines := dc
          irregular_starts := store s.1.irregular_starts k Real_table.NULL
          irregular_widths := store s.1.irregular_widths k Real_table.NULL
          spatial_axes := sa
          dimension_names := store s.1.dimension_names k (name k) }
        (store s.2 k 0) i := by
    intro i hi0 hik hne sa dc hdc
    have := hd i hi0 (by omega)
    unfold initial_dimension at this ⊢
    simp only [store_apply, hne, if_false, hdc, store2_apply]
    exact this
  rcases convert_dim_name_cases (name k) with ⟨hn, hc⟩ | ⟨hn, hc⟩ | ⟨hn, hc⟩ | ⟨hn, hc⟩
  all_goals simp only [hc, if_true, Bool.false_eq_true, if_false]
  · refine ⟨hf, fun i hi0 hik => ?_, fun a ha0 ha3 => ?_⟩
    · by_cases e : i = k
      · subst e
        unfold initial_dimension
        refine ⟨by simp [store_apply], by simp [store_apply], by simp [store_apply],
          by simp [store_apply], by simp [store_apply], by simp [store_apply], ?_⟩
        intro a ha0 ha3
        rcases int_lt_three ha0 ha3 with e | e | e <;> subst e <;>
          simp [store2_apply, store_apply, X, Y, Z, hn, spatial_name, MIxspace, MIyspace,
            MIzspace]
      · refine hold i hi0 hik e _ _ ?_
        simp [store2, e]
    · by_cases e : a = 0
      · subst e
        exact axis_of_names_new name k hk0 _ 0 hn (by simp [store_apply])
      · refine axis_of_names_keep name k s.1.spatial_axes _ a ?_ (by simp [store_apply, e])
          (ha a ha0 ha3)
        rw [hn]
        intro hh
        exact e (spatial_name_injective 0 a (le_refl _) (by norm_num) ha0 ha3 hh).symm
  · refine ⟨hf, fun i hi0 hik => ?_, fun a ha0 ha3 => ?_⟩
    · by_cases e : i = k
      · subst e
        unfold initial_dimension
        refine ⟨by simp [store_apply], by simp [store_apply], by simp [store_apply],
          by simp [store_apply], by simp [store_apply], by simp [store_apply], ?_⟩
        intro a ha0 ha3
        rcases int_lt_three ha0 ha3 with e | e | e <;> subst e <;>
          simp [store2_apply, store_apply, X, Y, Z, hn, spatial_name, MIxspace, MIyspace,
            MIzspace]
      · refine hold i hi0 hik e _ _ ?_
        simp [store2, e]
    · by_cases e : a = 1
      · subst e
        exact axis_of_names_new name k hk0 _ 1 hn (by simp [store_apply])
      · refine axis_of_names_keep name k s.1.spatial_axes _ a ?_ (by simp [store_apply, e])
          (ha a ha0 ha3)
        rw [hn]
        intro hh
        exact e (spatial_name_injective 1 a (by norm_num) (by norm_num) ha0 ha3 hh).symm
  · refine ⟨hf, fun i hi0 hik => ?_, fun a ha0 ha3 => ?_⟩
    · by_cases e : i = k
      · subst e
        unfold initial_dimension
        refine ⟨by simp [store_apply], by simp [store_apply], by simp [store_apply],
          by simp [store_apply], by simp [store_apply], by simp [store_apply], ?_⟩
        intro a ha0 ha3
        rcases int_lt_three ha0 ha3 with e | e | e <;> subst e <;>
          simp [store2_apply, store_apply, X, Y, Z, hn, spatial_name, MIxspace, MIyspace,
            MIzspace]
      · refine hold i hi0 hik e _ _ ?_
        simp [store2, e]
    · by_cases e : a = 2
      · subst e
        exact axis_of_names_new name k hk0 _ 2 hn (by simp [store_apply])
      · refine axis_of_names_keep name k s.1.spatial_axes _ a ?_ (by simp [store_apply, e])
          (ha a ha0 ha3)
        rw [hn]
        intro hh
        exact e (spatial_name_injective 2 a (by norm_num) (by norm_num) ha0 ha3 hh).symm
  · refine ⟨hf, fun i hi0 hik => ?_, fun a ha0 ha3 => ?_⟩
    · by_cases e : i = k
      · subst e
        unfold initial_dimension
        refine ⟨by simp [store_apply], by simp [store_apply], by simp [store_apply],
          by simp [store_apply], by simp [store_apply], by simp [store_apply], ?_⟩
        intro a ha0 ha3
        have := hn a ha0 ha3
        rcases int_lt_three ha0 ha3 with e | e | e <;> subst e <;>
          simp [store2_apply, store_apply, X, Y, Z, this]
      · exact hold i hi0 hik e _ _ rfl
    · exact axis_of_names_keep name k s.1.spatial_axes _ a (hn a ha0 ha3) rfl (ha a ha0 ha3)

theorem set_volume_type_unset {K : Type} [LinearOrderedField K] (volume : volume_struct K)
    (h : volume.real_range_set = false) (nc_data_type : nc_type) (signed_flag : Bool)
    (voxel_min voxel_max : K) :
    set_volume_type volume nc_data_type signed_flag voxel_min voxel_max =
      if nc_data_type = nc_type.MI_ORIGINAL_TYPE then
        { volume with nc_data_type := nc_data_type }
      else
        { volume with
          data_type := storage_type nc_data_type signed_flag
          signed_flag := signed_flag
          voxel_min := (kept_range (storage_type nc_data_type signed_flag) voxel_min
            voxel_max).1
          voxel_max := (kept_range (storage_type nc_data_type signed_flag) voxel_min
            voxel_max).2
          nc_data_type := nc_data_type } := by
  unfold set_volume_type
  by_cases hnc : nc_data_type = nc_type.MI_ORIGINAL_TYPE
  · simp [hnc]
  · simp only [ne_eq, hnc, not_false_eq_true, if_true, if_false]
    rw [set_volume_voxel_range_unset _ _ _ (by simp [set_multidim_data_type, h])]
    cases nc_data_type <;> first | exact absurd rfl hnc | rfl

theorem creation_stage_zero {K : Type} [LinearOrderedField K] (name : Int → String)
    (alloc : volume_struct K) :
    creation_stage name 0
      ({ alloc with
          is_rgba_data := false
          is_cached_volume := false
          real_range_set := false
          real_value_scale := 1
          real_value_translation := 0
          spatial_axes := for_less 0 N_DIMENSIONS (fun i sa => store sa i (-1))
            alloc.spatial_axes },
        fun _ => 0) := by
  refine ⟨⟨rfl, rfl, rfl, rfl, rfl⟩, fun i hi0 hi => by omega, fun a ha0 ha3 => ?_⟩
  refine Or.inl ⟨?_, fun i hi0 hi => by omega⟩
  simp only [N_DIMENSIONS, for_less_three]
  rcases int_lt_three ha0 ha3 with e | e | e <;> subst e <;> simp [store_apply]

theorem create_volume_initial {K : Type} [LinearOrderedField K] (alloc : volume_struct K)
    (n : Int) (h1 : 1 ≤ n) (h5 : n ≤ MAX_DIMENSIONS) (names : Option (Int → String))
    (nc_data_type : nc_type) (signed_flag : Bool) (voxel_min voxel_max : K) :
    ∃ volume : volume_struct K,
      create_volume alloc n names nc_data_type signed_flag voxel_min voxel_max = some volume ∧
      initial_state n (dimension_name n names) volume ∧
      volume.nc_data_type = nc_data_type ∧
      (nc_data_type ≠ nc_type.MI_ORIGINAL_TYPE →
        volume.data_type = storage_type nc_data_type signed_flag ∧
        volume.signed_flag = signed_flag ∧
        volume.voxel_min
          = (kept_range (storage_type nc_data_type signed_flag) voxel_min voxel_max).1 ∧
        volume.voxel_max
          = (kept_range (storage_type nc_data_type signed_flag) voxel_min voxel_max).2) ∧
      (nc_data_type = nc_type.MI_ORIGINAL_TYPE →
        volume.data_type = Data_types.NO_DATA_TYPE ∧
        volume.voxel_min = alloc.voxel_min ∧ volume.voxel_max = alloc.voxel_max) := by
  have hn : ¬ (n < 1 ∨ n > MAX_DIMENSIONS) := by
    simp only [MAX_DIMENSIONS] at h5 ⊢
    omega
  have hstage := for_less_induction
    (fun k (s : volume_struct K × (Int → Int)) =>
      creation_stage (dimension_name n names) k s ∧
      s.1.voxel_min = alloc.voxel_min ∧ s.1.voxel_max = alloc.voxel_max)
    n (by omega) (create_volume_dimension n names) _
    ⟨creation_stage_zero (dimension_name n names) alloc, rfl, rfl⟩
    (fun k s hk0 _ hs =>
      ⟨create_volume_dimension_stage n names k hk0 s hs.1,
        (create_volume_dimension_range n names k s).1.trans hs.2.1,
        (create_volume_dimension_range n names k s).2.trans hs.2.2⟩)
  unfold create_volume
  simp only [hn, if_false]
  refine ⟨_, rfl, ?_⟩
  generalize (for_less 0 n (create_volume_dimension n names) _ :
    volume_struct K × (Int → Int)) = s at hstage ⊢
  obtain ⟨⟨hf, hd, ha⟩, hmin, hmax⟩ := hstage
  have hr : (create_empty_multidim_array s.1 n Data_types.NO_DATA_TYPE).real_range_set
      = false := hf.1
  rw [set_volume_type_unset _ hr]
  by_cases hnc : nc_data_type = nc_type.MI_ORIGINAL_TYPE
  · simp only [hnc, if_true]
    refine ⟨⟨rfl, hf, fun i hi0 hi => ?_, ha, rfl, rfl, rfl⟩, rfl,
      fun h => absurd rfl h, fun _ => ⟨rfl, hmin, hmax⟩⟩
    have := hd i hi0 hi
    unfold initial_dimension at this ⊢
    refine ⟨this.1, this.2.1, this.2.2.1, this.2.2.2.1, ?_, this.2.2.2.2.2.1,
      this.2.2.2.2.2.2⟩
    simp only [set_volume_sizes, set_multidim_sizes, create_empty_multidim_array]
    rw [for_less_store]
    simp only [hi0, hi, and_self, if_true]
    exact this.2.2.2.2.1
  · simp only [hnc, if_false]
    refine ⟨⟨rfl, hf, fun i hi0 hi => ?_, ha, rfl, rfl, rfl⟩, rfl,
      fun _ => ⟨rfl, rfl, rfl, rfl⟩, fun h => False.elim h⟩
    have := hd i hi0 hi
    unfold initial_dimension at this ⊢
    refine ⟨this.1, this.2.1, this.2.2.1, this.2.2.2.1, ?_, this.2.2.2.2.2.1,
      this.2.2.2.2.2.2⟩
    simp only [set_volume_sizes, set_multidim_sizes, create_empty_multidim_array]
    rw [for_less_store]
    simp only [hi0, hi, and_self, if_true]
    exact this.2.2.2.2.1

theorem default_names_axis (n i a : Int) (h1 : 1 ≤ n) (h5 : n ≤ 5) (hi0 : 0 ≤ i) (hin : i < n)
    (ha0 : 0 ≤ a) (ha3 : a < 3) :
    default_dimension_names (n - 1) i = spatial_name a ↔ i = n - 1 - a := by
  interval_cases n <;> interval_cases i <;> interval_cases a <;> decide

theorem default_names_axes (n : Int) (h1 : 1 ≤ n) (h5 : n ≤ 5) (sa : Int → Int) (a : Int)
    (ha0 : 0 ≤ a) (ha3 : a < 3) (h : axis_of_names (dimension_name n none) n sa a) :
    sa a = if a < n then n - 1 - a else -1 := by
  unfold axis_of_names at h
  have hname : ∀ i, dimension_name n none i = default_dimension_names (n - 1) i := fun _ => rfl
  rcases h with ⟨h1', h2⟩ | ⟨h1', h2, h3, _⟩
  · by_cases han : a < n
    · exfalso
      refine h2 (n - 1 - a) (by omega) (by omega) ?_
      rw [hname]
      exact (default_names_axis n (n - 1 - a) a h1 h5 (by omega) (by omega) ha0 ha3).mpr rfl
    · rw [if_neg han]
      exact h1'
  · rw [hname] at h3
    have e := (default_names_axis n (sa a) a h1 h5 h1' h2 ha0 ha3).mp h3
    have han : a < n := by omega
    rw [if_pos han]
    exact e

/-- Claim C30.  `create_volume` returns the null volume exactly when
`n_dimensions` is outside 1..5.  Otherwise, in the new volume every dimension
has start 0, separation 1, no irregular table and the direction cosine that
is the unit vector along the canonical axis it is named after; there is no
real range, the scale is 1, the translation 0, the cache and RGB flags are
false; each canonical axis is mapped to the (last) dimension named after it,
or is -1 when no dimension is; the cached transform is the identity and up to
date.  With a null list of names, X, Y, Z are mapped to the dimensions n-1,
n-2, n-3, those that exist. -/
theorem initial_state_after_construction (alloc : volume_struct ℝ) (n : Int)
    (names : Option (Int → String)) (nc_data_type : nc_type) (signed_flag : Bool)
    (voxel_min voxel_max : ℝ) :
    (create_volume alloc n names nc_data_type signed_flag voxel_min voxel_max = none ↔
      (n < 1 ∨ n > 5)) ∧
    (1 ≤ n → n ≤ 5 →
      ∃ volume : volume_struct ℝ,
        create_volume alloc n names nc_data_type signed_flag voxel_min voxel_max
          = some volume ∧
        initial_state n (dimension_name n names) volume ∧
        (names = none →
          ∀ a, 0 ≤ a → a < 3 → volume.spatial_axes a = if a < n then n - 1 - a else -1)) := by
  constructor
  · constructor
    · intro h
      by_contra hn
      obtain ⟨volume, hv, _⟩ := create_volume_initial alloc n (by omega)
        (by simp only [MAX_DIMENSIONS]; omega) names nc_data_type signed_flag voxel_min
        voxel_max
      rw [hv] at h
      exact Option.noConfusion h
    · intro h
      unfold create_volume
      simp only [MAX_DIMENSIONS, h, if_true]
  · intro h1 h5
    obtain ⟨volume, hv, hs, _⟩ := create_volume_initial alloc n h1 h5 names nc_data_type
      signed_flag voxel_min voxel_max
    refine ⟨volume, hv, hs, ?_⟩
    intro hnone a ha0 ha3
    subst hnone
    exact default_names_axes n h1 h5 volume.spatial_axes a ha0 ha3 (hs.2.2.2.1 a ha0 ha3)

theorem initial_state_after_construction_witness :
    create_volume (zeroed_record : volume_struct ℝ) 6 none nc_type.NC_BYTE false 0 255
      = none ∧
    ∃ volume : volume_struct ℝ,
      create_volume (zeroed_record : volume_struct ℝ) 4 none nc_type.NC_BYTE false 0 255
        = some volume ∧
      volume.spatial_axes 0 = 3 ∧ volume.spatial_axes 1 = 2 ∧ volume.spatial_axes 2 = 1 ∧
      volume.starts 3 = 0 ∧ volume.separations 3 = 1 ∧
      volume.direction_cosines 3 0 = 1 ∧ volume.direction_cosines 3 1 = 0 ∧
      volume.voxel_to_world_transform_uptodate = true := by
  have h := initial_state_after_construction (zeroed_record : volume_struct ℝ) 4 none
    nc_type.NC_BYTE false 0 255
  obtain ⟨volume, hv, hs, hd⟩ := h.2 (by norm_num) (by norm_num)
  refine ⟨((initial_state_after_construction (zeroed_record : volume_struct ℝ) 6 none
    nc_type.NC_BYTE false 0 255).1).mpr (Or.inr (by norm_num)), volume, hv, ?_⟩
  have d3 := hs.2.2.1 3 (by norm_num) (by norm_num)
  unfold initial_dimension at d3
  refine ⟨by rw [hd rfl 0 (by norm_num) (by norm_num)]; norm_num,
    by rw [hd rfl 1 (by norm_num) (by norm_num)]; norm_num,
    by rw [hd rfl 2 (by norm_num) (by norm_num)]; norm_num,
    d3.1, d3.2.1, ?_, ?_, hs.2.2.2.2.2.1⟩
  · rw [d3.2.2.2.2.2.2 0 (by norm_num) (by norm_num)]
    have : dimension_name 4 none 3 = spatial_name 0 := by decide
    simp [this]
  · rw [d3.2.2.2.2.2.2 1 (by norm_num) (by norm_num)]
    have : dimension_name 4 none 3 ≠ spatial_name 1 := by decide
    simp [this]

/-! ## Copies of a volume -/

theorem get_volume_direction_cosine_spatial {K : Type} [LinearOrderedField K]
    (volume : volume_struct K) (axis : Int) (dir : Int → K)
    (hax : 0 ≤ axis ∧ axis < volume.n_dimensions)
    (hsp : ∃ c, 0 ≤ c ∧ c < 3 ∧ volume.spatial_axes c = axis) :
    get_volume_direction_cosine volume axis dir =
      store (store (store dir X (volume.direction_cosines axis X)) Y
        (volume.direction_cosines axis Y)) Z (volume.direction_cosines axis Z) := by
  obtain ⟨c, hc0, hc3, hc⟩ := hsp
  have hne : for_less_break 0 N_DIMENSIONS (fun d => volume.spatial_axes d == axis)
      ≠ N_DIMENSIONS := by
    rw [for_less_break_three]
    rcases int_lt_three hc0 hc3 with h | h | h <;> subst h <;> simp [hc] <;>
      split_ifs <;> decide
  have hr : ¬ (axis < 0 ∨ axis ≥ get_volume_n_dimensions volume) := by
    simp only [get_volume_n_dimensions]
    omega
  unfold get_volume_direction_cosine
  simp only [hr, hne, if_false]

theorem copy_direction_cosines {K : Type} [LinearOrderedField K]
    (volume copy : volume_struct K) (hn0 : 0 ≤ volume.n_dimensions)
    (hn : copy.n_dimensions = volume.n_dimensions)
    (hsa : ∀ c, 0 ≤ c → c < 3 → copy.spatial_axes c = volume.spatial_axes c)
    (d0 : Int → K) :
    ∃ (dc : Int → Int → K) (f : Bool),
      (for_less 0 volume.n_dimensions
        (fun c (s : volume_struct K × (Int → K)) =>
          (set_volume_direction_unit_cosine s.1 c (get_volume_direction_cosine volume c s.2),
            get_volume_direction_cosine volume c s.2))
        (copy, d0)).1
        = { copy with direction_cosines := dc, voxel_to_world_transform_uptodate := f } ∧
      ∀ i, 0 ≤ i → i < volume.n_dimensions →
        (∃ c, 0 ≤ c ∧ c < 3 ∧ volume.spatial_axes c = i) →
        ∀ j, 0 ≤ j → j < 3 → dc i j = volume.direction_cosines i j := by
  refine for_less_induction
    (fun k (s : volume_struct K × (Int → K)) =>
      ∃ (dc : Int → Int → K) (f : Bool),
        s.1 = { copy with direction_cosines := dc, voxel_to_world_transform_uptodate := f } ∧
        ∀ i, 0 ≤ i → i < k → (∃ c, 0 ≤ c ∧ c < 3 ∧ volume.spatial_axes c = i) →
          ∀ j, 0 ≤ j → j < 3 → dc i j = volume.direction_cosines i j)
    volume.n_dimensions hn0 _ _ ⟨copy.direction_cosines, copy.voxel_to_world_transform_uptodate,
      rfl, fun i hi0 hi => by omega⟩ ?_
  intro k s hk0 hkn ⟨dc, f, hs, hrow⟩
  by_cases hsp : ∃ c, 0 ≤ c ∧ c < 3 ∧ volume.spatial_axes c = k
  · have hsp' : ∃ c, 0 ≤ c ∧ c < 3 ∧ s.1.spatial_axes c = k := by
      obtain ⟨c, hc0, hc3, hc⟩ := hsp
      refine ⟨c, hc0, hc3, ?_⟩
      rw [hs]
      exact (hsa c hc0 hc3).trans hc
    have hax : 0 ≤ k ∧ k < get_volume_n_dimensions s.1 := by
      rw [hs]
      simp only [get_volume_n_dimensions, hn]
      exact ⟨hk0, hkn⟩
    refine ⟨store2 (store2 (store2 dc k X (get_volume_direction_cosine volume k s.2 X)) k Y
      (get_volume_direction_cosine volume k s.2 Y)) k Z
      (get_volume_direction_cosine volume k s.2 Z), false, ?_, ?_⟩
    · simp only
      rw [set_volume_direction_unit_cosine_spatial s.1 k _ hax hsp', hs]
    · intro i hi0 hik hi j hj0 hj3
      rw [get_volume_direction_cosine_spatial volume k s.2 ⟨hk0, hkn⟩ hsp]
      by_cases e : i = k
      · subst e
        rcases int_lt_three hj0 hj3 with h | h | h <;> subst h <;>
          simp [store2_apply, store_apply, X, Y, Z]
      · have := hrow i hi0 (by omega) hi j hj0 hj3
        simp only [store2_apply, e, if_false]
        exact this
  · have hrej : ∀ c, 0 ≤ c → c < 3 → s.1.spatial_axes c ≠ k := by
      intro c hc0 hc3 hc
      apply hsp
      refine ⟨c, hc0, hc3, ?_⟩
      rw [hs] at hc
      exact (hsa c hc0 hc3).symm.trans hc
    refine ⟨dc, f, ?_, ?_⟩
    · simp only
      rw [set_volume_direction_unit_cosine_rejected s.1 k _ (Or.inr (Or.inr hrej)), hs]
    · intro i hi0 hik hi j hj0 hj3
      by_cases e : i = k
      · subst e
        exact absurd hi hsp
      · exact hrow i hi0 (by omega) hi j hj0 hj3

theorem fill_three {α : Type} (f : Int → α) (a : Int → α) (c : Int) (hc0 : 0 ≤ c)
    (hc3 : c < 3) :
    for_less 0 N_DIMENSIONS (fun c sa => store sa c (f c)) a c = f c := by
  rw [for_less_store N_DIMENSIONS f a]
  simp [hc0, hc3, N_DIMENSIONS]

theorem copy_real_range {K : Type} [LinearOrderedField K] (volume copy : volume_struct K)
    (hrange : volume.voxel_min < volume.voxel_max)
    (hfloat : is_floating_type volume.data_type → volume.real_range_set = false)
    (ht : copy.data_type = volume.data_type)
    (hmin : copy.voxel_min = volume.voxel_min) (hmax : copy.voxel_max = volume.voxel_max) :
    ∃ (r : Bool) (sc tr : K),
      set_volume_real_range copy (get_volume_real_min volume) (get_volume_real_max volume)
        = { copy with
            real_range_set := r
            real_value_scale := sc
            real_value_translation := tr } ∧
      (if r then sc * volume.voxel_min + tr else volume.voxel_min)
        = get_volume_real_min volume ∧
      (if r then sc * volume.voxel_max + tr else volume.voxel_max)
        = get_volume_real_max volume := by
  have hne : volume.voxel_max - volume.voxel_min ≠ 0 := by
    intro h
    have : volume.voxel_max = volume.voxel_min := sub_eq_zero.mp h
    rw [this] at hrange
    exact lt_irrefl _ hrange
  by_cases hf : is_floating_type volume.data_type
  · have hr := hfloat hf
    have e1 : get_volume_real_min volume = volume.voxel_min := by
      simp [get_volume_real_min, get_volume_voxel_min, hr]
    have e2 : get_volume_real_max volume = volume.voxel_max := by
      simp [get_volume_real_max, get_volume_voxel_max, hr]
    refine ⟨false, 1, 0, ?_, ?_, ?_⟩
    · rw [set_volume_real_range_floating _ _ _ (by rw [ht]; exact hf), e1, e2,
        kept_range_proper _ _ _ hrange, ← hmin, ← hmax]
    · simp [e1]
    · simp [e2]
  · refine ⟨true, (get_volume_real_max volume - get_volume_real_min volume) /
        (volume.voxel_max - volume.voxel_min),
      get_volume_real_min volume - volume.voxel_min *
        ((get_volume_real_max volume - get_volume_real_min volume) /
          (volume.voxel_max - volume.voxel_min)), ?_, ?_, ?_⟩
    · rw [set_volume_real_range_integer _ _ _ (by rw [ht]; exact hf), hmin, hmax]
      simp only [hrange, if_true]
    · simp only [if_true]
      ring
    · simp only [if_true]
      field_simp
      ring

theorem copy_volume_definition_no_alloc_some {K : Type} [LinearOrderedField K]
    (alloc : volume_struct K) (malloc_ok : Bool) (volume : volume_struct K)
    (nc_data_type : nc_type) (signed_flag : Bool) (voxel_min voxel_max : K)
    (h1 : 1 ≤ volume.n_dimensions) (h5 : volume.n_dimensions ≤ MAX_DIMENSIONS) :
    ∃ copy, (copy_volume_definition_no_alloc alloc malloc_ok volume nc_data_type signed_flag
      voxel_min voxel_max).1 = some copy := by
  unfold copy_volume_definition_no_alloc
  dsimp only
  obtain ⟨copy0, hc, -⟩ := create_volume_initial alloc volume.n_dimensions h1 h5
    (some volume.dimension_names)
    (if nc_data_type = nc_type.MI_ORIGINAL_TYPE then
      (volume.nc_data_type, volume.signed_flag, get_volume_voxel_min volume,
        get_volume_voxel_max volume)
    else (nc_data_type, signed_flag, voxel_min, voxel_max)).1
    (if nc_data_type = nc_type.MI_ORIGINAL_TYPE then
      (volume.nc_data_type, volume.signed_flag, get_volume_voxel_min volume,
        get_volume_voxel_max volume)
    else (nc_data_type, signed_flag, voxel_min, voxel_max)).2.1
    (if nc_data_type = nc_type.MI_ORIGINAL_TYPE then
      (volume.nc_data_type, volume.signed_flag, get_volume_voxel_min volume,
        get_volume_voxel_max volume)
    else (nc_data_type, signed_flag, voxel_min, voxel_max)).2.2.1
    (if nc_data_type = nc_type.MI_ORIGINAL_TYPE then
      (volume.nc_data_type, volume.signed_flag, get_volume_voxel_min volume,
        get_volume_voxel_max volume)
    else (nc_data_type, signed_flag, voxel_min, voxel_max)).2.2.2
  simp only [get_volume_n_dimensions]
  rw [hc]
  exact ⟨_, rfl⟩

theorem copy_volume_definition_no_alloc_original {K : Type} [LinearOrderedField K]
    (alloc : volume_struct K) (malloc_ok : Bool) (volume : volume_struct K)
    (signed_flag : Bool) (voxel_min voxel_max : K)
    (h1 : 1 ≤ volume.n_dimensions) (h5 : volume.n_dimensions ≤ MAX_DIMENSIONS)
    (hnc : volume.nc_data_type ≠ nc_type.MI_ORIGINAL_TYPE)
    (htype : volume.data_type = storage_type volume.nc_data_type volume.signed_flag)
    (hrange : volume.voxel_min < volume.voxel_max)
    (hfloat : is_floating_type volume.data_type → volume.real_range_set = false) :
    ∃ copy, (copy_volume_definition_no_alloc alloc malloc_ok volume nc_type.MI_ORIGINAL_TYPE
        signed_flag voxel_min voxel_max).1 = some copy ∧
      same_definition volume copy ∧ copy.is_cached_volume = false := by
  obtain ⟨copy0, hc, hs, -, ht, -⟩ := create_volume_initial alloc volume.n_dimensions h1 h5
    (some volume.dimension_names) volume.nc_data_type volume.signed_flag volume.voxel_min
    volume.voxel_max
  obtain ⟨ht1, ht2, ht3, ht4⟩ := ht hnc
  rw [kept_range_proper _ _ _ hrange] at ht3 ht4
  obtain ⟨hn0, hfl, hdim, -, -, -, -⟩ := hs
  have hsa1 : ∀ c, 0 ≤ c → c < 3 →
      ({ copy0 with
          spatial_axes := for_less 0 N_DIMENSIONS
            (fun c sa => store sa c (volume.spatial_axes c)) copy0.spatial_axes } :
        volume_struct K).spatial_axes c = volume.spatial_axes c := fun c hc0 hc3 =>
    fill_three volume.spatial_axes copy0.spatial_axes c hc0 hc3
  generalize hcopy1 : ({ copy0 with
      spatial_axes := for_less 0 N_DIMENSIONS
        (fun c sa => store sa c (volume.spatial_axes c)) copy0.spatial_axes } :
        volume_struct K) = copy1 at hsa1
  have f1 : copy1.n_dimensions = volume.n_dimensions := by rw [← hcopy1]; exact hn0
  have f2 : copy1.data_type = volume.data_type := by rw [← hcopy1, htype]; exact ht1
  have f3 : copy1.signed_flag = volume.signed_flag := by rw [← hcopy1]; exact ht2
  have f4 : copy1.voxel_min = volume.voxel_min := by rw [← hcopy1]; exact ht3
  have f5 : copy1.voxel_max = volume.voxel_max := by rw [← hcopy1]; exact ht4
  have f6 : ∀ i, 0 ≤ i → i < volume.n_dimensions →
      copy1.dimension_names i = volume.dimension_names i := by
    intro i hi0 hi
    rw [← hcopy1]
    exact (hdim i hi0 hi).2.2.2.2.2.1
  have f7 : copy1.is_cached_volume = false := by rw [← hcopy1]; exact hfl.2.2.2.2
  obtain ⟨r, sc, tr, hrr, hrmin, hrmax⟩ := copy_real_range volume copy1 hrange hfloat f2 f4 f5
  obtain ⟨dc, f, hloop, hrow⟩ := copy_direction_cosines volume
    (set_volume_starts
      (set_volume_separations
        (set_volume_sizes
          { copy1 with
            real_range_set := r
            real_value_scale := sc
            real_value_translation := tr }
          (get_volume_sizes volume (fun _ => 0)))
        (get_volume_separations volume (fun _ => 0)))
      (get_volume_starts volume (fun _ => 0)))
    (by omega) f1 hsa1 (fun _ => 0)
  unfold copy_volume_definition_no_alloc
  simp only [if_true, get_volume_n_dimensions, get_volume_voxel_min, get_volume_voxel_max]
  rw [hc]
  dsimp only
  rw [hcopy1, hrr, hloop]
  refine ⟨_, rfl, ?_, ?_⟩
  · refine ⟨f1, fun i hi0 hi => ⟨f6 i hi0 hi, ?_, ?_, ?_⟩, hsa1,
      fun c hc0 hc3 hm hlt k hk0 hk3 => hrow _ hm hlt ⟨c, hc0, hc3, rfl⟩ k hk0 hk3,
      rfl, f2, f3, f4, f5, ?_, ?_⟩
    · simp only [set_volume_space_type, set_volume_starts, set_volume_separations,
        set_volume_sizes, set_multidim_sizes, get_volume_sizes, get_multidim_sizes, f1]
      rw [for_less_store, for_less_store]
      simp [hi0, hi]
    · simp only [set_volume_space_type, set_volume_starts, set_volume_separations,
        get_volume_separations, get_volume_n_dimensions, set_volume_sizes, set_multidim_sizes,
        f1]
      rw [for_less_store, for_less_store]
      simp [hi0, hi]
    · simp only [set_volume_space_type, set_volume_starts, get_volume_starts,
        set_volume_separations, get_volume_n_dimensions, set_volume_sizes, set_multidim_sizes,
        f1]
      rw [for_less_store, for_less_store]
      simp [hi0, hi]
    · rw [← hrmin]
      simp only [get_volume_real_min, get_volume_voxel_min, convert_voxel_to_value,
        set_volume_space_type, set_volume_starts, set_volume_separations, set_volume_sizes,
        set_multidim_sizes, f4]
      cases r <;> simp
    · rw [← hrmax]
      simp only [get_volume_real_max, get_volume_voxel_max, convert_voxel_to_value,
        set_volume_space_type, set_volume_starts, set_volume_separations, set_volume_sizes,
        set_multidim_sizes, f5]
      cases r <;> simp
  · exact f7

/-- Claim C24.  On a volume with `is_cached_volume` true `copy_volume`
returns the null volume before it creates anything and leaves the source as
it is; on a volume of 1 to 5 dimensions that is not cache-backed it returns a
volume that is not null. -/
theorem copy_volume_cached (alloc : volume_struct ℝ) (malloc_ok : Bool)
    (type_size : Data_types → Int) (n_bytes_cache_threshold : Int)
    (volume : volume_struct ℝ) :
    (volume.is_cached_volume = true →
      copy_volume alloc malloc_ok type_size n_bytes_cache_threshold volume = (none, volume)) ∧
    (volume.is_cached_volume = false → 1 ≤ volume.n_dimensions →
      volume.n_dimensions ≤ MAX_DIMENSIONS →
      ∃ copy, (copy_volume alloc malloc_ok type_size n_bytes_cache_threshold volume).1
        = some copy) := by
  constructor
  · intro h
    unfold copy_volume
    simp only [h, if_true]
  · intro h h1 h5
    obtain ⟨copy, hc⟩ := copy_volume_definition_no_alloc_some alloc malloc_ok volume
      nc_type.MI_ORIGINAL_TYPE false 0 0 h1 h5
    refine ⟨alloc_volume_data type_size n_bytes_cache_threshold copy, ?_⟩
    unfold copy_volume copy_volume_definition
    simp only [h, Bool.false_eq_true, if_false, hc, Option.map_some']

theorem copy_volume_cached_witness :
    copy_volume (zeroed_record : volume_struct ℝ) true (fun _ => 1) (-1)
        { (slice_volume : volume_struct ℝ) with is_cached_volume := true }
      = (none, { (slice_volume : volume_struct ℝ) with is_cached_volume := true }) ∧
    ∃ copy, (copy_volume (zeroed_record : volume_struct ℝ) true (fun _ => 1) (-1)
        (slice_volume : volume_struct ℝ)).1 = some copy :=
  ⟨(copy_volume_cached (zeroed_record : volume_struct ℝ) true (fun _ => 1) (-1)
      { (slice_volume : volume_struct ℝ) with is_cached_volume := true }).1 rfl,
   (copy_volume_cached (zeroed_record : volume_struct ℝ) true (fun _ => 1) (-1)
      (slice_volume : volume_struct ℝ)).2 rfl (by decide) (by decide)⟩

/-! ## The length of the tables -/

theorem set_volume_sizes_eq {K : Type} (volume : volume_struct K) (sizes : Int → Int) :
    set_volume_sizes volume sizes
      = { volume with
          sizes := fun i => if 0 ≤ i ∧ i < volume.n_dimensions then sizes i
            else volume.sizes i } := by
  unfold set_volume_sizes set_multidim_sizes
  rw [for_less_store]

theorem table_fits_null {K : Type} (size : Int) (t : Real_table K)
    (h : t.not_null = false) : table_fits size t := by
  cases t with
  | NULL => trivial
  | table count entries => simp [Real_table.not_null] at h
  | freed => simp [Real_table.not_null] at h

theorem table_fits_present {K : Type} (size : Int) (t : Real_table K)
    (h : t.not_null = true) (hf : table_fits size t) : ∃ entries, t = Real_table.table size entries := by
  cases t with
  | NULL => simp [Real_table.not_null] at h
  | table count entries =>
    refine ⟨entries, ?_⟩
    have e : count = size := hf
    rw [e]
  | freed => exact False.elim hf

theorem set_volume_irregular_starts_fits {K : Type} [Zero K] (malloc_ok : Bool)
    (volume : volume_struct K) (idim count : Int) (starts : Option (Int → K))
    (h : tables_fit volume)
    (ha : (Table_call.irregular_starts malloc_ok idim count starts).admissible volume) :
    tables_fit (set_volume_irregular_starts malloc_ok volume idim count starts).2 ∧
    (set_volume_irregular_starts malloc_ok volume idim count starts).2.n_dimensions
      = volume.n_dimensions ∧
    (set_volume_irregular_starts malloc_ok volume idim count starts).2.sizes
      = volume.sizes := by
  obtain ⟨hd0, ha⟩ := ha
  unfold set_volume_irregular_starts
  by_cases hd : idim ≥ volume.n_dimensions
  · simp only [hd, if_true]
    exact ⟨h, trivial, trivial⟩
  · simp only [hd, if_false]
    have ha := ha (by omega)
    cases starts with
    | none =>
      have hn : volume.irregular_starts idim = Real_table.NULL := ha
      simp only [hn, Real_table.not_null, Bool.false_eq_true, if_false]
      exact ⟨h, trivial, trivial⟩
    | some t =>
      have hc : volume.sizes idim ≤ count := ha
      have key : ∀ (T : Int → Real_table K),
          tables_fit ({ volume with irregular_starts := T } : volume_struct K) →
          ∀ x, table_fits (volume.sizes idim) x →
          tables_fit ({ volume with irregular_starts := store T idim x } : volume_struct K) := by
        intro T hT x hx i hi0 hin
        have := hT i hi0 hin
        refine ⟨?_, this.2⟩
        by_cases e : i = idim
        · subst e
          simpa [store_apply] using hx
        · simpa [store_apply, e] using this.1
      have hfree : ∀ (T : Int → Real_table K) x,
          tables_fit ({ volume with irregular_starts := store (store T idim Real_table.freed) idim x } : volume_struct K)
          ↔ tables_fit ({ volume with irregular_starts := store T idim x } : volume_struct K) := by
        intro T x
        have e : store (store T idim Real_table.freed) idim x = store T idim x := by
          funext i
          by_cases e : i = idim <;> simp [store_apply, e]
        rw [e]
      have hcount : (if count > volume.sizes idim then volume.sizes idim else count)
          = volume.sizes idim := by
        split_ifs <;> omega
      by_cases hp : (volume.irregular_starts idim).not_null = true
      · simp only [hp, if_true]
        cases malloc_ok with
        | false =>
          simp only [Bool.not_false, if_true]
          refine ⟨?_, trivial, trivial⟩
          rw [hfree]
          exact key _ h _ trivial
        | true =>
          simp only [Bool.not_true, Bool.false_eq_true, if_false, hcount]
          refine ⟨?_, trivial, trivial⟩
          rw [hfree]
          exact key _ h _ rfl
      · simp only [hp, Bool.false_eq_true, if_false]
        cases malloc_ok with
        | false =>
          simp only [Bool.not_false, if_true]
          exact ⟨key _ h _ trivial, trivial, trivial⟩
        | true =>
          simp only [Bool.not_true, Bool.false_eq_true, if_false, hcount]
          exact ⟨key _ h _ rfl, trivial, trivial⟩

theorem set_volume_irregular_widths_fits {K : Type} [Zero K] (malloc_ok : Bool)
    (volume : volume_struct K) (idim count : Int) (widths : Option (Int → K))
    (h : tables_fit volume)
    (ha : (Table_call.irregular_widths malloc_ok idim count widths).admissible volume) :
    tables_fit (set_volume_irregular_widths malloc_ok volume idim count widths).2 ∧
    (set_volume_irregular_widths malloc_ok volume idim count widths).2.n_dimensions
      = volume.n_dimensions ∧
    (set_volume_irregular_widths malloc_ok volume idim count widths).2.sizes
      = volume.sizes := by
  obtain ⟨hd0, ha⟩ := ha
  unfold set_volume_irregular_widths
  by_cases hd : idim ≥ volume.n_dimensions
  · simp only [hd, if_true]
    exact ⟨h, trivial, trivial⟩
  · simp only [hd, if_false]
    have ha := ha (by omega)
    cases widths with
    | none =>
      have hn : volume.irregular_widths idim = Real_table.NULL := ha
      simp only [hn, Real_table.not_null, Bool.false_eq_true, if_false]
      exact ⟨h, trivial, trivial⟩
    | some t =>
      have hc : volume.sizes idim ≤ count := ha
      have key : ∀ (T : Int → Real_table K),
          tables_fit ({ volume with irregular_widths := T } : volume_struct K) →
          ∀ x, table_fits (volume.sizes idim) x →
          tables_fit ({ volume with irregular_widths := store T idim x } : volume_struct K) := by
        intro T hT x hx i hi0 hin
        have := hT i hi0 hin
        refine ⟨this.1, ?_⟩
        by_cases e : i = idim
        · subst e
          simpa [store_apply] using hx
        · simpa [store_apply, e] using this.2
      have hfree : ∀ (T : Int → Real_table K) x,
          tables_fit ({ volume with irregular_widths := store (store T idim Real_table.freed) idim x } : volume_struct K)
          ↔ tables_fit ({ volume with irregular_widths := store T idim x } : volume_struct K) := by
        intro T x
        have e : store (store T idim Real_table.freed) idim x = store T idim x := by
          funext i
          by_cases e : i = idim <;> simp [store_apply, e]
        rw [e]
      have hcount : (if count > volume.sizes idim then volume.sizes idim else count)
          = volume.sizes idim := by
        split_ifs <;> omega
      by_cases hp : (volume.irregular_widths idim).not_null = true
      · simp only [hp, if_true]
        cases malloc_ok with
        | false =>
          simp only [Bool.not_false, if_true]
          refine ⟨?_, trivial, trivial⟩
          rw [hfree]
          exact key _ h _ trivial
        | true =>
          simp only [Bool.not_true, Bool.false_eq_true, if_false, hcount]
          refine ⟨?_, trivial, trivial⟩
          rw [hfree]
          exact key _ h _ rfl
      · simp only [hp, Bool.false_eq_true, if_false]
        cases malloc_ok with
        | false =>
          simp only [Bool.not_false, if_true]
          exact ⟨key _ h _ trivial, trivial, trivial⟩
        | true =>
          simp only [Bool.not_true, Bool.false_eq_true, if_false, hcount]
          exact ⟨key _ h _ rfl, trivial, trivial⟩

theorem set_volume_sizes_fits {K : Type} (volume : volume_struct K) (sizes : Int → Int)
    (h : tables_fit volume) (ha : (Table_call.sizes sizes).admissible volume) :
    tables_fit (set_volume_sizes volume sizes) ∧
    (set_volume_sizes volume sizes).n_dimensions = volume.n_dimensions := by
  rw [set_volume_sizes_eq]
  refine ⟨?_, rfl⟩
  intro i hi0 hin
  have hi : 0 ≤ i ∧ i < volume.n_dimensions := ⟨hi0, hin⟩
  have hfit := h i hi0 hin
  have hkeep := ha i hi0 hin
  simp only [hi, and_self, if_true]
  constructor
  · by_cases hp : (volume.irregular_starts i).not_null = true
    · rw [hkeep (Or.inl hp)]
      exact hfit.1
    · exact table_fits_null _ _ (by simpa using hp)
  · by_cases hp : (volume.irregular_widths i).not_null = true
    · rw [hkeep (Or.inr hp)]
      exact hfit.2
    · exact table_fits_null _ _ (by simpa using hp)

theorem get_volume_sizes_apply {K : Type} (volume : volume_struct K) (sizes : Int → Int)
    (i : Int) (hi0 : 0 ≤ i) (hin : i < volume.n_dimensions) :
    get_volume_sizes volume sizes i = volume.sizes i := by
  unfold get_volume_sizes get_multidim_sizes
  rw [for_less_store]
  simp only [hi0, hin, and_self, if_true]

theorem copy_irregular_dimension_fits {K : Type} [LinearOrderedField K] (malloc_ok : Bool)
    (sizes : Int → Int) (c : Int) (volume : volume_struct K) (hc0 : 0 ≤ c)
    (hs : c < volume.n_dimensions → sizes c = volume.sizes c) (h : tables_fit volume) :
    tables_fit (copy_irregular_dimension malloc_ok sizes c volume) ∧
    (copy_irregular_dimension malloc_ok sizes c volume).n_dimensions = volume.n_dimensions ∧
    (copy_irregular_dimension malloc_ok sizes c volume).sizes = volume.sizes := by
  unfold copy_irregular_dimension
  by_cases hi : is_volume_dimension_irregular volume c = true
  · simp only [hi, if_true]
    obtain ⟨f1, n1, s1⟩ := set_volume_irregular_starts_fits malloc_ok volume c (sizes c)
      (some (get_volume_irregular_starts volume c (sizes c) (fun _ => 0)).2) h
      ⟨hc0, fun hlt => le_of_eq (hs hlt).symm⟩
    generalize (set_volume_irregular_starts malloc_ok volume c (sizes c)
      (some (get_volume_irregular_starts volume c (sizes c) (fun _ => 0)).2)).2 = v1
      at f1 n1 s1
    obtain ⟨f2, n2, s2⟩ := set_volume_irregular_widths_fits malloc_ok v1 c (sizes c)
      (some (get_volume_irregular_widths v1 c (sizes c) (fun _ => 0)).2) f1
      ⟨hc0, fun hlt => by
        rw [n1] at hlt
        rw [s1]
        exact le_of_eq (hs hlt).symm⟩
    exact ⟨f2, n2.trans n1, s2.trans s1⟩
  · simp only [hi, Bool.false_eq_true, if_false]
    exact ⟨h, trivial, trivial⟩

theorem copy_irregular_dimensions_fit {K : Type} [LinearOrderedField K] (malloc_ok : Bool)
    (volume : volume_struct K) (hn : 0 ≤ volume.n_dimensions) (h : tables_fit volume) :
    tables_fit (for_less 0 volume.n_dimensions
      (copy_irregular_dimension malloc_ok (get_volume_sizes volume (fun _ => 0))) volume) ∧
    (for_less 0 volume.n_dimensions
      (copy_irregular_dimension malloc_ok (get_volume_sizes volume (fun _ => 0)))
      volume).n_dimensions = volume.n_dimensions := by
  have key := for_less_induction
    (fun (_ : Int) (s : volume_struct K) =>
      tables_fit s ∧ s.n_dimensions = volume.n_dimensions ∧ s.sizes = volume.sizes)
    volume.n_dimensions hn
    (copy_irregular_dimension malloc_ok (get_volume_sizes volume (fun _ => 0))) volume
    ⟨h, rfl, rfl⟩
    (fun k s hk0 hkn hs => by
      obtain ⟨f, n, z⟩ := copy_irregular_dimension_fits malloc_ok
        (get_volume_sizes volume (fun _ => 0)) k s hk0
        (fun _ => by
          rw [hs.2.2]
          exact get_volume_sizes_apply volume _ k hk0 hkn) hs.1
      exact ⟨f, n.trans hs.2.1, z.trans hs.2.2⟩)
  exact ⟨key.1, key.2.1⟩

theorem copy_volume_definition_source {K : Type} [LinearOrderedField K]
    (alloc : volume_struct K) (malloc_ok : Bool) (type_size : Data_types → Int)
    (n_bytes_cache_threshold : Int) (volume : volume_struct K) (nc_data_type : nc_type)
    (signed_flag : Bool) (voxel_min voxel_max : K) :
    (copy_volume_definition alloc malloc_ok type_size n_bytes_cache_threshold volume
        nc_data_type signed_flag voxel_min voxel_max).2 = volume ∨
    (copy_volume_definition alloc malloc_ok type_size n_bytes_cache_threshold volume
        nc_data_type signed_flag voxel_min voxel_max).2
      = for_less 0 volume.n_dimensions
          (copy_irregular_dimension malloc_ok (get_volume_sizes volume (fun _ => 0)))
          volume := by
  unfold copy_volume_definition copy_volume_definition_no_alloc
  dsimp only
  split
  · exact Or.inl rfl
  · exact Or.inr rfl

theorem copy_volume_definition_no_alloc_tables {K : Type} [LinearOrderedField K]
    (alloc : volume_struct K) (malloc_ok : Bool) (volume : volume_struct K)
    (nc_data_type : nc_type) (signed_flag : Bool) (voxel_min voxel_max : K)
    (h1 : 1 ≤ volume.n_dimensions) (h5 : volume.n_dimensions ≤ MAX_DIMENSIONS) :
    ∃ copy, (copy_volume_definition_no_alloc alloc malloc_ok volume nc_data_type signed_flag
        voxel_min voxel_max).1 = some copy ∧
      copy.n_dimensions = volume.n_dimensions ∧
      ∀ i, 0 ≤ i → i < volume.n_dimensions →
        copy.irregular_starts i = Real_table.NULL ∧
        copy.irregular_widths i = Real_table.NULL := by
  unfold copy_volume_definition_no_alloc
  dsimp only
  generalize (if nc_data_type = nc_type.MI_ORIGINAL_TYPE then
      (volume.nc_data_type, volume.signed_flag, get_volume_voxel_min volume,
        get_volume_voxel_max volume)
    else (nc_data_type, signed_flag, voxel_min, voxel_max)) = a
  obtain ⟨copy0, hc, hs, -⟩ := create_volume_initial alloc volume.n_dimensions h1 h5
    (some volume.dimension_names) a.1 a.2.1 a.2.2.1 a.2.2.2
  obtain ⟨hn0, -, hdim, -, -, -, -⟩ := hs
  have hsa1 : ∀ c, 0 ≤ c → c < 3 →
      ({ copy0 with
          spatial_axes := for_less 0 N_DIMENSIONS
            (fun c sa => store sa c (volume.spatial_axes c)) copy0.spatial_axes } :
        volume_struct K).spatial_axes c = volume.spatial_axes c := fun c hc0 hc3 =>
    fill_three volume.spatial_axes copy0.spatial_axes c hc0 hc3
  generalize hcopy1 : ({ copy0 with
      spatial_axes := for_less 0 N_DIMENSIONS
        (fun c sa => store sa c (volume.spatial_axes c)) copy0.spatial_axes } :
        volume_struct K) = copy1 at hsa1
  have f1 : copy1.n_dimensions = volume.n_dimensions := by rw [← hcopy1]; exact hn0
  have f2 : copy1.irregular_starts = copy0.irregular_starts := by rw [← hcopy1]
  have f3 : copy1.irregular_widths = copy0.irregular_widths := by rw [← hcopy1]
  have hr : (set_volume_real_range copy1 (get_volume_real_min volume)
        (get_volume_real_max volume)).n_dimensions = copy1.n_dimensions ∧
      (set_volume_real_range copy1 (get_volume_real_min volume)
        (get_volume_real_max volume)).spatial_axes = copy1.spatial_axes ∧
      (set_volume_real_range copy1 (get_volume_real_min volume)
        (get_volume_real_max volume)).irregular_starts = copy1.irregular_starts ∧
      (set_volume_real_range copy1 (get_volume_real_min volume)
        (get_volume_real_max volume)).irregular_widths = copy1.irregular_widths := by
    by_cases hf : is_floating_type copy1.data_type
    · rw [set_volume_real_range_floating _ _ _ hf]
      exact ⟨rfl, rfl, rfl, rfl⟩
    · rw [set_volume_real_range_integer _ _ _ hf]
      exact ⟨rfl, rfl, rfl, rfl⟩
  generalize hcopy2 : set_volume_real_range copy1 (get_volume_real_min volume)
    (get_volume_real_max volume) = copy2 at hr
  obtain ⟨hrn, hrs, hri, hrw⟩ := hr
  obtain ⟨dc, f, hloop, -⟩ := copy_direction_cosines volume
    (set_volume_starts
      (set_volume_separations
        (set_volume_sizes copy2 (get_volume_sizes volume (fun _ => 0)))
        (get_volume_separations volume (fun _ => 0)))
      (get_volume_starts volume (fun _ => 0)))
    (by omega) (hrn.trans f1) (fun c hc0 hc3 => by
      have := hsa1 c hc0 hc3
      rw [← hrs] at this
      exact this) (fun _ => 0)
  simp only [get_volume_n_dimensions]
  rw [hc]
  dsimp only
  rw [hcopy1, hcopy2, hloop]
  refine ⟨_, rfl, hrn.trans f1, ?_⟩
  intro i hi0 hin
  obtain ⟨-, -, hs0, hw0, -⟩ := hdim i hi0 hin
  constructor
  · exact (congrFun (hri.trans f2) i).trans hs0
  · exact (congrFun (hrw.trans f3) i).trans hw0

theorem copy_volume_definition_fits {K : Type} [LinearOrderedField K]
    (alloc : volume_struct K) (malloc_ok : Bool) (type_size : Data_types → Int)
    (n_bytes_cache_threshold : Int) (volume : volume_struct K) (nc_data_type : nc_type)
    (signed_flag : Bool) (voxel_min voxel_max : K)
    (h1 : 1 ≤ volume.n_dimensions) (h5 : volume.n_dimensions ≤ MAX_DIMENSIONS) :
    ∃ copy, (copy_volume_definition alloc malloc_ok type_size n_bytes_cache_threshold volume
        nc_data_type signed_flag voxel_min voxel_max).1 = some copy ∧
      copy.n_dimensions = volume.n_dimensions ∧ tables_fit copy := by
  obtain ⟨copy, hc, hn, ht⟩ := copy_volume_definition_no_alloc_tables alloc malloc_ok volume
    nc_data_type signed_flag voxel_min voxel_max h1 h5
  have hshape : ∃ b, alloc_volume_data type_size n_bytes_cache_threshold copy
      = { copy with is_cached_volume := b } := by
    unfold alloc_volume_data
    dsimp only
    split_ifs
    · exact ⟨true, rfl⟩
    · exact ⟨false, rfl⟩
  obtain ⟨b, hb⟩ := hshape
  refine ⟨alloc_volume_data type_size n_bytes_cache_threshold copy, ?_, ?_, ?_⟩
  · unfold copy_volume_definition
    simp only [hc, Option.map_some']
  · rw [hb]
    exact hn
  · rw [hb]
    intro i hi0 hin
    have hin' : i < volume.n_dimensions := by
      rw [← hn]
      exact hin
    obtain ⟨e1, e2⟩ := ht i hi0 hin'
    have e1' : ({ copy with is_cached_volume := b } : volume_struct K).irregular_starts i
        = Real_table.NULL := e1
    have e2' : ({ copy with is_cached_volume := b } : volume_struct K).irregular_widths i
        = Real_table.NULL := e2
    rw [e1', e2']
    exact ⟨trivial, trivial⟩

theorem table_call_keeps_fit {K : Type} [LinearOrderedField K] (call : Table_call K)
    (volume : volume_struct K)
    (hv : 1 ≤ volume.n_dimensions ∧ volume.n_dimensions ≤ MAX_DIMENSIONS ∧ tables_fit volume)
    (ha : call.admissible volume) :
    1 ≤ (call.apply volume).n_dimensions ∧
    (call.apply volume).n_dimensions ≤ MAX_DIMENSIONS ∧ tables_fit (call.apply volume) := by
  obtain ⟨h1, h5, hf⟩ := hv
  cases call with
  | sizes s =>
    obtain ⟨f, n⟩ := set_volume_sizes_fits volume s hf ha
    simp only [Table_call.apply]
    rw [n]
    exact ⟨h1, h5, f⟩
  | irregular_starts m d c t =>
    obtain ⟨f, n, -⟩ := set_volume_irregular_starts_fits m volume d c t hf ha
    simp only [Table_call.apply]
    rw [n]
    exact ⟨h1, h5, f⟩
  | irregular_widths m d c t =>
    obtain ⟨f, n, -⟩ := set_volume_irregular_widths_fits m volume d c t hf ha
    simp only [Table_call.apply]
    rw [n]
    exact ⟨h1, h5, f⟩
  | copy_source al m ts th nc sf lo hi =>
    simp only [Table_call.apply]
    rcases copy_volume_definition_source al m ts th volume nc sf lo hi with e | e
    · rw [e]
      exact ⟨h1, h5, hf⟩
    · rw [e]
      obtain ⟨f, n⟩ := copy_irregular_dimensions_fit m volume (by omega) hf
      rw [n]
      exact ⟨h1, h5, f⟩
  | copy al m ts th nc sf lo hi =>
    obtain ⟨copy, hc, n, f⟩ := copy_volume_definition_fits al m ts th volume nc sf lo hi h1 h5
    simp only [Table_call.apply, hc]
    rw [n]
    exact ⟨h1, h5, f⟩

theorem apply_table_calls_keeps_fit {K : Type} [LinearOrderedField K]
    (calls : List (Table_call K)) (volume : volume_struct K)
    (hv : 1 ≤ volume.n_dimensions ∧ volume.n_dimensions ≤ MAX_DIMENSIONS ∧ tables_fit volume)
    (ha : table_calls_admissible calls volume) :
    tables_fit (apply_table_calls calls volume) := by
  induction calls generalizing volume with
  | nil => exact hv.2.2
  | cons call calls ih =>
    exact ih (call.apply volume) (table_call_keeps_fit call volume hv ha.1) ha.2

theorem create_volume_tables {K : Type} [LinearOrderedField K] (alloc : volume_struct K)
    (n : Int) (h1 : 1 ≤ n) (h5 : n ≤ MAX_DIMENSIONS) (names : Option (Int → String))
    (nc_data_type : nc_type) (signed_flag : Bool) (voxel_min voxel_max : K) :
    ∃ volume : volume_struct K,
      create_volume alloc n names nc_data_type signed_flag voxel_min voxel_max = some volume ∧
      volume.n_dimensions = n ∧
      (∀ i, 0 ≤ i → i < n →
        volume.irregular_starts i = Real_table.NULL ∧
        volume.irregular_widths i = Real_table.NULL ∧ volume.sizes i = 0) ∧
      tables_fit volume := by
  obtain ⟨volume, hc, hs, -⟩ := create_volume_initial alloc n h1 h5 names nc_data_type
    signed_flag voxel_min voxel_max
  obtain ⟨hn, -, hdim, -⟩ := hs
  refine ⟨volume, hc, hn, fun i hi0 hin => ?_, fun i hi0 hin => ?_⟩
  · obtain ⟨-, -, e1, e2, e3, -⟩ := hdim i hi0 hin
    exact ⟨e1, e2, e3⟩
  · rw [hn] at hin
    obtain ⟨-, -, e1, e2, -⟩ := hdim i hi0 hin
    rw [e1, e2]
    exact ⟨trivial, trivial⟩

/-- Claim C22, amended.  For every accepted dimension count `create_volume`
returns a volume whose tables fit (it has none), and the tables still fit
after every sequence of calls of `set_volume_sizes`,
`set_volume_irregular_starts`, `set_volume_irregular_widths` and
`copy_volume_definition` (followed on the source or on the copy) in which
every change of sizes keeps the size of each dimension that has a table, and
every installer call on a dimension of the volume is given a table with a
count of at least the size of the dimension, or the null pointer while the
dimension has no such table: each table that is present on a dimension has
exactly as many entries as the dimension has samples. -/
theorem table_length_invariant (alloc : volume_struct ℝ) (n_dimensions : Int)
    (h1 : 1 ≤ n_dimensions) (h5 : n_dimensions ≤ MAX_DIMENSIONS)
    (dimension_names : Option (Int → String)) (nc_data_type : nc_type) (signed_flag : Bool)
    (voxel_min voxel_max : ℝ) (calls : List (Table_call ℝ)) :
    ∃ volume : volume_struct ℝ,
      create_volume alloc n_dimensions dimension_names nc_data_type signed_flag
        voxel_min voxel_max = some volume ∧
      tables_fit volume ∧
      (table_calls_admissible calls volume → tables_fit (apply_table_calls calls volume)) := by
  obtain ⟨volume, hc, hn, -, hf⟩ := create_volume_tables alloc n_dimensions h1 h5
    dimension_names nc_data_type signed_flag voxel_min voxel_max
  refine ⟨volume, hc, hf, fun ha => ?_⟩
  refine apply_table_calls_keeps_fit calls volume ⟨?_, ?_, hf⟩ ha
  · rw [hn]
    exact h1
  · rw [hn]
    exact h5

theorem table_length_invariant_witness :
    (1 : Int) ≤ 3 ∧ (3 : Int) ≤ MAX_DIMENSIONS ∧
    ∃ volume : volume_struct ℝ,
      create_volume zeroed_record 3 none nc_type.NC_BYTE false 0 255 = some volume ∧
      tables_fit (apply_table_calls
        [Table_call.sizes (fun _ => 3),
         Table_call.irregular_starts true 2 5 (some table_starts),
         Table_call.irregular_widths true 2 3 (some table_widths),
         Table_call.copy_source zeroed_record true (fun _ => 1) (-1)
           nc_type.MI_ORIGINAL_TYPE false 0 0] volume) := by
  obtain ⟨v, hv, hn, hnull, -⟩ := create_volume_tables (zeroed_record : volume_struct ℝ) 3
    (by decide) (by decide) none nc_type.NC_BYTE false 0 255
  obtain ⟨volume, hc, -, h⟩ := table_length_invariant zeroed_record 3 (by decide) (by decide)
    none nc_type.NC_BYTE false 0 255
    [Table_call.sizes (fun _ => 3),
     Table_call.irregular_starts true 2 5 (some table_starts),
     Table_call.irregular_widths true 2 3 (some table_widths),
     Table_call.copy_source zeroed_record true (fun _ => 1) (-1)
       nc_type.MI_ORIGINAL_TYPE false 0 0]
  have e : volume = v := Option.some.inj (hc.symm.trans hv)
  subst e
  refine ⟨by decide, by decide, volume, hc, h ?_⟩
  have hs1 : (set_volume_sizes volume (fun _ => 3)).sizes 2 = 3 := by
    rw [set_volume_sizes_eq]
    simp [hn]
  have hn1 : (set_volume_sizes volume (fun _ => 3)).n_dimensions = 3 := by
    rw [set_volume_sizes_eq]
    exact hn
  obtain ⟨-, -, hs2, hn2⟩ := set_volume_irregular_starts_installs
    (set_volume_sizes volume (fun _ => 3)) 2 5 (by rw [hn1]; norm_num) table_starts
  refine ⟨?_, ⟨by norm_num, fun _ => ?_⟩, ⟨by norm_num, fun _ => ?_⟩, trivial, trivial⟩
  · intro i hi0 hin hp
    rw [hn] at hin
    obtain ⟨e1, e2, -⟩ := hnull i hi0 hin
    rw [e1, e2] at hp
    simp [Real_table.not_null] at hp
  · show (set_volume_sizes volume (fun _ => 3)).sizes 2 ≤ 5
    rw [hs1]
    norm_num
  · show (set_volume_irregular_starts true (set_volume_sizes volume (fun _ => 3)) 2 5
      (some table_starts)).2.sizes 2 ≤ 3
    rw [hs2, hs1]

theorem table_length_invariant_counterexample :
    ∃ volume : volume_struct ℝ,
      create_volume zeroed_record 3 none nc_type.NC_BYTE false 0 255 = some volume ∧
      ¬ tables_fit (apply_table_calls
        [Table_call.sizes (fun _ => 3),
         Table_call.irregular_starts true 2 2 (some table_starts)] volume) ∧
      ¬ tables_fit (apply_table_calls
        [Table_call.sizes (fun _ => 3),
         Table_call.irregular_starts true 2 3 (some table_starts),
         Table_call.sizes (fun _ => 4)] volume) := by
  obtain ⟨volume, hc, hn, -, -⟩ := create_volume_tables (zeroed_record : volume_struct ℝ) 3
    (by decide) (by decide) none nc_type.NC_BYTE false 0 255
  have hs1 : (set_volume_sizes volume (fun _ => 3)).sizes 2 = 3 := by
    rw [set_volume_sizes_eq]
    simp [hn]
  have hn1 : (set_volume_sizes volume (fun _ => 3)).n_dimensions = 3 := by
    rw [set_volume_sizes_eq]
    exact hn
  refine ⟨volume, hc, ?_, ?_⟩
  · obtain ⟨-, ht, hs2, hn2⟩ := set_volume_irregular_starts_installs
      (set_volume_sizes volume (fun _ => 3)) 2 2 (by rw [hn1]; norm_num) table_starts
    intro hfit
    have h2 := (hfit 2 (by norm_num) (by
      show (2 : Int) < (set_volume_irregular_starts true (set_volume_sizes volume (fun _ => 3))
        2 2 (some table_starts)).2.n_dimensions
      rw [hn2, hn1]
      norm_num)).1
    have h3 : table_fits
        ((set_volume_irregular_starts true (set_volume_sizes volume (fun _ => 3))
          2 2 (some table_starts)).2.sizes 2)
        ((set_volume_irregular_starts true (set_volume_sizes volume (fun _ => 3))
          2 2 (some table_starts)).2.irregular_starts 2) := h2
    rw [ht, hs2, hs1] at h3
    simp [table_fits] at h3
  · obtain ⟨-, ht, hs2, hn2⟩ := set_volume_irregular_starts_installs
      (set_volume_sizes volume (fun _ => 3)) 2 3 (by rw [hn1]; norm_num) table_starts
    intro hfit
    have h2 := (hfit 2 (by norm_num) (by
      show (2 : Int) < (set_volume_sizes (set_volume_irregular_starts true
        (set_volume_sizes volume (fun _ => 3)) 2 3 (some table_starts)).2
        (fun _ => 4)).n_dimensions
      rw [set_volume_sizes_eq]
      show (2 : Int) < (set_volume_irregular_starts true
        (set_volume_sizes volume (fun _ => 3)) 2 3 (some table_starts)).2.n_dimensions
      rw [hn2, hn1]
      norm_num)).1
    have h3 : table_fits
        ((set_volume_sizes (set_volume_irregular_starts true
          (set_volume_sizes volume (fun _ => 3)) 2 3 (some table_starts)).2
          (fun _ => 4)).sizes 2)
        ((set_volume_sizes (set_volume_irregular_starts true
          (set_volume_sizes volume (fun _ => 3)) 2 3 (some table_starts)).2
          (fun _ => 4)).irregular_starts 2) := h2
    rw [set_volume_sizes_eq] at h3
    have h4 : table_fits
        (if 0 ≤ (2 : Int) ∧ (2 : Int) < (set_volume_irregular_starts true
          (set_volume_sizes volume (fun _ => 3)) 2 3 (some table_starts)).2.n_dimensions
          then 4 else (set_volume_irregular_starts true
          (set_volume_sizes volume (fun _ => 3)) 2 3 (some table_starts)).2.sizes 2)
        ((set_volume_irregular_starts true
          (set_volume_sizes volume (fun _ => 3)) 2 3 (some table_starts)).2.irregular_starts 2) :=
      h3
    rw [ht, hn2, hn1, hs1] at h4
    simp [table_fits] at h4

/-! ## The axis mapping and the direction cosines -/

theorem unit_of_scaled (a0 a1 a2 m s : ℝ) (hm : 0 < m) (hsq : m * m = a0 * a0 + a1 * a1 + a2 * a2)
    (hs : s = 1 ∨ s = -1) :
    a0 / (s * m) * (a0 / (s * m)) + a1 / (s * m) * (a1 / (s * m))
      + a2 / (s * m) * (a2 / (s * m)) = 1 := by
  have hs2 : s * s = 1 := by
    rcases hs with h | h <;> rw [h] <;> norm_num
  have hs0 : s ≠ 0 := by
    rcases hs with h | h <;> rw [h] <;> norm_num
  have hne : s * m ≠ 0 := mul_ne_zero hs0 (ne_of_gt hm)
  rw [div_mul_div_comm, div_mul_div_comm, div_mul_div_comm, ← add_div, ← add_div,
    div_eq_one_iff_eq (mul_ne_zero hne hne)]
  linear_combination (-1) * hsq - m * m * hs2

theorem cttss_axis_unit_row (axes : Int → Int → ℝ) (ss : Step_signs ℝ) (sa : Int → Int)
    (dim : Int) (sd : (Int → ℝ) × (Int → Int → ℝ)) (hm : 0 ≤ sa dim)
    (hnz : ¬ (axes dim 0 = 0 ∧ axes dim 1 = 0 ∧ axes dim 2 = 0)) :
    is_unit_vector ((cttss_axis Real.sqrt axes ss sa dim sd).2 (sa dim)) := by
  obtain ⟨hpos, -, hsq⟩ := step_mag_real axes dim
  have hsq := hsq hnz
  have key : ∀ s : ℝ, s = 1 ∨ s = -1 → _ := fun s =>
    unit_of_scaled (axes dim 0) (axes dim 1) (axes dim 2)
      (step_mag Real.sqrt axes dim) s hpos hsq
  unfold step_mag at key
  unfold cttss_axis is_unit_vector
  simp only [ge_iff_le, hm, if_true, store_apply, store2_apply, X, Y, Z, N_DIMENSIONS,
    and_self, and_true, true_and]
  cases ss with
  | NULL =>
    by_cases h : axes dim dim < 0
    · simpa [h] using key (-1) (Or.inr rfl)
    · simpa [h] using key 1 (Or.inl rfl)
  | array a =>
    by_cases h : a (sa dim) < 0
    · simpa [h] using key (-1) (Or.inr rfl)
    · simpa [h] using key 1 (Or.inl rfl)
  | steps =>
    by_cases h : sd.1 (sa dim) < 0
    · simpa [h] using key (-1) (Or.inr rfl)
    · simpa [h] using key 1 (Or.inl rfl)

theorem cttss_axis_keeps_unit (axes : Int → Int → ℝ) (ss : Step_signs ℝ) (sa : Int → Int)
    (dim : Int) (sd : (Int → ℝ) × (Int → Int → ℝ))
    (hnz : 0 ≤ sa dim → ¬ (axes dim 0 = 0 ∧ axes dim 1 = 0 ∧ axes dim 2 = 0))
    (h : ∀ a, 0 ≤ a → a < 3 → 0 ≤ sa a → is_unit_vector (sd.2 (sa a))) :
    ∀ a, 0 ≤ a → a < 3 → 0 ≤ sa a →
      is_unit_vector ((cttss_axis Real.sqrt axes ss sa dim sd).2 (sa a)) := by
  intro a ha0 ha3 hma
  by_cases e : sa a = sa dim
  · rw [e]
    exact cttss_axis_unit_row axes ss sa dim sd (by rw [← e]; exact hma)
      (hnz (by rw [← e]; exact hma))
  · rw [(cttss_axis_other Real.sqrt axes ss sa dim sd (sa a) e).2]
    exact h a ha0 ha3 hma

theorem cttss_steps_unit (axes : Int → Int → ℝ) (n : Int) (ss : Step_signs ℝ)
    (sa : Int → Int) (steps : Int → ℝ) (dcs : Int → Int → ℝ)
    (hnz : ∀ a, 0 ≤ a → a < 3 → 0 ≤ sa a →
      ¬ (axes a 0 = 0 ∧ axes a 1 = 0 ∧ axes a 2 = 0))
    (h : ∀ a, 0 ≤ a → a < 3 → 0 ≤ sa a → is_unit_vector (dcs (sa a))) :
    ∀ a, 0 ≤ a → a < 3 → 0 ≤ sa a →
      is_unit_vector ((cttss_steps Real.sqrt axes n ss sa steps dcs).2 (sa a)) := by
  unfold cttss_steps
  rw [for_less_three]
  exact cttss_axis_keeps_unit axes ss sa 2 _ (hnz 2 (by norm_num) (by norm_num))
    (cttss_axis_keeps_unit axes ss sa 1 _ (hnz 1 (by norm_num) (by norm_num))
      (cttss_axis_keeps_unit axes ss sa 0 _ (hnz 0 (by norm_num) (by norm_num)) h))

theorem spatial_axes_valid_of_rows {K : Type} [LinearOrderedField K]
    (volume other : volume_struct K) (hn : other.n_dimensions = volume.n_dimensions)
    (hsa : other.spatial_axes = volume.spatial_axes)
    (hrow : ∀ a, 0 ≤ a → a < 3 → 0 ≤ volume.spatial_axes a →
      is_unit_vector (volume.direction_cosines (volume.spatial_axes a)) →
      is_unit_vector (other.direction_cosines (volume.spatial_axes a)))
    (h : spatial_axes_valid volume) : spatial_axes_valid other := by
  intro a ha0 ha3
  rw [hsa, hn]
  rcases h a ha0 ha3 with e | ⟨e0, en, eu⟩
  · exact Or.inl e
  · exact Or.inr ⟨e0, en, hrow a ha0 ha3 e0 eu⟩

theorem set_voxel_to_world_transform_valid (volume : volume_struct ℝ)
    (transform : General_transform ℝ) (h : spatial_axes_valid volume)
    (ha : (Geometry_call.transform transform).admissible volume) :
    spatial_axes_valid (set_voxel_to_world_transform Real.sqrt volume transform) := by
  unfold set_voxel_to_world_transform
  by_cases hT : get_transform_type transform = Transform_types.LINEAR
  · simp only [hT, if_true]
    have hT' : transform.type = Transform_types.LINEAR := hT
    rw [convert_transform_linear Real.sqrt transform hT']
    have hcol := ha hT
    have hunit := cttss_steps_unit (cttss_axes transform.linear_transform)
      (get_volume_n_dimensions { assign_voxel_to_world_transform volume transform with
        voxel_to_world_transform_uptodate := true })
      Step_signs.steps volume.spatial_axes volume.separations volume.direction_cosines
      (fun a ha0 ha3 hm => by
        rw [cttss_axes_apply _ a 0 ha0 ha3, cttss_axes_apply _ a 1 ha0 ha3,
          cttss_axes_apply _ a 2 ha0 ha3]
        exact hcol a ha0 ha3 hm)
      (fun a ha0 ha3 hm => by
        rcases h a ha0 ha3 with e | ⟨-, -, eu⟩
        · omega
        · exact eu)
    refine spatial_axes_valid_of_rows volume _ rfl rfl (fun a ha0 ha3 hm _ => ?_) h
    exact hunit a ha0 ha3 hm
  · simp only [hT, if_false]
    exact spatial_axes_valid_of_rows volume _ rfl rfl (fun a _ _ _ hu => hu) h

theorem set_volume_direction_unit_cosine_valid {K : Type} [LinearOrderedField K]
    (volume : volume_struct K) (axis : Int) (dir : Int → K) (hu : is_unit_vector dir)
    (h : spatial_axes_valid volume) :
    spatial_axes_valid (set_volume_direction_unit_cosine volume axis dir) := by
  by_cases hr : axis < 0 ∨ axis ≥ volume.n_dimensions
  · rw [set_volume_direction_unit_cosine_rejected volume axis dir
      (by rcases hr with hr | hr
          · exact Or.inl hr
          · exact Or.inr (Or.inl hr))]
    exact h
  · by_cases hsp : ∃ c, 0 ≤ c ∧ c < 3 ∧ volume.spatial_axes c = axis
    · rw [set_volume_direction_unit_cosine_spatial volume axis dir
        (by simp only [get_volume_n_dimensions]; omega) hsp]
      refine spatial_axes_valid_of_rows volume _ rfl rfl (fun a ha0 ha3 hm hold => ?_) h
      by_cases e : volume.spatial_axes a = axis
      · rw [e]
        unfold is_unit_vector at hu ⊢
        simpa [store2_apply, X, Y, Z] using hu
      · unfold is_unit_vector at hold ⊢
        simpa [store2_apply, e] using hold
    · rw [set_volume_direction_unit_cosine_rejected volume axis dir
        (Or.inr (Or.inr (fun c hc0 hc3 hc => hsp ⟨c, hc0, hc3, hc⟩)))]
      exact h

theorem set_volume_direction_cosine_valid (volume : volume_struct ℝ) (axis : Int)
    (dir : Int → ℝ) (h : spatial_axes_valid volume) :
    spatial_axes_valid (set_volume_direction_cosine Real.sqrt volume axis dir) := by
  unfold set_volume_direction_cosine
  by_cases hz : dir X * dir X + dir Y * dir Y + dir Z * dir Z = 0
  · simp only [hz, if_true]
    exact h
  · simp only [hz, if_false]
    have hq : 0 ≤ dir X * dir X + dir Y * dir Y + dir Z * dir Z := by
      nlinarith [mul_self_nonneg (dir X), mul_self_nonneg (dir Y), mul_self_nonneg (dir Z)]
    have hpos : 0 < dir X * dir X + dir Y * dir Y + dir Z * dir Z :=
      lt_of_le_of_ne hq (Ne.symm hz)
    have hle : ¬ dir X * dir X + dir Y * dir Y + dir Z * dir Z ≤ 0 := not_le.mpr hpos
    simp only [hle, if_false]
    refine set_volume_direction_unit_cosine_valid volume axis _ ?_ h
    have hs := Real.mul_self_sqrt hq
    have hspos : 0 < Real.sqrt (dir X * dir X + dir Y * dir Y + dir Z * dir Z) :=
      Real.sqrt_pos.mpr hpos
    have key := unit_of_scaled (dir X) (dir Y) (dir Z)
      (Real.sqrt (dir X * dir X + dir Y * dir Y + dir Z * dir Z)) 1 hspos hs (Or.inl rfl)
    unfold is_unit_vector
    simpa [store_apply, X, Y, Z] using key

theorem create_volume_valid {K : Type} [LinearOrderedField K] (alloc : volume_struct K)
    (n : Int) (h1 : 1 ≤ n) (h5 : n ≤ MAX_DIMENSIONS) (names : Option (Int → String))
    (nc_data_type : nc_type) (signed_flag : Bool) (voxel_min voxel_max : K) :
    ∃ volume : volume_struct K,
      create_volume alloc n names nc_data_type signed_flag voxel_min voxel_max = some volume ∧
      volume.n_dimensions = n ∧
      (∀ a, 0 ≤ a → a < 3 → axis_of_names (dimension_name n names) n volume.spatial_axes a) ∧
      spatial_axes_valid volume := by
  obtain ⟨volume, hc, hs, -⟩ := create_volume_initial alloc n h1 h5 names nc_data_type
    signed_flag voxel_min voxel_max
  obtain ⟨hn, -, hdim, hax, -⟩ := hs
  refine ⟨volume, hc, hn, hax, fun a ha0 ha3 => ?_⟩
  rcases hax a ha0 ha3 with ⟨e, -⟩ | ⟨e0, en, ename, -⟩
  · exact Or.inl e
  · refine Or.inr ⟨e0, by rw [hn]; exact en, ?_⟩
    obtain ⟨-, -, -, -, -, -, hdc⟩ := hdim (volume.spatial_axes a) e0 en
    unfold is_unit_vector
    rw [hdc 0 (by norm_num) (by norm_num), hdc 1 (by norm_num) (by norm_num),
      hdc 2 (by norm_num) (by norm_num), ename]
    have inj : ∀ b, 0 ≤ b → b < 3 → (spatial_name a = spatial_name b ↔ a = b) :=
      fun b hb0 hb3 => ⟨spatial_name_injective a b ha0 ha3 hb0 hb3, fun e => by rw [e]⟩
    simp only [inj 0 (by norm_num) (by norm_num), inj 1 (by norm_num) (by norm_num),
      inj 2 (by norm_num) (by norm_num)]
    rcases int_lt_three ha0 ha3 with e | e | e <;> subst e <;> norm_num

theorem geometry_call_keeps_valid (call : Geometry_call ℝ) (volume : volume_struct ℝ)
    (h : spatial_axes_valid volume) (ha : call.admissible volume) :
    spatial_axes_valid (call.apply Real.sqrt volume) := by
  cases call with
  | direction_cosine axis dir => exact set_volume_direction_cosine_valid volume axis dir h
  | direction_unit_cosine axis dir =>
    exact set_volume_direction_unit_cosine_valid volume axis dir ha h
  | separations s =>
    exact spatial_axes_valid_of_rows volume _ rfl rfl (fun a _ _ _ hu => hu) h
  | starts s =>
    exact spatial_axes_valid_of_rows volume _ rfl rfl (fun a _ _ _ hu => hu) h
  | translation voxel world =>
    exact spatial_axes_valid_of_rows volume _ rfl rfl (fun a _ _ _ hu => hu) h
  | transform t => exact set_voxel_to_world_transform_valid volume t h ha

theorem apply_geometry_calls_keeps_valid (calls : List (Geometry_call ℝ))
    (volume : volume_struct ℝ) (h : spatial_axes_valid volume)
    (ha : geometry_calls_admissible Real.sqrt calls volume) :
    spatial_axes_valid (apply_geometry_calls Real.sqrt calls volume) := by
  induction calls generalizing volume with
  | nil => exact h
  | cons call calls ih =>
    exact ih (call.apply Real.sqrt volume) (geometry_call_keeps_valid call volume h ha.1) ha.2

theorem cttss_axis_zero_row {K : Type} [LinearOrderedField K] (sqrt : K → K)
    (axes : Int → Int → K) (ss : Step_signs K) (sa : Int → Int) (dim : Int)
    (sd : (Int → K) × (Int → Int → K)) (hm : 0 ≤ sa dim)
    (hz : axes dim 0 = 0 ∧ axes dim 1 = 0 ∧ axes dim 2 = 0) :
    ∀ k, 0 ≤ k → k < 3 → (cttss_axis sqrt axes ss sa dim sd).2 (sa dim) k = 0 := by
  intro k hk0 hk3
  unfold cttss_axis
  simp only [ge_iff_le, hm, if_true]
  rcases int_lt_three hk0 hk3 with h | h | h <;> subst h <;>
    simp [store2_apply, X, Y, Z, hz.1, hz.2.1, hz.2.2]

theorem set_voxel_to_world_transform_linear {K : Type} [LinearOrderedField K] (sqrt : K → K)
    (volume : volume_struct K) (t : Transform K) :
    (set_voxel_to_world_transform sqrt volume (create_linear_transform t)).n_dimensions
      = volume.n_dimensions ∧
    (set_voxel_to_world_transform sqrt volume (create_linear_transform t)).spatial_axes
      = volume.spatial_axes ∧
    (set_voxel_to_world_transform sqrt volume (create_linear_transform t)).direction_cosines
      = (cttss_steps sqrt (cttss_axes t) volume.n_dimensions Step_signs.steps
          volume.spatial_axes volume.separations volume.direction_cosines).2 := by
  have hT : get_transform_type (create_linear_transform t) = Transform_types.LINEAR := rfl
  unfold set_voxel_to_world_transform
  simp only [hT, if_true]
  rw [convert_transform_linear sqrt (create_linear_transform t) rfl]
  exact ⟨rfl, rfl, rfl⟩

theorem default_axes_three {K : Type} [LinearOrderedField K] (volume : volume_struct K)
    (n : Int) (h1 : 1 ≤ n) (h5 : n ≤ MAX_DIMENSIONS)
    (hax : ∀ a, 0 ≤ a → a < 3 → axis_of_names (dimension_name n none) n volume.spatial_axes a) :
    volume.spatial_axes 0 = (if 0 < n then n - 1 else -1) ∧
    volume.spatial_axes 1 = (if 1 < n then n - 2 else -1) ∧
    volume.spatial_axes 2 = (if 2 < n then n - 3 else -1) := by
  have e0 := default_names_axes n h1 h5 volume.spatial_axes 0 (by norm_num) (by norm_num)
    (hax 0 (by norm_num) (by norm_num))
  have e1 := default_names_axes n h1 h5 volume.spatial_axes 1 (by norm_num) (by norm_num)
    (hax 1 (by norm_num) (by norm_num))
  have e2 := default_names_axes n h1 h5 volume.spatial_axes 2 (by norm_num) (by norm_num)
    (hax 2 (by norm_num) (by norm_num))
  refine ⟨?_, ?_, ?_⟩
  · rw [e0]
    split_ifs <;> omega
  · rw [e1]
    split_ifs <;> omega
  · rw [e2]
    split_ifs <;> omega

/-- Claim C26, amended.  In exact real arithmetic: for every accepted
dimension count `create_volume` returns a volume in which every entry of
`spatial_axes` is -1 or the index of a dimension of the volume whose direction
cosine is a unit vector, and this still holds after every sequence of calls of
`set_volume_direction_cosine`, `set_volume_direction_unit_cosine`,
`set_volume_separations`, `set_volume_starts`, `set_volume_translation` and
`set_voxel_to_world_transform` in which `set_volume_direction_unit_cosine` is
given a unit vector and every linear transform has a column that is not zero
for each canonical axis that is mapped. -/
theorem spatial_axes_invariant (alloc : volume_struct ℝ) (n_dimensions : Int)
    (h1 : 1 ≤ n_dimensions) (h5 : n_dimensions ≤ MAX_DIMENSIONS)
    (dimension_names : Option (Int → String)) (nc_data_type : nc_type) (signed_flag : Bool)
    (voxel_min voxel_max : ℝ) (calls : List (Geometry_call ℝ)) :
    ∃ volume : volume_struct ℝ,
      create_volume alloc n_dimensions dimension_names nc_data_type signed_flag
        voxel_min voxel_max = some volume ∧
      spatial_axes_valid volume ∧
      (geometry_calls_admissible Real.sqrt calls volume →
        spatial_axes_valid (apply_geometry_calls Real.sqrt calls volume)) := by
  obtain ⟨volume, hc, -, -, hv⟩ := create_volume_valid alloc n_dimensions h1 h5
    dimension_names nc_data_type signed_flag voxel_min voxel_max
  exact ⟨volume, hc, hv, apply_geometry_calls_keeps_valid calls volume hv⟩

theorem spatial_axes_invariant_witness :
    (1 : Int) ≤ 1 ∧ (1 : Int) ≤ MAX_DIMENSIONS ∧
    ∃ volume : volume_struct ℝ,
      create_volume zeroed_record 1 none nc_type.NC_BYTE false 0 255 = some volume ∧
      spatial_axes_valid (apply_geometry_calls Real.sqrt
        [Geometry_call.transform (create_linear_transform sample_transform),
         Geometry_call.direction_cosine 0 (fun k => if k = 2 then 5 else 0),
         Geometry_call.separations sample_separations,
         Geometry_call.starts sample_starts,
         Geometry_call.translation (fun _ => 0) (fun _ => 1),
         Geometry_call.direction_unit_cosine 0 (fun k => if k = 1 then 1 else 0)] volume) := by
  obtain ⟨v, hv, hn, hax, -⟩ := create_volume_valid (zeroed_record : volume_struct ℝ) 1
    (by decide) (by decide) none nc_type.NC_BYTE false 0 255
  obtain ⟨volume, hc, -, h⟩ := spatial_axes_invariant zeroed_record 1 (by decide) (by decide)
    none nc_type.NC_BYTE false 0 255
    [Geometry_call.transform (create_linear_transform sample_transform),
     Geometry_call.direction_cosine 0 (fun k => if k = 2 then 5 else 0),
     Geometry_call.separations sample_separations,
     Geometry_call.starts sample_starts,
     Geometry_call.translation (fun _ => 0) (fun _ => 1),
     Geometry_call.direction_unit_cosine 0 (fun k => if k = 1 then 1 else 0)]
  have e : volume = v := Option.some.inj (hc.symm.trans hv)
  subst e
  obtain ⟨s0, s1, s2⟩ := default_axes_three volume 1 (by decide) (by decide) hax
  refine ⟨by decide, by decide, volume, hc, h ?_⟩
  refine ⟨?_, trivial, trivial, trivial, trivial, ?_, trivial⟩
  · intro _ a ha0 ha3 hm
    rcases int_lt_three ha0 ha3 with e | e | e <;> subst e
    · simp [Transform_elem, get_linear_transform_ptr, create_linear_transform,
        sample_transform]
    · rw [s1] at hm
      norm_num at hm
    · rw [s2] at hm
      norm_num at hm
  · show is_unit_vector (fun k : Int => if k = 1 then (1 : ℝ) else 0)
    unfold is_unit_vector
    norm_num

theorem spatial_axes_unit_unchecked :
    ∃ volume : volume_struct ℝ,
      create_volume zeroed_record 3 none nc_type.NC_BYTE false 0 255 = some volume ∧
      ¬ spatial_axes_valid (apply_geometry_calls Real.sqrt
        [Geometry_call.direction_unit_cosine 0 (fun k => if k = 0 then 2 else 0)] volume) ∧
      ¬ spatial_axes_valid (apply_geometry_calls Real.sqrt
        [Geometry_call.transform (create_linear_transform sample_transform)] volume) := by
  obtain ⟨volume, hc, hn, hax, -⟩ := create_volume_valid (zeroed_record : volume_struct ℝ) 3
    (by decide) (by decide) none nc_type.NC_BYTE false 0 255
  obtain ⟨s0, s1, s2⟩ := default_axes_three volume 3 (by decide) (by decide) hax
  norm_num at s0 s1 s2
  refine ⟨volume, hc, ?_, ?_⟩
  · intro hvalid
    have hset : apply_geometry_calls Real.sqrt
        [Geometry_call.direction_unit_cosine 0 (fun k => if k = 0 then 2 else 0)] volume
        = set_volume_direction_unit_cosine volume 0 (fun k => if k = 0 then 2 else 0) := rfl
    rw [hset, set_volume_direction_unit_cosine_spatial volume 0 _
      (by simp only [get_volume_n_dimensions, hn]; norm_num)
      ⟨2, by norm_num, by norm_num, s2⟩] at hvalid
    rcases hvalid 2 (by norm_num) (by norm_num) with e | ⟨-, -, eu⟩
    · have e' : volume.spatial_axes 2 = -1 := e
      rw [s2] at e'
      norm_num at e'
    · have eu' : is_unit_vector
          ((store2 (store2 (store2 volume.direction_cosines 0 X (2 : ℝ)) 0 Y 0) 0 Z 0)
            (volume.spatial_axes 2)) := by
        simpa using eu
      rw [s2] at eu'
      unfold is_unit_vector at eu'
      norm_num [store2_apply, X, Y, Z] at eu'
  · intro hvalid
    have hset : apply_geometry_calls Real.sqrt
        [Geometry_call.transform (create_linear_transform sample_transform)] volume
        = set_voxel_to_world_transform Real.sqrt volume
            (create_linear_transform sample_transform) := rfl
    rw [hset] at hvalid
    obtain ⟨-, hsa, hdc⟩ := set_voxel_to_world_transform_linear Real.sqrt volume
      (sample_transform : Transform ℝ)
    rcases hvalid 1 (by norm_num) (by norm_num) with e | ⟨-, -, eu⟩
    · rw [hsa, s1] at e
      norm_num at e
    · rw [hsa, hdc, s1] at eu
      unfold cttss_steps at eu
      rw [for_less_three] at eu
      rw [(cttss_axis_other Real.sqrt _ _ volume.spatial_axes 2 _ 1
        (by rw [s2]; norm_num)).2] at eu
      have hz := cttss_axis_zero_row Real.sqrt (cttss_axes (sample_transform : Transform ℝ))
        Step_signs.steps volume.spatial_axes 1
        (cttss_axis Real.sqrt (cttss_axes sample_transform) Step_signs.steps
          volume.spatial_axes 0
          (for_less 0 volume.n_dimensions (fun dim st => store st dim 1) volume.separations,
            volume.direction_cosines))
        (by rw [s1]; norm_num)
        (by
          rw [cttss_axes_apply _ 1 0 (by norm_num) (by norm_num),
            cttss_axes_apply _ 1 1 (by norm_num) (by norm_num),
            cttss_axes_apply _ 1 2 (by norm_num) (by norm_num)]
          simp [sample_transform])
      rw [s1] at hz
      unfold is_unit_vector at eu
      rw [hz 0 (by norm_num) (by norm_num), hz 1 (by norm_num) (by norm_num),
        hz 2 (by norm_num) (by norm_num)] at eu
      norm_num at eu

/-! ## The tables of a copy -/

/-- Claim C32 fails in the code.  The volume returned by
`copy_volume_definition_no_alloc` has no table on any of its dimensions: the
last loop of the function installs the tables it reads from the source on
the source again, not on the copy.  For `timed_volume`, whose dimension 2
has the tables of starts 0, 10, 25 and of widths 10, 15, 5, the copy has
null tables on dimension 2, the dimension is not irregular in the copy, and
the world position of index 1 is `start + 1 * separation = 1`, not 10. -/
theorem copy_loses_tables :
    (∀ (alloc : volume_struct ℝ) (malloc_ok : Bool) (volume : volume_struct ℝ)
        (nc_data_type : nc_type) (signed_flag : Bool) (voxel_min voxel_max : ℝ),
      1 ≤ volume.n_dimensions → volume.n_dimensions ≤ MAX_DIMENSIONS →
      ∃ copy, (copy_volume_definition_no_alloc alloc malloc_ok volume nc_data_type
          signed_flag voxel_min voxel_max).1 = some copy ∧
        ∀ i, 0 ≤ i → i < volume.n_dimensions →
          copy.irregular_starts i = Real_table.NULL ∧
          copy.irregular_widths i = Real_table.NULL) ∧
    (timed_volume : volume_struct ℝ).irregular_starts 2 = Real_table.table 3 table_starts ∧
    (timed_volume : volume_struct ℝ).irregular_widths 2 = Real_table.table 3 table_widths ∧
    is_volume_dimension_irregular (timed_volume : volume_struct ℝ) 2 = true ∧
    nonspatial_voxel_to_world (timed_volume : volume_struct ℝ) 2 1 = 10 ∧
    ∃ copy, (copy_volume_definition_no_alloc (zeroed_record : volume_struct ℝ) true
        (timed_volume : volume_struct ℝ) nc_type.MI_ORIGINAL_TYPE false 0 0).1 = some copy ∧
      copy.irregular_starts 2 = Real_table.NULL ∧
      copy.irregular_widths 2 = Real_table.NULL ∧
      is_volume_dimension_irregular copy 2 = false ∧
      nonspatial_voxel_to_world copy 2 1 = 1 := by
  have hirr : is_volume_dimension_irregular (timed_volume : volume_struct ℝ) 2 = true :=
    is_volume_dimension_irregular_table _ 2 (by decide) 3 table_starts rfl
  refine ⟨fun alloc malloc_ok volume nc sf a b h1 h5 => ?_, rfl, rfl, hirr, ?_, ?_⟩
  · obtain ⟨copy, hc, -, ht⟩ := copy_volume_definition_no_alloc_tables alloc malloc_ok volume
      nc sf a b h1 h5
    exact ⟨copy, hc, ht⟩
  · unfold nonspatial_voxel_to_world
    simp only [hirr, if_true]
    norm_num [timed_volume, slice_volume, store_apply, Real_table.read, table_starts]
  · have h1 : 1 ≤ (timed_volume : volume_struct ℝ).n_dimensions := by decide
    have h5 : (timed_volume : volume_struct ℝ).n_dimensions ≤ MAX_DIMENSIONS := by decide
    obtain ⟨copy, hc, hs, -⟩ := copy_volume_definition_no_alloc_original
      (zeroed_record : volume_struct ℝ) true (timed_volume : volume_struct ℝ) false 0 0 h1 h5
      (by decide) rfl (by norm_num [timed_volume, slice_volume]) (fun _ => rfl)
    obtain ⟨copy', hc', -, ht⟩ := copy_volume_definition_no_alloc_tables
      (zeroed_record : volume_struct ℝ) true (timed_volume : volume_struct ℝ)
      nc_type.MI_ORIGINAL_TYPE false 0 0 h1 h5
    have e : copy' = copy := Option.some.inj (hc'.symm.trans hc)
    subst e
    obtain ⟨e1, e2⟩ := ht 2 (by norm_num) (by decide)
    have hnot : is_volume_dimension_irregular copy' 2 = false :=
      is_volume_dimension_irregular_null copy' 2 e1
    refine ⟨copy', hc, e1, e2, hnot, ?_⟩
    obtain ⟨-, hdims, -⟩ := hs
    obtain ⟨-, -, hsep, hst⟩ := hdims 2 (by norm_num) (by decide)
    unfold nonspatial_voxel_to_world
    simp only [hnot, Bool.false_eq_true, if_false, hsep, hst]
    norm_num [timed_volume, slice_volume]

/-! ## The total number of voxels -/

theorem for_less_empty {σ : Type} (lo hi : Int) (h : hi ≤ lo) (body : Int → σ → σ) (s : σ) :
    for_less lo hi body s = s := by
  unfold for_less
  have e : (hi - lo).toNat = 0 := by omega
  rw [e]
  rfl

theorem get_volume_total_n_voxels_modulo {K : Type} (volume : volume_struct K) :
    get_volume_total_n_voxels volume = sizes_product volume % 2 ^ 32 := by
  unfold get_volume_total_n_voxels sizes_product
  simp only [get_volume_n_dimensions]
  by_cases hn : 0 ≤ volume.n_dimensions
  · have key := for_less_induction
      (fun (k : Int) (acc : Int) =>
        acc = ((List.range k.toNat).map
          (fun (j : Nat) => volume.sizes (Int.ofNat j))).prod % 2 ^ 32)
      volume.n_dimensions hn
      (fun i n => (n * (get_volume_sizes volume (fun _ => 0) i % 2 ^ 32)) % 2 ^ 32) 1
      (by simp)
      (fun k acc hk0 hkn hacc => by
        have e : (k + 1).toNat = k.toNat + 1 := by omega
        have ek : Int.ofNat k.toNat = k := by
          simp only [Int.ofNat_eq_coe]
          omega
        simp only []
        rw [e, List.range_succ, List.map_append, List.prod_append,
          get_volume_sizes_apply volume _ k hk0 hkn, hacc]
        simp only [List.map_cons, List.map_nil, List.prod_cons, List.prod_nil, mul_one, ek]
        rw [← Int.mul_emod])
    exact key
  · have hle : volume.n_dimensions ≤ 0 := by omega
    rw [for_less_empty 0 volume.n_dimensions hle]
    have e : volume.n_dimensions.toNat = 0 := by omega
    rw [e]
    simp

theorem sizes_product_nonneg {K : Type} (volume : volume_struct K)
    (hsizes : ∀ i, 0 ≤ i → i < volume.n_dimensions → 0 ≤ volume.sizes i) :
    0 ≤ sizes_product volume := by
  unfold sizes_product
  apply List.prod_nonneg
  intro a ha
  rw [List.mem_map] at ha
  obtain ⟨k, hk, rfl⟩ := ha
  rw [List.mem_range] at hk
  exact hsizes (Int.ofNat k) (by simp) (by
    simp only [Int.ofNat_eq_coe]
    omega)

/-- Claim C34, amended.  For every volume whose dimension sizes are not
negative and whose product of sizes is below 2^32,
`get_volume_total_n_voxels` returns the product of the sizes; for every
volume it returns that product modulo 2^32. -/
theorem total_n_voxels_product (volume : volume_struct ℝ)
    (hsizes : ∀ i, 0 ≤ i → i < volume.n_dimensions → 0 ≤ volume.sizes i)
    (hfit : sizes_product volume < 2 ^ 32) :
    get_volume_total_n_voxels volume = sizes_product volume ∧
    ∀ other : volume_struct ℝ,
      get_volume_total_n_voxels other = sizes_product other % 2 ^ 32 := by
  refine ⟨?_, get_volume_total_n_voxels_modulo⟩
  rw [get_volume_total_n_voxels_modulo]
  exact Int.emod_eq_of_lt (sizes_product_nonneg volume hsizes) hfit

theorem timed_volume_product : sizes_product (timed_volume : volume_struct ℝ) = 27 := by
  decide

theorem huge_volume_product :
    sizes_product (huge_volume : volume_struct ℝ) = 281474976710656 := by
  decide

theorem total_n_voxels_product_witness :
    (∀ i, 0 ≤ i → i < (timed_volume : volume_struct ℝ).n_dimensions →
      0 ≤ (timed_volume : volume_struct ℝ).sizes i) ∧
    sizes_product (timed_volume : volume_struct ℝ) < 2 ^ 32 ∧
    get_volume_total_n_voxels (timed_volume : volume_struct ℝ) = 27 := by
  have hs : ∀ i, 0 ≤ i → i < (timed_volume : volume_struct ℝ).n_dimensions →
      0 ≤ (timed_volume : volume_struct ℝ).sizes i := fun i _ _ => by
    show (0 : Int) ≤ 3
    norm_num
  have hf : sizes_product (timed_volume : volume_struct ℝ) < 2 ^ 32 := by
    rw [timed_volume_product]
    norm_num
  refine ⟨hs, hf, ?_⟩
  rw [(total_n_voxels_product timed_volume hs hf).1, timed_volume_product]

theorem total_n_voxels_product_counterexample :
    (∀ i, 0 ≤ i → i < (huge_volume : volume_struct ℝ).n_dimensions →
      0 ≤ (huge_volume : volume_struct ℝ).sizes i) ∧
    sizes_product (huge_volume : volume_struct ℝ) = 281474976710656 ∧
    get_volume_total_n_voxels (huge_volume : volume_struct ℝ) = 0 := by
  refine ⟨fun i _ _ => ?_, huge_volume_product, ?_⟩
  · show (0 : Int) ≤ 65536
    norm_num
  · rw [get_volume_total_n_voxels_modulo, huge_volume_product]
    norm_num

/-! ## The frame of the translation setter -/

theorem set_volume_translation_starts {K : Type} [LinearOrderedField K] (sqrt : K → K)
    (volume : volume_struct K) (voxel w : Int → K) :
    ∃ sts : Int → K,
      set_volume_translation sqrt volume voxel w
        = { volume with starts := sts, voxel_to_world_transform_uptodate := false } ∧
      (∀ i, 0 ≤ i → i < volume.n_dimensions →
        (∀ c, 0 ≤ c → c < 3 → volume.spatial_axes c ≠ i) → sts i = 0) ∧
      (∀ i, (i < 0 ∨ volume.n_dimensions ≤ i) → sts i = volume.starts i) := by
  unfold set_volume_translation set_volume_starts
  simp only [get_volume_n_dimensions]
  refine ⟨_, rfl, ?_, ?_⟩
  · intro i hi0 hin hns
    rw [for_less_store]
    simp only [hi0, hin, and_self, if_true]
    rw [for_less_three]
    have h0 : i ≠ volume.spatial_axes 0 := fun e => hns 0 (by norm_num) (by norm_num) e.symm
    have h1 : i ≠ volume.spatial_axes 1 := fun e => hns 1 (by norm_num) (by norm_num) e.symm
    have h2 : i ≠ volume.spatial_axes 2 := fun e => hns 2 (by norm_num) (by norm_num) e.symm
    have hz : for_less 0 volume.n_dimensions (fun dim s => store s dim 0) (fun _ => (0 : K)) i
        = 0 := by
      rw [for_less_store]
      simp
    by_cases m0 : 0 ≤ volume.spatial_axes 0 <;> by_cases m1 : 0 ≤ volume.spatial_axes 1 <;>
      by_cases m2 : 0 ≤ volume.spatial_axes 2 <;>
      simp only [ge_iff_le, m0, m1, m2, if_true, if_false, store_apply, h0, h1, h2, hz]
  · intro i hi
    rw [for_less_store]
    have hout : ¬ (0 ≤ i ∧ i < volume.n_dimensions) := by omega
    simp only [hout, if_false]

/-- Claim C39, amended.  `set_volume_translation` changes only the starts
and the up-to-date flag of the transform, which it clears: every other field
of the volume (separations, direction cosines, axis mapping, value range) is
as before.  The start of every dimension 0..N-1 that is not spatial is set
to 0.0, whatever it was; the starts outside 0..N-1 are left as they were. -/
theorem set_volume_translation_frame (volume : volume_struct ℝ) (voxel w : Int → ℝ) :
    ∃ sts : Int → ℝ,
      set_volume_translation Real.sqrt volume voxel w
        = { volume with starts := sts, voxel_to_world_transform_uptodate := false } ∧
      (∀ i, 0 ≤ i → i < volume.n_dimensions →
        (∀ c, 0 ≤ c → c < 3 → volume.spatial_axes c ≠ i) → sts i = 0) ∧
      (∀ i, (i < 0 ∨ volume.n_dimensions ≤ i) → sts i = volume.starts i) :=
  set_volume_translation_starts Real.sqrt volume voxel w

theorem set_volume_translation_frame_witness :
    (set_volume_translation Real.sqrt (offset_volume : volume_struct ℝ) (fun _ => 0)
      (fun _ => 0)).separations = (offset_volume : volume_struct ℝ).separations ∧
    (set_volume_translation Real.sqrt (offset_volume : volume_struct ℝ) (fun _ => 0)
      (fun _ => 0)).voxel_max = 255 ∧
    (set_volume_translation Real.sqrt (offset_volume : volume_struct ℝ) (fun _ => 0)
      (fun _ => 0)).starts 2 = 0 ∧
    (set_volume_translation Real.sqrt (offset_volume : volume_struct ℝ) (fun _ => 0)
      (fun _ => 0)).starts 4 = 13 := by
  obtain ⟨sts, he, h0, hout⟩ := set_volume_translation_frame (offset_volume : volume_struct ℝ)
    (fun _ => 0) (fun _ => 0)
  rw [he]
  refine ⟨rfl, rfl, ?_, ?_⟩
  · exact h0 2 (by norm_num) (by decide) time_axis_not_spatial
  · show sts 4 = 13
    rw [hout 4 (Or.inr (by decide))]
    norm_num [offset_volume, sample_starts]

theorem set_volume_translation_frame_counterexample :
    (∀ c, 0 ≤ c → c < 3 → (offset_volume : volume_struct ℝ).spatial_axes c ≠ 2) ∧
    (offset_volume : volume_struct ℝ).starts 2 = 13 ∧
    (set_volume_translation Real.sqrt (offset_volume : volume_struct ℝ) (fun _ => 0)
      (fun _ => 0)).starts 2 = 0 := by
  obtain ⟨sts, he, h0, -⟩ := set_volume_translation_starts Real.sqrt
    (offset_volume : volume_struct ℝ) (fun _ => 0) (fun _ => 0)
  refine ⟨time_axis_not_spatial, by norm_num [offset_volume, sample_starts], ?_⟩
  rw [he]
  exact h0 2 (by norm_num) (by decide) time_axis_not_spatial

/-! ## The assignment of a transform -/

theorem set_voxel_to_world_transform_eq {K : Type} [LinearOrderedField K] (sqrt : K → K)
    (volume : volume_struct K) (t : Transform K) :
    set_voxel_to_world_transform sqrt volume (create_linear_transform t)
      = { volume with
          voxel_to_world_transform := create_linear_transform t
          voxel_to_world_transform_uptodate := true
          starts := convert_transform_origin_to_starts (get_transform_origin_real t)
            volume.n_dimensions volume.spatial_axes
            (cttss_steps sqrt (cttss_axes t) volume.n_dimensions Step_signs.steps
              volume.spatial_axes volume.separations volume.direction_cosines).2
            volume.starts
          separations :=
            (cttss_steps sqrt (cttss_axes t) volume.n_dimensions Step_signs.steps
              volume.spatial_axes volume.separations volume.direction_cosines).1
          direction_cosines :=
            (cttss_steps sqrt (cttss_axes t) volume.n_dimensions Step_signs.steps
              volume.spatial_axes volume.separations volume.direction_cosines).2 } := by
  have hT : get_transform_type (create_linear_transform t) = Transform_types.LINEAR := rfl
  unfold set_voxel_to_world_transform
  simp only [hT, if_true]
  rw [convert_transform_linear sqrt (create_linear_transform t) rfl]
  rfl

theorem cttss_axis_self_steps {K : Type} [LinearOrderedField K] (sqrt : K → K)
    (axes : Int → Int → K) (sa : Int → Int) (dim : Int)
    (sd : (Int → K) × (Int → Int → K)) (hm : 0 ≤ sa dim) (h1 : sd.1 (sa dim) = 1) :
    (cttss_axis sqrt axes Step_signs.steps sa dim sd).1 (sa dim) = step_mag sqrt axes dim ∧
    ∀ k, 0 ≤ k → k < 3 →
      (cttss_axis sqrt axes Step_signs.steps sa dim sd).2 (sa dim) k
        = axes dim k / step_mag sqrt axes dim := by
  have hneg : ¬ (1 : K) < 0 := by norm_num
  unfold cttss_axis
  simp only [ge_iff_le, hm, if_true, h1, hneg, if_false, one_mul]
  refine ⟨by simp [step_mag, store_apply], ?_⟩
  intro k hk0 hk3
  rcases int_lt_three hk0 hk3 with h | h | h <;> subst h <;>
    simp [step_mag, store_apply, store2_apply]

theorem default_steps_apply {K : Type} [LinearOrderedField K] (n : Int) (steps : Int → K)
    (i : Int) (h0 : 0 ≤ i) (hn : i < n) :
    for_less 0 n (fun dim st => store st dim (1 : K)) steps i = 1 := by
  rw [for_less_store n (fun _ => (1 : K)) steps]
  simp [h0, hn]

theorem cttss_steps_aliased {K : Type} [LinearOrderedField K] (sqrt : K → K)
    (axes : Int → Int → K) (n : Int) (sa : Int → Int) (hsa : axes_distinct sa)
    (steps : Int → K) (dcs : Int → Int → K)
    (c : Int) (hc0 : 0 ≤ c) (hc3 : c < 3) (hc : 0 ≤ sa c) (hn : sa c < n) :
    (cttss_steps sqrt axes n Step_signs.steps sa steps dcs).1 (sa c)
      = step_mag sqrt axes c ∧
    ∀ k, 0 ≤ k → k < 3 →
      (cttss_steps sqrt axes n Step_signs.steps sa steps dcs).2 (sa c) k
        = axes c k / step_mag sqrt axes c := by
  have hd := default_steps_apply n steps (sa c) hc hn
  unfold cttss_steps
  rw [for_less_three]
  rcases int_lt_three hc0 hc3 with h | h | h <;> subst h
  · have h1 := axes_distinct_ne hsa 0 1 (by norm_num) (by norm_num) (by norm_num)
      (by norm_num) hc (by norm_num)
    have h2 := axes_distinct_ne hsa 0 2 (by norm_num) (by norm_num) (by norm_num)
      (by norm_num) hc (by norm_num)
    rw [(cttss_axis_other sqrt axes _ sa 2 _ (sa 0) h2).1,
      (cttss_axis_other sqrt axes _ sa 2 _ (sa 0) h2).2,
      (cttss_axis_other sqrt axes _ sa 1 _ (sa 0) h1).1,
      (cttss_axis_other sqrt axes _ sa 1 _ (sa 0) h1).2]
    exact cttss_axis_self_steps sqrt axes sa 0 _ hc hd
  · have h0 := axes_distinct_ne hsa 1 0 (by norm_num) (by norm_num) (by norm_num)
      (by norm_num) hc (by norm_num)
    have h2 := axes_distinct_ne hsa 1 2 (by norm_num) (by norm_num) (by norm_num)
      (by norm_num) hc (by norm_num)
    rw [(cttss_axis_other sqrt axes _ sa 2 _ (sa 1) h2).1,
      (cttss_axis_other sqrt axes _ sa 2 _ (sa 1) h2).2]
    refine cttss_axis_self_steps sqrt axes sa 1 _ hc ?_
    rw [(cttss_axis_other sqrt axes _ sa 0 _ (sa 1) h0).1]
    exact hd
  · have h0 := axes_distinct_ne hsa 2 0 (by norm_num) (by norm_num) (by norm_num)
      (by norm_num) hc (by norm_num)
    have h1 := axes_distinct_ne hsa 2 1 (by norm_num) (by norm_num) (by norm_num)
      (by norm_num) hc (by norm_num)
    refine cttss_axis_self_steps sqrt axes sa 2 _ hc ?_
    rw [(cttss_axis_other sqrt axes _ sa 1 _ (sa 2) h1).1,
      (cttss_axis_other sqrt axes _ sa 0 _ (sa 2) h0).1]
    exact hd

/-- Claim C33 fails in the code.  `set_voxel_to_world_transform` passes the
array `volume->separations` both as the sign convention and as the output of
the steps; the decomposer first fills that array with 1.0, so the sign it
reads is never negative.  For every volume whose spatial axes are distinct
dimensions of the volume and every linear transform, the separation of every
spatial dimension after the call is the length of the column of its axis (1
for a zero column), which is positive, whatever its sign was before. -/
theorem transform_assignment_drops_signs (volume : volume_struct ℝ) (t : Transform ℝ)
    (hsa : axes_distinct volume.spatial_axes)
    (c : Int) (hc0 : 0 ≤ c) (hc3 : c < 3) (hc : 0 ≤ volume.spatial_axes c)
    (hn : volume.spatial_axes c < volume.n_dimensions) :
    (set_voxel_to_world_transform Real.sqrt volume
        (create_linear_transform t)).separations (volume.spatial_axes c)
      = step_mag Real.sqrt (cttss_axes t) c ∧
    0 < (set_voxel_to_world_transform Real.sqrt volume
        (create_linear_transform t)).separations (volume.spatial_axes c) := by
  rw [set_voxel_to_world_transform_eq]
  have h := (cttss_steps_aliased Real.sqrt (cttss_axes t) volume.n_dimensions
    volume.spatial_axes hsa volume.separations volume.direction_cosines c hc0 hc3 hc hn).1
  simp only [h]
  exact ⟨trivial, (step_mag_real (cttss_axes t) c).1⟩

theorem transform_assignment_drops_signs_witness :
    (mirrored_volume : volume_struct ℝ).separations
      ((mirrored_volume : volume_struct ℝ).spatial_axes 0) < 0 ∧
    0 < (set_voxel_to_world_transform Real.sqrt (mirrored_volume : volume_struct ℝ)
        (create_linear_transform sample_transform)).separations
          ((mirrored_volume : volume_struct ℝ).spatial_axes 0) :=
  ⟨by norm_num [mirrored_volume],
   (transform_assignment_drops_signs (mirrored_volume : volume_struct ℝ) sample_transform
      axes_xy_distinct 0 (by norm_num) (by norm_num) (by decide) (by decide)).2⟩

/-! ## The round trip of an index along one dimension -/

theorem ROUND_of_int (i : Int) : ROUND ((i : ℝ)) = i := by
  rw [ROUND_real]
  rw [Int.floor_eq_iff]
  constructor <;> linarith

theorem ascending_starts (s w : Int → ℝ) (size : Int)
    (hw : ∀ j, 0 ≤ j → j < size → 0 < w j)
    (hasc : ∀ j, 0 ≤ j → j + 1 < size → s j + w j ≤ s (j + 1))
    (k : Int) (hk0 : 0 ≤ k) (d : Nat) (hd : k + 1 + (d : Int) < size) :
    s k + w k ≤ s (k + 1 + (d : Int)) := by
  induction d with
  | zero =>
    simp only [Nat.cast_zero, add_zero] at hd ⊢
    exact hasc k hk0 hd
  | succ d ih =>
    have hd' : k + 1 + (d : Int) < size := by
      push_cast at hd
      omega
    have h1 := ih hd'
    have h2 := hw (k + 1 + (d : Int)) (by omega) hd'
    have h3 := hasc (k + 1 + (d : Int)) (by omega) (by
      push_cast at hd
      omega)
    have e : k + 1 + ((d + 1 : Nat) : Int) = k + 1 + (d : Int) + 1 := by
      push_cast
      ring
    rw [e]
    linarith

theorem irregular_index_found (s w : Int → ℝ) (size : Int)
    (hw : ∀ j, 0 ≤ j → j < size → 0 < w j)
    (hasc : ∀ j, 0 ≤ j → j + 1 < size → s j + w j ≤ s (j + 1))
    (i : Int) (hi0 : 0 ≤ i) (hin : i < size) :
    for_less_break 0 size (fun j => decide (s i < s j + w j)) = i := by
  obtain ⟨hk0, -, hbefore, hat⟩ := for_less_break_first size (by omega)
    (fun j => decide (s i < s j + w j))
  generalize for_less_break 0 size (fun j => decide (s i < s j + w j)) = k at hk0 hbefore hat
  have hstop : decide (s i < s i + w i) = true := by
    have := hw i hi0 hin
    simp only [decide_eq_true_eq]
    linarith
  have hki : k ≤ i := by
    by_contra hlt
    have := hbefore i hi0 (by omega)
    simp only [hstop] at this
    exact Bool.noConfusion this
  rcases lt_or_eq_of_le hki with hlt | heq
  · exfalso
    have hk := hat (by omega)
    simp only [decide_eq_true_eq] at hk
    have h := ascending_starts s w size hw hasc k hk0 (i - k - 1).toNat (by omega)
    have e : k + 1 + ((i - k - 1).toNat : Int) = i := by omega
    rw [e] at h
    linarith
  · exact heq

/-- Claim C38, amended.  In exact real arithmetic: for a dimension `idim` of
the volume with `n` samples and every index `0 <= i < n`: when the dimension
is regular with a separation other than 0, or irregular with tables of `n`
starts and `n` widths whose widths are positive and whose intervals ascend
without overlap (`starts[j] + widths[j] <= starts[j+1]`),
`nonspatial_world_to_voxel` of the world position `nonspatial_voxel_to_world`
gives for `i` is `i`. -/
theorem index_round_trip (volume : volume_struct ℝ) (idim i : Int)
    (hd : 0 ≤ idim ∧ idim < volume.n_dimensions)
    (hi0 : 0 ≤ i) (hin : i < volume.sizes idim) (hint : volume.sizes idim ≤ 2147483647)
    (hcase :
      (volume.irregular_starts idim = Real_table.NULL ∧ volume.separations idim ≠ 0) ∨
      (∃ s w : Int → ℝ,
        volume.irregular_starts idim = Real_table.table (volume.sizes idim) s ∧
        volume.irregular_widths idim = Real_table.table (volume.sizes idim) w ∧
        (∀ j, 0 ≤ j → j < volume.sizes idim → 0 < w j) ∧
        (∀ j, 0 ≤ j → j + 1 < volume.sizes idim → s j + w j ≤ s (j + 1)))) :
    nonspatial_world_to_voxel volume idim (nonspatial_voxel_to_world volume idim i) = i := by
  rcases hcase with ⟨hnull, hsep⟩ | ⟨s, w, hs, hwt, hw, hasc⟩
  · have hirr := is_volume_dimension_irregular_null volume idim hnull
    unfold nonspatial_world_to_voxel nonspatial_voxel_to_world
    simp only [hirr, Bool.false_eq_true, if_false]
    have e : (volume.starts idim + (i : ℝ) * volume.separations idim - volume.starts idim)
        / volume.separations idim = (i : ℝ) := by
      field_simp
    rw [e, ROUND_of_int, to_int_of_range i (by omega) (by omega)]
  · have hirr := is_volume_dimension_irregular_table volume idim (le_of_lt hd.2) _ s hs
    unfold nonspatial_world_to_voxel nonspatial_voxel_to_world
    have h1 : ¬ i < 0 := by omega
    have h2 : ¬ i ≥ volume.sizes idim := by omega
    simp only [hirr, if_true, h1, h2, if_false, hs, hwt, Real_table.read]
    rw [irregular_index_found s w (volume.sizes idim) hw hasc i hi0 hin]
    simp only [hin, if_true]

theorem index_round_trip_witness :
    nonspatial_world_to_voxel (timed_volume : volume_struct ℝ) 2
      (nonspatial_voxel_to_world (timed_volume : volume_struct ℝ) 2 1) = 1 ∧
    nonspatial_world_to_voxel (timed_volume : volume_struct ℝ) 0
      (nonspatial_voxel_to_world (timed_volume : volume_struct ℝ) 0 2) = 2 := by
  constructor
  · refine index_round_trip (timed_volume : volume_struct ℝ) 2 1 (by decide) (by norm_num)
      (by decide) (by decide) (Or.inr ⟨table_starts, table_widths, rfl, rfl, ?_, ?_⟩)
    · intro j hj0 hj3
      have hj3' : j < 3 := hj3
      rcases int_lt_three hj0 hj3' with h | h | h <;> subst h <;> norm_num [table_widths]
    · intro j hj0 hj3
      have hj3' : j + 1 < 3 := hj3
      have hj : j = 0 ∨ j = 1 := by omega
      rcases hj with h | h <;> subst h <;> norm_num [table_starts, table_widths]
  · refine index_round_trip (timed_volume : volume_struct ℝ) 0 2 (by decide) (by norm_num)
      (by decide) (by decide) (Or.inl ⟨rfl, ?_⟩)
    norm_num [timed_volume, slice_volume]

/-! ## The branch of the scale 0 -/

theorem storage_type_concrete (nc_data_type : nc_type)
    (hnc : nc_data_type ≠ nc_type.MI_ORIGINAL_TYPE) (signed_flag : Bool) :
    storage_type nc_data_type signed_flag ≠ Data_types.NO_DATA_TYPE := by
  cases nc_data_type <;> cases signed_flag <;>
    first
      | exact absurd rfl hnc
      | decide

theorem set_volume_type_entry {K : Type} [LinearOrderedField K] (volume : volume_struct K)
    (nc_data_type : nc_type) (hnc : nc_data_type ≠ nc_type.MI_ORIGINAL_TYPE)
    (signed_flag : Bool) (voxel_min voxel_max : K) :
    set_volume_type volume nc_data_type signed_flag voxel_min voxel_max
      = { set_volume_voxel_range (type_entry volume nc_data_type signed_flag)
            voxel_min voxel_max with
          nc_data_type := nc_data_type } := by
  unfold set_volume_type type_entry storage_type
  simp only [hnc, ne_eq, not_false_eq_true, if_true]

theorem real_range_scale (volume : volume_struct ℝ) (hv : volume.voxel_min < volume.voxel_max)
    (ht : ¬ is_floating_type volume.data_type) (real_min real_max : ℝ) :
    (set_volume_real_range volume real_min real_max).real_value_scale
      = (real_max - real_min) / (volume.voxel_max - volume.voxel_min) ∧
    ((set_volume_real_range volume real_min real_max).real_value_scale = 0
      ↔ real_min = real_max) := by
  rw [set_volume_real_range_integer _ _ _ ht]
  simp only [hv, if_true, true_and]
  have hne : volume.voxel_max - volume.voxel_min ≠ 0 := by linarith
  rw [div_eq_zero_iff]
  constructor
  · rintro (h | h)
    · linarith
    · exact absurd h hne
  · intro h
    left
    linarith

theorem voxel_range_entry_valid {K : Type} [LinearOrderedField K] (volume : volume_struct K)
    (ht : volume.data_type ≠ Data_types.NO_DATA_TYPE) (voxel_min voxel_max : K) :
    range_valid (voxel_range_entry volume voxel_min voxel_max) :=
  ⟨ht, kept_range_lt volume.data_type ht voxel_min voxel_max⟩

/-- Claim C36, amended.  In exact real arithmetic, where every argument is a
number: for every volume that `create_volume` returns for one of the data type
arguments `NC_BYTE`, `NC_SHORT`, `NC_INT`, `NC_FLOAT` and `NC_DOUBLE` and
every sequence of calls of `set_volume_type`, `set_volume_voxel_range` and
`set_volume_real_range` on it, the volume has one of the 8 storage types and
`voxel_min < voxel_max` afterwards, so a call of `set_volume_real_range` on
integer storage takes the branch of the test `voxel_min < voxel_max`; the same
holds on entry to the calls of `set_volume_real_range` that
`set_volume_voxel_range` makes itself, also inside `set_volume_type`.  The
scale stored by that branch is `(real_max - real_min) / (voxel_max -
voxel_min)`, which is 0.0 exactly when `real_min = real_max`. -/
theorem scale_zero_branch_unreachable (alloc : volume_struct ℝ) (n_dimensions : Int)
    (h1 : 1 ≤ n_dimensions) (h5 : n_dimensions ≤ MAX_DIMENSIONS)
    (dimension_names : Option (Int → String)) (nc_data_type : nc_type)
    (hnc : nc_data_type ≠ nc_type.MI_ORIGINAL_TYPE) (signed_flag : Bool)
    (voxel_min voxel_max : ℝ) (calls : List (Range_call ℝ)) :
    ∃ volume : volume_struct ℝ,
      create_volume alloc n_dimensions dimension_names nc_data_type signed_flag
        voxel_min voxel_max = some volume ∧
      range_valid (apply_calls calls volume) ∧
      (∀ real_min real_max : ℝ, ¬ is_floating_type (apply_calls calls volume).data_type →
        (set_volume_real_range (apply_calls calls volume) real_min real_max).real_value_scale
          = (real_max - real_min) /
            ((apply_calls calls volume).voxel_max - (apply_calls calls volume).voxel_min) ∧
        ((set_volume_real_range (apply_calls calls volume) real_min
            real_max).real_value_scale = 0 ↔ real_min = real_max)) ∧
      (∀ a b : ℝ, (apply_calls calls volume).real_range_set = true →
        set_volume_voxel_range (apply_calls calls volume) a b
          = set_volume_real_range (voxel_range_entry (apply_calls calls volume) a b)
              (get_volume_real_min (apply_calls calls volume))
              (get_volume_real_max (apply_calls calls volume)) ∧
        range_valid (voxel_range_entry (apply_calls calls volume) a b)) ∧
      (∀ (nc : nc_type) (sf : Bool) (a b : ℝ), nc ≠ nc_type.MI_ORIGINAL_TYPE →
        set_volume_type (apply_calls calls volume) nc sf a b
          = { set_volume_voxel_range (type_entry (apply_calls calls volume) nc sf) a b with
              nc_data_type := nc } ∧
        ((type_entry (apply_calls calls volume) nc sf).real_range_set = true →
          set_volume_voxel_range (type_entry (apply_calls calls volume) nc sf) a b
            = set_volume_real_range
                (voxel_range_entry (type_entry (apply_calls calls volume) nc sf) a b)
                (get_volume_real_min (type_entry (apply_calls calls volume) nc sf))
                (get_volume_real_max (type_entry (apply_calls calls volume) nc sf))) ∧
        range_valid (voxel_range_entry (type_entry (apply_calls calls volume) nc sf) a b)) := by
  obtain ⟨w, volume, hc, hd, hmin, hmax⟩ := create_volume_some alloc n_dimensions h1 h5
    dimension_names nc_data_type signed_flag voxel_min voxel_max
  have hv := set_volume_type_valid w nc_data_type hnc signed_flag voxel_min voxel_max
  have hvol : range_valid volume := by
    unfold range_valid at hv ⊢
    rw [hd, hmin, hmax]
    exact hv
  have hfinal := apply_calls_keeps_valid calls volume hvol
  refine ⟨volume, hc, hfinal, ?_, ?_, ?_⟩
  · intro real_min real_max ht
    exact real_range_scale _ hfinal.2 ht real_min real_max
  · intro a b hset
    exact ⟨set_volume_voxel_range_set _ a b hset, voxel_range_entry_valid _ hfinal.1 a b⟩
  · intro nc sf a b hnc'
    refine ⟨set_volume_type_entry _ nc hnc' sf a b, fun hset => ?_, ?_⟩
    · exact set_volume_voxel_range_set _ a b hset
    · exact voxel_range_entry_valid _ (storage_type_concrete nc hnc' sf) a b

theorem scale_zero_branch_unreachable_witness :
    (1 : Int) ≤ 3 ∧ (3 : Int) ≤ MAX_DIMENSIONS ∧
    nc_type.NC_SHORT ≠ nc_type.MI_ORIGINAL_TYPE ∧
    ∃ volume : volume_struct ℝ,
      create_volume zeroed_record 3 none nc_type.NC_SHORT true 5 5 = some volume ∧
      (apply_calls
          [Range_call.real_range 7 7, Range_call.type nc_type.NC_BYTE false 2 1,
           Range_call.voxel_range 0 0] volume).voxel_min <
        (apply_calls
          [Range_call.real_range 7 7, Range_call.type nc_type.NC_BYTE false 2 1,
           Range_call.voxel_range 0 0] volume).voxel_max := by
  obtain ⟨volume, hc, hv, -⟩ := scale_zero_branch_unreachable zeroed_record 3 (by decide)
    (by decide) none nc_type.NC_SHORT (by decide) true 5 5
    [Range_call.real_range 7 7, Range_call.type nc_type.NC_BYTE false 2 1,
     Range_call.voxel_range 0 0]
  exact ⟨by decide, by decide, by decide, volume, hc, hv.2⟩

theorem scale_zero_equal_limits :
    ∃ volume : volume_struct ℝ,
      create_volume zeroed_record 3 none nc_type.NC_BYTE false 0 255 = some volume ∧
      volume.data_type = Data_types.UNSIGNED_BYTE ∧
      volume.voxel_min < volume.voxel_max ∧
      (apply_calls [Range_call.real_range 7 7] volume).real_value_scale = 0 := by
  obtain ⟨volume, hc, -, -, ht, -⟩ := create_volume_initial (zeroed_record : volume_struct ℝ) 3
    (by decide) (by decide) none nc_type.NC_BYTE false 0 255
  obtain ⟨hty, -, hmin, hmax⟩ := ht (by decide)
  have hty' : volume.data_type = Data_types.UNSIGNED_BYTE := hty
  have hk : kept_range (storage_type nc_type.NC_BYTE false) (0 : ℝ) 255 = (0, 255) :=
    kept_range_proper _ 0 255 (by norm_num)
  rw [hk] at hmin hmax
  have hlt : volume.voxel_min < volume.voxel_max := by
    rw [hmin, hmax]
    norm_num
  refine ⟨volume, hc, hty', hlt, ?_⟩
  have hnf : ¬ is_floating_type volume.data_type := by
    rw [hty']
    simp [is_floating_type]
  exact ((real_range_scale volume hlt hnf 7 7).2).mpr rfl

/-! ## The accesses of the lookups along one dimension -/

theorem voxel_to_world_reads_inside {K : Type} (volume : volume_struct K) (idim voxel : Int)
    (s w : Int → K)
    (hs : volume.irregular_starts idim = Real_table.table (volume.sizes idim) s)
    (hw : volume.irregular_widths idim = Real_table.table (volume.sizes idim) w)
    (hsize : 1 ≤ volume.sizes idim) :
    ∀ r ∈ nonspatial_voxel_to_world_reads volume idim voxel, read_in_table volume idim r := by
  intro r hr
  unfold nonspatial_voxel_to_world_reads at hr
  split_ifs at hr with h1 h2 h3
  · simp at hr
  · simp only [List.mem_cons, List.mem_singleton, List.not_mem_nil, or_false] at hr
    rcases hr with e | e <;> subst e
    · exact ⟨_, s, hs, by omega, by omega⟩
    · exact ⟨_, w, hw, by omega, by omega⟩
  · simp only [List.mem_singleton] at hr
    subst hr
    exact ⟨_, s, hs, by omega, by omega⟩
  · simp at hr

theorem world_to_voxel_reads_inside {K : Type} [LinearOrderedField K]
    (volume : volume_struct K) (idim : Int) (world : K) (s w : Int → K)
    (hs : volume.irregular_starts idim = Real_table.table (volume.sizes idim) s)
    (hw : volume.irregular_widths idim = Real_table.table (volume.sizes idim) w) :
    ∀ r ∈ nonspatial_world_to_voxel_reads volume idim world, read_in_table volume idim r := by
  intro r hr
  unfold nonspatial_world_to_voxel_reads at hr
  split_ifs at hr with h1
  · simp only [List.mem_flatMap, List.mem_range, List.mem_cons, List.mem_singleton,
      List.not_mem_nil, or_false] at hr
    obtain ⟨k, hk, hr⟩ := hr
    have hlt : (k : Int) < volume.sizes idim := by
      split_ifs at hk with h2
      · omega
      · omega
    rcases hr with e | e <;> subst e
    · exact ⟨_, s, hs, by simp, by simpa using hlt⟩
    · exact ⟨_, w, hw, by simp, by simpa using hlt⟩
  · simp at hr

/-- Claim C40 fails in the code.  When a dimension has both tables, each
with as many entries as the dimension has samples, `nonspatial_world_to_voxel`
reads inside them, and so does `nonspatial_voxel_to_world` when the dimension
has at least one sample.  But the functions decide from the table of starts
alone that a dimension is irregular and then read the table of widths: in
`half_tabled_volume`, whose dimension 2 has three samples and a table of
three starts and no table of widths, `nonspatial_voxel_to_world` for the
index 5 reads `irregular_widths[2][2]` and `nonspatial_world_to_voxel` reads
`irregular_widths[2][0]`, through the null pointer.  In `empty_axis_volume`,
whose dimension 2 has no samples and tables of no entries,
`nonspatial_voxel_to_world` for the index 0 reads entry -1 of both tables. -/
theorem lookups_leave_tables :
    (∀ (volume : volume_struct ℝ) (idim : Int) (s w : Int → ℝ),
      volume.irregular_starts idim = Real_table.table (volume.sizes idim) s →
      volume.irregular_widths idim = Real_table.table (volume.sizes idim) w →
      (∀ (world : ℝ), ∀ r ∈ nonspatial_world_to_voxel_reads volume idim world,
        read_in_table volume idim r) ∧
      (1 ≤ volume.sizes idim →
        ∀ (voxel : Int), ∀ r ∈ nonspatial_voxel_to_world_reads volume idim voxel,
          read_in_table volume idim r)) ∧
    ((half_tabled_volume : volume_struct ℝ).irregular_starts 2
        = Real_table.table ((half_tabled_volume : volume_struct ℝ).sizes 2) table_starts ∧
      (half_tabled_volume : volume_struct ℝ).irregular_widths 2 = Real_table.NULL ∧
      nonspatial_voxel_to_world_reads (half_tabled_volume : volume_struct ℝ) 2 5
        = [Table_read.starts 2, Table_read.widths 2] ∧
      ¬ read_in_table (half_tabled_volume : volume_struct ℝ) 2 (Table_read.widths 2) ∧
      nonspatial_world_to_voxel_reads (half_tabled_volume : volume_struct ℝ) 2 (-1)
        = [Table_read.starts 0, Table_read.widths 0] ∧
      ¬ read_in_table (half_tabled_volume : volume_struct ℝ) 2 (Table_read.widths 0)) ∧
    ((empty_axis_volume : volume_struct ℝ).sizes 2 = 0 ∧
      (empty_axis_volume : volume_struct ℝ).irregular_starts 2
        = Real_table.table 0 (fun _ => 0) ∧
      (empty_axis_volume : volume_struct ℝ).irregular_widths 2
        = Real_table.table 0 (fun _ => 0) ∧
      nonspatial_voxel_to_world_reads (empty_axis_volume : volume_struct ℝ) 2 0
        = [Table_read.starts (-1), Table_read.widths (-1)] ∧
      ¬ read_in_table (empty_axis_volume : volume_struct ℝ) 2 (Table_read.starts (-1)) ∧
      ¬ read_in_table (empty_axis_volume : volume_struct ℝ) 2 (Table_read.widths (-1))) := by
  have hirr : is_volume_dimension_irregular (half_tabled_volume : volume_struct ℝ) 2 = true :=
    is_volume_dimension_irregular_table _ 2 (by decide) 3 table_starts rfl
  have hirr0 : is_volume_dimension_irregular (empty_axis_volume : volume_struct ℝ) 2 = true :=
    is_volume_dimension_irregular_table _ 2 (by decide) 0 (fun _ => 0) rfl
  have hs : (half_tabled_volume : volume_struct ℝ).irregular_starts 2
      = Real_table.table 3 table_starts := rfl
  have hw : (half_tabled_volume : volume_struct ℝ).irregular_widths 2 = Real_table.NULL := rfl
  have hz : (half_tabled_volume : volume_struct ℝ).sizes 2 = 3 := rfl
  have hs0 : (empty_axis_volume : volume_struct ℝ).irregular_starts 2
      = Real_table.table 0 (fun _ => 0) := rfl
  have hw0 : (empty_axis_volume : volume_struct ℝ).irregular_widths 2
      = Real_table.table 0 (fun _ => 0) := rfl
  have hz0 : (empty_axis_volume : volume_struct ℝ).sizes 2 = 0 := rfl
  refine ⟨fun volume idim s w hs hw =>
      ⟨fun world => world_to_voxel_reads_inside volume idim world s w hs hw,
       fun hsize voxel => voxel_to_world_reads_inside volume idim voxel s w hs hw hsize⟩,
    ⟨rfl, rfl, ?_, ?_, ?_, ?_⟩, ⟨rfl, rfl, rfl, ?_, ?_, ?_⟩⟩
  · unfold nonspatial_voxel_to_world_reads
    simp only [hirr, if_true, hz]
    norm_num
  · rintro ⟨count, entries, h, -⟩
    rw [hw] at h
    exact Real_table.noConfusion h
  · unfold nonspatial_world_to_voxel_reads
    simp only [hirr, if_true, hz, hs, hw, Real_table.read, for_less_break_three]
    norm_num [table_starts]
    decide
  · rintro ⟨count, entries, h, -⟩
    rw [hw] at h
    exact Real_table.noConfusion h
  · unfold nonspatial_voxel_to_world_reads
    simp only [hirr0, if_true, hz0]
    norm_num
  · rintro ⟨count, entries, -, h0, -⟩
    norm_num at h0
  · rintro ⟨count, entries, -, h0, -⟩
    norm_num at h0

/-! ## The completion of the basis from one axis -/

theorem mapped_independent_one {K : Type} [LinearOrderedField K] (sa : Int → Int)
    (dc : Int → Int → K) (a : Int) (ha0 : 0 ≤ a) (ha3 : a < 3) (ma : 0 ≤ sa a)
    (ho : ∀ c, 0 ≤ c → c < 3 → c ≠ a → ¬ 0 ≤ sa c)
    (hd : ¬ (dc (sa a) 0 = 0 ∧ dc (sa a) 1 = 0 ∧ dc (sa a) 2 = 0)) :
    mapped_independent sa dc := by
  intro coeff h c hc0 hc3 hc
  have hca : c = a := by
    by_contra hne
    exact ho c hc0 hc3 hne hc
  subst hca
  have key : ∀ k, 0 ≤ k → k < 3 → coeff c * dc (sa c) k = 0 := by
    intro k hk0 hk3
    have := h k hk0 hk3
    unfold mapped_combination mapped_term at this
    rcases int_lt_three hc0 hc3 with e | e | e <;> subst e
    · have m1 := ho 1 (by norm_num) (by norm_num) (by norm_num)
      have m2 := ho 2 (by norm_num) (by norm_num) (by norm_num)
      simpa [ma, m1, m2] using this
    · have m0 := ho 0 (by norm_num) (by norm_num) (by norm_num)
      have m2 := ho 2 (by norm_num) (by norm_num) (by norm_num)
      simpa [ma, m0, m2] using this
    · have m0 := ho 0 (by norm_num) (by norm_num) (by norm_num)
      have m1 := ho 1 (by norm_num) (by norm_num) (by norm_num)
      simpa [ma, m0, m1] using this
  by_contra hne
  apply hd
  refine ⟨?_, ?_, ?_⟩
  · exact (mul_eq_zero.mp (key 0 (by norm_num) (by norm_num))).resolve_left hne
  · exact (mul_eq_zero.mp (key 1 (by norm_num) (by norm_num))).resolve_left hne
  · exact (mul_eq_zero.mp (key 2 (by norm_num) (by norm_num))).resolve_left hne

theorem vector_norm_sq (u : Int → ℝ) (hu : ¬ (u 0 = 0 ∧ u 1 = 0 ∧ u 2 = 0)) :
    vector_norm Real.sqrt u * vector_norm Real.sqrt u = u 0 * u 0 + u 1 * u 1 + u 2 * u 2 := by
  have hq : 0 ≤ u 0 * u 0 + u 1 * u 1 + u 2 * u 2 := by
    nlinarith [mul_self_nonneg (u 0), mul_self_nonneg (u 1), mul_self_nonneg (u 2)]
  have hpos : ¬ u 0 * u 0 + u 1 * u 1 + u 2 * u 2 ≤ 0 := by
    intro hle
    exact hu (sum_three_squares_eq_zero (le_antisymm hle hq))
  unfold vector_norm
  simp only [hpos, if_false]
  exact Real.mul_self_sqrt hq

theorem normalized_unit (u : Int → ℝ) (hu : ¬ (u 0 = 0 ∧ u 1 = 0 ∧ u 2 = 0)) :
    is_unit_vector (fun k => u k / vector_norm Real.sqrt u) := by
  have hsq := vector_norm_sq u hu
  have hpos := vector_norm_pos u
  have hne : vector_norm Real.sqrt u ≠ 0 := ne_of_gt hpos
  unfold is_unit_vector
  simp only []
  rw [div_mul_div_comm, div_mul_div_comm, div_mul_div_comm, ← add_div, ← add_div,
    div_eq_one_iff_eq (mul_ne_zero hne hne)]
  exact hsq.symm

theorem cross_of_unit_ne_zero (d : Int → ℝ) (hd : is_unit_vector d)
    (hf : ¬ (orthogonal_vector d 0 = 0 ∧ orthogonal_vector d 1 = 0 ∧
      orthogonal_vector d 2 = 0)) :
    ¬ (cross_product d (orthogonal_vector d) 0 = 0 ∧
      cross_product d (orthogonal_vector d) 1 = 0 ∧
      cross_product d (orthogonal_vector d) 2 = 0) := by
  rintro ⟨z0, z1, z2⟩
  apply hf
  apply sum_three_squares_eq_zero
  unfold is_unit_vector at hd
  have lagrange :
      cross_product d (orthogonal_vector d) 0 * cross_product d (orthogonal_vector d) 0
      + cross_product d (orthogonal_vector d) 1 * cross_product d (orthogonal_vector d) 1
      + cross_product d (orthogonal_vector d) 2 * cross_product d (orthogonal_vector d) 2
      = (d 0 * d 0 + d 1 * d 1 + d 2 * d 2)
        * (orthogonal_vector d 0 * orthogonal_vector d 0
          + orthogonal_vector d 1 * orthogonal_vector d 1
          + orthogonal_vector d 2 * orthogonal_vector d 2) := by
    simp only [cross_product, orthogonal_vector]
    norm_num
    ring
  rw [z0, z1, z2, hd] at lagrange
  linarith

theorem one_axis_basis (sa : Int → Int) (sep st : Int → ℝ) (dc : Int → Int → ℝ)
    (a : Int) (ha0 : 0 ≤ a) (ha3 : a < 3) (ma : 0 ≤ sa a)
    (ho : ∀ c, 0 ≤ c → c < 3 → c ≠ a → ¬ 0 ≤ sa c)
    (hunit : is_unit_vector (dc (sa a)))
    (hf : ¬ (orthogonal_vector (dc (sa a)) 0 = 0 ∧ orthogonal_vector (dc (sa a)) 1 = 0 ∧
      orthogonal_vector (dc (sa a)) 2 = 0)) :
    (∀ k, 0 ≤ k → k < 3 →
      completed_basis Real.sqrt sa sep dc st a k = dc (sa a) k ∧
      completed_basis Real.sqrt sa sep dc st ((a + 1) % 3) k
        = orthogonal_vector (dc (sa a)) k
          / vector_norm Real.sqrt (orthogonal_vector (dc (sa a))) ∧
      completed_basis Real.sqrt sa sep dc st ((a + 2) % 3) k
        = cross_product (dc (sa a)) (orthogonal_vector (dc (sa a))) k
          / vector_norm Real.sqrt (cross_product (dc (sa a)) (orthogonal_vector (dc (sa a))))) ∧
    is_unit_vector (completed_basis Real.sqrt sa sep dc st a) ∧
    is_unit_vector (completed_basis Real.sqrt sa sep dc st ((a + 1) % 3)) ∧
    is_unit_vector (completed_basis Real.sqrt sa sep dc st ((a + 2) % 3)) ∧
    dot_vectors 3 (completed_basis Real.sqrt sa sep dc st a)
      (completed_basis Real.sqrt sa sep dc st ((a + 1) % 3)) = 0 ∧
    dot_vectors 3 (completed_basis Real.sqrt sa sep dc st a)
      (completed_basis Real.sqrt sa sep dc st ((a + 2) % 3)) = 0 ∧
    dot_vectors 3 (completed_basis Real.sqrt sa sep dc st ((a + 1) % 3))
      (completed_basis Real.sqrt sa sep dc st ((a + 2) % 3)) = 0 ∧
    ∃ g, compute_world_transform Real.sqrt sa sep dc st = some g ∧
      ∀ k, 0 ≤ k → k < 3 →
        Transform_elem g.linear_transform k a = dc (sa a) k * sep (sa a) := by
  have hb := fun k hk0 hk3 =>
    completed_basis_one Real.sqrt sa sep st dc a ha0 ha3 ma ho k hk0 hk3
  have hg := cross_of_unit_ne_zero (dc (sa a)) hunit hf
  have uf := normalized_unit (orthogonal_vector (dc (sa a))) hf
  have ug := normalized_unit (cross_product (dc (sa a)) (orthogonal_vector (dc (sa a)))) hg
  have hnf := ne_of_gt (vector_norm_pos (orthogonal_vector (dc (sa a))))
  have hng := ne_of_gt
    (vector_norm_pos (cross_product (dc (sa a)) (orthogonal_vector (dc (sa a)))))
  have hd : ¬ (dc (sa a) 0 = 0 ∧ dc (sa a) 1 = 0 ∧ dc (sa a) 2 = 0) := by
    rintro ⟨z0, z1, z2⟩
    unfold is_unit_vector at hunit
    rw [z0, z1, z2] at hunit
    norm_num at hunit
  have hm : ∃ c, 0 ≤ c ∧ c < 3 ∧ 0 ≤ sa c := ⟨a, ha0, ha3, ma⟩
  have hind := mapped_independent_one sa dc a ha0 ha3 ma ho hd
  have hdet := completed_basis_det_of sa sep st dc hm hind (fun a' ha0' ha3' ma' _ => by
    have e : a' = a := by
      by_contra hne
      exact ho a' ha0' ha3' hne ma'
    rw [e]
    exact hf)
  have hreg := regular_of_det_ne_zero _ hdet
  obtain ⟨g, hgc, -, hcol, -⟩ := cwt_regular_entries Real.sqrt sa sep st dc hm hreg
  refine ⟨hb, ?_, ?_, ?_, ?_, ?_, ?_, g, hgc, fun k hk0 hk3 => hcol a k ha0 ha3 ma hk0 hk3⟩
  · unfold is_unit_vector at hunit ⊢
    rw [(hb 0 (by norm_num) (by norm_num)).1, (hb 1 (by norm_num) (by norm_num)).1,
      (hb 2 (by norm_num) (by norm_num)).1]
    exact hunit
  · unfold is_unit_vector at uf ⊢
    rw [(hb 0 (by norm_num) (by norm_num)).2.1, (hb 1 (by norm_num) (by norm_num)).2.1,
      (hb 2 (by norm_num) (by norm_num)).2.1]
    exact uf
  · unfold is_unit_vector at ug ⊢
    rw [(hb 0 (by norm_num) (by norm_num)).2.2, (hb 1 (by norm_num) (by norm_num)).2.2,
      (hb 2 (by norm_num) (by norm_num)).2.2]
    exact ug
  · rw [dot_vectors_three, (hb 0 (by norm_num) (by norm_num)).1,
      (hb 1 (by norm_num) (by norm_num)).1, (hb 2 (by norm_num) (by norm_num)).1,
      (hb 0 (by norm_num) (by norm_num)).2.1, (hb 1 (by norm_num) (by norm_num)).2.1,
      (hb 2 (by norm_num) (by norm_num)).2.1]
    simp only [orthogonal_vector]
    norm_num
    field_simp
    ring
  · rw [dot_vectors_three, (hb 0 (by norm_num) (by norm_num)).1,
      (hb 1 (by norm_num) (by norm_num)).1, (hb 2 (by norm_num) (by norm_num)).1,
      (hb 0 (by norm_num) (by norm_num)).2.2, (hb 1 (by norm_num) (by norm_num)).2.2,
      (hb 2 (by norm_num) (by norm_num)).2.2]
    generalize vector_norm Real.sqrt
      (cross_product (dc (sa a)) (orthogonal_vector (dc (sa a)))) = n at hng
    simp only [cross_product, orthogonal_vector]
    norm_num
    field_simp
    ring
  · rw [dot_vectors_three, (hb 0 (by norm_num) (by norm_num)).2.1,
      (hb 1 (by norm_num) (by norm_num)).2.1, (hb 2 (by norm_num) (by norm_num)).2.1,
      (hb 0 (by norm_num) (by norm_num)).2.2, (hb 1 (by norm_num) (by norm_num)).2.2,
      (hb 2 (by norm_num) (by norm_num)).2.2]
    generalize vector_norm Real.sqrt
      (cross_product (dc (sa a)) (orthogonal_vector (dc (sa a)))) = n at hng
    generalize vector_norm Real.sqrt (orthogonal_vector (dc (sa a))) = m at hnf
    simp only [cross_product, orthogonal_vector]
    norm_num
    field_simp
    ring

theorem diagonal_basis_zero_row (k : Int) (hk0 : 0 ≤ k) (hk3 : k < 3) :
    completed_basis Real.sqrt axes_x sample_separations (diagonal_cosines Real.sqrt)
      sample_starts 1 k = 0 := by
  have hb := (completed_basis_one Real.sqrt axes_x sample_separations
    sample_starts (diagonal_cosines Real.sqrt) 0 (by norm_num) (by norm_num) (by decide)
    (by
      intro c hc0 hc3 hne
      rcases int_lt_three hc0 hc3 with e | e | e <;> subst e
      · exact absurd rfl hne
      · decide
      · decide) k hk0 hk3).2.1
  have e : ((0 : Int) + 1) % 3 = 1 := by decide
  rw [e] at hb
  rw [hb]
  rcases int_lt_three hk0 hk3 with e | e | e <;> subst e <;>
    simp [orthogonal_vector, diagonal_cosines, axes_x]

/-- Claim C31 fails in the code.  When exactly one canonical axis is mapped,
with a unit direction cosine `d` for which `(y+z, -x-z, y-x)` is not the
zero vector, `compute_world_transform` completes the basis with that vector
and with the cross product of `d` with it, both normalised; the three
directions are mutually orthogonal unit vectors and the column of the mapped
axis is `d` times its separation.  But for the unit vector
`d = (1, 1, -1) / sqrt 3` the vector `(y+z, -x-z, y-x)` is the zero vector:
the second direction of the completed basis is the zero vector, the
singularity check replaces the basis by the identity basis, and the column
of the mapped axis X is `(separation, 0, 0)`: its Y entry is 0, not
`separation / sqrt 3`. -/
theorem one_axis_completion :
    (∀ (sa : Int → Int) (sep st : Int → ℝ) (dc : Int → Int → ℝ) (a : Int),
      0 ≤ a → a < 3 → 0 ≤ sa a → (∀ c, 0 ≤ c → c < 3 → c ≠ a → ¬ 0 ≤ sa c) →
      is_unit_vector (dc (sa a)) →
      ¬ (orthogonal_vector (dc (sa a)) 0 = 0 ∧ orthogonal_vector (dc (sa a)) 1 = 0 ∧
        orthogonal_vector (dc (sa a)) 2 = 0) →
      (∀ k, 0 ≤ k → k < 3 →
        completed_basis Real.sqrt sa sep dc st a k = dc (sa a) k ∧
        completed_basis Real.sqrt sa sep dc st ((a + 1) % 3) k
          = orthogonal_vector (dc (sa a)) k
            / vector_norm Real.sqrt (orthogonal_vector (dc (sa a))) ∧
        completed_basis Real.sqrt sa sep dc st ((a + 2) % 3) k
          = cross_product (dc (sa a)) (orthogonal_vector (dc (sa a))) k
            / vector_norm Real.sqrt
                (cross_product (dc (sa a)) (orthogonal_vector (dc (sa a))))) ∧
      is_unit_vector (completed_basis Real.sqrt sa sep dc st a) ∧
      is_unit_vector (completed_basis Real.sqrt sa sep dc st ((a + 1) % 3)) ∧
      is_unit_vector (completed_basis Real.sqrt sa sep dc st ((a + 2) % 3)) ∧
      dot_vectors 3 (completed_basis Real.sqrt sa sep dc st a)
        (completed_basis Real.sqrt sa sep dc st ((a + 1) % 3)) = 0 ∧
      dot_vectors 3 (completed_basis Real.sqrt sa sep dc st a)
        (completed_basis Real.sqrt sa sep dc st ((a + 2) % 3)) = 0 ∧
      dot_vectors 3 (completed_basis Real.sqrt sa sep dc st ((a + 1) % 3))
        (completed_basis Real.sqrt sa sep dc st ((a + 2) % 3)) = 0 ∧
      ∃ g, compute_world_transform Real.sqrt sa sep dc st = some g ∧
        ∀ k, 0 ≤ k → k < 3 →
          Transform_elem g.linear_transform k a = dc (sa a) k * sep (sa a)) ∧
    (0 ≤ axes_x 0 ∧ ¬ 0 ≤ axes_x 1 ∧ ¬ 0 ≤ axes_x 2 ∧
      is_unit_vector (diagonal_cosines Real.sqrt (axes_x 0)) ∧
      (∀ k, 0 ≤ k → k < 3 → orthogonal_vector (diagonal_cosines Real.sqrt (axes_x 0)) k = 0) ∧
      (∀ k, 0 ≤ k → k < 3 →
        completed_basis Real.sqrt axes_x sample_separations (diagonal_cosines Real.sqrt)
          sample_starts 1 k = 0) ∧
      ∃ g, compute_world_transform Real.sqrt axes_x sample_separations
            (diagonal_cosines Real.sqrt) sample_starts = some g ∧
        Transform_elem g.linear_transform 0 0 = 2 ∧
        Transform_elem g.linear_transform 1 0 = 0 ∧
        Transform_elem g.linear_transform 2 0 = 0 ∧
        diagonal_cosines Real.sqrt (axes_x 0) 1 * sample_separations (axes_x 0) ≠ 0) := by
  refine ⟨fun sa sep st dc a ha0 ha3 ma ho hunit hf =>
    one_axis_basis sa sep st dc a ha0 ha3 ma ho hunit hf, by decide, by decide, by decide,
    diagonal_cosines_unit, ?_, diagonal_basis_zero_row, ?_⟩
  · intro k hk0 hk3
    rcases int_lt_three hk0 hk3 with e | e | e <;> subst e <;>
      simp [orthogonal_vector, diagonal_cosines, axes_x]
  · have hm : ∃ c, 0 ≤ c ∧ c < 3 ∧ 0 ≤ axes_x c := ⟨0, by norm_num, by norm_num, by decide⟩
    refine ⟨_, compute_world_transform_some Real.sqrt axes_x sample_separations sample_starts
      (diagonal_cosines Real.sqrt) hm, ?_, ?_, ?_, ?_⟩
    · simp only [create_linear_transform, Transform_elem]
      rw [cwt_make_linear _ _ _ 0 0 (by norm_num) (by norm_num) (by norm_num) (by norm_num),
        cwt_check_singular _ diagonal_completed_degenerate 0 0 (by norm_num) (by norm_num)
          (by norm_num) (by norm_num),
        cwt_collect_separations axes_x sample_separations sample_starts _ 0 (by norm_num)
          (by norm_num)]
      norm_num [axes_x, sample_separations]
    · simp only [create_linear_transform, Transform_elem]
      rw [cwt_make_linear _ _ _ 1 0 (by norm_num) (by norm_num) (by norm_num) (by norm_num),
        cwt_check_singular _ diagonal_completed_degenerate 0 1 (by norm_num) (by norm_num)
          (by norm_num) (by norm_num)]
      norm_num
    · simp only [create_linear_transform, Transform_elem]
      rw [cwt_make_linear _ _ _ 2 0 (by norm_num) (by norm_num) (by norm_num) (by norm_num),
        cwt_check_singular _ diagonal_completed_degenerate 0 2 (by norm_num) (by norm_num)
          (by norm_num) (by norm_num)]
      norm_num
    · have hpos : 0 < Real.sqrt 3 := Real.sqrt_pos.mpr (by norm_num)
      have hne : Real.sqrt 3 ≠ 0 := ne_of_gt hpos
      simp [diagonal_cosines, axes_x, sample_separations, hne]

/-! ## Normal vectors and ordinary vectors -/

theorem check_recompute_uptodate {K : Type} [LinearOrderedField K] (sqrt : K → K)
    (w : General_transform K) (v : volume_struct K) :
    (check_recompute_world_transform sqrt w v).voxel_to_world_transform_uptodate = true := by
  unfold check_recompute_world_transform assign_voxel_to_world_transform
  by_cases h : v.voxel_to_world_transform_uptodate <;> simp [h]

theorem reorder_congr_axes {K : Type} [LinearOrderedField K] (v v' : volume_struct K)
    (h : v'.spatial_axes = v.spatial_axes) (voxel xyz : Int → K) :
    reorder_voxel_to_xyz v' voxel xyz = reorder_voxel_to_xyz v voxel xyz := by
  unfold reorder_voxel_to_xyz
  rw [h]

theorem reorder_zero_voxel {K : Type} [LinearOrderedField K] (v : volume_struct K)
    (c : Int) (hc0 : 0 ≤ c) (hc3 : c < 3) :
    reorder_voxel_to_xyz v
      (for_less 0 MAX_DIMENSIONS (fun i o => store o i (0 : K)) (fun _ => 0)) (fun _ => 0) c
      = 0 := by
  rw [reorder_voxel_to_xyz_apply v _ _ c hc0 hc3, for_less_store MAX_DIMENSIONS (fun _ => 0)]
  simp

theorem inverse_transpose_pairing {K : Type} [LinearOrderedField K] (t : Transform K)
    (hd : det3 t ≠ 0) (n0 n1 n2 v0 v1 v2 : K) :
    (compute_transform_inverse t 0 0 * n0 + compute_transform_inverse t 1 0 * n1
        + compute_transform_inverse t 2 0 * n2)
      * (t 0 0 * v0 + t 0 1 * v1 + t 0 2 * v2)
    + (compute_transform_inverse t 0 1 * n0 + compute_transform_inverse t 1 1 * n1
        + compute_transform_inverse t 2 1 * n2)
      * (t 1 0 * v0 + t 1 1 * v1 + t 1 2 * v2)
    + (compute_transform_inverse t 0 2 * n0 + compute_transform_inverse t 1 2 * n1
        + compute_transform_inverse t 2 2 * n2)
      * (t 2 0 * v0 + t 2 1 * v1 + t 2 2 * v2)
    = n0 * v0 + n1 * v1 + n2 * v2 := by
  have h : det3 t * (det3 t)⁻¹ = 1 := mul_inv_cancel₀ hd
  unfold compute_transform_inverse
  simp only [div_eq_mul_inv]
  norm_num
  generalize (det3 t)⁻¹ = i at h ⊢
  unfold det3 at h
  linear_combination (n0 * v0 + n1 * v1 + n2 * v2) * h

/-- Claim C37, amended.  In exact real arithmetic: for every volume whose
voxel-to-world transform, after the lazy recompute, is the linear transform
`t` with a non-singular linear part, held with its inverse, and for all voxel
vectors `n` and `v`: `convert_voxel_normal_vector_to_world` returns a vector
for `n`, and its dot product with the vector `convert_voxel_vector_to_world`
returns for `v` is the dot product of `n` and `v` reordered to canonical
order. -/
theorem normal_vector_pairing (volume : volume_struct ℝ) (w : General_transform ℝ)
    (t : Transform ℝ) (hdet : det3 t ≠ 0)
    (ht : (check_recompute_world_transform Real.sqrt w volume).voxel_to_world_transform
      = create_linear_transform t)
    (n v : Int → ℝ) :
    ∃ world_normal : ℝ × ℝ × ℝ,
      (convert_voxel_normal_vector_to_world Real.sqrt w volume n).2 = some world_normal ∧
      dot3 world_normal (convert_voxel_vector_to_world Real.sqrt w volume v).2
        = dot3 (canonical_triple volume n) (canonical_triple volume v) := by
  have hax := (check_recompute_axes Real.sqrt w volume).1
  have hup := check_recompute_uptodate Real.sqrt w volume
  have hfresh := check_recompute_fresh Real.sqrt w
    (check_recompute_world_transform Real.sqrt w volume) hup
  have hlin : get_transform_type
      (check_recompute_world_transform Real.sqrt w volume).voxel_to_world_transform
      = Transform_types.LINEAR := by
    rw [ht]
    rfl
  have hz := fun c hc0 hc3 =>
    reorder_zero_voxel (check_recompute_world_transform Real.sqrt w volume) c hc0 hc3
  unfold convert_voxel_normal_vector_to_world convert_voxel_vector_to_world
    convert_voxel_to_world
  simp only [hlin, ne_eq, not_true_eq_false, if_false, hfresh]
  refine ⟨_, rfl, ?_⟩
  simp only [ht, get_inverse_linear_transform_ptr, general_transform_point,
    create_linear_transform, transform_point, Transform_elem, dot3, canonical_triple, X, Y, Z,
    hz 0 (by norm_num) (by norm_num), hz 1 (by norm_num) (by norm_num),
    hz 2 (by norm_num) (by norm_num),
    reorder_congr_axes volume (check_recompute_world_transform Real.sqrt w volume) hax]
  rw [← inverse_transpose_pairing t hdet
    (reorder_voxel_to_xyz volume n (fun _ => 0) 0) (reorder_voxel_to_xyz volume n (fun _ => 0) 1)
    (reorder_voxel_to_xyz volume n (fun _ => 0) 2) (reorder_voxel_to_xyz volume v (fun _ => 0) 0)
    (reorder_voxel_to_xyz volume v (fun _ => 0) 1)
    (reorder_voxel_to_xyz volume v (fun _ => 0) 2)]
  ring

theorem skew_volume_transform (w : General_transform ℝ) :
    ∃ t : Transform ℝ, det3 t ≠ 0 ∧
      (check_recompute_world_transform Real.sqrt w
        (skew_volume : volume_struct ℝ)).voxel_to_world_transform
        = create_linear_transform t := by
  have hm : ∃ c, 0 ≤ c ∧ c < 3 ∧ 0 ≤ (skew_volume : volume_struct ℝ).spatial_axes c :=
    ⟨0, by norm_num, by norm_num, by decide⟩
  have hsome := compute_world_transform_some Real.sqrt
    (skew_volume : volume_struct ℝ).spatial_axes (skew_volume : volume_struct ℝ).separations
    (skew_volume : volume_struct ℝ).starts (skew_volume : volume_struct ℝ).direction_cosines hm
  obtain ⟨g, hg, -, -, hdet⟩ := cwt_invertible
    (skew_volume : volume_struct ℝ).spatial_axes (skew_volume : volume_struct ℝ).separations
    (skew_volume : volume_struct ℝ).starts (skew_volume : volume_struct ℝ).direction_cosines hm
    skew_volume_independent (by
      intro c hc0 hc3 _
      rcases int_lt_three hc0 hc3 with e | e | e <;> subst e <;>
        norm_num [skew_volume, sample_separations, axes_zyx])
  have e := Option.some.inj (hg.symm.trans hsome)
  rw [e] at hdet
  refine ⟨_, hdet, ?_⟩
  rw [check_recompute_stale Real.sqrt w (skew_volume : volume_struct ℝ) _ rfl hsome]
  rfl

theorem normal_vector_pairing_witness :
    ∃ world_normal : ℝ × ℝ × ℝ,
      (convert_voxel_normal_vector_to_world Real.sqrt
        (create_linear_transform make_identity_transform)
        (skew_volume : volume_struct ℝ) sample_starts).2 = some world_normal ∧
      dot3 world_normal
        (convert_voxel_vector_to_world Real.sqrt
          (create_linear_transform make_identity_transform)
          (skew_volume : volume_struct ℝ) sample_separations).2 = 112 := by
  obtain ⟨t, hdet, ht⟩ := skew_volume_transform (create_linear_transform make_identity_transform)
  obtain ⟨world_normal, hn, hdot⟩ := normal_vector_pairing (skew_volume : volume_struct ℝ)
    (create_linear_transform make_identity_transform) t hdet ht sample_starts
    sample_separations
  refine ⟨world_normal, hn, ?_⟩
  rw [hdot]
  simp only [dot3, canonical_triple, X, Y, Z,
    reorder_voxel_to_xyz_apply (skew_volume : volume_struct ℝ) _ _ 0 (by norm_num)
      (by norm_num),
    reorder_voxel_to_xyz_apply (skew_volume : volume_struct ℝ) _ _ 1 (by norm_num)
      (by norm_num),
    reorder_voxel_to_xyz_apply (skew_volume : volume_struct ℝ) _ _ 2 (by norm_num)
      (by norm_num)]
  norm_num [skew_volume, axes_zyx, sample_starts, sample_separations]

/-! ## Synthesis after decomposition -/

theorem columns_independent_of_det {K : Type} [LinearOrderedField K] (t : Transform K)
    (hd : det3 t ≠ 0) (a b c : K)
    (h : ∀ k, 0 ≤ k → k < 3 → a * t k 0 + b * t k 1 + c * t k 2 = 0) :
    a = 0 ∧ b = 0 ∧ c = 0 := by
  have h0 := h 0 (by norm_num) (by norm_num)
  have h1 := h 1 (by norm_num) (by norm_num)
  have h2 := h 2 (by norm_num) (by norm_num)
  have ha : a * det3 t = 0 := by
    unfold det3
    linear_combination (t 1 1 * t 2 2 - t 1 2 * t 2 1) * h0
      - (t 0 1 * t 2 2 - t 0 2 * t 2 1) * h1 + (t 0 1 * t 1 2 - t 0 2 * t 1 1) * h2
  have hb : b * det3 t = 0 := by
    unfold det3
    linear_combination (-(t 1 0 * t 2 2 - t 1 2 * t 2 0)) * h0
      + (t 0 0 * t 2 2 - t 0 2 * t 2 0) * h1 - (t 0 0 * t 1 2 - t 0 2 * t 1 0) * h2
  have hc : c * det3 t = 0 := by
    unfold det3
    linear_combination (t 1 0 * t 2 1 - t 1 1 * t 2 0) * h0
      - (t 0 0 * t 2 1 - t 0 1 * t 2 0) * h1 + (t 0 0 * t 1 1 - t 0 1 * t 1 0) * h2
  exact ⟨(mul_eq_zero.mp ha).resolve_right hd, (mul_eq_zero.mp hb).resolve_right hd,
    (mul_eq_zero.mp hc).resolve_right hd⟩

theorem column_solution {K : Type} [LinearOrderedField K] (t : Transform K)
    (hd : det3 t ≠ 0) (o : Int → K) :
    ∃ r : Int → K, ∀ k, 0 ≤ k → k < 3 →
      t k 0 * r 0 + t k 1 * r 1 + t k 2 * r 2 = o k := by
  have h := transform_inverse_point t hd (o 0 + t 0 3) (o 1 + t 1 3) (o 2 + t 2 3)
  generalize transform_point (compute_transform_inverse t) (o 0 + t 0 3) (o 1 + t 1 3)
    (o 2 + t 2 3) = p at h
  refine ⟨fun c => if c = 0 then p.1 else if c = 1 then p.2.1 else p.2.2, ?_⟩
  unfold transform_point at h
  simp only [Transform_elem, Prod.mk.injEq] at h
  obtain ⟨e0, e1, e2⟩ := h
  intro k hk0 hk3
  rcases int_lt_three hk0 hk3 with e | e | e <;> subst e <;> norm_num <;> linarith

theorem transform_point_congr {K : Type} [LinearOrderedField K] (m m' : Transform K)
    (h : ∀ i j, 0 ≤ i → i < 3 → 0 ≤ j → j < 4 → m i j = m' i j) (x y z : K) :
    transform_point m x y z = transform_point m' x y z ∧
    transform_point (compute_transform_inverse m) x y z
      = transform_point (compute_transform_inverse m') x y z := by
  have e : ∀ i j, (0 ≤ i ∧ i < 3) → (0 ≤ j ∧ j < 4) → m i j = m' i j :=
    fun i j hi hj => h i j hi.1 hi.2 hj.1 hj.2
  unfold transform_point compute_transform_inverse det3
  simp only [Transform_elem,
    e 0 0 (by norm_num) (by norm_num), e 0 1 (by norm_num) (by norm_num),
    e 0 2 (by norm_num) (by norm_num), e 0 3 (by norm_num) (by norm_num),
    e 1 0 (by norm_num) (by norm_num), e 1 1 (by norm_num) (by norm_num),
    e 1 2 (by norm_num) (by norm_num), e 1 3 (by norm_num) (by norm_num),
    e 2 0 (by norm_num) (by norm_num), e 2 1 (by norm_num) (by norm_num),
    e 2 2 (by norm_num) (by norm_num), e 2 3 (by norm_num) (by norm_num), and_self]

theorem scaled_columns_independent (sa : Int → Int) (dc : Int → Int → ℝ) (t : Transform ℝ)
    (m : Int → ℝ) (hm : ∀ c, 0 ≤ c → c < 3 → 0 ≤ sa c) (hdet : det3 t ≠ 0)
    (hpos : ∀ c, 0 ≤ c → c < 3 → m c ≠ 0)
    (hdc : ∀ c k, 0 ≤ c → c < 3 → 0 ≤ k → k < 3 → dc (sa c) k = t k c / m c) :
    mapped_independent sa dc := by
  have m0 := hm 0 (by norm_num) (by norm_num)
  have m1 := hm 1 (by norm_num) (by norm_num)
  have m2 := hm 2 (by norm_num) (by norm_num)
  intro a ha
  have key := columns_independent_of_det t hdet (a 0 / m 0) (a 1 / m 1) (a 2 / m 2) (by
    intro k hk0 hk3
    have h := ha k hk0 hk3
    unfold mapped_combination mapped_term at h
    simp only [ge_iff_le, m0, m1, m2, if_true] at h
    rw [hdc 0 k (by norm_num) (by norm_num) hk0 hk3,
      hdc 1 k (by norm_num) (by norm_num) hk0 hk3,
      hdc 2 k (by norm_num) (by norm_num) hk0 hk3] at h
    linear_combination h)
  intro c hc0 hc3 _
  rcases int_lt_three hc0 hc3 with h | h | h <;> subst h
  · exact (div_eq_zero_iff.mp key.1).resolve_right (hpos 0 (by norm_num) (by norm_num))
  · exact (div_eq_zero_iff.mp key.2.1).resolve_right (hpos 1 (by norm_num) (by norm_num))
  · exact (div_eq_zero_iff.mp key.2.2).resolve_right (hpos 2 (by norm_num) (by norm_num))

theorem scaled_columns_span (sa : Int → Int) (dc : Int → Int → ℝ) (t : Transform ℝ)
    (m : Int → ℝ) (hm : ∀ c, 0 ≤ c → c < 3 → 0 ≤ sa c) (hdet : det3 t ≠ 0)
    (hpos : ∀ c, 0 ≤ c → c < 3 → m c ≠ 0)
    (hdc : ∀ c k, 0 ≤ c → c < 3 → 0 ≤ k → k < 3 → dc (sa c) k = t k c / m c) :
    ∃ r : Int → ℝ, ∀ k, 0 ≤ k → k < 3 →
      get_transform_origin_real t k = mapped_combination sa dc r k := by
  have m0 := hm 0 (by norm_num) (by norm_num)
  have m1 := hm 1 (by norm_num) (by norm_num)
  have m2 := hm 2 (by norm_num) (by norm_num)
  have p0 := hpos 0 (by norm_num) (by norm_num)
  have p1 := hpos 1 (by norm_num) (by norm_num)
  have p2 := hpos 2 (by norm_num) (by norm_num)
  obtain ⟨r, hr⟩ := column_solution t hdet (fun k => t k 3)
  refine ⟨fun c => r c * m c, ?_⟩
  intro k hk0 hk3
  have h := hr k hk0 hk3
  unfold mapped_combination mapped_term get_transform_origin_real
  simp only [ge_iff_le, m0, m1, m2, if_true, Transform_elem]
  rw [hdc 0 k (by norm_num) (by norm_num) hk0 hk3,
    hdc 1 k (by norm_num) (by norm_num) hk0 hk3,
    hdc 2 k (by norm_num) (by norm_num) hk0 hk3]
  field_simp
  simp only [] at h
  linear_combination (-(m 0 * m 1 * m 2)) * h

theorem synthesis_of_scaled_columns (sa : Int → Int) (sep : Int → ℝ) (dc : Int → Int → ℝ)
    (t : Transform ℝ) (n : Int) (st0 : Int → ℝ)
    (hm : ∀ c, 0 ≤ c → c < 3 → 0 ≤ sa c) (hsa : axes_distinct sa) (hdet : det3 t ≠ 0)
    (hpos : ∀ c, 0 ≤ c → c < 3 → sep (sa c) ≠ 0)
    (hdc : ∀ c k, 0 ≤ c → c < 3 → 0 ≤ k → k < 3 → dc (sa c) k = t k c / sep (sa c)) :
    ∃ g, compute_world_transform Real.sqrt sa sep dc
        (convert_transform_origin_to_starts (get_transform_origin_real t) n sa dc st0)
        = some g ∧
      g.type = Transform_types.LINEAR ∧
      g.inverse_linear_transform = compute_transform_inverse g.linear_transform ∧
      (∀ i j, 0 ≤ i → i < 3 → 0 ≤ j → j < 4 → g.linear_transform i j = t i j) ∧
      (g.linear_transform 3 0 = 0 ∧ g.linear_transform 3 1 = 0 ∧
        g.linear_transform 3 2 = 0 ∧ g.linear_transform 3 3 = 1) := by
  have hind := scaled_columns_independent sa dc t (fun c => sep (sa c)) hm hdet hpos hdc
  obtain ⟨r, hr⟩ := scaled_columns_span sa dc t (fun c => sep (sa c)) hm hdet hpos hdc
  generalize hst : convert_transform_origin_to_starts (get_transform_origin_real t) n sa dc st0
    = st
  have hstart : ∀ c, 0 ≤ c → c < 3 → 0 ≤ sa c → st (sa c) = r c := by
    intro c hc0 hc3 hc
    rw [← hst]
    exact ctots_mapped _ n sa dc st0 r hsa hind hr c hc0 hc3 hc
  have hex : ∃ c, 0 ≤ c ∧ c < 3 ∧ 0 ≤ sa c :=
    ⟨0, le_refl _, by norm_num, hm 0 (le_refl _) (by norm_num)⟩
  obtain ⟨g, hg, hlin, hent, htr⟩ := cwt_regular_entries Real.sqrt sa sep st dc hex
    (three_axes_regular sa sep st dc hm hind)
  have hform := compute_world_transform_some Real.sqrt sa sep st dc hex
  refine ⟨g, hg, hlin, ?_, ?_, ?_⟩
  · rw [hform] at hg
    rw [← Option.some.inj hg]
    rfl
  · intro i j hi0 hi3 hj0 hj4
    by_cases hj : j = 3
    · subst hj
      rw [htr i hi0 hi3, mapped_combination_congr sa dc _ r hstart i, ← hr i hi0 hi3]
      rfl
    · have hj3 : j < 3 := by omega
      rw [hent j i hj0 hj3 (hm j hj0 hj3) hi0 hi3, hdc j i hj0 hj3 hi0 hi3]
      exact div_mul_cancel₀ _ (hpos j hj0 hj3)
  · rw [hform] at hg
    rw [← Option.some.inj hg]
    simp only [create_linear_transform]
    refine ⟨?_, ?_, ?_, ?_⟩ <;> rw [cwt_make_bottom] <;> norm_num

theorem set_volume_starts_same {K : Type} (volume : volume_struct K) :
    set_volume_starts volume volume.starts
      = { volume with voxel_to_world_transform_uptodate := false } := by
  have h : for_less 0 (get_volume_n_dimensions volume)
      (fun c s => store s c (volume.starts c)) volume.starts = volume.starts := by
    rw [for_less_store (get_volume_n_dimensions volume) volume.starts volume.starts]
    funext i
    simp
  unfold set_volume_starts
  simp only [h]

theorem same_conversions_of_synthesis (v : volume_struct ℝ) (t : Transform ℝ)
    (hup : v.voxel_to_world_transform_uptodate = true)
    (hT : v.voxel_to_world_transform = create_linear_transform t)
    (hs : synthesises_to Real.sqrt v t) :
    same_conversions Real.sqrt (set_volume_starts v v.starts) v := by
  obtain ⟨g, hg, -, -, -, hpt⟩ := hs
  intro w voxel x y z
  have hstale := check_recompute_stale Real.sqrt w
    ({ v with voxel_to_world_transform_uptodate := false } : volume_struct ℝ) g rfl hg
  have hfresh := check_recompute_fresh Real.sqrt w v hup
  rw [set_volume_starts_same]
  unfold convert_voxel_to_world convert_world_to_voxel
  rw [hstale, hfresh]
  simp only [hT]
  refine ⟨?_, ?_⟩
  · rw [(hpt _ _ _).1]
    rfl
  · rw [(hpt _ _ _).2]
    rfl

/-- Claim C35, amended.  In exact real arithmetic: for every volume with three
spatial axes (distinct dimensions of the volume) and every linear transform
`t` whose 3 by 3 linear part is non-singular: after
`set_voxel_to_world_transform( volume, t )` the stored separations, direction
cosines and starts synthesise back to `t`, that is, `compute_world_transform`
on the geometry of the volume returns a linear transform with the entries of
`t` that maps every point as `t` does, forwards and backwards; and after the
no-change write `set_volume_starts` with the current starts every coordinate
conversion gives what it gave before. -/
theorem synthesis_undoes_decomposition (volume : volume_struct ℝ) (t : Transform ℝ)
    (hm : ∀ c, 0 ≤ c → c < 3 → 0 ≤ volume.spatial_axes c)
    (hn : ∀ c, 0 ≤ c → c < 3 → volume.spatial_axes c < volume.n_dimensions)
    (hsa : axes_distinct volume.spatial_axes) (hdet : det3 t ≠ 0) :
    synthesises_to Real.sqrt
      (set_voxel_to_world_transform Real.sqrt volume (create_linear_transform t)) t ∧
    same_conversions Real.sqrt
      (set_volume_starts
        (set_voxel_to_world_transform Real.sqrt volume (create_linear_transform t))
        (set_voxel_to_world_transform Real.sqrt volume (create_linear_transform t)).starts)
      (set_voxel_to_world_transform Real.sqrt volume (create_linear_transform t)) := by
  have hsyn : synthesises_to Real.sqrt
      (set_voxel_to_world_transform Real.sqrt volume (create_linear_transform t)) t := by
    rw [set_voxel_to_world_transform_eq]
    have hal := fun c hc0 hc3 => cttss_steps_aliased Real.sqrt (cttss_axes t)
      volume.n_dimensions volume.spatial_axes hsa volume.separations volume.direction_cosines
      c hc0 hc3 (hm c hc0 hc3) (hn c hc0 hc3)
    obtain ⟨g, hg, hlin, hinv, hent, hbot⟩ := synthesis_of_scaled_columns volume.spatial_axes
      (cttss_steps Real.sqrt (cttss_axes t) volume.n_dimensions Step_signs.steps
        volume.spatial_axes volume.separations volume.direction_cosines).1
      (cttss_steps Real.sqrt (cttss_axes t) volume.n_dimensions Step_signs.steps
        volume.spatial_axes volume.separations volume.direction_cosines).2
      t volume.n_dimensions volume.starts hm hsa hdet
      (by
        intro c hc0 hc3
        rw [(hal c hc0 hc3).1]
        exact ne_of_gt (step_mag_real (cttss_axes t) c).1)
      (by
        intro c k hc0 hc3 hk0 hk3
        rw [(hal c hc0 hc3).2 k hk0 hk3, (hal c hc0 hc3).1, cttss_axes_apply t c k hc0 hc3])
    refine ⟨g, hg, hlin, hent, hbot, ?_⟩
    intro x y z
    have hc := transform_point_congr g.linear_transform t hent x y z
    unfold general_transform_point general_inverse_transform_point
    simp only [hlin, hinv]
    exact hc
  refine ⟨hsyn, same_conversions_of_synthesis _ t ?_ ?_ hsyn⟩
  · rw [set_voxel_to_world_transform_eq]
  · rw [set_voxel_to_world_transform_eq]

theorem oblique_transform_det : det3 (oblique_transform : Transform ℝ) ≠ 0 := by
  norm_num [det3, oblique_transform]

theorem synthesis_undoes_decomposition_witness :
    synthesises_to Real.sqrt
      (set_voxel_to_world_transform Real.sqrt (skew_volume : volume_struct ℝ)
        (create_linear_transform oblique_transform)) oblique_transform ∧
    same_conversions Real.sqrt
      (set_volume_starts
        (set_voxel_to_world_transform Real.sqrt (skew_volume : volume_struct ℝ)
          (create_linear_transform oblique_transform))
        (set_voxel_to_world_transform Real.sqrt (skew_volume : volume_struct ℝ)
          (create_linear_transform oblique_transform)).starts)
      (set_voxel_to_world_transform Real.sqrt (skew_volume : volume_struct ℝ)
        (create_linear_transform oblique_transform)) :=
  synthesis_undoes_decomposition (skew_volume : volume_struct ℝ) oblique_transform
    (by
      intro c hc0 hc3
      rcases int_lt_three hc0 hc3 with h | h | h <;> subst h <;> decide)
    (by
      intro c hc0 hc3
      rcases int_lt_three hc0 hc3 with h | h | h <;> subst h <;> decide)
    axes_zyx_distinct oblique_transform_det

/-! ## The program's arithmetic: `double` -/

section

variable {K : Type} [Zero K] [One K] [Add K] [Sub K] [Mul K] [Div K] [Neg K] [LT K] [LE K]
  [NatCast K] [IntCast K] [∀ a b : K, Decidable (a < b)] [∀ a b : K, Decidable (a ≤ b)]

theorem set_volume_voxel_range_stored (volume : volume_struct K) (voxel_min voxel_max : K)
    (h : volume.real_range_set = false) (hd : ¬ voxel_min ≥ voxel_max) :
    set_volume_voxel_range volume voxel_min voxel_max
      = { volume with voxel_min := voxel_min, voxel_max := voxel_max } := by
  rw [set_volume_voxel_range]
  simp only [h, hd, if_false, Bool.false_eq_true, dite_false, cache_volume_range_has_changed]

theorem set_volume_real_range_degenerate (volume : volume_struct K) (real_min real_max : K)
    (ht : ¬ is_floating_type volume.data_type) (hc : volume.is_cached_volume = false)
    (hr : ¬ volume.voxel_min < volume.voxel_max) :
    set_volume_real_range volume real_min real_max
      = { volume with
          real_value_scale := 0
          real_value_translation := real_min
          real_range_set := true } := by
  rw [set_volume_real_range]
  simp only [is_floating_type] at ht
  simp only [get_volume_data_type, get_multidim_data_type, ht, if_false,
    get_volume_voxel_min, get_volume_voxel_max, hr, hc, Bool.false_eq_true]

theorem set_volume_type_stored (volume : volume_struct K) (nc_data_type : nc_type)
    (signed_flag : Bool) (voxel_min voxel_max : K)
    (h : volume.real_range_set = false) (hnc : nc_data_type ≠ nc_type.MI_ORIGINAL_TYPE)
    (hd : ¬ voxel_min ≥ voxel_max) :
    set_volume_type volume nc_data_type signed_flag voxel_min voxel_max
      = { volume with
          data_type := storage_type nc_data_type signed_flag
          signed_flag := signed_flag
          voxel_min := voxel_min
          voxel_max := voxel_max
          nc_data_type := nc_data_type } := by
  unfold set_volume_type
  simp only [ne_eq, hnc, not_false_eq_true, if_true]
  rw [set_volume_voxel_range_stored _ _ _ (by simp [set_multidim_data_type, h]) hd]
  cases nc_data_type <;> first | exact absurd rfl hnc | rfl

end

theorem axes_xyz_distinct : axes_distinct axes_xyz := by
  intro c c' hc0 hc3 hc0' hc3' _ he
  rcases int_lt_three hc0 hc3 with h | h | h <;>
    rcases int_lt_three hc0' hc3' with h' | h' | h' <;>
    subst h <;> subst h' <;> first | rfl | (exfalso; revert he; decide)

theorem created_byte_volume :
    ∃ volume : volume_struct Double,
      create_volume zeroed_record 3 none nc_type.NC_BYTE false 0 255 = some volume ∧
      volume.data_type = Data_types.UNSIGNED_BYTE ∧
      volume.real_range_set = false ∧
      volume.is_cached_volume = false ∧
      volume.voxel_min = 0 ∧ volume.voxel_max = 255 ∧
      volume.n_dimensions = 3 ∧
      volume.spatial_axes 0 = 2 ∧ volume.spatial_axes 1 = 1 ∧ volume.spatial_axes 2 = 0 := by
  unfold create_volume
  simp only [(by decide : ¬ ((3 : Int) < 1 ∨ (3 : Int) > MAX_DIMENSIONS)), if_false]
  rw [set_volume_type_stored _ _ _ _ _ (by rfl) (by decide) (by decide)]
  exact ⟨_, rfl, rfl, rfl, rfl, rfl, rfl, rfl, by decide, by decide, by decide⟩

theorem voxel_range_not_a_number :
    ∃ volume : volume_struct Double,
      create_volume zeroed_record 3 none nc_type.NC_BYTE false 0 255 = some volume ∧
      volume.voxel_min < volume.voxel_max ∧
      (apply_calls [Range_call.voxel_range Double.NaN 1] volume).voxel_min = Double.NaN ∧
      (apply_calls [Range_call.voxel_range Double.NaN 1] volume).voxel_max = 1 ∧
      ¬ ((apply_calls [Range_call.voxel_range Double.NaN 1] volume).voxel_min
          < (apply_calls [Range_call.voxel_range Double.NaN 1] volume).voxel_max) := by
  obtain ⟨volume, hc, -, hr, -, hmin, hmax, -⟩ := created_byte_volume
  have hset : apply_calls [Range_call.voxel_range Double.NaN 1] volume
      = { volume with voxel_min := Double.NaN, voxel_max := 1 } :=
    set_volume_voxel_range_stored volume Double.NaN 1 hr (by decide)
  refine ⟨volume, hc, ?_, ?_, ?_, ?_⟩
  · rw [hmin, hmax]
    decide
  · rw [hset]
  · rw [hset]
  · rw [hset]
    show ¬ (Double.NaN < (1 : Double))
    decide

/-- Two failures of claim C13.  With `MI_ORIGINAL_TYPE` `create_volume`
leaves the voxel range as `ALLOC` delivered it, 0 and 0 on zeroed memory.
In the arithmetic of the program, `set_volume_voxel_range( volume, NaN, 1.0 )`
on a new unsigned byte volume stores the pair as given, because the test
`voxel_min >= voxel_max` is false for a NaN, and `voxel_min < voxel_max` is
false afterwards. -/
theorem voxel_range_invariant_counterexample :
    (    ∃ volume : volume_struct ℝ,
      create_volume zeroed_record 3 none nc_type.MI_ORIGINAL_TYPE false 0 1 = some volume ∧
      ¬ (volume.voxel_min < volume.voxel_max)) ∧
    (∃ volume : volume_struct Double,
      create_volume zeroed_record 3 none nc_type.NC_BYTE false 0 255 = some volume ∧
      volume.voxel_min < volume.voxel_max ∧
      (apply_calls [Range_call.voxel_range Double.NaN 1] volume).voxel_min = Double.NaN ∧
      (apply_calls [Range_call.voxel_range Double.NaN 1] volume).voxel_max = 1 ∧
      ¬ ((apply_calls [Range_call.voxel_range Double.NaN 1] volume).voxel_min
          < (apply_calls [Range_call.voxel_range Double.NaN 1] volume).voxel_max)) :=
  ⟨voxel_range_original_type_degenerate, voxel_range_not_a_number⟩

theorem scale_zero_not_a_number :
    ∃ volume : volume_struct Double,
      create_volume zeroed_record 3 none nc_type.NC_BYTE false 0 255 = some volume ∧
      volume.data_type = Data_types.UNSIGNED_BYTE ∧
      ¬ ((apply_calls [Range_call.voxel_range Double.NaN 1] volume).voxel_min
          < (apply_calls [Range_call.voxel_range Double.NaN 1] volume).voxel_max) ∧
      (apply_calls [Range_call.voxel_range Double.NaN 1, Range_call.real_range 0 1]
        volume).real_value_scale = 0 ∧
      (apply_calls [Range_call.voxel_range Double.NaN 1, Range_call.real_range 0 1]
        volume).real_value_translation = 0 := by
  obtain ⟨volume, hc, ht, hr, hcv, -⟩ := created_byte_volume
  have hset : apply_calls [Range_call.voxel_range Double.NaN 1] volume
      = { volume with voxel_min := Double.NaN, voxel_max := 1 } :=
    set_volume_voxel_range_stored volume Double.NaN 1 hr (by decide)
  have hnf : ¬ is_floating_type
      ({ volume with voxel_min := Double.NaN, voxel_max := 1 } : volume_struct Double).data_type := by
    show ¬ is_floating_type volume.data_type
    rw [ht]
    simp [is_floating_type]
  have hreal : apply_calls [Range_call.voxel_range Double.NaN 1, Range_call.real_range 0 1]
      volume
      = set_volume_real_range (apply_calls [Range_call.voxel_range Double.NaN 1] volume) 0 1 :=
    rfl
  have hlt : ¬ (Double.NaN < (1 : Double)) := by decide
  refine ⟨volume, hc, ht, ?_, ?_, ?_⟩
  · rw [hset]
    exact hlt
  · rw [hreal, hset, set_volume_real_range_degenerate _ 0 1 hnf hcv hlt]
  · rw [hreal, hset, set_volume_real_range_degenerate _ 0 1 hnf hcv hlt]

/-- Two failures of claim C36.  `set_volume_real_range( volume, 7, 7 )` on a
new unsigned byte volume stores the scale 0.0 from the branch of the test
`voxel_min < voxel_max`.  In the arithmetic of the program, after
`set_volume_voxel_range( volume, NaN, 1.0 )` that test is false, and
`set_volume_real_range( volume, 0.0, 1.0 )` takes the other branch: it sets
the scale to 0.0 and the translation to `real_min`. -/
theorem scale_zero_branch_unreachable_counterexample :
    (    ∃ volume : volume_struct ℝ,
      create_volume zeroed_record 3 none nc_type.NC_BYTE false 0 255 = some volume ∧
      volume.data_type = Data_types.UNSIGNED_BYTE ∧
      volume.voxel_min < volume.voxel_max ∧
      (apply_calls [Range_call.real_range 7 7] volume).real_value_scale = 0) ∧
    (∃ volume : volume_struct Double,
      create_volume zeroed_record 3 none nc_type.NC_BYTE false 0 255 = some volume ∧
      volume.data_type = Data_types.UNSIGNED_BYTE ∧
      ¬ ((apply_calls [Range_call.voxel_range Double.NaN 1] volume).voxel_min
          < (apply_calls [Range_call.voxel_range Double.NaN 1] volume).voxel_max) ∧
      (apply_calls [Range_call.voxel_range Double.NaN 1, Range_call.real_range 0 1]
        volume).real_value_scale = 0 ∧
      (apply_calls [Range_call.voxel_range Double.NaN 1, Range_call.real_range 0 1]
        volume).real_value_translation = 0) :=
  ⟨scale_zero_equal_limits, scale_zero_not_a_number⟩

theorem huge_cosine_stored (volume : volume_struct Double)
    (hn : volume.n_dimensions = 3) (h2 : volume.spatial_axes 2 = 0) :
    (set_volume_direction_cosine Double.sqrt volume 0 huge_vector).spatial_axes
      = volume.spatial_axes ∧
    (set_volume_direction_cosine Double.sqrt volume 0 huge_vector).n_dimensions
      = volume.n_dimensions ∧
    ∀ k, 0 ≤ k → k < 3 →
      (set_volume_direction_cosine Double.sqrt volume 0 huge_vector).direction_cosines 0 k
        = 0 := by
  have hlen : (huge_vector X * huge_vector X + huge_vector Y * huge_vector Y
      + huge_vector Z * huge_vector Z : Double) = Double.infinity false := by decide
  have h0 : ¬ (Double.infinity false = 0) := by decide
  have h1 : ¬ (Double.infinity false ≤ 0) := by decide
  have hx : (huge_vector X : Double) / Double.sqrt (Double.infinity false) = 0 := by decide
  have hy : (huge_vector Y : Double) / Double.sqrt (Double.infinity false) = 0 := by decide
  have hz : (huge_vector Z : Double) / Double.sqrt (Double.infinity false) = 0 := by decide
  unfold set_volume_direction_cosine
  simp only [hlen, h0, h1, if_false, hx, hy, hz]
  rw [set_volume_direction_unit_cosine_spatial volume 0 _
    (by simp only [get_volume_n_dimensions, hn]; decide) ⟨2, by decide, by decide, h2⟩]
  refine ⟨rfl, rfl, ?_⟩
  intro k hk0 hk3
  rcases int_lt_three hk0 hk3 with h | h | h <;> subst h <;>
    simp [store2_apply, store_apply, X, Y, Z]

theorem spatial_axes_overflow :
    ∃ volume : volume_struct Double,
      create_volume zeroed_record 3 none nc_type.NC_BYTE false 0 255 = some volume ∧
      volume.spatial_axes 2 = 0 ∧
      (apply_geometry_calls Double.sqrt [Geometry_call.direction_cosine 0 huge_vector]
        volume).spatial_axes 2 = 0 ∧
      (∀ k, 0 ≤ k → k < 3 →
        (apply_geometry_calls Double.sqrt [Geometry_call.direction_cosine 0 huge_vector]
          volume).direction_cosines 0 k = 0) ∧
      ¬ spatial_axes_valid (apply_geometry_calls Double.sqrt
        [Geometry_call.direction_cosine 0 huge_vector] volume) := by
  obtain ⟨volume, hc, -, -, -, -, -, hn, -, -, h2⟩ := created_byte_volume
  have hset : apply_geometry_calls Double.sqrt [Geometry_call.direction_cosine 0 huge_vector]
      volume = set_volume_direction_cosine Double.sqrt volume 0 huge_vector := rfl
  obtain ⟨hsa, -, hdc⟩ := huge_cosine_stored volume hn h2
  refine ⟨volume, hc, h2, ?_, ?_, ?_⟩
  · rw [hset, hsa]
    exact h2
  · rw [hset]
    exact hdc
  rw [hset]
  intro hvalid
  rcases hvalid 2 (by norm_num) (by norm_num) with e | ⟨-, -, eu⟩
  · rw [hsa, h2] at e
    exact absurd e (by decide)
  · rw [hsa, h2] at eu
    unfold is_unit_vector at eu
    rw [hdc 0 (by norm_num) (by norm_num), hdc 1 (by norm_num) (by norm_num),
      hdc 2 (by norm_num) (by norm_num)] at eu
    exact absurd eu (by decide)

theorem slant_cosine_stored (volume : volume_struct Double)
    (hn : volume.n_dimensions = 3) (h2 : volume.spatial_axes 2 = 0) :
    (set_volume_direction_cosine Double.sqrt volume 0 slant_vector).spatial_axes
      = volume.spatial_axes ∧
    (set_volume_direction_cosine Double.sqrt volume 0 slant_vector).direction_cosines 0 0
      = Double.finite false 6690379646548872 (-54) ∧
    (set_volume_direction_cosine Double.sqrt volume 0 slant_vector).direction_cosines 0 1
      = 0 ∧
    (set_volume_direction_cosine Double.sqrt volume 0 slant_vector).direction_cosines 0 2
      = Double.finite false 8362974558186091 (-53) := by
  have hlen : (slant_vector X * slant_vector X + slant_vector Y * slant_vector Y
      + slant_vector Z * slant_vector Z : Double) = 29 := by decide
  have h0 : ¬ ((29 : Double) = 0) := by decide
  have h1 : ¬ ((29 : Double) ≤ 0) := by decide
  have hx : (slant_vector X : Double) / Double.sqrt 29
      = Double.finite false 6690379646548872 (-54) := by decide
  have hy : (slant_vector Y : Double) / Double.sqrt 29 = 0 := by decide
  have hz : (slant_vector Z : Double) / Double.sqrt 29
      = Double.finite false 8362974558186091 (-53) := by decide
  unfold set_volume_direction_cosine
  simp only [hlen, h0, h1, if_false, hx, hy, hz]
  rw [set_volume_direction_unit_cosine_spatial volume 0 _
    (by simp only [get_volume_n_dimensions, hn]; decide) ⟨2, by decide, by decide, h2⟩]
  refine ⟨rfl, ?_, ?_, ?_⟩ <;> simp [store2_apply, store_apply, X, Y, Z]

theorem spatial_axes_rounds :
    ∃ volume : volume_struct Double,
      create_volume zeroed_record 3 none nc_type.NC_BYTE false 0 255 = some volume ∧
      volume.spatial_axes 2 = 0 ∧
      (apply_geometry_calls Double.sqrt [Geometry_call.direction_cosine 0 slant_vector]
        volume).spatial_axes 2 = 0 ∧
      (apply_geometry_calls Double.sqrt [Geometry_call.direction_cosine 0 slant_vector]
        volume).direction_cosines 0 0 = Double.finite false 6690379646548872 (-54) ∧
      (apply_geometry_calls Double.sqrt [Geometry_call.direction_cosine 0 slant_vector]
        volume).direction_cosines 0 1 = 0 ∧
      (apply_geometry_calls Double.sqrt [Geometry_call.direction_cosine 0 slant_vector]
        volume).direction_cosines 0 2 = Double.finite false 8362974558186091 (-53) ∧
      ¬ spatial_axes_valid (apply_geometry_calls Double.sqrt
        [Geometry_call.direction_cosine 0 slant_vector] volume) := by
  obtain ⟨volume, hc, -, -, -, -, -, hn, -, -, h2⟩ := created_byte_volume
  have hset : apply_geometry_calls Double.sqrt [Geometry_call.direction_cosine 0 slant_vector]
      volume = set_volume_direction_cosine Double.sqrt volume 0 slant_vector := rfl
  obtain ⟨hsa, hd0, hd1, hd2⟩ := slant_cosine_stored volume hn h2
  refine ⟨volume, hc, h2, ?_, ?_, ?_, ?_, ?_⟩
  · rw [hset, hsa]
    exact h2
  · rw [hset]
    exact hd0
  · rw [hset]
    exact hd1
  · rw [hset]
    exact hd2
  rw [hset]
  intro hvalid
  rcases hvalid 2 (by norm_num) (by norm_num) with e | ⟨-, -, eu⟩
  · rw [hsa, h2] at e
    exact absurd e (by decide)
  · rw [hsa, h2] at eu
    unfold is_unit_vector at eu
    rw [hd0, hd1, hd2] at eu
    exact absurd eu (by decide)

/-- Four failures of claim C26.  `set_volume_direction_unit_cosine` stores
the vector (2, 0, 0) as it is given; `set_voxel_to_world_transform` stores
the zero vector for a zero column of the transform.  In the arithmetic of
the program, `set_volume_direction_cosine` with the direction
(10^200, 0, 0) computes the squared length as an infinity and stores the
zero vector as the direction cosine of the dimension Z is mapped to; with
the direction (2, 0, 5) it stores the quotients by the rounded square root of
29, and the sum of their squares is `1 + 2^-52`, not 1. -/
theorem spatial_axes_invariant_counterexample :
    (    ∃ volume : volume_struct ℝ,
      create_volume zeroed_record 3 none nc_type.NC_BYTE false 0 255 = some volume ∧
      ¬ spatial_axes_valid (apply_geometry_calls Real.sqrt
        [Geometry_call.direction_unit_cosine 0 (fun k => if k = 0 then 2 else 0)] volume) ∧
      ¬ spatial_axes_valid (apply_geometry_calls Real.sqrt
        [Geometry_call.transform (create_linear_transform sample_transform)] volume)) ∧
    (∃ volume : volume_struct Double,
      create_volume zeroed_record 3 none nc_type.NC_BYTE false 0 255 = some volume ∧
      volume.spatial_axes 2 = 0 ∧
      (apply_geometry_calls Double.sqrt [Geometry_call.direction_cosine 0 huge_vector]
        volume).spatial_axes 2 = 0 ∧
      (∀ k, 0 ≤ k → k < 3 →
        (apply_geometry_calls Double.sqrt [Geometry_call.direction_cosine 0 huge_vector]
          volume).direction_cosines 0 k = 0) ∧
      ¬ spatial_axes_valid (apply_geometry_calls Double.sqrt
        [Geometry_call.direction_cosine 0 huge_vector] volume)) ∧
    (∃ volume : volume_struct Double,
      create_volume zeroed_record 3 none nc_type.NC_BYTE false 0 255 = some volume ∧
      volume.spatial_axes 2 = 0 ∧
      (apply_geometry_calls Double.sqrt [Geometry_call.direction_cosine 0 slant_vector]
        volume).spatial_axes 2 = 0 ∧
      (apply_geometry_calls Double.sqrt [Geometry_call.direction_cosine 0 slant_vector]
        volume).direction_cosines 0 0 = Double.finite false 6690379646548872 (-54) ∧
      (apply_geometry_calls Double.sqrt [Geometry_call.direction_cosine 0 slant_vector]
        volume).direction_cosines 0 1 = 0 ∧
      (apply_geometry_calls Double.sqrt [Geometry_call.direction_cosine 0 slant_vector]
        volume).direction_cosines 0 2 = Double.finite false 8362974558186091 (-53) ∧
      ¬ spatial_axes_valid (apply_geometry_calls Double.sqrt
        [Geometry_call.direction_cosine 0 slant_vector] volume)) :=
  ⟨spatial_axes_unit_unchecked, spatial_axes_overflow, spatial_axes_rounds⟩

theorem voxel_index_regular_rounds_up :
    (slice_volume : volume_struct Double).irregular_starts 2 = Real_table.NULL ∧
    (slice_volume : volume_struct Double).separations 2 = 1 ∧
    (slice_volume : volume_struct Double).starts 2 = 0 ∧
    (1 / 2 - 1 / 18014398509481984 : Double) = Double.finite false 9007199254740991 (-54) ∧
    ((1 / 2 - 1 / 18014398509481984 : Double) - 0) / 1
      = Double.finite false 9007199254740991 (-54) ∧
    (Double.finite false 9007199254740991 (-54) + 1 / 2 : Double) = 1 ∧
    nonspatial_world_to_voxel (slice_volume : volume_struct Double) 2
      (1 / 2 - 1 / 18014398509481984) = 1 ∧
    ¬ |((1 : Int) : ℝ) - 9007199254740991 / 2 ^ 54| ≤ 1 / 2 := by
  refine ⟨rfl, by decide, by decide, by decide, by decide, by decide, by decide, ?_⟩
  rw [abs_le]
  norm_num

/-- Two failures of claim C19.  The world value 2147483648 on a dimension
with start 0 and separation 1 has no 32-bit integer within 1/2, and the
result is -2147483648.  In the arithmetic of the program, the world value
`0.5 - 2^-54`, the largest `double` below 0.5, gives the quotient
`q = 0.5 - 2^-54`; `q + 0.5` is rounded to 1.0, so the result is 1, which is
farther than 1/2 from `q`. -/
theorem voxel_index_regular_counterexample :
    (    (slice_volume : volume_struct ℝ).irregular_starts 2 = Real_table.NULL ∧
    (slice_volume : volume_struct ℝ).separations 2 = 1 ∧
    (slice_volume : volume_struct ℝ).starts 2 = 0 ∧
    nonspatial_world_to_voxel (slice_volume : volume_struct ℝ) 2 2147483648 = -2147483648 ∧
    ¬ |((nonspatial_world_to_voxel (slice_volume : volume_struct ℝ) 2 2147483648 : Int) : ℝ)
        - (2147483648 - 0) / 1| ≤ 1 / 2 ∧
    ∀ k : Int, k ≤ INT_MAX → ¬ |(k : ℝ) - (2147483648 - 0) / 1| ≤ 1 / 2) ∧
    ((slice_volume : volume_struct Double).irregular_starts 2 = Real_table.NULL ∧
    (slice_volume : volume_struct Double).separations 2 = 1 ∧
    (slice_volume : volume_struct Double).starts 2 = 0 ∧
    (1 / 2 - 1 / 18014398509481984 : Double) = Double.finite false 9007199254740991 (-54) ∧
    ((1 / 2 - 1 / 18014398509481984 : Double) - 0) / 1
      = Double.finite false 9007199254740991 (-54) ∧
    (Double.finite false 9007199254740991 (-54) + 1 / 2 : Double) = 1 ∧
    nonspatial_world_to_voxel (slice_volume : volume_struct Double) 2
      (1 / 2 - 1 / 18014398509481984) = 1 ∧
    ¬ |((1 : Int) : ℝ) - 9007199254740991 / 2 ^ 54| ≤ 1 / 2) :=
  ⟨voxel_index_regular_out_of_range, voxel_index_regular_rounds_up⟩

theorem decomposer_cosines_overflow :
    ((create_linear_transform (huge_transform : Transform Double)).type
        = Transform_types.LINEAR ∧
      axes_distinct axes_xyz ∧ 0 ≤ axes_xyz 0 ∧
      Transform_elem (huge_transform : Transform Double) 0 0 = ((10 ^ 200 : Nat) : Double) ∧
      (convert_transform_to_starts_and_steps Double.sqrt
        (create_linear_transform (huge_transform : Transform Double)) 3 Step_signs.NULL
        axes_xyz (fun _ => 0) (fun _ => 0) (fun _ _ => 0)).steps (axes_xyz 0)
        = Double.infinity false ∧
      (∀ k, 0 ≤ k → k < 3 →
        (convert_transform_to_starts_and_steps Double.sqrt
          (create_linear_transform (huge_transform : Transform Double)) 3 Step_signs.NULL
          axes_xyz (fun _ => 0) (fun _ => 0) (fun _ _ => 0)).dir_cosines (axes_xyz 0) k
          = 0) ∧
      (convert_transform_to_starts_and_steps Double.sqrt
        (create_linear_transform (huge_transform : Transform Double)) 3 Step_signs.NULL
        axes_xyz (fun _ => 0) (fun _ => 0) (fun _ _ => 0)).dir_cosines (axes_xyz 0) 0
        * (convert_transform_to_starts_and_steps Double.sqrt
            (create_linear_transform (huge_transform : Transform Double)) 3 Step_signs.NULL
            axes_xyz (fun _ => 0) (fun _ => 0) (fun _ _ => 0)).steps (axes_xyz 0)
        = Double.NaN ∧
      Double.NaN ≠ Transform_elem (huge_transform : Transform Double) 0 0 ∧
      ¬ is_unit_vector
        ((convert_transform_to_starts_and_steps Double.sqrt
          (create_linear_transform (huge_transform : Transform Double)) 3 Step_signs.NULL
          axes_xyz (fun _ => 0) (fun _ => 0) (fun _ _ => 0)).dir_cosines (axes_xyz 0))) ∧
    ((create_linear_transform (tiny_transform : Transform Double)).type
        = Transform_types.LINEAR ∧
      Transform_elem (tiny_transform : Transform Double) 0 0 ≠ 0 ∧
      (convert_transform_to_starts_and_steps Double.sqrt
        (create_linear_transform (tiny_transform : Transform Double)) 3 Step_signs.NULL
        axes_xyz (fun _ => 0) (fun _ => 0) (fun _ _ => 0)).steps (axes_xyz 0) = 1 ∧
      (∀ k, 0 ≤ k → k < 3 →
        (convert_transform_to_starts_and_steps Double.sqrt
          (create_linear_transform (tiny_transform : Transform Double)) 3 Step_signs.NULL
          axes_xyz (fun _ => 0) (fun _ => 0) (fun _ _ => 0)).dir_cosines (axes_xyz 0) k
          = Transform_elem (tiny_transform : Transform Double) k 0) ∧
      ¬ is_unit_vector
        ((convert_transform_to_starts_and_steps Double.sqrt
          (create_linear_transform (tiny_transform : Transform Double)) 3 Step_signs.NULL
          axes_xyz (fun _ => 0) (fun _ => 0) (fun _ _ => 0)).dir_cosines (axes_xyz 0))) := by
  refine ⟨⟨rfl, axes_xyz_distinct, by decide, by decide, by decide, ?_, by decide, by decide,
    ?_⟩, ⟨rfl, by decide, by decide, ?_, ?_⟩⟩
  · intro k hk0 hk3
    rcases int_lt_three hk0 hk3 with h | h | h <;> subst h <;> decide
  · unfold is_unit_vector
    decide
  · intro k hk0 hk3
    rcases int_lt_three hk0 hk3 with h | h | h <;> subst h <;> decide
  · unfold is_unit_vector
    decide

theorem decomposer_cosines_round :
    (create_linear_transform (shear_transform : Transform Double)).type
      = Transform_types.LINEAR ∧
    Transform_elem (shear_transform : Transform Double) 0 0 = 2 ∧
    (convert_transform_to_starts_and_steps Double.sqrt
      (create_linear_transform (shear_transform : Transform Double)) 3 Step_signs.NULL
      axes_xyz (fun _ => 0) (fun _ => 0) (fun _ _ => 0)).dir_cosines (axes_xyz 0) 0
      * (convert_transform_to_starts_and_steps Double.sqrt
          (create_linear_transform (shear_transform : Transform Double)) 3 Step_signs.NULL
          axes_xyz (fun _ => 0) (fun _ => 0) (fun _ _ => 0)).steps (axes_xyz 0)
      = Double.finite false 9007199254740991 (-52) ∧
    (Double.finite false 9007199254740991 (-52) : Double) ≠ 2 ∧
    ¬ is_unit_vector
      ((convert_transform_to_starts_and_steps Double.sqrt
        (create_linear_transform (shear_transform : Transform Double)) 3 Step_signs.NULL
        axes_xyz (fun _ => 0) (fun _ => 0) (fun _ _ => 0)).dir_cosines (axes_xyz 0)) := by
  refine ⟨rfl, by decide, by decide, by decide, ?_⟩
  unfold is_unit_vector
  decide

/-- Failures of claim C8 in the arithmetic of the program.  For the column
(10^200, 0, 0) the step is an infinity and the direction cosine the zero
vector: their product is a NaN, not the column, and the cosine is not a unit
vector.  For the column (1 / 10^200, 0, 0), which is not the zero vector,
the step is 1.0 and the direction cosine is the column itself, not a unit
vector.  For the column (2, 0, 5) the first component of the direction cosine
times the step is `2 - 2^-52`, not 2, and the sum of the squares of the
components of the direction cosine is `1 + 2^-52`, not 1. -/
theorem decomposer_direction_cosines_counterexample :
    (((create_linear_transform (huge_transform : Transform Double)).type
        = Transform_types.LINEAR ∧
      axes_distinct axes_xyz ∧ 0 ≤ axes_xyz 0 ∧
      Transform_elem (huge_transform : Transform Double) 0 0 = ((10 ^ 200 : Nat) : Double) ∧
      (convert_transform_to_starts_and_steps Double.sqrt
        (create_linear_transform (huge_transform : Transform Double)) 3 Step_signs.NULL
        axes_xyz (fun _ => 0) (fun _ => 0) (fun _ _ => 0)).steps (axes_xyz 0)
        = Double.infinity false ∧
      (∀ k, 0 ≤ k → k < 3 →
        (convert_transform_to_starts_and_steps Double.sqrt
          (create_linear_transform (huge_transform : Transform Double)) 3 Step_signs.NULL
          axes_xyz (fun _ => 0) (fun _ => 0) (fun _ _ => 0)).dir_cosines (axes_xyz 0) k
          = 0) ∧
      (convert_transform_to_starts_and_steps Double.sqrt
        (create_linear_transform (huge_transform : Transform Double)) 3 Step_signs.NULL
        axes_xyz (fun _ => 0) (fun _ => 0) (fun _ _ => 0)).dir_cosines (axes_xyz 0) 0
        * (convert_transform_to_starts_and_steps Double.sqrt
            (create_linear_transform (huge_transform : Transform Double)) 3 Step_signs.NULL
            axes_xyz (fun _ => 0) (fun _ => 0) (fun _ _ => 0)).steps (axes_xyz 0)
        = Double.NaN ∧
      Double.NaN ≠ Transform_elem (huge_transform : Transform Double) 0 0 ∧
      ¬ is_unit_vector
        ((convert_transform_to_starts_and_steps Double.sqrt
          (create_linear_transform (huge_transform : Transform Double)) 3 Step_signs.NULL
          axes_xyz (fun _ => 0) (fun _ => 0) (fun _ _ => 0)).dir_cosines (axes_xyz 0))) ∧
    ((create_linear_transform (tiny_transform : Transform Double)).type
        = Transform_types.LINEAR ∧
      Transform_elem (tiny_transform : Transform Double) 0 0 ≠ 0 ∧
      (convert_transform_to_starts_and_steps Double.sqrt
        (create_linear_transform (tiny_transform : Transform Double)) 3 Step_signs.NULL
        axes_xyz (fun _ => 0) (fun _ => 0) (fun _ _ => 0)).steps (axes_xyz 0) = 1 ∧
      (∀ k, 0 ≤ k → k < 3 →
        (convert_transform_to_starts_and_steps Double.sqrt
          (create_linear_transform (tiny_transform : Transform Double)) 3 Step_signs.NULL
          axes_xyz (fun _ => 0) (fun _ => 0) (fun _ _ => 0)).dir_cosines (axes_xyz 0) k
          = Transform_elem (tiny_transform : Transform Double) k 0) ∧
      ¬ is_unit_vector
        ((convert_transform_to_starts_and_steps Double.sqrt
          (create_linear_transform (tiny_transform : Transform Double)) 3 Step_signs.NULL
          axes_xyz (fun _ => 0) (fun _ => 0) (fun _ _ => 0)).dir_cosines (axes_xyz 0)))) ∧
    ((create_linear_transform (shear_transform : Transform Double)).type
      = Transform_types.LINEAR ∧
    Transform_elem (shear_transform : Transform Double) 0 0 = 2 ∧
    (convert_transform_to_starts_and_steps Double.sqrt
      (create_linear_transform (shear_transform : Transform Double)) 3 Step_signs.NULL
      axes_xyz (fun _ => 0) (fun _ => 0) (fun _ _ => 0)).dir_cosines (axes_xyz 0) 0
      * (convert_transform_to_starts_and_steps Double.sqrt
          (create_linear_transform (shear_transform : Transform Double)) 3 Step_signs.NULL
          axes_xyz (fun _ => 0) (fun _ => 0) (fun _ _ => 0)).steps (axes_xyz 0)
      = Double.finite false 9007199254740991 (-52) ∧
    (Double.finite false 9007199254740991 (-52) : Double) ≠ 2 ∧
    ¬ is_unit_vector
      ((convert_transform_to_starts_and_steps Double.sqrt
        (create_linear_transform (shear_transform : Transform Double)) 3 Step_signs.NULL
        axes_xyz (fun _ => 0) (fun _ => 0) (fun _ _ => 0)).dir_cosines (axes_xyz 0))) :=
  ⟨decomposer_cosines_overflow, decomposer_cosines_round⟩

/-- A failure of claim C38 in the arithmetic of the program.  On a regular
dimension with start 10^17 and separation 1, the world position of index 1 is
`10^17 + 1`, rounded to 10^17, and the index of that position is 0.  On an
irregular dimension with one sample, start 10^17 and width 1, the world
position of index 0 is 10^17, the test `world < start + width` is false
because `10^17 + 1` is rounded to 10^17, and the index of that position is
1. -/
theorem index_round_trip_counterexample :
    ((far_volume : volume_struct Double).irregular_starts 0 = Real_table.NULL ∧
      (far_volume : volume_struct Double).separations 0 = 1 ∧
      (far_volume : volume_struct Double).separations 0 ≠ 0 ∧
      (far_volume : volume_struct Double).sizes 0 = 3 ∧
      nonspatial_voxel_to_world (far_volume : volume_struct Double) 0 1
        = 100000000000000000 ∧
      nonspatial_world_to_voxel (far_volume : volume_struct Double) 0
        (nonspatial_voxel_to_world (far_volume : volume_struct Double) 0 1) = 0) ∧
    ((far_volume : volume_struct Double).irregular_starts 2
        = Real_table.table ((far_volume : volume_struct Double).sizes 2)
            (fun _ => 100000000000000000) ∧
      (far_volume : volume_struct Double).irregular_widths 2
        = Real_table.table ((far_volume : volume_struct Double).sizes 2) (fun _ => 1) ∧
      (far_volume : volume_struct Double).sizes 2 = 1 ∧
      (0 : Double) < 1 ∧
      nonspatial_voxel_to_world (far_volume : volume_struct Double) 2 0
        = 100000000000000000 ∧
      nonspatial_world_to_voxel (far_volume : volume_struct Double) 2
        (nonspatial_voxel_to_world (far_volume : volume_struct Double) 2 0) = 1) :=
  ⟨⟨rfl, by decide, by decide, by decide, by decide, by decide⟩,
   ⟨rfl, rfl, by decide, by decide, by decide, by decide⟩⟩

theorem synthesis_overflow :
    (∀ c, 0 ≤ c → c < 3 → 0 ≤ (skew_volume : volume_struct Double).spatial_axes c) ∧
    (∀ c, 0 ≤ c → c < 3 →
      (skew_volume : volume_struct Double).spatial_axes c
        < (skew_volume : volume_struct Double).n_dimensions) ∧
    det3 (huge_transform : Transform Double) ≠ 0 ∧
    (set_voxel_to_world_transform Double.sqrt (skew_volume : volume_struct Double)
      (create_linear_transform huge_transform)).separations 2 = Double.infinity false ∧
    (∀ k, 0 ≤ k → k < 3 →
      (set_voxel_to_world_transform Double.sqrt (skew_volume : volume_struct Double)
        (create_linear_transform huge_transform)).direction_cosines 2 k = 0) ∧
    (∃ g, compute_world_transform Double.sqrt
        (set_voxel_to_world_transform Double.sqrt (skew_volume : volume_struct Double)
          (create_linear_transform huge_transform)).spatial_axes
        (set_voxel_to_world_transform Double.sqrt (skew_volume : volume_struct Double)
          (create_linear_transform huge_transform)).separations
        (set_voxel_to_world_transform Double.sqrt (skew_volume : volume_struct Double)
          (create_linear_transform huge_transform)).direction_cosines
        (set_voxel_to_world_transform Double.sqrt (skew_volume : volume_struct Double)
          (create_linear_transform huge_transform)).starts = some g ∧
      Transform_elem g.linear_transform 0 0 = Double.infinity false ∧
      Transform_elem g.linear_transform 0 0
        ≠ Transform_elem (huge_transform : Transform Double) 0 0) ∧
    ¬ synthesises_to Double.sqrt
      (set_voxel_to_world_transform Double.sqrt (skew_volume : volume_struct Double)
        (create_linear_transform huge_transform)) huge_transform ∧
    (convert_voxel_to_world Double.sqrt (create_linear_transform make_identity_transform)
      (set_voxel_to_world_transform Double.sqrt (skew_volume : volume_struct Double)
        (create_linear_transform huge_transform)) (fun _ => 0)).2 = (0, 0, 0) ∧
    (convert_voxel_to_world Double.sqrt (create_linear_transform make_identity_transform)
      (set_volume_starts
        (set_voxel_to_world_transform Double.sqrt (skew_volume : volume_struct Double)
          (create_linear_transform huge_transform))
        (set_voxel_to_world_transform Double.sqrt (skew_volume : volume_struct Double)
          (create_linear_transform huge_transform)).starts) (fun _ => 0)).2
      = (Double.NaN, Double.NaN, Double.NaN) := by
  refine ⟨?_, ?_, by decide, by decide, ?_, ⟨_, rfl, by decide, by decide⟩, ?_, by decide,
    by decide⟩
  · intro c hc0 hc3
    rcases int_lt_three hc0 hc3 with h | h | h <;> subst h <;> decide
  · intro c hc0 hc3
    rcases int_lt_three hc0 hc3 with h | h | h <;> subst h <;> decide
  · intro k hk0 hk3
    rcases int_lt_three hk0 hk3 with h | h | h <;> subst h <;> decide
  · rintro ⟨g, hg, -, hent, -⟩
    have h00 := hent 0 0 (by norm_num) (by norm_num) (by norm_num) (by norm_num)
    have hsome : compute_world_transform Double.sqrt
        (set_voxel_to_world_transform Double.sqrt (skew_volume : volume_struct Double)
          (create_linear_transform huge_transform)).spatial_axes
        (set_voxel_to_world_transform Double.sqrt (skew_volume : volume_struct Double)
          (create_linear_transform huge_transform)).separations
        (set_voxel_to_world_transform Double.sqrt (skew_volume : volume_struct Double)
          (create_linear_transform huge_transform)).direction_cosines
        (set_voxel_to_world_transform Double.sqrt (skew_volume : volume_struct Double)
          (create_linear_transform huge_transform)).starts = some _ := rfl
    rw [hsome] at hg
    rw [← Option.some.inj hg] at h00
    revert h00
    decide

theorem synthesis_rounds :
    (∀ c, 0 ≤ c → c < 3 → 0 ≤ (skew_volume : volume_struct Double).spatial_axes c) ∧
    (∀ c, 0 ≤ c → c < 3 →
      (skew_volume : volume_struct Double).spatial_axes c
        < (skew_volume : volume_struct Double).n_dimensions) ∧
    det3 (shear_transform : Transform Double) ≠ 0 ∧
    (set_voxel_to_world_transform Double.sqrt (skew_volume : volume_struct Double)
      (create_linear_transform shear_transform)).separations 2
      = Double.finite false 6063156554684915 (-50) ∧
    (set_voxel_to_world_transform Double.sqrt (skew_volume : volume_struct Double)
      (create_linear_transform shear_transform)).direction_cosines 2 0
      = Double.finite false 6690379646548872 (-54) ∧
    (∃ g, compute_world_transform Double.sqrt
        (set_voxel_to_world_transform Double.sqrt (skew_volume : volume_struct Double)
          (create_linear_transform shear_transform)).spatial_axes
        (set_voxel_to_world_transform Double.sqrt (skew_volume : volume_struct Double)
          (create_linear_transform shear_transform)).separations
        (set_voxel_to_world_transform Double.sqrt (skew_volume : volume_struct Double)
          (create_linear_transform shear_transform)).direction_cosines
        (set_voxel_to_world_transform Double.sqrt (skew_volume : volume_struct Double)
          (create_linear_transform shear_transform)).starts = some g ∧
      Transform_elem g.linear_transform 0 0 = Double.finite false 9007199254740991 (-52) ∧
      Transform_elem g.linear_transform 0 0
        ≠ Transform_elem (shear_transform : Transform Double) 0 0) ∧
    ¬ synthesises_to Double.sqrt
      (set_voxel_to_world_transform Double.sqrt (skew_volume : volume_struct Double)
        (create_linear_transform shear_transform)) shear_transform ∧
    (convert_voxel_to_world Double.sqrt (create_linear_transform make_identity_transform)
      (set_voxel_to_world_transform Double.sqrt (skew_volume : volume_struct Double)
        (create_linear_transform shear_transform)) (along_dimension_two 1)).2 = (2, 0, 5) ∧
    (convert_voxel_to_world Double.sqrt (create_linear_transform make_identity_transform)
      (set_volume_starts
        (set_voxel_to_world_transform Double.sqrt (skew_volume : volume_struct Double)
          (create_linear_transform shear_transform))
        (set_voxel_to_world_transform Double.sqrt (skew_volume : volume_struct Double)
          (create_linear_transform shear_transform)).starts) (along_dimension_two 1)).2
      = (Double.finite false 9007199254740991 (-52), 0, 5) := by
  refine ⟨?_, ?_, by decide, by decide, by decide, ⟨_, rfl, by decide, by decide⟩, ?_,
    by decide, by decide⟩
  · intro c hc0 hc3
    rcases int_lt_three hc0 hc3 with h | h | h <;> subst h <;> decide
  · intro c hc0 hc3
    rcases int_lt_three hc0 hc3 with h | h | h <;> subst h <;> decide
  · rintro ⟨g, hg, -, hent, -⟩
    have h00 := hent 0 0 (by norm_num) (by norm_num) (by norm_num) (by norm_num)
    have hsome : compute_world_transform Double.sqrt
        (set_voxel_to_world_transform Double.sqrt (skew_volume : volume_struct Double)
          (create_linear_transform shear_transform)).spatial_axes
        (set_voxel_to_world_transform Double.sqrt (skew_volume : volume_struct Double)
          (create_linear_transform shear_transform)).separations
        (set_voxel_to_world_transform Double.sqrt (skew_volume : volume_struct Double)
          (create_linear_transform shear_transform)).direction_cosines
        (set_voxel_to_world_transform Double.sqrt (skew_volume : volume_struct Double)
          (create_linear_transform shear_transform)).starts = some _ := rfl
    rw [hsome] at hg
    rw [← Option.some.inj hg] at h00
    revert h00
    decide

/-- Failures of claim C35 in the arithmetic of the program.  The linear part
of `huge_transform` is diagonal, 10^200, 1, 1.  `set_voxel_to_world_transform`
stores an infinity as the separation of the dimension X is mapped to and the
zero vector as its direction cosine; `compute_world_transform` then returns a
transform whose entry (0, 0) is an infinity, not 10^200, and after
`set_volume_starts` with the current starts the voxel (0, 0, 0) is converted
to NaNs, where it was converted to (0, 0, 0) before.  The X column of
`shear_transform` is (2, 0, 5): the separation stored is the rounded square
root of 29, the entry (0, 0) of the synthesised transform is `2 - 2^-52`, not
2, and after `set_volume_starts` with the current starts the voxel with 1 in
dimension 2 is converted to (`2 - 2^-52`, 0, 5), where it was converted to
(2, 0, 5) before. -/
theorem synthesis_undoes_decomposition_counterexample :
    ((∀ c, 0 ≤ c → c < 3 → 0 ≤ (skew_volume : volume_struct Double).spatial_axes c) ∧
    (∀ c, 0 ≤ c → c < 3 →
      (skew_volume : volume_struct Double).spatial_axes c
        < (skew_volume : volume_struct Double).n_dimensions) ∧
    det3 (huge_transform : Transform Double) ≠ 0 ∧
    (set_voxel_to_world_transform Double.sqrt (skew_volume : volume_struct Double)
      (create_linear_transform huge_transform)).separations 2 = Double.infinity false ∧
    (∀ k, 0 ≤ k → k < 3 →
      (set_voxel_to_world_transform Double.sqrt (skew_volume : volume_struct Double)
        (create_linear_transform huge_transform)).direction_cosines 2 k = 0) ∧
    (∃ g, compute_world_transform Double.sqrt
        (set_voxel_to_world_transform Double.sqrt (skew_volume : volume_struct Double)
          (create_linear_transform huge_transform)).spatial_axes
        (set_voxel_to_world_transform Double.sqrt (skew_volume : volume_struct Double)
          (create_linear_transform huge_transform)).separations
        (set_voxel_to_world_transform Double.sqrt (skew_volume : volume_struct Double)
          (create_linear_transform huge_transform)).direction_cosines
        (set_voxel_to_world_transform Double.sqrt (skew_volume : volume_struct Double)
          (create_linear_transform huge_transform)).starts = some g ∧
      Transform_elem g.linear_transform 0 0 = Double.infinity false ∧
      Transform_elem g.linear_transform 0 0
        ≠ Transform_elem (huge_transform : Transform Double) 0 0) ∧
    ¬ synthesises_to Double.sqrt
      (set_voxel_to_world_transform Double.sqrt (skew_volume : volume_struct Double)
        (create_linear_transform huge_transform)) huge_transform ∧
    (convert_voxel_to_world Double.sqrt (create_linear_transform make_identity_transform)
      (set_voxel_to_world_transform Double.sqrt (skew_volume : volume_struct Double)
        (create_linear_transform huge_transform)) (fun _ => 0)).2 = (0, 0, 0) ∧
    (convert_voxel_to_world Double.sqrt (create_linear_transform make_identity_transform)
      (set_volume_starts
        (set_voxel_to_world_transform Double.sqrt (skew_volume : volume_struct Double)
          (create_linear_transform huge_transform))
        (set_voxel_to_world_transform Double.sqrt (skew_volume : volume_struct Double)
          (create_linear_transform huge_transform)).starts) (fun _ => 0)).2
      = (Double.NaN, Double.NaN, Double.NaN)) ∧
    ((∀ c, 0 ≤ c → c < 3 → 0 ≤ (skew_volume : volume_struct Double).spatial_axes c) ∧
    (∀ c, 0 ≤ c → c < 3 →
      (skew_volume : volume_struct Double).spatial_axes c
        < (skew_volume : volume_struct Double).n_dimensions) ∧
    det3 (shear_transform : Transform Double) ≠ 0 ∧
    (set_voxel_to_world_transform Double.sqrt (skew_volume : volume_struct Double)
      (create_linear_transform shear_transform)).separations 2
      = Double.finite false 6063156554684915 (-50) ∧
    (set_voxel_to_world_transform Double.sqrt (skew_volume : volume_struct Double)
      (create_linear_transform shear_transform)).direction_cosines 2 0
      = Double.finite false 6690379646548872 (-54) ∧
    (∃ g, compute_world_transform Double.sqrt
        (set_voxel_to_world_transform Double.sqrt (skew_volume : volume_struct Double)
          (create_linear_transform shear_transform)).spatial_axes
        (set_voxel_to_world_transform Double.sqrt (skew_volume : volume_struct Double)
          (create_linear_transform shear_transform)).separations
        (set_voxel_to_world_transform Double.sqrt (skew_volume : volume_struct Double)
          (create_linear_transform shear_transform)).direction_cosines
        (set_voxel_to_world_transform Double.sqrt (skew_volume : volume_struct Double)
          (create_linear_transform shear_transform)).starts = some g ∧
      Transform_elem g.linear_transform 0 0 = Double.finite false 9007199254740991 (-52) ∧
      Transform_elem g.linear_transform 0 0
        ≠ Transform_elem (shear_transform : Transform Double) 0 0) ∧
    ¬ synthesises_to Double.sqrt
      (set_voxel_to_world_transform Double.sqrt (skew_volume : volume_struct Double)
        (create_linear_transform shear_transform)) shear_transform ∧
    (convert_voxel_to_world Double.sqrt (create_linear_transform make_identity_transform)
      (set_voxel_to_world_transform Double.sqrt (skew_volume : volume_struct Double)
        (create_linear_transform shear_transform)) (along_dimension_two 1)).2 = (2, 0, 5) ∧
    (convert_voxel_to_world Double.sqrt (create_linear_transform make_identity_transform)
      (set_volume_starts
        (set_voxel_to_world_transform Double.sqrt (skew_volume : volume_struct Double)
          (create_linear_transform shear_transform))
        (set_voxel_to_world_transform Double.sqrt (skew_volume : volume_struct Double)
          (create_linear_transform shear_transform)).starts) (along_dimension_two 1)).2
      = (Double.finite false 9007199254740991 (-52), 0, 5)) :=
  ⟨synthesis_overflow, synthesis_rounds⟩

theorem normal_pairing_overflow :
    det3 (huge_transform : Transform Double) ≠ 0 ∧
    (check_recompute_world_transform Double.sqrt
      (create_linear_transform make_identity_transform)
      (stretched_volume : volume_struct Double)).voxel_to_world_transform.type
        = Transform_types.LINEAR ∧
    (∀ i j, 0 ≤ i → i < 3 → 0 ≤ j → j < 4 →
      Transform_elem (check_recompute_world_transform Double.sqrt
        (create_linear_transform make_identity_transform)
        (stretched_volume : volume_struct Double)).voxel_to_world_transform.linear_transform i j
        = Transform_elem (huge_transform : Transform Double) i j) ∧
    (convert_voxel_normal_vector_to_world Double.sqrt
      (create_linear_transform make_identity_transform)
      (stretched_volume : volume_struct Double) (along_dimension_two 1)).2
      = some (1 / ((10 ^ 200 : Nat) : Double), 0, 0) ∧
    (convert_voxel_vector_to_world Double.sqrt
      (create_linear_transform make_identity_transform)
      (stretched_volume : volume_struct Double)
      (along_dimension_two ((10 ^ 200 : Nat) : Double))).2
      = (Double.infinity false, 0, 0) ∧
    dot3 (1 / ((10 ^ 200 : Nat) : Double), (0 : Double), (0 : Double))
      (Double.infinity false, 0, 0) = Double.infinity false ∧
    dot3 (canonical_triple (stretched_volume : volume_struct Double) (along_dimension_two 1))
      (canonical_triple (stretched_volume : volume_struct Double)
        (along_dimension_two ((10 ^ 200 : Nat) : Double)))
      = ((10 ^ 200 : Nat) : Double) ∧
    Double.infinity false ≠ ((10 ^ 200 : Nat) : Double) := by
  refine ⟨by decide, rfl, ?_, by decide, by decide, by decide, by decide, by decide⟩
  intro i j hi0 hi3 hj0 hj4
  rfl

theorem normal_pairing_rounds :
    det3 (scaling_transform : Transform Double) ≠ 0 ∧
    (check_recompute_world_transform Double.sqrt
      (create_linear_transform make_identity_transform)
      (scaled_volume : volume_struct Double)).voxel_to_world_transform.type
        = Transform_types.LINEAR ∧
    (∀ i j, 0 ≤ i → i < 3 → 0 ≤ j → j < 4 →
      Transform_elem (check_recompute_world_transform Double.sqrt
        (create_linear_transform make_identity_transform)
        (scaled_volume : volume_struct Double)).voxel_to_world_transform.linear_transform i j
        = Transform_elem (scaling_transform : Transform Double) i j) ∧
    (convert_voxel_normal_vector_to_world Double.sqrt
      (create_linear_transform make_identity_transform)
      (scaled_volume : volume_struct Double) (along_dimension_two 1)).2
      = some (1 / 49, 0, 0) ∧
    (convert_voxel_vector_to_world Double.sqrt
      (create_linear_transform make_identity_transform)
      (scaled_volume : volume_struct Double) (along_dimension_two 1)).2
      = (49, 0, 0) ∧
    dot3 (1 / 49, (0 : Double), (0 : Double)) (49, 0, 0)
      = Double.finite false 9007199254740991 (-53) ∧
    dot3 (canonical_triple (scaled_volume : volume_struct Double) (along_dimension_two 1))
      (canonical_triple (scaled_volume : volume_struct Double) (along_dimension_two 1))
      = 1 ∧
    Double.finite false 9007199254740991 (-53) ≠ 1 := by
  refine ⟨by decide, rfl, ?_, by decide, by decide, by decide, by decide, by decide⟩
  intro i j hi0 hi3 hj0 hj4
  rfl

/-- Failures of claim C37 in the arithmetic of the program.  With the
transform `huge_transform`, whose linear part is diagonal, 10^200, 1, 1, the
normal vector (1, 0, 0) is converted to (1 / 10^200, 0, 0) and the vector
(10^200, 0, 0) to (infinity, 0, 0): the dot product of the results is an
infinity, that of the two vectors is 10^200.  With the transform
`scaling_transform`, whose linear part is diagonal, 49, 1, 1, the normal
vector (1, 0, 0) is converted to (1 / 49, 0, 0), rounded, and the vector
(1, 0, 0) to (49, 0, 0): the dot product of the results is `1 - 2^-53`, that
of the two vectors is 1. -/
theorem normal_vector_pairing_counterexample :
    (det3 (huge_transform : Transform Double) ≠ 0 ∧
    (check_recompute_world_transform Double.sqrt
      (create_linear_transform make_identity_transform)
      (stretched_volume : volume_struct Double)).voxel_to_world_transform.type
        = Transform_types.LINEAR ∧
    (∀ i j, 0 ≤ i → i < 3 → 0 ≤ j → j < 4 →
      Transform_elem (check_recompute_world_transform Double.sqrt
        (create_linear_transform make_identity_transform)
        (stretched_volume : volume_struct Double)).voxel_to_world_transform.linear_transform i j
        = Transform_elem (huge_transform : Transform Double) i j) ∧
    (convert_voxel_normal_vector_to_world Double.sqrt
      (create_linear_transform make_identity_transform)
      (stretched_volume : volume_struct Double) (along_dimension_two 1)).2
      = some (1 / ((10 ^ 200 : Nat) : Double), 0, 0) ∧
    (convert_voxel_vector_to_world Double.sqrt
      (create_linear_transform make_identity_transform)
      (stretched_volume : volume_struct Double)
      (along_dimension_two ((10 ^ 200 : Nat) : Double))).2
      = (Double.infinity false, 0, 0) ∧
    dot3 (1 / ((10 ^ 200 : Nat) : Double), (0 : Double), (0 : Double))
      (Double.infinity false, 0, 0) = Double.infinity false ∧
    dot3 (canonical_triple (stretched_volume : volume_struct Double) (along_dimension_two 1))
      (canonical_triple (stretched_volume : volume_struct Double)
        (along_dimension_two ((10 ^ 200 : Nat) : Double)))
      = ((10 ^ 200 : Nat) : Double) ∧
    Double.infinity false ≠ ((10 ^ 200 : Nat) : Double)) ∧
    (det3 (scaling_transform : Transform Double) ≠ 0 ∧
    (check_recompute_world_transform Double.sqrt
      (create_linear_transform make_identity_transform)
      (scaled_volume : volume_struct Double)).voxel_to_world_transform.type
        = Transform_types.LINEAR ∧
    (∀ i j, 0 ≤ i → i < 3 → 0 ≤ j → j < 4 →
      Transform_elem (check_recompute_world_transform Double.sqrt
        (create_linear_transform make_identity_transform)
        (scaled_volume : volume_struct Double)).voxel_to_world_transform.linear_transform i j
        = Transform_elem (scaling_transform : Transform Double) i j) ∧
    (convert_voxel_normal_vector_to_world Double.sqrt
      (create_linear_transform make_identity_transform)
      (scaled_volume : volume_struct Double) (along_dimension_two 1)).2
      = some (1 / 49, 0, 0) ∧
    (convert_voxel_vector_to_world Double.sqrt
      (create_linear_transform make_identity_transform)
      (scaled_volume : volume_struct Double) (along_dimension_two 1)).2
      = (49, 0, 0) ∧
    dot3 (1 / 49, (0 : Double), (0 : Double)) (49, 0, 0)
      = Double.finite false 9007199254740991 (-53) ∧
    dot3 (canonical_triple (scaled_volume : volume_struct Double) (along_dimension_two 1))
      (canonical_triple (scaled_volume : volume_struct Double) (along_dimension_two 1))
      = 1 ∧
    Double.finite false 9007199254740991 (-53) ≠ 1) :=
  ⟨normal_pairing_overflow, normal_pairing_rounds⟩

theorem origin_to_starts_overflow :
    axes_distinct axes_x ∧ 0 ≤ axes_x 0 ∧ ¬ 0 ≤ axes_x 1 ∧ ¬ 0 ≤ axes_x 2 ∧
    (huge_vector 0 : Double) ≠ 0 ∧
    (∀ k, 0 ≤ k → k < 3 →
      (huge_vector k : Double)
        = mapped_combination axes_x (fun _ => huge_vector) (fun _ => (1 : Double)) k) ∧
    convert_transform_origin_to_starts (huge_vector : Int → Double) 3 axes_x
      (fun _ => huge_vector) (fun _ => 0) (axes_x 0) = Double.NaN ∧
    mapped_combination axes_x (fun _ => (huge_vector : Int → Double))
      (fun c => convert_transform_origin_to_starts (huge_vector : Int → Double) 3 axes_x
        (fun _ => huge_vector) (fun _ => 0) (axes_x c)) 0 = Double.NaN ∧
    mapped_combination axes_x (fun _ => (huge_vector : Int → Double))
      (fun c => convert_transform_origin_to_starts (huge_vector : Int → Double) 3 axes_x
        (fun _ => huge_vector) (fun _ => 0) (axes_x c)) 0 ≠ huge_vector 0 := by
  refine ⟨?_, by decide, by decide, by decide, by decide, ?_, by decide, by decide, by decide⟩
  · intro c c' hc0 hc3 hc0' hc3' hm he
    rcases int_lt_three hc0 hc3 with h | h | h <;>
      rcases int_lt_three hc0' hc3' with h' | h' | h' <;>
      subst h <;> subst h' <;> first | rfl | (exfalso; revert hm he; decide)
  · intro k hk0 hk3
    rcases int_lt_three hk0 hk3 with h | h | h <;> subst h <;> decide

theorem origin_to_starts_rounds :
    axes_distinct axes_x ∧ 0 ≤ axes_x 0 ∧ ¬ 0 ≤ axes_x 1 ∧ ¬ 0 ≤ axes_x 2 ∧
    (long_vector 0 : ℝ) ≠ 0 ∧
    (∀ k, 0 ≤ k → k < 3 →
      (short_vector k : ℝ)
        = mapped_combination axes_x (fun _ => long_vector) (fun _ => (1 / 49 : ℝ)) k) ∧
    convert_transform_origin_to_starts (short_vector : Int → Double) 3 axes_x
      (fun _ => long_vector) (fun _ => 0) (axes_x 0) = 1 / 49 ∧
    mapped_combination axes_x (fun _ => (long_vector : Int → Double))
      (fun c => convert_transform_origin_to_starts (short_vector : Int → Double) 3 axes_x
        (fun _ => long_vector) (fun _ => 0) (axes_x c)) 0
      = Double.finite false 9007199254740991 (-53) ∧
    mapped_combination axes_x (fun _ => (long_vector : Int → Double))
      (fun c => convert_transform_origin_to_starts (short_vector : Int → Double) 3 axes_x
        (fun _ => long_vector) (fun _ => 0) (axes_x c)) 0 ≠ short_vector 0 := by
  refine ⟨axes_x_distinct, by decide, by decide, by decide, ?_, ?_, by decide, by decide,
    by decide⟩
  · norm_num [long_vector]
  · intro k hk0 hk3
    rcases int_lt_three hk0 hk3 with h | h | h <;> subst h <;>
      norm_num [short_vector, long_vector, mapped_combination, mapped_term, axes_x]

/-- Failures of claim C9 in the arithmetic of the program.  With X the only
mapped axis, the direction cosine (10^200, 0, 0) and the origin
(10^200, 0, 0), which is 1 times that cosine, both dot products are
infinities, the start is their quotient, a NaN, and the start times the
cosine is a NaN, not the origin.  With the direction cosine (49, 0, 0) and
the origin (1, 0, 0), which is 1/49 times that cosine, the start is the
rounded quotient 49 / 2401, and the start times the cosine is `1 - 2^-53`,
not 1. -/
theorem origin_to_starts_reproduces_origin_counterexample :
    (axes_distinct axes_x ∧ 0 ≤ axes_x 0 ∧ ¬ 0 ≤ axes_x 1 ∧ ¬ 0 ≤ axes_x 2 ∧
    (huge_vector 0 : Double) ≠ 0 ∧
    (∀ k, 0 ≤ k → k < 3 →
      (huge_vector k : Double)
        = mapped_combination axes_x (fun _ => huge_vector) (fun _ => (1 : Double)) k) ∧
    convert_transform_origin_to_starts (huge_vector : Int → Double) 3 axes_x
      (fun _ => huge_vector) (fun _ => 0) (axes_x 0) = Double.NaN ∧
    mapped_combination axes_x (fun _ => (huge_vector : Int → Double))
      (fun c => convert_transform_origin_to_starts (huge_vector : Int → Double) 3 axes_x
        (fun _ => huge_vector) (fun _ => 0) (axes_x c)) 0 = Double.NaN ∧
    mapped_combination axes_x (fun _ => (huge_vector : Int → Double))
      (fun c => convert_transform_origin_to_starts (huge_vector : Int → Double) 3 axes_x
        (fun _ => huge_vector) (fun _ => 0) (axes_x c)) 0 ≠ huge_vector 0) ∧
    (axes_distinct axes_x ∧ 0 ≤ axes_x 0 ∧ ¬ 0 ≤ axes_x 1 ∧ ¬ 0 ≤ axes_x 2 ∧
    (long_vector 0 : ℝ) ≠ 0 ∧
    (∀ k, 0 ≤ k → k < 3 →
      (short_vector k : ℝ)
        = mapped_combination axes_x (fun _ => long_vector) (fun _ => (1 / 49 : ℝ)) k) ∧
    convert_transform_origin_to_starts (short_vector : Int → Double) 3 axes_x
      (fun _ => long_vector) (fun _ => 0) (axes_x 0) = 1 / 49 ∧
    mapped_combination axes_x (fun _ => (long_vector : Int → Double))
      (fun c => convert_transform_origin_to_starts (short_vector : Int → Double) 3 axes_x
        (fun _ => long_vector) (fun _ => 0) (axes_x c)) 0
      = Double.finite false 9007199254740991 (-53) ∧
    mapped_combination axes_x (fun _ => (long_vector : Int → Double))
      (fun c => convert_transform_origin_to_starts (short_vector : Int → Double) 3 axes_x
        (fun _ => long_vector) (fun _ => 0) (axes_x c)) 0 ≠ short_vector 0) :=
  ⟨origin_to_starts_overflow, origin_to_starts_rounds⟩

end Volumes
